import Mathlib

/-!
# Architech simulation engine: event queue, engine loop and components

A shallow embedding of the Go sources under `simulation-engine/pkg` and the
properties proved about them.

Conventions of the embedding

* `float64` values (virtual timestamps, latencies, rates) are rationals: the
  comparisons and additions of the source are read over exact arithmetic, so
  NaN, infinities and rounding are outside the model.
* `int` and `int64` values are integers.  The additions on which an order or
  a selection depends wrap to 64 bits as in the source (`wrapInt64`): the
  round-robin index, the weight sums of the weighted selection, the connection
  count of a backend and the size test of the cache.  The other integer
  operations (counters started at `0` and moved by one, the bookkeeping of the
  cache's `CurrentSize`) are read without wrap-around.
* A call that panics or does not return has no result: handlers and
  `Initialize` methods that can panic or loop return an `Option`, the eviction
  loop of the cache with an explicit bound on its iterations.
* A property map is an association list that may be `nil` (`none`); the
  conversion `int(f)` of a `float64` is truncation toward zero when the result
  fits the 64-bit `int` (`floatToInt`).
* Go slices are lists.  Go maps are association lists with unique keys.
* The locks of the source (`sync.RWMutex`) are not part of the data path and
  are left out of it: every operation is read as running alone.  The lock of
  the event queue is modelled apart (`RWMutex`, `SyncQueue`), for the locks one
  call takes on it while it runs; `RemoveEventsForComponent`, which takes that
  lock twice, exists only there.
* `container/heap` of the Go standard library is transcribed from its source
  (`up`, `down`, `Init`, `Push`, `Pop`), instantiated at `EventQueue`.
-/

set_option autoImplicit false

namespace Architech

/-! ## model/event.go -/

/-- A dynamically typed Go value (`interface{}`) as it occurs in event payloads:
`nil`, a string, an `int`, a `float64`, a `bool`, or any other value, kept by
the text `%v` prints for it. -/
inductive Value where
  | nil
  | str (s : String)
  | int (i : Int)
  | float (r : Rat)
  | bool (b : Bool)
  | other (rendering : String)
  deriving DecidableEq, Repr

/-- The type `EventType` of `model/event.go`: a string. -/
abbrev EventType := String

abbrev RequestArrival : EventType := "request_arrival"
abbrev RequestProcessed : EventType := "request_processed"
abbrev RequestCompleted : EventType := "request_completed"
abbrev RequestFailed : EventType := "request_failed"
abbrev ComponentStarted : EventType := "component_started"
abbrev ComponentStopped : EventType := "component_stopped"
abbrev ComponentFailed : EventType := "component_failed"
abbrev NetworkLatency : EventType := "network_latency"
abbrev NetworkPartition : EventType := "network_partition"
abbrev NetworkRestore : EventType := "network_restore"
abbrev DatabaseRead : EventType := "database_read"
abbrev DatabaseWrite : EventType := "database_write"
abbrev DatabaseQuery : EventType := "database_query"
abbrev MessageEnqueued : EventType := "message_enqueued"
abbrev MessageDequeued : EventType := "message_dequeued"
abbrev QueueFull : EventType := "queue_full"
abbrev FaultInjected : EventType := "fault_injected"
abbrev FaultRecovered : EventType := "fault_recovered"

/-- The `Event` struct.  The field `Kind` is the field `Type` of the source
(a reserved word here); `CreatedAt` is the wall-clock instant in nanoseconds. -/
structure Event where
  ID : String
  Timestamp : Rat
  Kind : EventType
  ComponentID : String
  Data : List (String × Value)
  Priority : Int
  CreatedAt : Int
  deriving DecidableEq, Repr

/-- Translation of `NewEvent`: priority 0, creation time read from the wall clock (`now`). -/
def NewEvent (id : String) (timestamp : Rat) (eventType : EventType) (componentID : String)
    (data : List (String × Value)) (now : Int) : Event :=
  { ID := id, Timestamp := timestamp, Kind := eventType, ComponentID := componentID,
    Data := data, Priority := 0, CreatedAt := now }

/-- Translation of `Event.GetDataValue`: the value stored under `key` and whether it exists; a
missing key yields the zero value `nil`. -/
def Event.GetDataValue (e : Event) (key : String) : Value × Bool :=
  match e.Data.lookup key with
  | some v => (v, true)
  | none => (Value.nil, false)

/-- Translation of `Event.SetPriority`. -/
def Event.SetPriority (e : Event) (priority : Int) : Event :=
  { e with Priority := priority }

/-! ## engine/priority_queue.go -/

/-- The `EventQueue` struct: the backing slice of the heap. -/
structure EventQueue where
  items : List Event
  deriving DecidableEq, Repr

/-- The comparison of `EventQueue.Less` on two events: timestamp first, then
priority. -/
def eventLess (a b : Event) : Bool :=
  if a.Timestamp ≠ b.Timestamp then decide (a.Timestamp < b.Timestamp)
  else decide (a.Priority < b.Priority)

/-- Translation of `EventQueue.Len`. -/
def EventQueue.Len (eq : EventQueue) : Nat := eq.items.length

/-- Translation of `EventQueue.Less`: compares the events at two positions.  The source indexes
the slice directly; the heap routines only ever pass positions inside it. -/
def EventQueue.Less (eq : EventQueue) (i j : Nat) : Bool :=
  match eq.items[i]?, eq.items[j]? with
  | some a, some b => eventLess a b
  | _, _ => false

/-- Translation of `EventQueue.Swap`: exchanges the events at two positions. -/
def EventQueue.Swap (eq : EventQueue) (i j : Nat) : EventQueue :=
  match eq.items[i]?, eq.items[j]? with
  | some a, some b => { items := (eq.items.set i b).set j a }
  | _, _ => eq

/-- Translation of `EventQueue.Push` (the `heap.Interface` method): appends at the end. -/
def EventQueue.Push (eq : EventQueue) (x : Event) : EventQueue :=
  { items := eq.items ++ [x] }

/-- Translation of `EventQueue.Pop` (the `heap.Interface` method): removes and returns the last
element of the slice, `none` when the slice is empty. -/
def EventQueue.Pop (eq : EventQueue) : Option Event × EventQueue :=
  match eq.items.getLast? with
  | none => (none, eq)
  | some item => (some item, { items := eq.items.dropLast })

/-! ### container/heap -/

/-- The loop of `heap.up`: `i := (j - 1) / 2`; stop when `i == j` or
`!h.Less(j, i)`, else swap and continue from `i`.  In Go `(0 - 1) / 2` is `0`,
as is the truncated subtraction here. -/
def heap.up (q : EventQueue) (j : Nat) : EventQueue :=
  let i := (j - 1) / 2
  if i = j ∨ q.Less j i = false then q
  else heap.up (q.Swap i j) i
termination_by j
decreasing_by omega

/-- The loop of `heap.down` from position `i` with bound `n`; returns the queue
and the position where the loop stopped.  The source also leaves the loop when
`2*i + 1` overflows `int`, which takes a slice of more than `2^62` events. -/
def heap.downLoop (q : EventQueue) (i n : Nat) : EventQueue × Nat :=
  let j1 := 2 * i + 1
  if n ≤ j1 then (q, i)
  else
    let j := if j1 + 1 < n ∧ q.Less (j1 + 1) j1 = true then j1 + 1 else j1
    if q.Less j i = false then (q, i)
    else heap.downLoop (q.Swap i j) j n
termination_by n - i
decreasing_by split <;> omega

/-- The function `heap.down`: runs the loop from `i0` and reports whether the
element moved. -/
def heap.down (h : EventQueue) (i0 n : Nat) : EventQueue × Bool :=
  let r := heap.downLoop h i0 n
  (r.1, decide (i0 < r.2))

/-- The loop of `heap.Init`: `down(h, i, n)` for `i = k - 1, ..., 0`. -/
def heap.initLoop (h : EventQueue) (n : Nat) : Nat → EventQueue
  | 0 => h
  | k + 1 => heap.initLoop (heap.down h k n).1 n k

/-- The function `heap.Init`: `n := h.Len()`, then `down(h, i, n)` for
`i = n/2 - 1` down to `0`. -/
def heap.Init (h : EventQueue) : EventQueue :=
  heap.initLoop h h.Len (h.Len / 2)

/-- The function `heap.Push`: append, then sift the new last element up. -/
def heap.Push (h : EventQueue) (x : Event) : EventQueue :=
  let h1 := h.Push x
  heap.up h1 (h1.Len - 1)

/-- The function `heap.Pop`: swap the root with the last element, sift the new
root down inside the first `n` elements, then remove the last element.  The
queue calls it on a non-empty slice only (`Dequeue` checks the length first). -/
def heap.Pop (h : EventQueue) : Option Event × EventQueue :=
  let n := h.Len - 1
  let h1 := h.Swap 0 n
  let h2 := (heap.down h1 0 n).1
  h2.Pop

/-- Translation of `NewEventQueue`: an empty slice, passed through `heap.Init`. -/
def NewEventQueue : EventQueue := heap.Init { items := [] }

/-- Translation of `EventQueue.Enqueue`. -/
def EventQueue.Enqueue (eq : EventQueue) (event : Event) : EventQueue :=
  heap.Push eq event

/-- Translation of `EventQueue.Dequeue`: `nil` on an empty queue, else `heap.Pop`. -/
def EventQueue.Dequeue (eq : EventQueue) : Option Event × EventQueue :=
  if eq.Len = 0 then (none, eq) else heap.Pop eq

/-- Translation of `EventQueue.IsEmpty`. -/
def EventQueue.IsEmpty (eq : EventQueue) : Bool := eq.Len == 0

/-- Translation of `EventQueue.Clear`. -/
def EventQueue.Clear (_eq : EventQueue) : EventQueue := { items := [] }

/-- Translation of `EventQueue.GetNextEventTime`: the timestamp of the first element, `-1` when
empty. -/
def EventQueue.GetNextEventTime (eq : EventQueue) : Rat :=
  match eq.items[0]? with
  | none => -1
  | some e => e.Timestamp

/-- Translation of `EventQueue.Size`. -/
def EventQueue.Size (eq : EventQueue) : Nat := eq.Len

/-- The order of `Less` read non-strictly: `a` is at or before `b` in
(timestamp, priority) lexicographic order. -/
def keyLE (a b : Event) : Prop :=
  a.Timestamp < b.Timestamp ∨ (a.Timestamp = b.Timestamp ∧ a.Priority ≤ b.Priority)

instance (a b : Event) : Decidable (keyLE a b) := by
  unfold keyLE; infer_instance

/-- The queue after enqueueing the events of a list, first to last. -/
def enqueueAll (eq : EventQueue) (es : List Event) : EventQueue :=
  es.foldl EventQueue.Enqueue eq

/-- The events returned by `k` successive `Dequeue` calls (those that are not
`nil`), in call order, with the queue left behind. -/
def dequeueN : Nat → EventQueue → List Event × EventQueue
  | 0, eq => ([], eq)
  | k + 1, eq =>
    match eq.Dequeue with
    | (none, eq1) => dequeueN k eq1
    | (some e, eq1) => ((dequeueN k eq1).1.cons e, (dequeueN k eq1).2)

/-! ## What the Go runtime supplies during one call -/

/-- The values the Go runtime and standard library hand to one `HandleEvent`
call: `Float64 k` is the result of the `k`-th call of `rand.Float64()` in the
call (counted from 0), `Intn n` the result of `rand.Intn(n)`, `Now k` the
`UnixNano` reading of the `k`-th call of `time.Now()`, `FormatFloat` the text
`%v` prints for a `float64`, and `MapOrder k n` the order in which the `k`-th
`range` over a map with `n` entries visits them (positions in the association
list). -/
structure Runtime where
  Float64 : Nat → Rat
  Intn : Int → Int
  Now : Nat → Int
  FormatFloat : Rat → String
  MapOrder : Nat → Nat → List Nat

/-- The guarantees of the standard library: `rand.Float64()` is in `[0, 1)`,
`rand.Intn(n)` is in `[0, n)` for positive `n`, and a `range` over a map visits
every entry exactly once. -/
def Runtime.Valid (rt : Runtime) : Prop :=
  (∀ k, 0 ≤ rt.Float64 k ∧ rt.Float64 k < 1) ∧
  (∀ n, 0 < n → 0 ≤ rt.Intn n ∧ rt.Intn n < n) ∧
  (∀ k n, (rt.MapOrder k n).Perm (List.range n))

/-- The text `fmt.Sprintf("%v", v)` prints for a payload value. -/
def Value.format (rt : Runtime) : Value → String
  | Value.nil => "<nil>"
  | Value.str s => s
  | Value.int i => toString i
  | Value.float r => rt.FormatFloat r
  | Value.bool b => if b then "true" else "false"
  | Value.other s => s

/-- The identifiers built by `fmt.Sprintf("<tag>_%s_%d", id, time.Now().UnixNano())`. -/
def stampedID (tag id : String) (nanos : Int) : String :=
  tag ++ "_" ++ id ++ "_" ++ toString nanos

/-- The `m`-th event a handler creates in one call: the identifier is stamped
with the clock reading taken while the arguments are evaluated, and `NewEvent`
reads the clock once more for `CreatedAt`. -/
def Runtime.newEvent (rt : Runtime) (m : Nat) (tag id : String) (timestamp : Rat)
    (eventType : EventType) (componentID : String) (data : List (String × Value)) : Event :=
  NewEvent (stampedID tag id (rt.Now (2 * m))) timestamp eventType componentID data
    (rt.Now (2 * m + 1))

/-! ## Go maps as association lists -/

/-- Assignment `m[k] = v`. -/
def mapSet {β : Type} (m : List (String × β)) (k : String) (v : β) : List (String × β) :=
  if (m.lookup k).isSome then m.map (fun p => if p.1 = k then (k, v) else p)
  else m ++ [(k, v)]

/-- The builtin `delete(m, k)`. -/
def mapDelete {β : Type} (m : List (String × β)) (k : String) : List (String × β) :=
  m.filter (fun p => p.1 != k)

/-- The largest `int` (`int(^uint(0) >> 1)` on a 64-bit platform). -/
def maxInt : Int := 9223372036854775807

/-- The smallest `int` on a 64-bit platform. -/
def minInt : Int := -9223372036854775808

/-- The value an `int` variable holds after an addition whose exact result is
`x`: the 64-bit two's complement wrap-around. -/
def wrapInt64 (x : Int) : Int :=
  (x + 9223372036854775808) % 18446744073709551616 - 9223372036854775808

/-! ## model/component.go -/

/-- The type `ComponentState`: a string. -/
abbrev ComponentState := String

abbrev StateIdle : ComponentState := "idle"
abbrev StateProcessing : ComponentState := "processing"
abbrev StateFailed : ComponentState := "failed"
abbrev StateStopped : ComponentState := "stopped"

/-- The type `ComponentType`: a string. -/
abbrev ComponentType := String

abbrev TypeGenericService : ComponentType := "generic_service"
abbrev TypeDatabase : ComponentType := "database"
abbrev TypeMessageQueue : ComponentType := "message_queue"
abbrev TypeLoadBalancer : ComponentType := "load_balancer"
abbrev TypeCache : ComponentType := "cache"
abbrev TypeAPIGateway : ComponentType := "api_gateway"

/-- A value of a property or metric map: a scalar, a slice or a nested map. -/
inductive PropValue where
  | scalar (v : Value)
  | list (vs : List PropValue)
  | map (kvs : List (String × PropValue))

/-- The struct `BaseComponent`; `Kind` is the field `Type` of the source. -/
structure BaseComponent where
  ID : String
  Kind : ComponentType
  State : ComponentState
  Properties : List (String × PropValue)
  Metrics : List (String × PropValue)

/-- Translation of `NewBaseComponent`. -/
def NewBaseComponent (id : String) (componentType : ComponentType) : BaseComponent :=
  { ID := id, Kind := componentType, State := StateIdle, Properties := [], Metrics := [] }

/-- Translation of `BaseComponent.SetState`. -/
def BaseComponent.SetState (bc : BaseComponent) (state : ComponentState) : BaseComponent :=
  { bc with State := state }

/-- Translation of `BaseComponent.SetMetric`. -/
def BaseComponent.SetMetric (bc : BaseComponent) (key : String) (value : PropValue) :
    BaseComponent :=
  { bc with Metrics := mapSet bc.Metrics key value }

/-- Translation of `BaseComponent.Initialize`: a non-nil property map replaces the stored one. -/
def BaseComponent.Initialize (bc : BaseComponent) (properties : Option (List (String × PropValue))) :
    BaseComponent :=
  match properties with
  | some ps => { bc with Properties := ps }
  | none => bc

/-- Translation of `BaseComponent.Start`. -/
def BaseComponent.Start (bc : BaseComponent) : BaseComponent := { bc with State := StateIdle }

/-- Translation of `BaseComponent.Stop`. -/
def BaseComponent.Stop (bc : BaseComponent) : BaseComponent := { bc with State := StateStopped }

/-- Translation of `BaseComponent.Validate`: the error message, `none` for a nil error. -/
def BaseComponent.Validate (bc : BaseComponent) : Option String :=
  if bc.ID = "" then some "component ID cannot be empty"
  else if bc.Kind = "" then some "component type cannot be empty"
  else none

/-- An `int` metric. -/
def metricInt (i : Int) : PropValue := PropValue.scalar (Value.int i)

/-- A `float64` metric. -/
def metricFloat (r : Rat) : PropValue := PropValue.scalar (Value.float r)

/-! ## components/generic_service.go -/

/-- The struct `GenericService`; `base` is the embedded `*model.BaseComponent`. -/
structure GenericService where
  base : BaseComponent
  ProcessingTime : Rat
  FailureRate : Rat
  MaxConcurrency : Int
  CurrentLoad : Int
  RequestsProcessed : Int
  RequestsFailed : Int

/-- Translation of `NewGenericService`. -/
def NewGenericService (id : String) : GenericService :=
  { base := NewBaseComponent id TypeGenericService, ProcessingTime := 1, FailureRate := 1 / 100,
    MaxConcurrency := 10, CurrentLoad := 0, RequestsProcessed := 0, RequestsFailed := 0 }

/-- Translation of `GetID` through the embedded base. -/
def GenericService.GetID (gs : GenericService) : String := gs.base.ID

/-- Translation of `SetState` through the embedded base. -/
def GenericService.SetState (gs : GenericService) (state : ComponentState) : GenericService :=
  { gs with base := gs.base.SetState state }

/-- Translation of `GenericService.SetMetric`. -/
def GenericService.SetMetric (gs : GenericService) (key : String) (value : PropValue) :
    GenericService :=
  { gs with base := gs.base.SetMetric key value }

/-- Translation of `GenericService.handleRequestArrival`. -/
def GenericService.handleRequestArrival (gs : GenericService) (rt : Runtime) (event : Event) :
    GenericService × List Event :=
  if gs.CurrentLoad ≥ gs.MaxConcurrency then
    let requestID := (event.GetDataValue "request_id").1
    let failEvent := rt.newEvent 0 "fail" gs.GetID event.Timestamp RequestFailed gs.GetID
      [("reason", Value.str "service_overloaded"), ("request_id", requestID)]
    ({ gs with RequestsFailed := gs.RequestsFailed + 1 }, [failEvent])
  else
    let gs1 := ({ gs with CurrentLoad := gs.CurrentLoad + 1 }).SetState StateProcessing
    if rt.Float64 0 < gs1.FailureRate then
      let requestID := (event.GetDataValue "request_id").1
      let failEvent := rt.newEvent 0 "fail" gs1.GetID (event.Timestamp + 1 / 10) RequestFailed
        gs1.GetID [("reason", Value.str "processing_error"), ("request_id", requestID)]
      let gs2 := { gs1 with RequestsFailed := gs1.RequestsFailed + 1,
                            CurrentLoad := gs1.CurrentLoad - 1 }
      let gs3 := if gs2.CurrentLoad = 0 then gs2.SetState StateIdle else gs2
      (gs3, [failEvent])
    else
      let completionTime := event.Timestamp + gs1.ProcessingTime
      let requestID := (event.GetDataValue "request_id").1
      let completionEvent := rt.newEvent 0 "complete" gs1.GetID completionTime RequestProcessed
        gs1.GetID [("request_id", requestID), ("processing_time", Value.float gs1.ProcessingTime)]
      (gs1, [completionEvent])

/-- Translation of `GenericService.handleRequestProcessed`. -/
def GenericService.handleRequestProcessed (gs : GenericService) (rt : Runtime) (event : Event) :
    GenericService × List Event :=
  let gs1 := { gs with CurrentLoad := gs.CurrentLoad - 1,
                       RequestsProcessed := gs.RequestsProcessed + 1 }
  let gs2 := if gs1.CurrentLoad = 0 then gs1.SetState StateIdle else gs1
  let requestID := (event.GetDataValue "request_id").1
  let processingTime := (event.GetDataValue "processing_time").1
  let completedEvent := rt.newEvent 0 "completed" gs2.GetID event.Timestamp RequestCompleted
    gs2.GetID [("request_id", requestID), ("processing_time", processingTime)]
  (gs2, [completedEvent])

/-- Translation of `GenericService.updateMetrics`.  The quotients are those of the source read
over exact arithmetic. -/
def GenericService.updateMetrics (gs : GenericService) (_event : Event) : GenericService :=
  let g1 := gs.SetMetric "current_load" (metricInt gs.CurrentLoad)
  let g2 := g1.SetMetric "requests_processed" (metricInt gs.RequestsProcessed)
  let g3 := g2.SetMetric "requests_failed" (metricInt gs.RequestsFailed)
  let g4 := g3.SetMetric "processing_time" (metricFloat gs.ProcessingTime)
  let g5 := g4.SetMetric "failure_rate" (metricFloat gs.FailureRate)
  let g6 := g5.SetMetric "max_concurrency" (metricInt gs.MaxConcurrency)
  let total := gs.RequestsProcessed + gs.RequestsFailed
  let g7 := if total > 0 then
      g6.SetMetric "success_rate" (metricFloat ((gs.RequestsProcessed : Rat) / (total : Rat)))
    else g6
  g7.SetMetric "utilization" (metricFloat ((gs.CurrentLoad : Rat) / (gs.MaxConcurrency : Rat)))

/-- Translation of `GenericService.HandleEvent`: the new state and the returned events (`nil` for
an event kind the service ignores); the error result of the source is always
`nil`. -/
def GenericService.HandleEvent (gs : GenericService) (rt : Runtime) (event : Event) :
    GenericService × List Event :=
  if event.Kind = RequestArrival then
    let r := gs.handleRequestArrival rt event
    (r.1.updateMetrics event, r.2)
  else if event.Kind = RequestProcessed then
    let r := gs.handleRequestProcessed rt event
    (r.1.updateMetrics event, r.2)
  else (gs, [])

/-- Translation of `GenericService.Start`. -/
def GenericService.Start (gs : GenericService) : GenericService :=
  ({ gs with base := gs.base.Start, CurrentLoad := 0, RequestsProcessed := 0,
             RequestsFailed := 0 }).SetState StateIdle

/-- Translation of `GenericService.Stop`. -/
def GenericService.Stop (gs : GenericService) : GenericService :=
  let g1 := gs.SetState StateStopped
  { g1 with base := g1.base.Stop }

/-- Translation of `GenericService.Validate`: the error message, `none` for a nil error. -/
def GenericService.Validate (gs : GenericService) : Option String :=
  match gs.base.Validate with
  | some err => some err
  | none =>
    if gs.ProcessingTime ≤ 0 then some "processing time must be positive"
    else if gs.FailureRate < 0 ∨ gs.FailureRate > 1 then
      some "failure rate must be between 0 and 1"
    else if gs.MaxConcurrency ≤ 0 then some "max concurrency must be positive"
    else none

/-! ## components/database.go -/

/-- The struct `Database`. -/
structure Database where
  base : BaseComponent
  ReadLatency : Rat
  WriteLatency : Rat
  QueryLatency : Rat
  FailureRate : Rat
  MaxConnections : Int
  CurrentConnections : Int
  ReadsProcessed : Int
  WritesProcessed : Int
  QueriesProcessed : Int
  OperationsFailed : Int

/-- Translation of `NewDatabase`. -/
def NewDatabase (id : String) : Database :=
  { base := NewBaseComponent id TypeDatabase, ReadLatency := 1 / 10, WriteLatency := 2 / 10,
    QueryLatency := 5 / 10, FailureRate := 1 / 1000, MaxConnections := 100,
    CurrentConnections := 0, ReadsProcessed := 0, WritesProcessed := 0, QueriesProcessed := 0,
    OperationsFailed := 0 }

/-- Translation of `GetID` through the embedded base. -/
def Database.GetID (db : Database) : String := db.base.ID

/-- Translation of `SetState` through the embedded base. -/
def Database.SetState (db : Database) (state : ComponentState) : Database :=
  { db with base := db.base.SetState state }

/-- Translation of `SetMetric` through the embedded base. -/
def Database.SetMetric (db : Database) (key : String) (value : PropValue) : Database :=
  { db with base := db.base.SetMetric key value }

/-- Translation of `Database.handleDatabaseRead`. -/
def Database.handleDatabaseRead (db : Database) (rt : Runtime) (event : Event) :
    Database × List Event :=
  if db.CurrentConnections ≥ db.MaxConnections then
    let requestID := (event.GetDataValue "request_id").1
    let failEvent := rt.newEvent 0 "read_fail" db.GetID event.Timestamp RequestFailed db.GetID
      [("reason", Value.str "connection_limit_exceeded"), ("operation", Value.str "read"),
       ("request_id", requestID)]
    ({ db with OperationsFailed := db.OperationsFailed + 1 }, [failEvent])
  else
    let db1 := ({ db with CurrentConnections := db.CurrentConnections + 1 }).SetState
      StateProcessing
    if rt.Float64 0 < db1.FailureRate then
      let requestID := (event.GetDataValue "request_id").1
      let failEvent := rt.newEvent 0 "read_fail" db1.GetID (event.Timestamp + 1 / 100)
        RequestFailed db1.GetID
        [("reason", Value.str "database_error"), ("operation", Value.str "read"),
         ("request_id", requestID)]
      let db2 := { db1 with OperationsFailed := db1.OperationsFailed + 1,
                            CurrentConnections := db1.CurrentConnections - 1 }
      let db3 := if db2.CurrentConnections = 0 then db2.SetState StateIdle else db2
      (db3, [failEvent])
    else
      let completionTime := event.Timestamp + db1.ReadLatency
      let requestID := (event.GetDataValue "request_id").1
      let dataSize := (event.GetDataValue "data_size").1
      let completionEvent := rt.newEvent 0 "read_complete" db1.GetID completionTime
        RequestCompleted db1.GetID
        [("operation", Value.str "read"), ("request_id", requestID),
         ("latency", Value.float db1.ReadLatency), ("data_size", dataSize)]
      let db2 := { db1 with ReadsProcessed := db1.ReadsProcessed + 1,
                            CurrentConnections := db1.CurrentConnections - 1 }
      let db3 := if db2.CurrentConnections = 0 then db2.SetState StateIdle else db2
      (db3, [completionEvent])

/-- Translation of `Database.handleDatabaseWrite`. -/
def Database.handleDatabaseWrite (db : Database) (rt : Runtime) (event : Event) :
    Database × List Event :=
  if db.CurrentConnections ≥ db.MaxConnections then
    let requestID := (event.GetDataValue "request_id").1
    let failEvent := rt.newEvent 0 "write_fail" db.GetID event.Timestamp RequestFailed db.GetID
      [("reason", Value.str "connection_limit_exceeded"), ("operation", Value.str "write"),
       ("request_id", requestID)]
    ({ db with OperationsFailed := db.OperationsFailed + 1 }, [failEvent])
  else
    let db1 := ({ db with CurrentConnections := db.CurrentConnections + 1 }).SetState
      StateProcessing
    if rt.Float64 0 < db1.FailureRate then
      let requestID := (event.GetDataValue "request_id").1
      let failEvent := rt.newEvent 0 "write_fail" db1.GetID (event.Timestamp + 1 / 100)
        RequestFailed db1.GetID
        [("reason", Value.str "database_error"), ("operation", Value.str "write"),
         ("request_id", requestID)]
      let db2 := { db1 with OperationsFailed := db1.OperationsFailed + 1,
                            CurrentConnections := db1.CurrentConnections - 1 }
      let db3 := if db2.CurrentConnections = 0 then db2.SetState StateIdle else db2
      (db3, [failEvent])
    else
      let completionTime := event.Timestamp + db1.WriteLatency
      let requestID := (event.GetDataValue "request_id").1
      let dataSize := (event.GetDataValue "data_size").1
      let completionEvent := rt.newEvent 0 "write_complete" db1.GetID completionTime
        RequestCompleted db1.GetID
        [("operation", Value.str "write"), ("request_id", requestID),
         ("latency", Value.float db1.WriteLatency), ("data_size", dataSize)]
      let db2 := { db1 with WritesProcessed := db1.WritesProcessed + 1,
                            CurrentConnections := db1.CurrentConnections - 1 }
      let db3 := if db2.CurrentConnections = 0 then db2.SetState StateIdle else db2
      (db3, [completionEvent])

/-- Translation of `Database.handleDatabaseQuery`. -/
def Database.handleDatabaseQuery (db : Database) (rt : Runtime) (event : Event) :
    Database × List Event :=
  if db.CurrentConnections ≥ db.MaxConnections then
    let requestID := (event.GetDataValue "request_id").1
    let failEvent := rt.newEvent 0 "query_fail" db.GetID event.Timestamp RequestFailed db.GetID
      [("reason", Value.str "connection_limit_exceeded"), ("operation", Value.str "query"),
       ("request_id", requestID)]
    ({ db with OperationsFailed := db.OperationsFailed + 1 }, [failEvent])
  else
    let db1 := ({ db with CurrentConnections := db.CurrentConnections + 1 }).SetState
      StateProcessing
    if rt.Float64 0 < db1.FailureRate then
      let requestID := (event.GetDataValue "request_id").1
      let failEvent := rt.newEvent 0 "query_fail" db1.GetID (event.Timestamp + 1 / 100)
        RequestFailed db1.GetID
        [("reason", Value.str "database_error"), ("operation", Value.str "query"),
         ("request_id", requestID)]
      let db2 := { db1 with OperationsFailed := db1.OperationsFailed + 1,
                            CurrentConnections := db1.CurrentConnections - 1 }
      let db3 := if db2.CurrentConnections = 0 then db2.SetState StateIdle else db2
      (db3, [failEvent])
    else
      let completionTime := event.Timestamp + db1.QueryLatency
      let requestID := (event.GetDataValue "request_id").1
      let queryType := (event.GetDataValue "query_type").1
      let resultSize := (event.GetDataValue "result_size").1
      let completionEvent := rt.newEvent 0 "query_complete" db1.GetID completionTime
        RequestCompleted db1.GetID
        [("operation", Value.str "query"), ("request_id", requestID),
         ("latency", Value.float db1.QueryLatency), ("query_type", queryType),
         ("result_size", resultSize)]
      let db2 := { db1 with QueriesProcessed := db1.QueriesProcessed + 1,
                            CurrentConnections := db1.CurrentConnections - 1 }
      let db3 := if db2.CurrentConnections = 0 then db2.SetState StateIdle else db2
      (db3, [completionEvent])

/-- Translation of `Database.updateMetrics`. -/
def Database.updateMetrics (db : Database) (_event : Event) : Database :=
  let d1 := db.SetMetric "current_connections" (metricInt db.CurrentConnections)
  let d2 := d1.SetMetric "reads_processed" (metricInt db.ReadsProcessed)
  let d3 := d2.SetMetric "writes_processed" (metricInt db.WritesProcessed)
  let d4 := d3.SetMetric "queries_processed" (metricInt db.QueriesProcessed)
  let d5 := d4.SetMetric "operations_failed" (metricInt db.OperationsFailed)
  let d6 := d5.SetMetric "read_latency" (metricFloat db.ReadLatency)
  let d7 := d6.SetMetric "write_latency" (metricFloat db.WriteLatency)
  let d8 := d7.SetMetric "query_latency" (metricFloat db.QueryLatency)
  let d9 := d8.SetMetric "failure_rate" (metricFloat db.FailureRate)
  let d10 := d9.SetMetric "max_connections" (metricInt db.MaxConnections)
  let total := db.ReadsProcessed + db.WritesProcessed + db.QueriesProcessed + db.OperationsFailed
  let d11 := if total > 0 then
      d10.SetMetric "success_rate" (metricFloat
        (((db.ReadsProcessed + db.WritesProcessed + db.QueriesProcessed : Int) : Rat)
          / (total : Rat)))
    else d10
  d11.SetMetric "connection_utilization"
    (metricFloat ((db.CurrentConnections : Rat) / (db.MaxConnections : Rat)))

/-- Translation of `Database.HandleEvent`; the error result of the source is always `nil`. -/
def Database.HandleEvent (db : Database) (rt : Runtime) (event : Event) :
    Database × List Event :=
  if event.Kind = DatabaseRead then
    let r := db.handleDatabaseRead rt event
    (r.1.updateMetrics event, r.2)
  else if event.Kind = DatabaseWrite then
    let r := db.handleDatabaseWrite rt event
    (r.1.updateMetrics event, r.2)
  else if event.Kind = DatabaseQuery then
    let r := db.handleDatabaseQuery rt event
    (r.1.updateMetrics event, r.2)
  else (db, [])

/-- Translation of `Database.Start`. -/
def Database.Start (db : Database) : Database :=
  ({ db with base := db.base.Start, CurrentConnections := 0, ReadsProcessed := 0,
             WritesProcessed := 0, QueriesProcessed := 0, OperationsFailed := 0 }).SetState
    StateIdle

/-- Translation of `Database.Stop`. -/
def Database.Stop (db : Database) : Database :=
  let d1 := db.SetState StateStopped
  { d1 with base := d1.base.Stop }

/-- Translation of `Database.Validate`: the error message, `none` for a nil error. -/
def Database.Validate (db : Database) : Option String :=
  match db.base.Validate with
  | some err => some err
  | none =>
    if db.ReadLatency ≤ 0 then some "read latency must be positive"
    else if db.WriteLatency ≤ 0 then some "write latency must be positive"
    else if db.QueryLatency ≤ 0 then some "query latency must be positive"
    else if db.FailureRate < 0 ∨ db.FailureRate > 1 then
      some "failure rate must be between 0 and 1"
    else if db.MaxConnections ≤ 0 then some "max connections must be positive"
    else none

/-! ## components/message_queue.go -/

/-- The struct `MessageQueue`. -/
structure MessageQueue where
  base : BaseComponent
  ProcessingTime : Rat
  FailureRate : Rat
  MaxQueueSize : Int
  CurrentQueueSize : Int
  MessagesEnqueued : Int
  MessagesDequeued : Int
  MessagesFailed : Int
  MessagesDropped : Int

/-- Translation of `NewMessageQueue`. -/
def NewMessageQueue (id : String) : MessageQueue :=
  { base := NewBaseComponent id TypeMessageQueue, ProcessingTime := 1 / 10,
    FailureRate := 1 / 1000, MaxQueueSize := 1000, CurrentQueueSize := 0, MessagesEnqueued := 0,
    MessagesDequeued := 0, MessagesFailed := 0, MessagesDropped := 0 }

/-- Translation of `GetID` through the embedded base. -/
def MessageQueue.GetID (mq : MessageQueue) : String := mq.base.ID

/-- Translation of `SetState` through the embedded base. -/
def MessageQueue.SetState (mq : MessageQueue) (state : ComponentState) : MessageQueue :=
  { mq with base := mq.base.SetState state }

/-- Translation of `SetMetric` through the embedded base. -/
def MessageQueue.SetMetric (mq : MessageQueue) (key : String) (value : PropValue) :
    MessageQueue :=
  { mq with base := mq.base.SetMetric key value }

/-- Translation of `MessageQueue.handleMessageEnqueue`. -/
def MessageQueue.handleMessageEnqueue (mq : MessageQueue) (rt : Runtime) (event : Event) :
    MessageQueue × List Event :=
  if mq.CurrentQueueSize ≥ mq.MaxQueueSize then
    let messageID := (event.GetDataValue "message_id").1
    let dropEvent := rt.newEvent 0 "drop" mq.GetID event.Timestamp RequestFailed mq.GetID
      [("reason", Value.str "queue_full"), ("operation", Value.str "enqueue"),
       ("message_id", messageID)]
    ({ mq with MessagesDropped := mq.MessagesDropped + 1 }, [dropEvent])
  else if rt.Float64 0 < mq.FailureRate then
    let messageID := (event.GetDataValue "message_id").1
    let failEvent := rt.newEvent 0 "enqueue_fail" mq.GetID event.Timestamp RequestFailed
      mq.GetID
      [("reason", Value.str "enqueue_error"), ("operation", Value.str "enqueue"),
       ("message_id", messageID)]
    ({ mq with MessagesFailed := mq.MessagesFailed + 1 }, [failEvent])
  else
    let mq1 := ({ mq with CurrentQueueSize := mq.CurrentQueueSize + 1,
                          MessagesEnqueued := mq.MessagesEnqueued + 1 }).SetState StateProcessing
    let messageID := (event.GetDataValue "message_id").1
    let successEvent := rt.newEvent 0 "enqueue_success" mq1.GetID
      (event.Timestamp + mq1.ProcessingTime) RequestCompleted mq1.GetID
      [("operation", Value.str "enqueue"), ("message_id", messageID),
       ("queue_size", Value.int mq1.CurrentQueueSize),
       ("processing_time", Value.float mq1.ProcessingTime)]
    if mq1.CurrentQueueSize = 1 then
      let messageID2 := (event.GetDataValue "message_id").1
      let dequeueEvent := rt.newEvent 1 "auto_dequeue" mq1.GetID
        (event.Timestamp + mq1.ProcessingTime + 1 / 100) MessageDequeued mq1.GetID
        [("message_id", messageID2), ("auto", Value.bool true)]
      (mq1, [successEvent, dequeueEvent])
    else (mq1, [successEvent])

/-- Translation of `MessageQueue.handleMessageDequeue`. -/
def MessageQueue.handleMessageDequeue (mq : MessageQueue) (rt : Runtime) (event : Event) :
    MessageQueue × List Event :=
  if mq.CurrentQueueSize ≤ 0 then
    let messageID := (event.GetDataValue "message_id").1
    let emptyEvent := rt.newEvent 0 "empty" mq.GetID event.Timestamp RequestFailed mq.GetID
      [("reason", Value.str "queue_empty"), ("operation", Value.str "dequeue"),
       ("message_id", messageID)]
    (mq, [emptyEvent])
  else if rt.Float64 0 < mq.FailureRate then
    let messageID := (event.GetDataValue "message_id").1
    let failEvent := rt.newEvent 0 "dequeue_fail" mq.GetID event.Timestamp RequestFailed
      mq.GetID
      [("reason", Value.str "dequeue_error"), ("operation", Value.str "dequeue"),
       ("message_id", messageID)]
    ({ mq with MessagesFailed := mq.MessagesFailed + 1 }, [failEvent])
  else
    let mq1 := { mq with CurrentQueueSize := mq.CurrentQueueSize - 1,
                         MessagesDequeued := mq.MessagesDequeued + 1 }
    let mq2 := if mq1.CurrentQueueSize = 0 then mq1.SetState StateIdle else mq1
    let messageID := (event.GetDataValue "message_id").1
    let successEvent := rt.newEvent 0 "dequeue_success" mq2.GetID
      (event.Timestamp + mq2.ProcessingTime) RequestCompleted mq2.GetID
      [("operation", Value.str "dequeue"), ("message_id", messageID),
       ("queue_size", Value.int mq2.CurrentQueueSize),
       ("processing_time", Value.float mq2.ProcessingTime)]
    (mq2, [successEvent])

/-- Translation of `MessageQueue.updateMetrics`. -/
def MessageQueue.updateMetrics (mq : MessageQueue) (_event : Event) : MessageQueue :=
  let m1 := mq.SetMetric "current_queue_size" (metricInt mq.CurrentQueueSize)
  let m2 := m1.SetMetric "messages_enqueued" (metricInt mq.MessagesEnqueued)
  let m3 := m2.SetMetric "messages_dequeued" (metricInt mq.MessagesDequeued)
  let m4 := m3.SetMetric "messages_failed" (metricInt mq.MessagesFailed)
  let m5 := m4.SetMetric "messages_dropped" (metricInt mq.MessagesDropped)
  let m6 := m5.SetMetric "processing_time" (metricFloat mq.ProcessingTime)
  let m7 := m6.SetMetric "failure_rate" (metricFloat mq.FailureRate)
  let m8 := m7.SetMetric "max_queue_size" (metricInt mq.MaxQueueSize)
  let total := mq.MessagesEnqueued + mq.MessagesDequeued + mq.MessagesFailed + mq.MessagesDropped
  let m9 := if total > 0 then
      m8.SetMetric "success_rate" (metricFloat
        (((mq.MessagesEnqueued + mq.MessagesDequeued : Int) : Rat) / (total : Rat)))
    else m8
  let m10 := m9.SetMetric "queue_utilization"
    (metricFloat ((mq.CurrentQueueSize : Rat) / (mq.MaxQueueSize : Rat)))
  if mq.ProcessingTime > 0 then m10.SetMetric "throughput" (metricFloat (1 / mq.ProcessingTime))
  else m10

/-- Translation of `MessageQueue.HandleEvent`; the error result of the source is always `nil`. -/
def MessageQueue.HandleEvent (mq : MessageQueue) (rt : Runtime) (event : Event) :
    MessageQueue × List Event :=
  if event.Kind = MessageEnqueued then
    let r := mq.handleMessageEnqueue rt event
    (r.1.updateMetrics event, r.2)
  else if event.Kind = MessageDequeued then
    let r := mq.handleMessageDequeue rt event
    (r.1.updateMetrics event, r.2)
  else (mq, [])

/-- Translation of `MessageQueue.Start`. -/
def MessageQueue.Start (mq : MessageQueue) : MessageQueue :=
  ({ mq with base := mq.base.Start, CurrentQueueSize := 0, MessagesEnqueued := 0,
             MessagesDequeued := 0, MessagesFailed := 0, MessagesDropped := 0 }).SetState
    StateIdle

/-- Translation of `MessageQueue.Stop`. -/
def MessageQueue.Stop (mq : MessageQueue) : MessageQueue :=
  let m1 := mq.SetState StateStopped
  { m1 with base := m1.base.Stop }

/-- Translation of `MessageQueue.Validate`: the error message, `none` for a nil error. -/
def MessageQueue.Validate (mq : MessageQueue) : Option String :=
  match mq.base.Validate with
  | some err => some err
  | none =>
    if mq.ProcessingTime ≤ 0 then some "processing time must be positive"
    else if mq.FailureRate < 0 ∨ mq.FailureRate > 1 then
      some "failure rate must be between 0 and 1"
    else if mq.MaxQueueSize ≤ 0 then some "max queue size must be positive"
    else none

/-! ## components/load_balancer.go -/

/-- The type `LoadBalancingAlgorithm`: a string. -/
abbrev LoadBalancingAlgorithm := String

abbrev RoundRobin : LoadBalancingAlgorithm := "round_robin"
abbrev LeastConnections : LoadBalancingAlgorithm := "least_connections"
abbrev Weighted : LoadBalancingAlgorithm := "weighted"

/-- The struct `BackendServer`. -/
structure BackendServer where
  ID : String
  Weight : Int
  IsHealthy : Bool
  Connections : Int
  LastCheck : Rat
  deriving DecidableEq, Repr

/-- The struct `LoadBalancer`.  The slice of server pointers is a list of
servers; a pointer into it is a position in the list. -/
structure LoadBalancer where
  base : BaseComponent
  Algorithm : LoadBalancingAlgorithm
  HealthCheckInterval : Rat
  RoutingLatency : Rat
  FailureRate : Rat
  BackendServers : List BackendServer
  CurrentServerIndex : Int
  RequestsRouted : Int
  RequestsFailed : Int
  HealthChecksPerformed : Int

/-- Translation of `NewLoadBalancer`. -/
def NewLoadBalancer (id : String) : LoadBalancer :=
  { base := NewBaseComponent id TypeLoadBalancer, Algorithm := RoundRobin,
    HealthCheckInterval := 5, RoutingLatency := 1 / 100, FailureRate := 1 / 1000,
    BackendServers := [], CurrentServerIndex := 0, RequestsRouted := 0, RequestsFailed := 0,
    HealthChecksPerformed := 0 }

/-- Translation of `GetID` through the embedded base. -/
def LoadBalancer.GetID (lb : LoadBalancer) : String := lb.base.ID

/-- Translation of `SetState` through the embedded base. -/
def LoadBalancer.SetState (lb : LoadBalancer) (state : ComponentState) : LoadBalancer :=
  { lb with base := lb.base.SetState state }

/-- Translation of `SetMetric` through the embedded base. -/
def LoadBalancer.SetMetric (lb : LoadBalancer) (key : String) (value : PropValue) :
    LoadBalancer :=
  { lb with base := lb.base.SetMetric key value }

/-- Translation of `LoadBalancer.getHealthyServers`: the healthy servers in list order, each
with its position in `BackendServers`. -/
def LoadBalancer.getHealthyServers (lb : LoadBalancer) : List (Nat × BackendServer) :=
  lb.BackendServers.enum.filter (fun p => p.2.IsHealthy)

/-- Translation of `LoadBalancer.selectRoundRobin`: the balancer with the advanced index and the
position of the chosen server (`none` inside for a `nil` result); `none` outside
when the index expression leaves the slice (a negative remainder).  The
increment `lb.CurrentServerIndex++` wraps at the largest `int`. -/
def LoadBalancer.selectRoundRobin (lb : LoadBalancer) (healthyServers : List (Nat × BackendServer)) :
    Option (LoadBalancer × Option Nat) :=
  if healthyServers.length = 0 then some (lb, none)
  else
    let r := Int.tmod lb.CurrentServerIndex healthyServers.length
    if r < 0 then none
    else
      match healthyServers[r.toNat]? with
      | none => none
      | some server =>
        some ({ lb with CurrentServerIndex := wrapInt64 (lb.CurrentServerIndex + 1) },
              some server.1)

/-- Translation of `LoadBalancer.selectLeastConnections`: the position of the chosen server. -/
def LoadBalancer.selectLeastConnections (_lb : LoadBalancer)
    (healthyServers : List (Nat × BackendServer)) : Option Nat :=
  if healthyServers.length = 0 then none
  else
    (healthyServers.foldl
      (fun (acc : Int × Option Nat) server =>
        if server.2.Connections < acc.1 then (server.2.Connections, some server.1) else acc)
      (maxInt, none)).2

/-- The second loop of `selectWeighted`: the first server whose cumulative weight
exceeds `randomWeight`; `currentWeight += server.Weight` wraps at the largest
`int`. -/
def weightedScan (randomWeight : Int) : Int → List (Nat × BackendServer) → Option Nat
  | _, [] => none
  | currentWeight, server :: rest =>
    if randomWeight < wrapInt64 (currentWeight + server.2.Weight) then some server.1
    else weightedScan randomWeight (wrapInt64 (currentWeight + server.2.Weight)) rest

/-- Translation of `LoadBalancer.selectWeighted`; `none` outside when `rand.Intn` is called with
a negative total weight.  The sum `totalWeight += server.Weight` wraps at the
largest `int`. -/
def LoadBalancer.selectWeighted (lb : LoadBalancer) (rt : Runtime)
    (healthyServers : List (Nat × BackendServer)) : Option (LoadBalancer × Option Nat) :=
  if healthyServers.length = 0 then some (lb, none)
  else
    let totalWeight :=
      healthyServers.foldl (fun acc server => wrapInt64 (acc + server.2.Weight)) (0 : Int)
    if totalWeight = 0 then lb.selectRoundRobin healthyServers
    else if totalWeight < 0 then none
    else
      let randomWeight := rt.Intn totalWeight
      match weightedScan randomWeight 0 healthyServers with
      | some i => some (lb, some i)
      | none => some (lb, healthyServers.head?.map (fun server => server.1))

/-- Translation of `LoadBalancer.selectBackendServer`. -/
def LoadBalancer.selectBackendServer (lb : LoadBalancer) (rt : Runtime)
    (healthyServers : List (Nat × BackendServer)) : Option (LoadBalancer × Option Nat) :=
  if healthyServers.length = 0 then some (lb, none)
  else if lb.Algorithm = RoundRobin then lb.selectRoundRobin healthyServers
  else if lb.Algorithm = LeastConnections then
    some (lb, lb.selectLeastConnections healthyServers)
  else if lb.Algorithm = Weighted then lb.selectWeighted rt healthyServers
  else lb.selectRoundRobin healthyServers

/-- Translation of `LoadBalancer.handleRequestRouting`; `none` when the call panics.  The
increment `selectedServer.Connections++` wraps at the largest `int`. -/
def LoadBalancer.handleRequestRouting (lb : LoadBalancer) (rt : Runtime) (event : Event) :
    Option (LoadBalancer × List Event) :=
  let healthyServers := lb.getHealthyServers
  if healthyServers.length = 0 then
    let requestID := (event.GetDataValue "request_id").1
    let failEvent := rt.newEvent 0 "route_fail" lb.GetID event.Timestamp RequestFailed lb.GetID
      [("reason", Value.str "no_healthy_servers"), ("request_id", requestID)]
    some ({ lb with RequestsFailed := lb.RequestsFailed + 1 }, [failEvent])
  else if rt.Float64 0 < lb.FailureRate then
    let requestID := (event.GetDataValue "request_id").1
    let failEvent := rt.newEvent 0 "route_fail" lb.GetID event.Timestamp RequestFailed lb.GetID
      [("reason", Value.str "routing_error"), ("request_id", requestID)]
    some ({ lb with RequestsFailed := lb.RequestsFailed + 1 }, [failEvent])
  else
    match lb.selectBackendServer rt healthyServers with
    | none => none
    | some (lb1, none) =>
      let requestID := (event.GetDataValue "request_id").1
      let failEvent := rt.newEvent 0 "route_fail" lb1.GetID event.Timestamp RequestFailed
        lb1.GetID [("reason", Value.str "server_selection_failed"), ("request_id", requestID)]
      some ({ lb1 with RequestsFailed := lb1.RequestsFailed + 1 }, [failEvent])
    | some (lb1, some i) =>
      match lb1.BackendServers[i]? with
      | none => none
      | some selectedServer =>
        let lb2 := ({ lb1 with
            BackendServers := lb1.BackendServers.set i
              { selectedServer with Connections := wrapInt64 (selectedServer.Connections + 1) },
            RequestsRouted := lb1.RequestsRouted + 1 }).SetState StateProcessing
        let requestID := (event.GetDataValue "request_id").1
        let routedEvent := rt.newEvent 0 "routed" lb2.GetID
          (event.Timestamp + lb2.RoutingLatency) RequestProcessed selectedServer.ID
          [("request_id", requestID), ("backend_server", Value.str selectedServer.ID),
           ("routing_latency", Value.float lb2.RoutingLatency),
           ("algorithm", Value.str lb2.Algorithm)]
        let cleanupEvent := rt.newEvent 1 "cleanup" lb2.GetID
          (event.Timestamp + lb2.RoutingLatency + 1) RequestCompleted lb2.GetID
          [("backend_server", Value.str selectedServer.ID), ("cleanup", Value.bool true)]
        some (lb2, [routedEvent, cleanupEvent])

/-- Translation of `LoadBalancer.updateMetrics`. -/
def LoadBalancer.updateMetrics (lb : LoadBalancer) (_event : Event) : LoadBalancer :=
  let l1 := lb.SetMetric "requests_routed" (metricInt lb.RequestsRouted)
  let l2 := l1.SetMetric "requests_failed" (metricInt lb.RequestsFailed)
  let l3 := l2.SetMetric "health_checks_performed" (metricInt lb.HealthChecksPerformed)
  let l4 := l3.SetMetric "routing_latency" (metricFloat lb.RoutingLatency)
  let l5 := l4.SetMetric "failure_rate" (metricFloat lb.FailureRate)
  let l6 := l5.SetMetric "algorithm" (PropValue.scalar (Value.str lb.Algorithm))
  let l7 := l6.SetMetric "backend_servers_count" (metricInt lb.BackendServers.length)
  let healthyCount : Int := (lb.BackendServers.filter (fun server => server.IsHealthy)).length
  let totalConnections := lb.BackendServers.foldl (fun acc server => acc + server.Connections)
    (0 : Int)
  let l8 := l7.SetMetric "healthy_servers_count" (metricInt healthyCount)
  let l9 := l8.SetMetric "total_connections" (metricInt totalConnections)
  let total := lb.RequestsRouted + lb.RequestsFailed
  if total > 0 then
    l9.SetMetric "success_rate" (metricFloat ((lb.RequestsRouted : Rat) / (total : Rat)))
  else l9

/-- Translation of `LoadBalancer.HandleEvent`; `none` when the call panics, and the error result
of the source is always `nil`. -/
def LoadBalancer.HandleEvent (lb : LoadBalancer) (rt : Runtime) (event : Event) :
    Option (LoadBalancer × List Event) :=
  if event.Kind = RequestArrival then
    match lb.handleRequestRouting rt event with
    | none => none
    | some r => some (r.1.updateMetrics event, r.2)
  else some (lb, [])

/-- Translation of `LoadBalancer.Start`. -/
def LoadBalancer.Start (lb : LoadBalancer) : LoadBalancer :=
  ({ lb with base := lb.base.Start, RequestsRouted := 0, RequestsFailed := 0,
             HealthChecksPerformed := 0, CurrentServerIndex := 0 }).SetState StateIdle

/-- Translation of `LoadBalancer.Stop`. -/
def LoadBalancer.Stop (lb : LoadBalancer) : LoadBalancer :=
  let l1 := lb.SetState StateStopped
  { l1 with base := l1.base.Stop }

/-- Translation of `LoadBalancer.Validate`: the error message, `none` for a nil error. -/
def LoadBalancer.Validate (lb : LoadBalancer) : Option String :=
  match lb.base.Validate with
  | some err => some err
  | none =>
    if lb.RoutingLatency ≤ 0 then some "routing latency must be positive"
    else if lb.FailureRate < 0 ∨ lb.FailureRate > 1 then
      some "failure rate must be between 0 and 1"
    else if lb.HealthCheckInterval ≤ 0 then some "health check interval must be positive"
    else if ¬ ([RoundRobin, LeastConnections, Weighted].any (fun algo => lb.Algorithm == algo))
      then some ("invalid load balancing algorithm: " ++ lb.Algorithm)
    else none

/-- Translation of `LoadBalancer.AddBackendServer`. -/
def LoadBalancer.AddBackendServer (lb : LoadBalancer) (id : String) (weight : Int) :
    LoadBalancer :=
  { lb with BackendServers := lb.BackendServers ++
      [{ ID := id, Weight := weight, IsHealthy := true, Connections := 0, LastCheck := 0 }] }

/-- The loop of `RemoveBackendServer`: drops the first server with the id. -/
def removeFirstServer (id : String) : List BackendServer → List BackendServer
  | [] => []
  | server :: rest => if server.ID = id then rest else server :: removeFirstServer id rest

/-- Translation of `LoadBalancer.RemoveBackendServer`. -/
def LoadBalancer.RemoveBackendServer (lb : LoadBalancer) (id : String) : LoadBalancer :=
  { lb with BackendServers := removeFirstServer id lb.BackendServers }

/-- The loop of `SetServerHealth`: updates the first server with the id. -/
def setFirstHealth (id : String) (isHealthy : Bool) : List BackendServer → List BackendServer
  | [] => []
  | server :: rest =>
    if server.ID = id then { server with IsHealthy := isHealthy } :: rest
    else server :: setFirstHealth id isHealthy rest

/-- Translation of `LoadBalancer.SetServerHealth`. -/
def LoadBalancer.SetServerHealth (lb : LoadBalancer) (id : String) (isHealthy : Bool) :
    LoadBalancer :=
  { lb with BackendServers := setFirstHealth id isHealthy lb.BackendServers }

/-! ## components/cache.go -/

/-- The struct `CacheEntry`. -/
structure CacheEntry where
  Key : String
  Value : Value
  Size : Int
  Timestamp : Rat
  AccessCount : Int
  deriving DecidableEq, Repr

/-- The struct `Cache`. -/
structure Cache where
  base : BaseComponent
  HitRatio : Rat
  AccessTime : Rat
  FailureRate : Rat
  MaxSize : Int
  CurrentSize : Int
  Entries : List (String × CacheEntry)
  CacheHits : Int
  CacheMisses : Int
  CacheWrites : Int
  CacheEvictions : Int
  OperationsFailed : Int

/-- Translation of `NewCache`. -/
def NewCache (id : String) : Cache :=
  { base := NewBaseComponent id TypeCache, HitRatio := 8 / 10, AccessTime := 1 / 100,
    FailureRate := 1 / 1000, MaxSize := 1000, CurrentSize := 0, Entries := [], CacheHits := 0,
    CacheMisses := 0, CacheWrites := 0, CacheEvictions := 0, OperationsFailed := 0 }

/-- Translation of `GetID` through the embedded base. -/
def Cache.GetID (c : Cache) : String := c.base.ID

/-- Translation of `SetState` through the embedded base. -/
def Cache.SetState (c : Cache) (state : ComponentState) : Cache :=
  { c with base := c.base.SetState state }

/-- Translation of `SetMetric` through the embedded base. -/
def Cache.SetMetric (c : Cache) (key : String) (value : PropValue) : Cache :=
  { c with base := c.base.SetMetric key value }

/-- The block of `handleCacheRead` that looks the key up: the cache after it and
the value of `isHit`.  A present key is a hit when the second draw of the call
is below the hit ratio, and only then is the entry touched. -/
def Cache.readLookup (c : Cache) (rt : Runtime) (keyStr : String) (event : Event) :
    Cache × Bool :=
  match c.Entries.lookup keyStr with
  | some entry =>
    if rt.Float64 1 < c.HitRatio then
      ({ c with
          Entries := mapSet c.Entries keyStr
            { entry with AccessCount := entry.AccessCount + 1,
                         Timestamp := event.Timestamp } }, true)
    else (c, false)
  | none => (c, false)

/-- Translation of `Cache.handleCacheRead`. -/
def Cache.handleCacheRead (c : Cache) (rt : Runtime) (event : Event) : Cache × List Event :=
  let key := (event.GetDataValue "key").1
  let reqID := (event.GetDataValue "request_id").1
  if rt.Float64 0 < c.FailureRate then
    let failEvent := rt.newEvent 0 "cache_fail" c.GetID event.Timestamp RequestFailed c.GetID
      [("reason", Value.str "cache_error"), ("operation", Value.str "read"), ("key", key),
       ("request_id", reqID)]
    ({ c with OperationsFailed := c.OperationsFailed + 1 }, [failEvent])
  else
    let keyStr := key.format rt
    let c1 := c.SetState StateProcessing
    let c2 := (c1.readLookup rt keyStr event).1
    if (c1.readLookup rt keyStr event).2 then
      let c3 := { c2 with CacheHits := c2.CacheHits + 1 }
      let resultEvent := rt.newEvent 0 "cache_hit" c3.GetID (event.Timestamp + c3.AccessTime)
        RequestCompleted c3.GetID
        [("operation", Value.str "read"), ("result", Value.str "hit"), ("key", Value.str keyStr),
         ("access_time", Value.float c3.AccessTime), ("request_id", reqID)]
      (c3.SetState StateIdle, [resultEvent])
    else
      let c3 := { c2 with CacheMisses := c2.CacheMisses + 1 }
      let resultEvent := rt.newEvent 0 "cache_miss" c3.GetID (event.Timestamp + c3.AccessTime)
        RequestFailed c3.GetID
        [("operation", Value.str "read"), ("result", Value.str "miss"), ("key", Value.str keyStr),
         ("access_time", Value.float c3.AccessTime), ("request_id", reqID)]
      (c3.SetState StateIdle, [resultEvent])

/-- The inner loop of `evictEntries` over the entries in visiting order: the key
and timestamp held in `oldestKey` and `oldestTimestamp` at its end, starting
from `""` and `-1`. -/
def findOldest (visited : List (String × CacheEntry)) : String × Rat :=
  visited.foldl
    (fun (acc : String × Rat) p =>
      if acc.2 < 0 ∨ p.2.Timestamp < acc.2 then (p.1, p.2.Timestamp) else acc)
    ("", -1)

/-- The entries of the cache in the order the `k`-th `range` of the call visits
them. -/
def Cache.rangeEntries (c : Cache) (rt : Runtime) (k : Nat) : List (String × CacheEntry) :=
  (rt.MapOrder k c.Entries.length).filterMap (fun i => c.Entries[i]?)

/-- Translation of `Cache.evictEntries`, with the number of iterations of the outer loop bounded
by `fuel`: `none` when the loop is still running after `fuel` iterations.  `k`
counts the map traversals of the call.  The sum `c.CurrentSize + requiredSpace`
of the loop condition is an `int` and wraps. -/
def Cache.evictEntries (rt : Runtime) (requiredSpace : Int) : Nat → Nat → Cache → Option Cache
  | 0, _, c =>
    if wrapInt64 (c.CurrentSize + requiredSpace) > c.MaxSize ∧ c.Entries.length > 0 then none
    else some c
  | fuel + 1, k, c =>
    if wrapInt64 (c.CurrentSize + requiredSpace) > c.MaxSize ∧ c.Entries.length > 0 then
      let oldestKey := (findOldest (c.rangeEntries rt k)).1
      let c1 :=
        if oldestKey ≠ "" then
          match c.Entries.lookup oldestKey with
          | some entry =>
            { c with CurrentSize := c.CurrentSize - entry.Size,
                     Entries := mapDelete c.Entries oldestKey,
                     CacheEvictions := c.CacheEvictions + 1 }
          | none => c
        else c
      Cache.evictEntries rt requiredSpace fuel (k + 1) c1
    else some c

/-- The size of a write: the payload's `size` when it is an `int`, else the
default `1`. -/
def writeSize (event : Event) : Int :=
  match event.GetDataValue "size" with
  | (Value.int sInt, true) => sInt
  | _ => 1

/-- The block of `handleCacheWrite` that calls `evictEntries` when the new size
would exceed the maximum; `none` when the eviction loop does not end within
`fuel` iterations.  The sum `c.CurrentSize + size` is an `int` and wraps. -/
def Cache.makeRoom (c : Cache) (rt : Runtime) (fuel : Nat) (size : Int) : Option Cache :=
  if wrapInt64 (c.CurrentSize + size) > c.MaxSize then Cache.evictEntries rt size fuel 0 c
  else some c

/-- The block of `handleCacheWrite` that adds the entry or updates the existing
one, adjusting `CurrentSize`. -/
def Cache.storeEntry (c : Cache) (keyStr : String) (value : Value) (size : Int)
    (event : Event) : Cache :=
  match c.Entries.lookup keyStr with
  | some existingEntry =>
    { c with
      CurrentSize := c.CurrentSize - existingEntry.Size + size,
      Entries := mapSet c.Entries keyStr
        { existingEntry with Value := value, Size := size, Timestamp := event.Timestamp,
                             AccessCount := existingEntry.AccessCount + 1 } }
  | none =>
    { c with
      Entries := mapSet c.Entries keyStr
        { Key := keyStr, Value := value, Size := size, Timestamp := event.Timestamp,
          AccessCount := 1 },
      CurrentSize := c.CurrentSize + size }

/-- Translation of `Cache.handleCacheWrite`; `none` when the eviction loop does not end within
`fuel` iterations. -/
def Cache.handleCacheWrite (c : Cache) (rt : Runtime) (fuel : Nat) (event : Event) :
    Option (Cache × List Event) :=
  let key := (event.GetDataValue "key").1
  let value := (event.GetDataValue "value").1
  let reqID := (event.GetDataValue "request_id").1
  if rt.Float64 0 < c.FailureRate then
    let failEvent := rt.newEvent 0 "cache_fail" c.GetID event.Timestamp RequestFailed c.GetID
      [("reason", Value.str "cache_error"), ("operation", Value.str "write"), ("key", key),
       ("request_id", reqID)]
    some ({ c with OperationsFailed := c.OperationsFailed + 1 }, [failEvent])
  else
    let keyStr := key.format rt
    let size := writeSize event
    let c1 := c.SetState StateProcessing
    match c1.makeRoom rt fuel size with
    | none => none
    | some c2 =>
      let c3 := c2.storeEntry keyStr value size event
      let c4 := { c3 with CacheWrites := c3.CacheWrites + 1 }
      let resultEvent := rt.newEvent 0 "cache_write" c4.GetID (event.Timestamp + c4.AccessTime)
        RequestCompleted c4.GetID
        [("operation", Value.str "write"), ("key", Value.str keyStr), ("size", Value.int size),
         ("access_time", Value.float c4.AccessTime), ("request_id", reqID)]
      some (c4.SetState StateIdle, [resultEvent])

/-- Translation of `Cache.updateMetrics`. -/
def Cache.updateMetrics (c : Cache) (_event : Event) : Cache :=
  let c1 := c.SetMetric "current_size" (metricInt c.CurrentSize)
  let c2 := c1.SetMetric "cache_hits" (metricInt c.CacheHits)
  let c3 := c2.SetMetric "cache_misses" (metricInt c.CacheMisses)
  let c4 := c3.SetMetric "cache_writes" (metricInt c.CacheWrites)
  let c5 := c4.SetMetric "cache_evictions" (metricInt c.CacheEvictions)
  let c6 := c5.SetMetric "operations_failed" (metricInt c.OperationsFailed)
  let c7 := c6.SetMetric "access_time" (metricFloat c.AccessTime)
  let c8 := c7.SetMetric "failure_rate" (metricFloat c.FailureRate)
  let c9 := c8.SetMetric "max_size" (metricInt c.MaxSize)
  let c10 := c9.SetMetric "entry_count" (metricInt c.Entries.length)
  let totalReads := c.CacheHits + c.CacheMisses
  let c11 := if totalReads > 0 then
      c10.SetMetric "actual_hit_ratio" (metricFloat ((c.CacheHits : Rat) / (totalReads : Rat)))
    else c10
  let c12 := c11.SetMetric "utilization"
    (metricFloat ((c.CurrentSize : Rat) / (c.MaxSize : Rat)))
  let total := c.CacheHits + c.CacheMisses + c.CacheWrites + c.OperationsFailed
  if total > 0 then
    c12.SetMetric "success_rate"
      (metricFloat (((c.CacheHits + c.CacheWrites : Int) : Rat) / (total : Rat)))
  else c12

/-- Translation of `Cache.HandleEvent`; `none` when the eviction loop of a write does not end
within `fuel` iterations, and the error result of the source is always `nil`. -/
def Cache.HandleEvent (c : Cache) (rt : Runtime) (fuel : Nat) (event : Event) :
    Option (Cache × List Event) :=
  if event.Kind = DatabaseRead then
    let r := c.handleCacheRead rt event
    some (r.1.updateMetrics event, r.2)
  else if event.Kind = DatabaseWrite then
    match c.handleCacheWrite rt fuel event with
    | none => none
    | some r => some (r.1.updateMetrics event, r.2)
  else some (c, [])

/-- Translation of `Cache.Start`. -/
def Cache.Start (c : Cache) : Cache :=
  ({ c with base := c.base.Start, CurrentSize := 0, CacheHits := 0, CacheMisses := 0,
            CacheWrites := 0, CacheEvictions := 0, OperationsFailed := 0, Entries := [] }).SetState
    StateIdle

/-- Translation of `Cache.Stop`. -/
def Cache.Stop (c : Cache) : Cache :=
  let c1 := c.SetState StateStopped
  { c1 with base := c1.base.Stop }

/-- Translation of `Cache.Validate`: the error message, `none` for a nil error. -/
def Cache.Validate (c : Cache) : Option String :=
  match c.base.Validate with
  | some err => some err
  | none =>
    if c.HitRatio < 0 ∨ c.HitRatio > 1 then some "hit ratio must be between 0 and 1"
    else if c.AccessTime ≤ 0 then some "access time must be positive"
    else if c.FailureRate < 0 ∨ c.FailureRate > 1 then
      some "failure rate must be between 0 and 1"
    else if c.MaxSize ≤ 0 then some "max size must be positive"
    else none

/-- Translation of `Cache.ClearCache`. -/
def Cache.ClearCache (c : Cache) : Cache := { c with Entries := [], CurrentSize := 0 }

/-! ## components/api_gateway.go -/

/-- The struct `Route`. -/
structure Route where
  Path : String
  Method : String
  BackendURL : String
  Timeout : Rat
  RateLimit : Int
  IsEnabled : Bool
  deriving DecidableEq, Repr

/-- The struct `APIGateway`. -/
structure APIGateway where
  base : BaseComponent
  RoutingLatency : Rat
  FailureRate : Rat
  MaxConcurrency : Int
  CurrentLoad : Int
  Routes : List (String × Route)
  RequestsRouted : Int
  RequestsFailed : Int
  RequestsBlocked : Int
  AuthFailures : Int
  RateLimitHits : Int
  RouteStats : List (String × Int)

/-- Translation of `NewAPIGateway`. -/
def NewAPIGateway (id : String) : APIGateway :=
  { base := NewBaseComponent id TypeAPIGateway, RoutingLatency := 2 / 100,
    FailureRate := 1 / 1000, MaxConcurrency := 1000, CurrentLoad := 0, Routes := [],
    RequestsRouted := 0, RequestsFailed := 0, RequestsBlocked := 0, AuthFailures := 0,
    RateLimitHits := 0, RouteStats := [] }

/-- Translation of `GetID` through the embedded base. -/
def APIGateway.GetID (ag : APIGateway) : String := ag.base.ID

/-- Translation of `SetState` through the embedded base. -/
def APIGateway.SetState (ag : APIGateway) (state : ComponentState) : APIGateway :=
  { ag with base := ag.base.SetState state }

/-- Translation of `SetMetric` through the embedded base. -/
def APIGateway.SetMetric (ag : APIGateway) (key : String) (value : PropValue) : APIGateway :=
  { ag with base := ag.base.SetMetric key value }

/-- The route key `fmt.Sprintf("%s:%s", method, path)`. -/
def routeKeyOf (method path : String) : String := method ++ ":" ++ path

/-- Translation of `APIGateway.handleAPIRequest`. -/
def APIGateway.handleAPIRequest (ag : APIGateway) (rt : Runtime) (event : Event) :
    APIGateway × List Event :=
  if ag.CurrentLoad ≥ ag.MaxConcurrency then
    let failEvent := rt.newEvent 0 "gateway_overload" ag.GetID event.Timestamp RequestFailed
      ag.GetID
      [("reason", Value.str "gateway_overloaded"),
       ("request_id", (event.GetDataValue "request_id").1)]
    ({ ag with RequestsBlocked := ag.RequestsBlocked + 1 }, [failEvent])
  else
    let path := (event.GetDataValue "path").1
    let method := (event.GetDataValue "method").1
    let pathStr := path.format rt
    let methodStr := method.format rt
    let routeKey := routeKeyOf methodStr pathStr
    match (ag.Routes.lookup routeKey).filter (fun route => route.IsEnabled) with
    | none =>
      let failEvent := rt.newEvent 0 "route_not_found" ag.GetID event.Timestamp RequestFailed
        ag.GetID
        [("reason", Value.str "route_not_found"), ("path", Value.str pathStr),
         ("method", Value.str methodStr), ("request_id", (event.GetDataValue "request_id").1)]
      ({ ag with RequestsFailed := ag.RequestsFailed + 1 }, [failEvent])
    | some route =>
      if rt.Float64 0 < 1 / 10 then
        let authFailEvent := rt.newEvent 0 "auth_fail" ag.GetID event.Timestamp RequestFailed
          ag.GetID
          [("reason", Value.str "authentication_failed"), ("path", Value.str pathStr),
           ("method", Value.str methodStr), ("request_id", (event.GetDataValue "request_id").1)]
        ({ ag with AuthFailures := ag.AuthFailures + 1 }, [authFailEvent])
      else if rt.Float64 1 < 5 / 100 then
        let rateLimitEvent := rt.newEvent 0 "rate_limit" ag.GetID event.Timestamp RequestFailed
          ag.GetID
          [("reason", Value.str "rate_limit_exceeded"), ("path", Value.str pathStr),
           ("method", Value.str methodStr), ("rate_limit", Value.int route.RateLimit),
           ("request_id", (event.GetDataValue "request_id").1)]
        ({ ag with RateLimitHits := ag.RateLimitHits + 1 }, [rateLimitEvent])
      else if rt.Float64 2 < ag.FailureRate then
        let failEvent := rt.newEvent 0 "gateway_fail" ag.GetID event.Timestamp RequestFailed
          ag.GetID
          [("reason", Value.str "gateway_error"), ("path", Value.str pathStr),
           ("method", Value.str methodStr), ("request_id", (event.GetDataValue "request_id").1)]
        ({ ag with RequestsFailed := ag.RequestsFailed + 1 }, [failEvent])
      else
        let ag1 := ({ ag with CurrentLoad := ag.CurrentLoad + 1 }).SetState StateProcessing
        let routedEvent := rt.newEvent 0 "routed" ag1.GetID
          (event.Timestamp + ag1.RoutingLatency) RequestProcessed route.BackendURL
          [("request_id", (event.GetDataValue "request_id").1), ("path", Value.str pathStr),
           ("method", Value.str methodStr), ("backend_url", Value.str route.BackendURL),
           ("routing_latency", Value.float ag1.RoutingLatency),
           ("timeout", Value.float route.Timeout)]
        ({ ag1 with RequestsRouted := ag1.RequestsRouted + 1,
                    RouteStats := mapSet ag1.RouteStats routeKey
                      (((ag1.RouteStats.lookup routeKey).getD 0) + 1) }, [routedEvent])

/-- Translation of `APIGateway.handleRequestCompletion`. -/
def APIGateway.handleRequestCompletion (ag : APIGateway) (rt : Runtime) (event : Event) :
    APIGateway × List Event :=
  let ag1 := { ag with CurrentLoad := ag.CurrentLoad - 1 }
  let ag2 := if ag1.CurrentLoad = 0 then ag1.SetState StateIdle else ag1
  let completedEvent := rt.newEvent 0 "completed" ag2.GetID event.Timestamp RequestCompleted
    ag2.GetID
    [("request_id", (event.GetDataValue "request_id").1),
     ("backend_url", (event.GetDataValue "backend_url").1),
     ("routing_latency", (event.GetDataValue "routing_latency").1)]
  (ag2, [completedEvent])

/-- Translation of `APIGateway.updateMetrics`. -/
def APIGateway.updateMetrics (ag : APIGateway) (_event : Event) : APIGateway :=
  let a1 := ag.SetMetric "current_load" (metricInt ag.CurrentLoad)
  let a2 := a1.SetMetric "requests_routed" (metricInt ag.RequestsRouted)
  let a3 := a2.SetMetric "requests_failed" (metricInt ag.RequestsFailed)
  let a4 := a3.SetMetric "requests_blocked" (metricInt ag.RequestsBlocked)
  let a5 := a4.SetMetric "auth_failures" (metricInt ag.AuthFailures)
  let a6 := a5.SetMetric "rate_limit_hits" (metricInt ag.RateLimitHits)
  let a7 := a6.SetMetric "routing_latency" (metricFloat ag.RoutingLatency)
  let a8 := a7.SetMetric "failure_rate" (metricFloat ag.FailureRate)
  let a9 := a8.SetMetric "max_concurrency" (metricInt ag.MaxConcurrency)
  let a10 := a9.SetMetric "routes_count" (metricInt ag.Routes.length)
  let total := ag.RequestsRouted + ag.RequestsFailed + ag.RequestsBlocked + ag.AuthFailures
    + ag.RateLimitHits
  let a11 := if total > 0 then
      a10.SetMetric "success_rate" (metricFloat ((ag.RequestsRouted : Rat) / (total : Rat)))
    else a10
  let a12 := a11.SetMetric "utilization"
    (metricFloat ((ag.CurrentLoad : Rat) / (ag.MaxConcurrency : Rat)))
  a12.SetMetric "route_stats" (PropValue.map (ag.RouteStats.map (fun p => (p.1, metricInt p.2))))

/-- Translation of `APIGateway.HandleEvent`; the error result of the source is always `nil`. -/
def APIGateway.HandleEvent (ag : APIGateway) (rt : Runtime) (event : Event) :
    APIGateway × List Event :=
  if event.Kind = RequestArrival then
    let r := ag.handleAPIRequest rt event
    (r.1.updateMetrics event, r.2)
  else if event.Kind = RequestProcessed then
    let r := ag.handleRequestCompletion rt event
    (r.1.updateMetrics event, r.2)
  else (ag, [])

/-- Translation of `APIGateway.Start`. -/
def APIGateway.Start (ag : APIGateway) : APIGateway :=
  ({ ag with base := ag.base.Start, CurrentLoad := 0, RequestsRouted := 0, RequestsFailed := 0,
             RequestsBlocked := 0, AuthFailures := 0, RateLimitHits := 0,
             RouteStats := [] }).SetState StateIdle

/-- Translation of `APIGateway.Stop`. -/
def APIGateway.Stop (ag : APIGateway) : APIGateway :=
  let a1 := ag.SetState StateStopped
  { a1 with base := a1.base.Stop }

/-- The checks `Validate` makes on one route. -/
def routeError (routeKey : String) (route : Route) : Option String :=
  if route.Path = "" then some ("route " ++ routeKey ++ " has empty path")
  else if route.Method = "" then some ("route " ++ routeKey ++ " has empty method")
  else if route.BackendURL = "" then some ("route " ++ routeKey ++ " has empty backend URL")
  else if route.Timeout ≤ 0 then some ("route " ++ routeKey ++ " has invalid timeout")
  else if route.RateLimit ≤ 0 then some ("route " ++ routeKey ++ " has invalid rate limit")
  else none

/-- Translation of `APIGateway.Validate`: the error message, `none` for a nil error.  When
several routes are invalid the source reports the one its map traversal meets
first; here that is the first in the association list. -/
def APIGateway.Validate (ag : APIGateway) : Option String :=
  match ag.base.Validate with
  | some err => some err
  | none =>
    if ag.RoutingLatency ≤ 0 then some "routing latency must be positive"
    else if ag.FailureRate < 0 ∨ ag.FailureRate > 1 then
      some "failure rate must be between 0 and 1"
    else if ag.MaxConcurrency ≤ 0 then some "max concurrency must be positive"
    else ag.Routes.findSome? (fun p => routeError p.1 p.2)

/-- Translation of `APIGateway.AddRoute`. -/
def APIGateway.AddRoute (ag : APIGateway) (path method backendURL : String) (timeout : Rat)
    (rateLimit : Int) : APIGateway :=
  { ag with
    Routes := mapSet ag.Routes (routeKeyOf method path)
      { Path := path, Method := method, BackendURL := backendURL, Timeout := timeout,
        RateLimit := rateLimit, IsEnabled := true } }

/-- Translation of `APIGateway.RemoveRoute`. -/
def APIGateway.RemoveRoute (ag : APIGateway) (path method : String) : APIGateway :=
  { ag with Routes := mapDelete ag.Routes (routeKeyOf method path) }

/-- Translation of `APIGateway.EnableRoute`. -/
def APIGateway.EnableRoute (ag : APIGateway) (path method : String) : APIGateway :=
  match ag.Routes.lookup (routeKeyOf method path) with
  | some route =>
    { ag with
      Routes := mapSet ag.Routes (routeKeyOf method path) { route with IsEnabled := true } }
  | none => ag

/-- Translation of `APIGateway.DisableRoute`. -/
def APIGateway.DisableRoute (ag : APIGateway) (path method : String) : APIGateway :=
  match ag.Routes.lookup (routeKeyOf method path) with
  | some route =>
    { ag with
      Routes := mapSet ag.Routes (routeKeyOf method path) { route with IsEnabled := false } }
  | none => ag

/-! ## The six component kinds behind the `Component` interface -/

/-- How a call can end: it returns a value, it panics, or it is still running
when its fuel is used up. -/
inductive Outcome (α : Type) where
  | done (a : α)
  | panicked
  | unfinished

/-- A value of the interface `model.Component`: one of the six concrete kinds. -/
inductive Component where
  | genericService (c : GenericService)
  | database (c : Database)
  | messageQueue (c : MessageQueue)
  | loadBalancer (c : LoadBalancer)
  | cache (c : Cache)
  | apiGateway (c : APIGateway)

/-- The embedded base of a component. -/
def Component.base : Component → BaseComponent
  | Component.genericService c => c.base
  | Component.database c => c.base
  | Component.messageQueue c => c.base
  | Component.loadBalancer c => c.base
  | Component.cache c => c.base
  | Component.apiGateway c => c.base

/-- Translation of `GetID`. -/
def Component.GetID (c : Component) : String := c.base.ID

/-- Translation of `GetType`. -/
def Component.GetType (c : Component) : ComponentType := c.base.Kind

/-- Translation of `GetState`. -/
def Component.GetState (c : Component) : ComponentState := c.base.State

/-- Translation of `Validate` of the concrete kind. -/
def Component.Validate : Component → Option String
  | Component.genericService c => c.Validate
  | Component.database c => c.Validate
  | Component.messageQueue c => c.Validate
  | Component.loadBalancer c => c.Validate
  | Component.cache c => c.Validate
  | Component.apiGateway c => c.Validate

/-- Translation of `Start` of the concrete kind (the error result is always `nil`). -/
def Component.Start : Component → Component
  | Component.genericService c => Component.genericService c.Start
  | Component.database c => Component.database c.Start
  | Component.messageQueue c => Component.messageQueue c.Start
  | Component.loadBalancer c => Component.loadBalancer c.Start
  | Component.cache c => Component.cache c.Start
  | Component.apiGateway c => Component.apiGateway c.Start

/-- Translation of `Stop` of the concrete kind (the error result is always `nil`). -/
def Component.Stop : Component → Component
  | Component.genericService c => Component.genericService c.Stop
  | Component.database c => Component.database c.Stop
  | Component.messageQueue c => Component.messageQueue c.Stop
  | Component.loadBalancer c => Component.loadBalancer c.Stop
  | Component.cache c => Component.cache c.Stop
  | Component.apiGateway c => Component.apiGateway c.Stop

/-- Translation of `HandleEvent` of the concrete kind: the component after the call and the
returned events.  A panic of the load balancer leaves it as it was. -/
def Component.HandleEvent (c : Component) (rt : Runtime) (fuel : Nat) (event : Event) :
    Outcome (Component × List Event) :=
  match c with
  | Component.genericService s =>
    Outcome.done (Component.genericService (s.HandleEvent rt event).1, (s.HandleEvent rt event).2)
  | Component.database s =>
    Outcome.done (Component.database (s.HandleEvent rt event).1, (s.HandleEvent rt event).2)
  | Component.messageQueue s =>
    Outcome.done (Component.messageQueue (s.HandleEvent rt event).1, (s.HandleEvent rt event).2)
  | Component.loadBalancer s =>
    match s.HandleEvent rt event with
    | none => Outcome.panicked
    | some r => Outcome.done (Component.loadBalancer r.1, r.2)
  | Component.cache s =>
    match s.HandleEvent rt fuel event with
    | none => Outcome.unfinished
    | some r => Outcome.done (Component.cache r.1, r.2)
  | Component.apiGateway s =>
    Outcome.done (Component.apiGateway (s.HandleEvent rt event).1, (s.HandleEvent rt event).2)

/-! ## engine/simulation.go -/

/-- The type `SimulationState`: a string. -/
abbrev SimulationState := String

abbrev StateInitialized : SimulationState := "initialized"
abbrev StateRunning : SimulationState := "running"
abbrev StatePaused : SimulationState := "paused"
/-- The constant `StateStopped` of package `engine` (package `model` has a
constant of the same name for components). -/
abbrev SimStateStopped : SimulationState := "stopped"
abbrev StateCompleted : SimulationState := "completed"
abbrev StateError : SimulationState := "error"

/-- The struct `SimulationConfig`. -/
structure SimulationConfig where
  MaxSimulationTime : Rat
  TimeStep : Rat
  RealTimeMode : Bool
  MaxEvents : Int
  LogLevel : String

/-- Translation of `DefaultSimulationConfig`. -/
def DefaultSimulationConfig : SimulationConfig :=
  { MaxSimulationTime := 1000, TimeStep := 1 / 10, RealTimeMode := false, MaxEvents := 10000,
    LogLevel := "INFO" }

/-- The struct `SimulationMetrics`; the two instants are wall-clock nanoseconds,
`0` for the zero `time.Time`. -/
structure SimulationMetrics where
  EventsProcessed : Int
  ComponentsActive : Int
  CurrentTime : Rat
  StartTime : Int
  EndTime : Int
  EventTypeStats : List (String × Int)
  ComponentStats : List (String × Int)
  ErrorCount : Int

/-- The struct `SimulationEngine`.  `cancelled` records whether the `cancel`
function of the engine's context has been called.  The registered handlers and
listeners are code outside the engine; what they do to the engine goes through
its exported methods and is read as calls interleaved with the loop. -/
structure SimulationEngine where
  config : SimulationConfig
  state : SimulationState
  currentTime : Rat
  eventQueue : EventQueue
  components : List (String × Component)
  metrics : SimulationMetrics
  cancelled : Bool

/-- Translation of `NewSimulationEngine`; a nil configuration is replaced by the default one. -/
def NewSimulationEngine (config : Option SimulationConfig) : SimulationEngine :=
  { config := config.getD DefaultSimulationConfig, state := StateInitialized, currentTime := 0,
    eventQueue := NewEventQueue, components := [],
    metrics := { EventsProcessed := 0, ComponentsActive := 0, CurrentTime := 0, StartTime := 0,
                 EndTime := 0, EventTypeStats := [], ComponentStats := [], ErrorCount := 0 },
    cancelled := false }

/-- Translation of `SimulationEngine.ScheduleEvent`: the engine after the call
and the returned error (`none` for nil; the text of the message is shortened). -/
def SimulationEngine.ScheduleEvent (se : SimulationEngine) (event : Event) :
    SimulationEngine × Option String :=
  if event.Timestamp < se.currentTime then
    (se, some "cannot schedule event in the past")
  else ({ se with eventQueue := se.eventQueue.Enqueue event }, none)

/-- The loop of `processEvent` over the events a component returned: each is
passed to `ScheduleEvent`, a refusal is logged and otherwise ignored. -/
def SimulationEngine.scheduleResults (se : SimulationEngine) (resultEvents : List Event) :
    SimulationEngine :=
  resultEvents.foldl (fun s resultEvent => (s.ScheduleEvent resultEvent).1) se

/-- Translation of `SimulationEngine.processEvent`: the target component, when registered,
handles the event and the returned events are scheduled.  None of the six
component kinds ever returns an error, so the call returns nil whenever it
returns. -/
def SimulationEngine.processEvent (se : SimulationEngine) (rt : Runtime) (fuel : Nat)
    (event : Event) : Outcome SimulationEngine :=
  match se.components.lookup event.ComponentID with
  | some component =>
    match component.HandleEvent rt fuel event with
    | Outcome.done r =>
      Outcome.done (({ se with components := mapSet se.components event.ComponentID r.1 }
        ).scheduleResults r.2)
    | Outcome.panicked => Outcome.panicked
    | Outcome.unfinished => Outcome.unfinished
  | none => Outcome.done se

/-- Translation of `SimulationEngine.updateMetrics`. -/
def SimulationEngine.updateMetrics (se : SimulationEngine) (event : Event) : SimulationEngine :=
  { se with metrics := { se.metrics with
      EventsProcessed := se.metrics.EventsProcessed + 1,
      CurrentTime := se.currentTime,
      EventTypeStats := mapSet se.metrics.EventTypeStats event.Kind
        (((se.metrics.EventTypeStats.lookup event.Kind).getD 0) + 1),
      ComponentStats := mapSet se.metrics.ComponentStats event.ComponentID
        (((se.metrics.ComponentStats.lookup event.ComponentID).getD 0) + 1) } }

/-- What one pass through the body of the loop in `runSimulation` leaves behind:
the engine, whether the loop goes on, and the event that was dispatched. -/
structure IterationResult where
  engine : SimulationEngine
  continues : Bool
  dispatched : Option Event

/-- One pass through the body of the `for` loop of `runSimulation`; `now` is the
wall clock read when the run completes.  `none` when the component's
`HandleEvent` does not return within `fuel`.  A panic is recovered by the
deferred function, which sets the state to `error` and ends the loop. -/
def SimulationEngine.runSimulationIteration (se : SimulationEngine) (rt : Runtime) (fuel : Nat)
    (now : Int) : Option IterationResult :=
  if se.cancelled then some { engine := se, continues := false, dispatched := none }
  else if se.state ≠ StateRunning then
    some { engine := se, continues := true, dispatched := none }
  else if se.currentTime ≥ se.config.MaxSimulationTime then
    some { engine := { se with state := StateCompleted,
                               metrics := { se.metrics with EndTime := now } },
           continues := false, dispatched := none }
  else
    match se.eventQueue.Dequeue with
    | (none, q) =>
      some { engine := { se with eventQueue := q,
                                 currentTime := se.currentTime + se.config.TimeStep },
             continues := true, dispatched := none }
    | (some event, q) =>
      let se1 := { se with eventQueue := q, currentTime := event.Timestamp }
      match se1.processEvent rt fuel event with
      | Outcome.unfinished => none
      | Outcome.panicked =>
        some { engine := { se1 with state := StateError }, continues := false,
               dispatched := some event }
      | Outcome.done se2 =>
        let se3 := se2.updateMetrics event
        if se3.metrics.EventsProcessed ≥ se3.config.MaxEvents then
          some { engine := { se3 with state := StateCompleted,
                                      metrics := { se3.metrics with EndTime := now } },
                 continues := false, dispatched := some event }
        else some { engine := se3, continues := true, dispatched := some event }

/-- A step of a run of the engine: one pass of the dispatch loop, or a call of
`ScheduleEvent` by a client, a handler or a listener. -/
inductive EngineAction where
  | iterate (rt : Runtime) (fuel : Nat) (now : Int)
  | schedule (event : Event)

/-- The engine after a sequence of steps and the events dispatched on the way, in
dispatch order; `none` when some pass of the loop does not finish. -/
def runActions : SimulationEngine → List EngineAction → Option (SimulationEngine × List Event)
  | se, [] => some (se, [])
  | se, EngineAction.schedule event :: rest => runActions (se.ScheduleEvent event).1 rest
  | se, EngineAction.iterate rt fuel now :: rest =>
    match se.runSimulationIteration rt fuel now with
    | none => none
    | some r =>
      match runActions r.engine rest with
      | none => none
      | some out => some (out.1, r.dispatched.toList ++ out.2)

/-! ### The heap order on the backing slice -/

instance : Inhabited Event :=
  ⟨{ ID := "", Timestamp := 0, Kind := "", ComponentID := "", Data := [],
     Priority := 0, CreatedAt := 0 }⟩

/-- The event at position `k` of a slice (positions are always inside the slice
where this is used). -/
def itemAt (l : List Event) (k : Nat) : Event := l.getD k default

/-- The heap order on the first `n` positions, for the nodes whose parent is at
position `lo` or later: no node is before its parent `(k - 1) / 2`. -/
def HeapOn (l : List Event) (n lo : Nat) : Prop :=
  ∀ k, 0 < k → k < n → lo ≤ (k - 1) / 2 → keyLE (itemAt l ((k - 1) / 2)) (itemAt l k)

/-- The heap order on a whole slice. -/
def IsHeap (l : List Event) : Prop := HeapOn l l.length 0

/-- Stability of the dequeue order as the specification words it: whenever `x`
is enqueued before `y` and both have the same timestamp and the same priority,
`x` is returned before `y` by the successive `Dequeue` calls. -/
def StableDequeue (es : List Event) : Prop :=
  ∀ x y : Event, List.Sublist [x, y] es → x.Timestamp = y.Timestamp →
    x.Priority = y.Priority →
    List.Sublist [x, y] (dequeueN es.length (enqueueAll NewEventQueue es)).1

/-- A request arrival for component `svc` with the given id, timestamp and
priority, used as concrete input. -/
def arrivalAt (id : String) (t : Rat) (p : Int) : Event :=
  { ID := id, Timestamp := t, Kind := RequestArrival, ComponentID := "svc",
    Data := [], Priority := p, CreatedAt := 0 }

/-- The invariant of the engine that supports the monotone clock: the queue is
heap ordered and no queued event lies before the current virtual time. -/
def EngineInv (se : SimulationEngine) : Prop :=
  IsHeap se.eventQueue.items ∧ ∀ x ∈ se.eventQueue.items, se.currentTime ≤ x.Timestamp

/-- A started engine with the default configuration, used as concrete input. -/
def runningEngine : SimulationEngine :=
  { NewSimulationEngine none with state := StateRunning }

/-- A runtime whose draws are all `1/2` and whose clock stands still, used as
concrete input. -/
def quietRuntime : Runtime :=
  { Float64 := fun _ => 1 / 2, Intn := fun _ => 0, Now := fun _ => 0,
    FormatFloat := fun _ => "", MapOrder := fun _ n => List.range n }

/-- The service after handling a sequence of events one after the other, each
with the runtime values of its call, and the events each call returned. -/
def GenericService.handleAll :
    GenericService → List (Runtime × Event) → GenericService × List (List Event)
  | gs, [] => (gs, [])
  | gs, p :: rest =>
    ((GenericService.handleAll (gs.HandleEvent p.1 p.2).1 rest).1,
     (gs.HandleEvent p.1 p.2).2 :: (GenericService.handleAll (gs.HandleEvent p.1 p.2).1 rest).2)

/-- The result of a call that accepted the request: exactly one event, a
`RequestProcessed`. -/
def isAccepted (out : List Event) : Bool :=
  match out with
  | [ev] => decide (ev.Kind = RequestProcessed)
  | _ => false

/-- The result of a call that rejected the request for overload: exactly one
event, a `RequestFailed` at time `t` whose reason is `service_overloaded`. -/
def isOverloadRejection (t : Rat) (out : List Event) : Bool :=
  match out with
  | [ev] => decide (ev.Kind = RequestFailed ∧ ev.Timestamp = t ∧
      ev.Data.lookup "reason" = some (Value.str "service_overloaded"))
  | _ => false

/-- A `RequestProcessed` event for component `svc`, used as concrete input. -/
def processedAt (id : String) (t : Rat) : Event :=
  { ID := id, Timestamp := t, Kind := RequestProcessed, ComponentID := "svc", Data := [],
    Priority := 0, CreatedAt := 0 }

/-- A generic service with capacity 2 that never fails, used as concrete input. -/
def overloadService : GenericService :=
  { NewGenericService "svc" with ProcessingTime := 1, FailureRate := 0, MaxConcurrency := 2 }

/-- Three arrivals at time 1 with priorities 0, 1 and 2, used as concrete input. -/
def threeArrivals : List (Runtime × Event) :=
  [(quietRuntime, arrivalAt "r1" 1 0), (quietRuntime, arrivalAt "r2" 1 1),
   (quietRuntime, arrivalAt "r3" 1 2)]

/-- Three backends `b1`, `b2`, `b3` with weights 1, 2, 3 and 2, 1, 1 open
connections, all healthy, used as concrete input. -/
def sampleServers : List BackendServer :=
  [{ ID := "b1", Weight := 1, IsHealthy := true, Connections := 2, LastCheck := 0 },
   { ID := "b2", Weight := 2, IsHealthy := true, Connections := 1, LastCheck := 0 },
   { ID := "b3", Weight := 3, IsHealthy := true, Connections := 1, LastCheck := 0 }]

/-- A load balancer over `sampleServers` that never fails to route, with the
given algorithm, used as concrete input. -/
def sampleBalancer (algorithm : LoadBalancingAlgorithm) : LoadBalancer :=
  { NewLoadBalancer "lb" with
    Algorithm := algorithm, FailureRate := 0, BackendServers := sampleServers }

/-- The sum of the weights of the first `i` servers of a list: the value of
`currentWeight` in `selectWeighted` after `i` iterations of its second loop. -/
def cumulativeWeight (healthyServers : List (Nat × BackendServer)) (i : Nat) : Int :=
  ((healthyServers.take i).map (fun server => server.2.Weight)).sum

/-- The runtime `rt` with `rand.Intn` returning `r`. -/
def Runtime.withDraw (rt : Runtime) (r : Int) : Runtime :=
  { rt with Intn := fun _ => r }

/-- The balancer after handling a sequence of events one after the other, each
with the runtime values of its call, and the events each call returned; `none`
when one of the calls panics. -/
def LoadBalancer.handleAll :
    LoadBalancer → List (Runtime × Event) → Option (LoadBalancer × List (List Event))
  | lb, [] => some (lb, [])
  | lb, p :: rest =>
    match lb.HandleEvent p.1 p.2 with
    | none => none
    | some r =>
      match LoadBalancer.handleAll r.1 rest with
      | none => none
      | some out => some (out.1, r.2 :: out.2)

/-- The targets (`ComponentID`) of the `RequestProcessed` events among the events
a sequence of calls returned, in order. -/
def processedTargets (outs : List (List Event)) : List String :=
  (outs.flatten.filter (fun ev => ev.Kind == RequestProcessed)).map (fun ev => ev.ComponentID)

/-- The connection counts of the backends with the given id, added up. -/
def connectionsOf (id : String) (servers : List BackendServer) : Int :=
  ((servers.filter (fun server => server.ID == id)).map (fun server => server.Connections)).sum

/-- The cleanup event the balancer schedules for itself after routing a request
to backend `b1` at time 1, used as concrete input. -/
def cleanupEvent : Event :=
  { ID := "cleanup_lb_0", Timestamp := 2, Kind := RequestCompleted, ComponentID := "lb",
    Data := [("backend_server", Value.str "b1"), ("cleanup", Value.bool true)], Priority := 0,
    CreatedAt := 0 }

/-- The ids of the healthy backends, in list order. -/
def LoadBalancer.healthyIDs (lb : LoadBalancer) : List String :=
  lb.getHealthyServers.map (fun server => server.2.ID)

/-- Six arrivals with the draw `1/2`, used as concrete input. -/
def sixArrivals : List (Runtime × Event) :=
  [(quietRuntime, arrivalAt "r1" 1 0), (quietRuntime, arrivalAt "r2" 1 0),
   (quietRuntime, arrivalAt "r3" 1 0), (quietRuntime, arrivalAt "r4" 1 0),
   (quietRuntime, arrivalAt "r5" 1 0), (quietRuntime, arrivalAt "r6" 1 0)]

/-- The message queue after handling a sequence of events one after the other,
each with the runtime values of its call, and the events each call returned. -/
def MessageQueue.handleAll :
    MessageQueue → List (Runtime × Event) → MessageQueue × List (List Event)
  | mq, [] => (mq, [])
  | mq, p :: rest =>
    ((MessageQueue.handleAll (mq.HandleEvent p.1 p.2).1 rest).1,
     (mq.HandleEvent p.1 p.2).2 :: (MessageQueue.handleAll (mq.HandleEvent p.1 p.2).1 rest).2)

/-- A `MessageEnqueued` event for component `mq` with the given id and
timestamp, used as concrete input. -/
def enqueueAt (id : String) (t : Rat) : Event :=
  { ID := id, Timestamp := t, Kind := MessageEnqueued, ComponentID := "mq",
    Data := [("message_id", Value.str id)], Priority := 0, CreatedAt := 0 }

/-- A `MessageDequeued` event for component `mq`, used as concrete input. -/
def dequeueAt (id : String) (t : Rat) : Event :=
  { ID := id, Timestamp := t, Kind := MessageDequeued, ComponentID := "mq",
    Data := [("message_id", Value.str id)], Priority := 0, CreatedAt := 0 }

/-- A message queue with room for one message, processing time `0.1` and no
failures, used as concrete input. -/
def unitQueue : MessageQueue :=
  { NewMessageQueue "mq" with MaxQueueSize := 1, ProcessingTime := 1 / 10, FailureRate := 0 }

/-- The sizes of the entries of a cache added up. -/
def entriesSize (entries : List (String × CacheEntry)) : Int :=
  (entries.map (fun p => p.2.Size)).sum

/-- The cache after handling a sequence of events one after the other, each with
the runtime values and the iteration bound of its call, and the events each call
returned; `none` when one of the calls does not return within its bound. -/
def Cache.handleAll :
    Cache → List (Runtime × Nat × Event) → Option (Cache × List (List Event))
  | c, [] => some (c, [])
  | c, p :: rest =>
    match c.HandleEvent p.1 p.2.1 p.2.2 with
    | none => none
    | some r =>
      match Cache.handleAll r.1 rest with
      | none => none
      | some out => some (out.1, r.2 :: out.2)

/-- The representation invariant of the cache: the entries are a map (no key
occurs twice) and `CurrentSize` is the sum of the entry sizes. -/
def Cache.SizeInv (c : Cache) : Prop :=
  (c.Entries.map Prod.fst).Nodup ∧ c.CurrentSize = entriesSize c.Entries

/-- A `DatabaseWrite` event for component `c` with the given key, size and
timestamp, used as concrete input. -/
def writeAt (key : String) (size : Int) (t : Rat) : Event :=
  { ID := "w", Timestamp := t, Kind := DatabaseWrite, ComponentID := "c",
    Data := [("key", Value.str key), ("value", Value.str "v"), ("size", Value.int size)],
    Priority := 0, CreatedAt := 0 }

/-- A cache with the given capacity that never fails, used as concrete input. -/
def sampleCache (maxSize : Int) : Cache :=
  { NewCache "c" with MaxSize := maxSize, FailureRate := 0, HitRatio := 1 }

/-- The number of passes of the loop of `evictEntries` on entries listed oldest
first, each pass removing the first of them: the loop runs while its condition
(on the wrapped sum) holds and an entry is left. -/
def evictionCount (currentSize maxSize requiredSpace : Int) : List (String × CacheEntry) → Nat
  | [] => 0
  | p :: rest =>
    if wrapInt64 (currentSize + requiredSpace) > maxSize then
      evictionCount (currentSize - p.2.Size) maxSize requiredSpace rest + 1
    else 0

/-- The cache with the listed entries evicted: they are removed from the map,
their sizes are taken off `CurrentSize` and `CacheEvictions` counts them. -/
def Cache.evicting (c : Cache) (evicted : List (String × CacheEntry)) : Cache :=
  { c with
    Entries := c.Entries.filter (fun p => decide (p.1 ∉ evicted.map Prod.fst)),
    CurrentSize := c.CurrentSize - entriesSize evicted,
    CacheEvictions := c.CacheEvictions + evicted.length }

/-- The entry a write of `writeAt key size t` stores under a new key. -/
def entryAt (key : String) (size : Int) (t : Rat) : CacheEntry :=
  { Key := key, Value := Value.str "v", Size := size, Timestamp := t, AccessCount := 1 }

/-- The writes of keys `A`, `B`, `C`, `D`, each of size 1, at times 1, 2, 3, 4,
used as concrete input. -/
def lruWrites : List (Runtime × Nat × Event) :=
  [(quietRuntime, 3, writeAt "A" 1 1), (quietRuntime, 3, writeAt "B" 1 2),
   (quietRuntime, 3, writeAt "C" 1 3), (quietRuntime, 3, writeAt "D" 1 4)]

/-- The invariant behind the capacity bound: the representation invariant, no
entry of negative size, and `CurrentSize` within `MaxSize`. -/
def Cache.BoundInv (c : Cache) : Prop :=
  c.SizeInv ∧ (∀ p ∈ c.Entries, 0 ≤ p.2.Size) ∧ c.CurrentSize ≤ c.MaxSize

/-- The round-robin balancer over `sampleServers` with its index set to `-1`,
used as concrete input. -/
def negativeIndexBalancer : LoadBalancer :=
  { sampleBalancer RoundRobin with CurrentServerIndex := -1 }

/-- A message queue with room for two messages, processing time `0.1` and no
failures, used as concrete input. -/
def pairQueue : MessageQueue :=
  { NewMessageQueue "mq" with MaxQueueSize := 2, ProcessingTime := 1 / 10, FailureRate := 0 }

/-- The database after handling a sequence of events one after the other, each
with the runtime values of its call, and the events each call returned. -/
def Database.handleAll :
    Database → List (Runtime × Event) → Database × List (List Event)
  | db, [] => (db, [])
  | db, p :: rest =>
    ((Database.handleAll (db.HandleEvent p.1 p.2).1 rest).1,
     (db.HandleEvent p.1 p.2).2 :: (Database.handleAll (db.HandleEvent p.1 p.2).1 rest).2)

/-- A `DatabaseRead`, `DatabaseWrite` or `DatabaseQuery` event for component
`db`, used as concrete input. -/
def databaseOp (kind : EventType) (id : String) (t : Rat) : Event :=
  { ID := id, Timestamp := t, Kind := kind, ComponentID := "db",
    Data := [("request_id", Value.str id)], Priority := 0, CreatedAt := 0 }

/-- A runtime whose draws are all `0` (every failure with a positive rate
fires), used as concrete input. -/
def failingRuntime : Runtime :=
  { quietRuntime with Float64 := fun _ => 0 }

/-- A read, a write that fails, and a query, used as concrete input. -/
def threeOperations : List (Runtime × Event) :=
  [(quietRuntime, databaseOp DatabaseRead "r1" 1),
   (failingRuntime, databaseOp DatabaseWrite "w1" 2),
   (quietRuntime, databaseOp DatabaseQuery "q1" 3)]

/-- The property of a database that the connection claim keeps: no connection
is held and at least one is allowed. -/
def Database.Released (db : Database) : Prop :=
  db.CurrentConnections = 0 ∧ 1 ≤ db.MaxConnections

/-- None of the events carries the reason `connection_limit_exceeded`. -/
def noLimitReason (out : List Event) : Prop :=
  ∀ ev ∈ out, ev.Data.lookup "reason" ≠ some (Value.str "connection_limit_exceeded")

/-- The default gateway `gw` with the route `GET:/a` to backend `X`, timeout 5
and rate limit 100, used as concrete input. -/
def sampleGateway : APIGateway :=
  (NewAPIGateway "gw").AddRoute "/a" "GET" "X" 5 100

/-- A `RequestArrival` for component `gw` with the given method and path, used
as concrete input. -/
def gatewayArrival (method path : String) (t : Rat) : Event :=
  { ID := "req", Timestamp := t, Kind := RequestArrival, ComponentID := "gw",
    Data := [("request_id", Value.str "req"), ("method", Value.str method),
      ("path", Value.str path)],
    Priority := 0, CreatedAt := 0 }

/-- The outcome `route_not_found` of a call of `HandleEvent`: exactly one event
is returned, a `RequestFailed` of the gateway at the timestamp of the arrival
with reason `route_not_found`; `requests_failed` is one larger, `current_load`
and the route counters are as before. -/
def APIGateway.rejectsNotFound (ag : APIGateway) (rt : Runtime) (event : Event) : Prop :=
  (∃ ev, (ag.HandleEvent rt event).2 = [ev] ∧ ev.Kind = RequestFailed ∧
    ev.ComponentID = ag.GetID ∧ ev.Timestamp = event.Timestamp ∧
    ev.Data.lookup "reason" = some (Value.str "route_not_found")) ∧
  (ag.HandleEvent rt event).1.RequestsFailed = ag.RequestsFailed + 1 ∧
  (ag.HandleEvent rt event).1.CurrentLoad = ag.CurrentLoad ∧
  (ag.HandleEvent rt event).1.RouteStats = ag.RouteStats

/-- The default gateway `gw` with one route, registered for method `GET` and
path `:x` with backend `X`, used as concrete input. -/
def colonGateway : APIGateway :=
  (NewAPIGateway "gw").AddRoute ":x" "GET" "X" 5 100

/-! ## `Initialize` of the six components and components/factory.go -/

/-- The index expression `properties[key]` in its comma-ok form, on a property
map that may be `nil`: the value, or `none` when the key does not exist. -/
def propertyAt (properties : Option (List (String × PropValue))) (key : String) :
    Option PropValue :=
  match properties with
  | some ps => ps.lookup key
  | none => none

/-- The type assertion `v.(float64)`: the value when `v` holds a `float64`. -/
def assertFloat : PropValue → Option Rat
  | PropValue.scalar (Value.float r) => some r
  | _ => none

/-- The type assertion `v.(string)`. -/
def assertString : PropValue → Option String
  | PropValue.scalar (Value.str s) => some s
  | _ => none

/-- The type assertion `v.(bool)`. -/
def assertBool : PropValue → Option Bool
  | PropValue.scalar (Value.bool b) => some b
  | _ => none

/-- The integer truncation of a number: the fraction is discarded (rounding
toward zero). -/
def truncateFloat (r : Rat) : Int := Int.tdiv r.num r.den

/-- The conversion `int(f)` of a `float64`: the truncation toward zero when it
fits the 64-bit `int`.  For a value outside that range the language leaves the
result to the implementation; the conversion instruction of the amd64 compiler
gives the smallest `int`, which is the value taken here. -/
def floatToInt (r : Rat) : Int :=
  if minInt ≤ truncateFloat r ∧ truncateFloat r ≤ maxInt then truncateFloat r else minInt

/-- A property map with a concurrency limit of `1e19`, used as concrete input. -/
def hugeConcurrency : List (String × PropValue) :=
  [("max_concurrency", PropValue.scalar (Value.float 10000000000000000000))]

/-- Translation of `GenericService.Initialize`: the service after the call and
the returned error.  The embedded `Initialize` always returns a `nil` error, so
the early return on its error is never taken. -/
def GenericService.Initialize (gs : GenericService)
    (properties : Option (List (String × PropValue))) : GenericService × Option String :=
  let g0 := { gs with base := gs.base.Initialize properties }
  let g1 := match (propertyAt properties "processing_time").bind assertFloat with
    | some ptFloat => { g0 with ProcessingTime := ptFloat }
    | none => g0
  let g2 := match (propertyAt properties "failure_rate").bind assertFloat with
    | some frFloat => { g1 with FailureRate := frFloat }
    | none => g1
  let g3 := match (propertyAt properties "max_concurrency").bind assertFloat with
    | some mcInt => { g2 with MaxConcurrency := floatToInt mcInt }
    | none => g2
  (g3, none)

/-- Translation of `Database.Initialize`. -/
def Database.Initialize (db : Database) (properties : Option (List (String × PropValue))) :
    Database × Option String :=
  let d0 := { db with base := db.base.Initialize properties }
  let d1 := match (propertyAt properties "read_latency").bind assertFloat with
    | some rlFloat => { d0 with ReadLatency := rlFloat }
    | none => d0
  let d2 := match (propertyAt properties "write_latency").bind assertFloat with
    | some wlFloat => { d1 with WriteLatency := wlFloat }
    | none => d1
  let d3 := match (propertyAt properties "query_latency").bind assertFloat with
    | some qlFloat => { d2 with QueryLatency := qlFloat }
    | none => d2
  let d4 := match (propertyAt properties "failure_rate").bind assertFloat with
    | some frFloat => { d3 with FailureRate := frFloat }
    | none => d3
  let d5 := match (propertyAt properties "max_connections").bind assertFloat with
    | some mcInt => { d4 with MaxConnections := floatToInt mcInt }
    | none => d4
  (d5, none)

/-- Translation of `MessageQueue.Initialize`. -/
def MessageQueue.Initialize (mq : MessageQueue)
    (properties : Option (List (String × PropValue))) : MessageQueue × Option String :=
  let m0 := { mq with base := mq.base.Initialize properties }
  let m1 := match (propertyAt properties "processing_time").bind assertFloat with
    | some ptFloat => { m0 with ProcessingTime := ptFloat }
    | none => m0
  let m2 := match (propertyAt properties "failure_rate").bind assertFloat with
    | some frFloat => { m1 with FailureRate := frFloat }
    | none => m1
  let m3 := match (propertyAt properties "max_queue_size").bind assertFloat with
    | some mqsInt => { m2 with MaxQueueSize := floatToInt mqsInt }
    | none => m2
  (m3, none)

/-- The struct literal of the loop of `LoadBalancer.Initialize`: the backend a
server map describes; `none` when one of the single-value type assertions
`serverMap["id"].(string)`, `serverMap["weight"].(float64)` panics. -/
def parseBackendServer (serverMap : List (String × PropValue)) : Option BackendServer :=
  match (serverMap.lookup "id").bind assertString,
      (serverMap.lookup "weight").bind assertFloat with
  | some id, some weight =>
    some { ID := id, Weight := floatToInt weight, IsHealthy := true, Connections := 0,
           LastCheck := 0 }
  | _, _ => none

/-- The loop of `LoadBalancer.Initialize` over the server list: every element
that is a map is appended as a backend, every other element is skipped; `none`
when the loop panics. -/
def LoadBalancer.appendServers (lb : LoadBalancer) : List PropValue → Option LoadBalancer
  | [] => some lb
  | server :: rest =>
    match server with
    | PropValue.map serverMap =>
      match parseBackendServer serverMap with
      | none => none
      | some backendServer =>
        LoadBalancer.appendServers
          { lb with BackendServers := lb.BackendServers ++ [backendServer] } rest
    | _ => LoadBalancer.appendServers lb rest

/-- The assignments of `LoadBalancer.Initialize` before its loop. -/
def LoadBalancer.initializeFields (lb : LoadBalancer)
    (properties : Option (List (String × PropValue))) : LoadBalancer :=
  let l0 := { lb with base := lb.base.Initialize properties }
  let l1 := match (propertyAt properties "algorithm").bind assertString with
    | some algoStr => { l0 with Algorithm := algoStr }
    | none => l0
  let l2 := match (propertyAt properties "health_check_interval").bind assertFloat with
    | some hciFloat => { l1 with HealthCheckInterval := hciFloat }
    | none => l1
  let l3 := match (propertyAt properties "routing_latency").bind assertFloat with
    | some rlFloat => { l2 with RoutingLatency := rlFloat }
    | none => l2
  match (propertyAt properties "failure_rate").bind assertFloat with
    | some frFloat => { l3 with FailureRate := frFloat }
    | none => l3

/-- Translation of `LoadBalancer.Initialize`: the balancer after the call and
the returned error; `none` when the call panics. -/
def LoadBalancer.Initialize (lb : LoadBalancer)
    (properties : Option (List (String × PropValue))) :
    Option (LoadBalancer × Option String) :=
  let l4 := lb.initializeFields properties
  match propertyAt properties "backend_servers" with
  | some (PropValue.list serverList) =>
    match l4.appendServers serverList with
    | none => none
    | some l5 => some (l5, none)
  | _ => some (l4, none)

/-- Translation of `Cache.Initialize`. -/
def Cache.Initialize (c : Cache) (properties : Option (List (String × PropValue))) :
    Cache × Option String :=
  let c0 := { c with base := c.base.Initialize properties }
  let c1 := match (propertyAt properties "hit_ratio").bind assertFloat with
    | some hrFloat => { c0 with HitRatio := hrFloat }
    | none => c0
  let c2 := match (propertyAt properties "access_time").bind assertFloat with
    | some atFloat => { c1 with AccessTime := atFloat }
    | none => c1
  let c3 := match (propertyAt properties "failure_rate").bind assertFloat with
    | some frFloat => { c2 with FailureRate := frFloat }
    | none => c2
  let c4 := match (propertyAt properties "max_size").bind assertFloat with
    | some msInt => { c3 with MaxSize := floatToInt msInt }
    | none => c3
  (c4, none)

/-- The struct literal of the loop of `APIGateway.Initialize`: the route a route
map describes; `none` when one of its single-value type assertions panics. -/
def parseRoute (routeMap : List (String × PropValue)) : Option Route :=
  match (routeMap.lookup "path").bind assertString,
      (routeMap.lookup "method").bind assertString,
      (routeMap.lookup "backend_url").bind assertString,
      (routeMap.lookup "timeout").bind assertFloat,
      (routeMap.lookup "rate_limit").bind assertFloat,
      (routeMap.lookup "is_enabled").bind assertBool with
  | some path, some method, some backendURL, some timeout, some rateLimit, some isEnabled =>
    some { Path := path, Method := method, BackendURL := backendURL, Timeout := timeout,
           RateLimit := floatToInt rateLimit, IsEnabled := isEnabled }
  | _, _, _, _, _, _ => none

/-- The loop of `APIGateway.Initialize` over the route list: every element that
is a map is stored under its route key, every other element is skipped; `none`
when the loop panics. -/
def APIGateway.addRoutes (ag : APIGateway) : List PropValue → Option APIGateway
  | [] => some ag
  | route :: rest =>
    match route with
    | PropValue.map routeMap =>
      match parseRoute routeMap with
      | none => none
      | some routeObj =>
        let routeKey := routeKeyOf routeObj.Method routeObj.Path
        APIGateway.addRoutes { ag with Routes := mapSet ag.Routes routeKey routeObj } rest
    | _ => APIGateway.addRoutes ag rest

/-- The assignments of `APIGateway.Initialize` before its loop. -/
def APIGateway.initializeFields (ag : APIGateway)
    (properties : Option (List (String × PropValue))) : APIGateway :=
  let a0 := { ag with base := ag.base.Initialize properties }
  let a1 := match (propertyAt properties "routing_latency").bind assertFloat with
    | some rlFloat => { a0 with RoutingLatency := rlFloat }
    | none => a0
  let a2 := match (propertyAt properties "failure_rate").bind assertFloat with
    | some frFloat => { a1 with FailureRate := frFloat }
    | none => a1
  match (propertyAt properties "max_concurrency").bind assertFloat with
    | some mcInt => { a2 with MaxConcurrency := floatToInt mcInt }
    | none => a2

/-- Translation of `APIGateway.Initialize`: the gateway after the call and the
returned error; `none` when the call panics. -/
def APIGateway.Initialize (ag : APIGateway) (properties : Option (List (String × PropValue))) :
    Option (APIGateway × Option String) :=
  let a3 := ag.initializeFields properties
  match propertyAt properties "routes" with
  | some (PropValue.list routeList) =>
    match a3.addRoutes routeList with
    | none => none
    | some a4 => some (a4, none)
  | _ => some (a3, none)

/-- Translation of `GetProperties` through the embedded base. -/
def Component.GetProperties (c : Component) : List (String × PropValue) := c.base.Properties

/-- Translation of `Initialize` of the concrete kind: the component after the
call and the returned error. -/
def Component.Initialize (c : Component) (properties : Option (List (String × PropValue))) :
    Outcome (Component × Option String) :=
  match c with
  | Component.genericService s =>
    Outcome.done (Component.genericService (s.Initialize properties).1,
      (s.Initialize properties).2)
  | Component.database s =>
    Outcome.done (Component.database (s.Initialize properties).1, (s.Initialize properties).2)
  | Component.messageQueue s =>
    Outcome.done (Component.messageQueue (s.Initialize properties).1,
      (s.Initialize properties).2)
  | Component.loadBalancer s =>
    match s.Initialize properties with
    | none => Outcome.panicked
    | some r => Outcome.done (Component.loadBalancer r.1, r.2)
  | Component.cache s =>
    Outcome.done (Component.cache (s.Initialize properties).1, (s.Initialize properties).2)
  | Component.apiGateway s =>
    match s.Initialize properties with
    | none => Outcome.panicked
    | some r => Outcome.done (Component.apiGateway r.1, r.2)

/-- Translation of `DefaultComponentFactory.GetSupportedTypes`. -/
def GetSupportedTypes : List ComponentType :=
  [TypeGenericService, TypeDatabase, TypeMessageQueue, TypeLoadBalancer, TypeCache,
   TypeAPIGateway]

/-- The `switch` of `CreateComponent`: the constructor of the kind, `none` in the
`default` case. -/
def constructComponent (componentType : ComponentType) (id : String) : Option Component :=
  if componentType = TypeGenericService then some (Component.genericService (NewGenericService id))
  else if componentType = TypeDatabase then some (Component.database (NewDatabase id))
  else if componentType = TypeMessageQueue then some (Component.messageQueue (NewMessageQueue id))
  else if componentType = TypeLoadBalancer then some (Component.loadBalancer (NewLoadBalancer id))
  else if componentType = TypeCache then some (Component.cache (NewCache id))
  else if componentType = TypeAPIGateway then some (Component.apiGateway (NewAPIGateway id))
  else none

/-- The block of `CreateComponent` that validates the component and returns. -/
def validateCreated (component : Component) : Except String Component :=
  match component.Validate with
  | some err => Except.error ("component validation failed: " ++ err)
  | none => Except.ok component

/-- Translation of `DefaultComponentFactory.CreateComponent` (the factory has no
state): `Except.ok` with the component for a `nil` error, `Except.error` with the
message when no component is returned; `Outcome.panicked` when `Initialize`
panics. -/
def CreateComponent (componentType : ComponentType) (id : String)
    (properties : Option (List (String × PropValue))) : Outcome (Except String Component) :=
  match constructComponent componentType id with
  | none => Outcome.done (Except.error ("unsupported component type: " ++ componentType))
  | some component =>
    match properties with
    | none => Outcome.done (validateCreated component)
    | some ps =>
      match component.Initialize (some ps) with
      | Outcome.done (initialized, none) => Outcome.done (validateCreated initialized)
      | Outcome.done (_, some err) =>
        Outcome.done (Except.error ("failed to initialize component: " ++ err))
      | Outcome.panicked => Outcome.panicked
      | Outcome.unfinished => Outcome.unfinished

/-- The property map of `TestGenericServiceInitialization`, used as concrete
input. -/
def testProperties : List (String × PropValue) :=
  [("processing_time", PropValue.scalar (Value.float (5 / 2))),
   ("failure_rate", PropValue.scalar (Value.float (5 / 100))),
   ("max_concurrency", PropValue.scalar (Value.float 20))]

/-- The property map of `TestComponentFactory`, used as concrete input. -/
def factoryProperties : List (String × PropValue) :=
  [("processing_time", PropValue.scalar (Value.float 2)),
   ("failure_rate", PropValue.scalar (Value.float (1 / 100))),
   ("max_concurrency", PropValue.scalar (Value.float 50))]

/-- The scalar settings of a component: the keys `Initialize` reads into a
field, each with the value the field holds. -/
def Component.settings : Component → List (String × Value)
  | Component.genericService s =>
    [("processing_time", Value.float s.ProcessingTime),
     ("failure_rate", Value.float s.FailureRate),
     ("max_concurrency", Value.int s.MaxConcurrency)]
  | Component.database s =>
    [("read_latency", Value.float s.ReadLatency), ("write_latency", Value.float s.WriteLatency),
     ("query_latency", Value.float s.QueryLatency), ("failure_rate", Value.float s.FailureRate),
     ("max_connections", Value.int s.MaxConnections)]
  | Component.messageQueue s =>
    [("processing_time", Value.float s.ProcessingTime),
     ("failure_rate", Value.float s.FailureRate),
     ("max_queue_size", Value.int s.MaxQueueSize)]
  | Component.loadBalancer s =>
    [("algorithm", Value.str s.Algorithm),
     ("health_check_interval", Value.float s.HealthCheckInterval),
     ("routing_latency", Value.float s.RoutingLatency),
     ("failure_rate", Value.float s.FailureRate)]
  | Component.cache s =>
    [("hit_ratio", Value.float s.HitRatio), ("access_time", Value.float s.AccessTime),
     ("failure_rate", Value.float s.FailureRate), ("max_size", Value.int s.MaxSize)]
  | Component.apiGateway s =>
    [("routing_latency", Value.float s.RoutingLatency),
     ("failure_rate", Value.float s.FailureRate),
     ("max_concurrency", Value.int s.MaxConcurrency)]

/-- The backends of a load balancer and the routes of a gateway: what
`Initialize` fills from the keys `backend_servers` and `routes`. -/
def Component.collections : Component → List BackendServer × List (String × Route)
  | Component.loadBalancer s => (s.BackendServers, [])
  | Component.apiGateway s => ([], s.Routes)
  | _ => ([], [])

/-- Whether a value has the type `Initialize` reads for a scalar key: a string
for `algorithm`, a `float64` for every other key. -/
def acceptedType (key : String) (v : PropValue) : Bool :=
  if key = "algorithm" then (assertString v).isSome else (assertFloat v).isSome

/-- The inputs on which `Initialize` panics: a load balancer given a list under
`backend_servers`, or a gateway given a list under `routes`, one of whose
elements is a map with a missing or mistyped field. -/
def Component.initializePanics (c : Component)
    (properties : Option (List (String × PropValue))) : Prop :=
  match c with
  | Component.loadBalancer _ =>
    ∃ serverList serverMap,
      propertyAt properties "backend_servers" = some (PropValue.list serverList) ∧
      PropValue.map serverMap ∈ serverList ∧ parseBackendServer serverMap = none
  | Component.apiGateway _ =>
    ∃ routeList routeMap,
      propertyAt properties "routes" = some (PropValue.list routeList) ∧
      PropValue.map routeMap ∈ routeList ∧ parseRoute routeMap = none
  | _ => False

/-- A property map with an unknown key (`colour`), a string under
`processing_time` and an `int` under `failure_rate`, used as concrete input. -/
def badProperties : List (String × PropValue) :=
  [("colour", PropValue.scalar (Value.str "red")),
   ("processing_time", PropValue.scalar (Value.str "fast")),
   ("failure_rate", PropValue.scalar (Value.int 0))]

/-- The component accepts the property map and ignores it: `Initialize` returns
a `nil` error, the map is stored as the property map and every setting keeps the
value it had. -/
def Component.acceptsUnchanged (c : Component) (P : List (String × PropValue)) : Prop :=
  ∃ c', c.Initialize (some P) = Outcome.done (c', none) ∧ c'.GetProperties = P ∧
    c'.settings = c.settings

/-- A `DatabaseRead` event for component `c` with the given key and timestamp,
used as concrete input. -/
def readAt (key : String) (t : Rat) : Event :=
  { ID := "r", Timestamp := t, Kind := DatabaseRead, ComponentID := "c",
    Data := [("key", Value.str key), ("request_id", Value.str "req-123")],
    Priority := 0, CreatedAt := 0 }

/-- The loop that calls `Dequeue` until it returns `nil`: the events returned
before the first `nil`, in call order, and the queue after the call that
returned `nil`; `none` when `fuel` calls have not reached a `nil`. -/
def drain : Nat → EventQueue → Option (List Event × EventQueue)
  | 0, _ => none
  | fuel + 1, eq =>
    match eq.Dequeue with
    | (none, eq1) => some ([], eq1)
    | (some e, eq1) =>
      match drain fuel eq1 with
      | none => none
      | some r => some (e :: r.1, r.2)

/-- A full cache of capacity 2 that never fails, holding an entry of size 1
under the empty key (written at time 1) and one under `B` (written at time 2),
used as concrete input. -/
def emptyKeyCache : Cache :=
  { sampleCache 2 with
    Entries := [("", entryAt "" 1 1), ("B", entryAt "B" 1 2)], CurrentSize := 2 }

/-! ## engine/simulation.go: the control calls -/

/-- Translation of `SimulationEngine.AddComponent`: the engine after the call and
the returned error. -/
def SimulationEngine.AddComponent (se : SimulationEngine) (component : Component) :
    SimulationEngine × Option String :=
  if se.state = StateRunning then
    (se, some "cannot add components while simulation is running")
  else
    match component.Validate with
    | some err => (se, some ("component validation failed: " ++ err))
    | none => ({ se with components := mapSet se.components component.GetID component }, none)

/-- Translation of `SimulationEngine.Start`; `now` is the wall clock.  No
component's `Start` returns an error, so the loop over the components runs to
its end.  The goroutine the call launches is the dispatch loop, whose passes are
`runSimulationIteration`. -/
def SimulationEngine.Start (se : SimulationEngine) (now : Int) :
    SimulationEngine × Option String :=
  if se.state = StateRunning then (se, some "simulation is already running")
  else
    ({ se with components := se.components.map (fun p => (p.1, p.2.Start)),
               state := StateRunning,
               metrics := { se.metrics with StartTime := now,
                                            ComponentsActive := se.components.length } },
     none)

/-- Translation of `SimulationEngine.Stop`: the context is cancelled, the state
becomes `stopped` and every component is stopped. -/
def SimulationEngine.Stop (se : SimulationEngine) (now : Int) :
    SimulationEngine × Option String :=
  if se.state ≠ StateRunning ∧ se.state ≠ StatePaused then
    (se, some "simulation is not running")
  else
    ({ se with cancelled := true, state := SimStateStopped,
               metrics := { se.metrics with EndTime := now },
               components := se.components.map (fun p => (p.1, p.2.Stop)) }, none)

/-- Translation of `SimulationEngine.Pause`. -/
def SimulationEngine.Pause (se : SimulationEngine) : SimulationEngine × Option String :=
  if se.state ≠ StateRunning then (se, some "simulation is not running")
  else ({ se with state := StatePaused }, none)

/-- Translation of `SimulationEngine.Resume`. -/
def SimulationEngine.Resume (se : SimulationEngine) : SimulationEngine × Option String :=
  if se.state ≠ StatePaused then (se, some "simulation is not paused")
  else ({ se with state := StateRunning }, none)

/-- Translation of `SimulationEngine.Reset`. -/
def SimulationEngine.Reset (se : SimulationEngine) : SimulationEngine × Option String :=
  if se.state = StateRunning then (se, some "cannot reset while simulation is running")
  else
    ({ se with currentTime := 0, state := StateInitialized,
               eventQueue := se.eventQueue.Clear,
               metrics := { se.metrics with EventsProcessed := 0, CurrentTime := 0,
                                            ErrorCount := 0, EventTypeStats := [],
                                            ComponentStats := [] },
               components := se.components.map (fun p => (p.1, p.2.Stop)) }, none)

/-- Translation of `SimulationEngine.GetMetrics`: a copy of the metrics with the
engine's virtual time as `CurrentTime`. -/
def SimulationEngine.GetMetrics (se : SimulationEngine) : SimulationMetrics :=
  { se.metrics with CurrentTime := se.currentTime }

/-- A call on the engine after it was stopped, or one pass of a dispatch loop
(of the goroutine of any `Start`). -/
inductive ControlCall where
  | reset
  | start (now : Int)
  | schedule (event : Event)
  | pause
  | resume
  | loopPass (rt : Runtime) (fuel : Nat) (now : Int)

/-- The engine after a sequence of calls and loop passes, and the events the
passes dispatched; `none` when a pass does not finish. -/
def runCalls : SimulationEngine → List ControlCall → Option (SimulationEngine × List Event)
  | se, [] => some (se, [])
  | se, ControlCall.reset :: rest => runCalls se.Reset.1 rest
  | se, ControlCall.start now :: rest => runCalls (se.Start now).1 rest
  | se, ControlCall.schedule event :: rest => runCalls (se.ScheduleEvent event).1 rest
  | se, ControlCall.pause :: rest => runCalls se.Pause.1 rest
  | se, ControlCall.resume :: rest => runCalls se.Resume.1 rest
  | se, ControlCall.loopPass rt fuel now :: rest =>
    match se.runSimulationIteration rt fuel now with
    | none => none
    | some r =>
      match runCalls r.engine rest with
      | none => none
      | some out => some (out.1, r.dispatched.toList ++ out.2)

/-- An engine with one registered generic service `svc`, used as concrete
input. -/
def serviceEngine : SimulationEngine :=
  ((NewSimulationEngine none).AddComponent
    (Component.genericService (NewGenericService "svc"))).1


/-- The engine `serviceEngine` after `Start` at wall-clock time 5 and `Stop` at
wall-clock time 9. -/
def stoppedServiceEngine : SimulationEngine := ((serviceEngine.Start 5).1.Stop 9).1

/-- Whether a call is a call of a client, as opposed to a pass of the loop. -/
def ControlCall.isClient : ControlCall → Bool
  | ControlCall.loopPass _ _ _ => false
  | _ => true

/-- A sequence of calls after `Stop`, used as concrete input: reset, start,
schedule an arrival at time 1, loop passes, pause and resume. -/
def sampleCalls : List ControlCall :=
  [ControlCall.reset, ControlCall.start 3, ControlCall.schedule (arrivalAt "a" 1 0),
   ControlCall.loopPass quietRuntime 10 4, ControlCall.pause, ControlCall.resume,
   ControlCall.loopPass quietRuntime 10 5]

/-! ## engine/priority_queue.go: the queue with its lock

The calls of one goroutine on the queue's `sync.RWMutex`.  The state of the
mutex records what that goroutine holds; a call that waits for a lock the same
goroutine holds, or unlocks a mutex that is not locked, does not return. -/

/-- The state of a `sync.RWMutex`: whether the write lock is held and the number
of read locks held. -/
structure RWMutex where
  writer : Bool
  readers : Nat
  deriving DecidableEq, Repr

/-- The zero value of `sync.RWMutex`: an unlocked mutex. -/
def RWMutex.free : RWMutex := { writer := false, readers := 0 }

/-- The method `RWMutex.Lock`: waits until no lock is held; `none` when a lock is
held, since no other goroutine is there to release it. -/
def RWMutex.Lock (m : RWMutex) : Option RWMutex :=
  if m.writer = true ∨ m.readers ≠ 0 then none else some { m with writer := true }

/-- The method `RWMutex.Unlock`: a fatal error when the write lock is not held. -/
def RWMutex.Unlock (m : RWMutex) : Option RWMutex :=
  if m.writer = true then some { m with writer := false } else none

/-- The method `RWMutex.RLock`: waits while the write lock is held. -/
def RWMutex.RLock (m : RWMutex) : Option RWMutex :=
  if m.writer = true then none else some { m with readers := m.readers + 1 }

/-- The method `RWMutex.RUnlock`: a fatal error when no read lock is held. -/
def RWMutex.RUnlock (m : RWMutex) : Option RWMutex :=
  if m.readers = 0 then none else some { m with readers := m.readers - 1 }

/-- The `EventQueue` struct with both of its fields, `items` and `mutex`. -/
structure SyncQueue where
  items : List Event
  mutex : RWMutex
  deriving DecidableEq, Repr

/-- The slice of the queue, as the `EventQueue` of the data path. -/
def SyncQueue.data (eq : SyncQueue) : EventQueue := { items := eq.items }

/-- The pattern `eq.mutex.RLock(); defer eq.mutex.RUnlock(); body`, for a body
that takes no lock itself. -/
def SyncQueue.withRLock {α : Type} (eq : SyncQueue) (body : EventQueue → α) :
    Option (α × SyncQueue) :=
  match eq.mutex.RLock with
  | none => none
  | some m1 =>
    match m1.RUnlock with
    | none => none
    | some m2 => some (body eq.data, { eq with mutex := m2 })

/-- The pattern `eq.mutex.Lock(); defer eq.mutex.Unlock(); body`, for a body
that takes no lock itself. -/
def SyncQueue.withLock {α : Type} (eq : SyncQueue) (body : EventQueue → α × EventQueue) :
    Option (α × SyncQueue) :=
  match eq.mutex.Lock with
  | none => none
  | some m1 =>
    match m1.Unlock with
    | none => none
    | some m2 => some ((body eq.data).1, { items := (body eq.data).2.items, mutex := m2 })

/-- Translation of `EventQueue.Len` with its read lock. -/
def SyncQueue.Len (eq : SyncQueue) : Option (Nat × SyncQueue) :=
  eq.withRLock (fun q => q.Len)

/-- Translation of `EventQueue.Less` with its read lock. -/
def SyncQueue.Less (eq : SyncQueue) (i j : Nat) : Option (Bool × SyncQueue) :=
  eq.withRLock (fun q => q.Less i j)

/-- Translation of `EventQueue.Swap` with its write lock. -/
def SyncQueue.Swap (eq : SyncQueue) (i j : Nat) : Option (Unit × SyncQueue) :=
  eq.withLock (fun q => ((), q.Swap i j))

/-- Translation of `EventQueue.Push` with its write lock. -/
def SyncQueue.Push (eq : SyncQueue) (x : Event) : Option (Unit × SyncQueue) :=
  eq.withLock (fun q => ((), q.Push x))

/-- Translation of `EventQueue.Pop` with its write lock. -/
def SyncQueue.Pop (eq : SyncQueue) : Option (Option Event × SyncQueue) :=
  eq.withLock (fun q => q.Pop)

/-- The loop of `heap.up` on the queue with its lock: `Less` is not called when
`i == j`. -/
def syncHeap.up (q : SyncQueue) (j : Nat) : Option SyncQueue :=
  let i := (j - 1) / 2
  if i = j then some q
  else
    match q.Less j i with
    | none => none
    | some (b, q1) =>
      if b = false then some q1
      else
        match q1.Swap i j with
        | none => none
        | some (_, q2) => syncHeap.up q2 i
termination_by j
decreasing_by omega

/-- The loop of `heap.down` on the queue with its lock; `Less(j2, j1)` is called
only when `j2 < n`. -/
def syncHeap.downLoop (q : SyncQueue) (i n : Nat) : Option (SyncQueue × Nat) :=
  let j1 := 2 * i + 1
  if n ≤ j1 then some (q, i)
  else
    match (if j1 + 1 < n then q.Less (j1 + 1) j1 else some (false, q)) with
    | none => none
    | some (right, q1) =>
      let j := if right = true then j1 + 1 else j1
      match q1.Less j i with
      | none => none
      | some (b, q2) =>
        if b = false then some (q2, i)
        else
          match q2.Swap i j with
          | none => none
          | some (_, q3) => syncHeap.downLoop q3 j n
termination_by n - i
decreasing_by split <;> omega

/-- The function `heap.down` on the queue with its lock. -/
def syncHeap.down (h : SyncQueue) (i0 n : Nat) : Option (SyncQueue × Bool) :=
  match syncHeap.downLoop h i0 n with
  | none => none
  | some r => some (r.1, decide (i0 < r.2))

/-- The loop of `heap.Init` on the queue with its lock. -/
def syncHeap.initLoop (h : SyncQueue) (n : Nat) : Nat → Option SyncQueue
  | 0 => some h
  | k + 1 =>
    match syncHeap.down h k n with
    | none => none
    | some r => syncHeap.initLoop r.1 n k

/-- The function `heap.Init` on the queue with its lock: its first statement is
`n := h.Len()`. -/
def syncHeap.Init (h : SyncQueue) : Option SyncQueue :=
  match h.Len with
  | none => none
  | some (n, h1) => syncHeap.initLoop h1 n (n / 2)

/-- The function `heap.Push` on the queue with its lock. -/
def syncHeap.Push (h : SyncQueue) (x : Event) : Option SyncQueue :=
  match h.Push x with
  | none => none
  | some (_, h1) =>
    match h1.Len with
    | none => none
    | some (n, h2) => syncHeap.up h2 (n - 1)

/-- The function `heap.Pop` on the queue with its lock. -/
def syncHeap.Pop (h : SyncQueue) : Option (Option Event × SyncQueue) :=
  match h.Len with
  | none => none
  | some (len, h1) =>
    let n := len - 1
    match h1.Swap 0 n with
    | none => none
    | some (_, h2) =>
      match syncHeap.down h2 0 n with
      | none => none
      | some r => r.1.Pop

/-- Translation of `EventQueue.Enqueue` with the locks its callees take: the
method itself takes none. -/
def SyncQueue.Enqueue (eq : SyncQueue) (event : Event) : Option SyncQueue :=
  syncHeap.Push eq event

/-- Translation of `EventQueue.Dequeue` with the locks its callees take: the
method itself takes none. -/
def SyncQueue.Dequeue (eq : SyncQueue) : Option (Option Event × SyncQueue) :=
  match eq.Len with
  | none => none
  | some (n, eq1) => if n = 0 then some (none, eq1) else syncHeap.Pop eq1

/-- Translation of `EventQueue.Clear` with its write lock. -/
def SyncQueue.Clear (eq : SyncQueue) : Option (Unit × SyncQueue) :=
  eq.withLock (fun q => ((), q.Clear))

/-- Translation of `EventQueue.RemoveEventsForComponent` with its locks: the
write lock is taken first and released by the deferred `Unlock`, after
`heap.Init(eq)` has run on the filtered slice. -/
def SyncQueue.RemoveEventsForComponent (eq : SyncQueue) (componentID : String) :
    Option (Nat × SyncQueue) :=
  match eq.mutex.Lock with
  | none => none
  | some m1 =>
    let removed := (eq.items.filter (fun e => e.ComponentID == componentID)).length
    let newItems := eq.items.filter (fun e => e.ComponentID != componentID)
    match syncHeap.Init { items := newItems, mutex := m1 } with
    | none => none
    | some eq1 =>
      match eq1.mutex.Unlock with
      | none => none
      | some m2 => some (removed, { eq1 with mutex := m2 })

/-- Translation of `SimulationEngine.RemoveComponent` with the lock of the
queue: `queueMutex` is the state of `se.eventQueue.mutex`.  The engine's own
mutex, which the call holds throughout, is taken by nothing the call runs. -/
def SimulationEngine.RemoveComponentSync (se : SimulationEngine) (queueMutex : RWMutex)
    (componentID : String) : Option ((SimulationEngine × Option String) × RWMutex) :=
  if se.state = StateRunning then
    some ((se, some "cannot remove components while simulation is running"), queueMutex)
  else
    match se.components.lookup componentID with
    | none => some ((se, some ("component " ++ componentID ++ " not found")), queueMutex)
    | some _ =>
      match ({ items := se.eventQueue.items, mutex := queueMutex } :
          SyncQueue).RemoveEventsForComponent componentID with
      | none => none
      | some r =>
        some (({ se with eventQueue := r.2.data,
                         components := mapDelete se.components componentID }, none),
              r.2.mutex)

/-- The engine `serviceEngine` with one arrival for `svc` and one for `db`
queued, used as concrete input. -/
def queuedServiceEngine : SimulationEngine :=
  { serviceEngine with
    eventQueue := (NewEventQueue.Enqueue (arrivalAt "e1" 1 0)).Enqueue
      { arrivalAt "e2" 2 0 with ComponentID := "db" } }

/-! ## components/factory.go: ValidateComponentProperties -/

/-- The check `if v, exists := properties[key]; exists { if f, ok := v.(float64);
!ok || f <= 0 { return error } }`: whether the error is returned. -/
def rejectsNonPositive (properties : Option (List (String × PropValue))) (key : String) : Bool :=
  match propertyAt properties key with
  | none => false
  | some v =>
    match assertFloat v with
    | none => true
    | some f => decide (f ≤ 0)

/-- The check `if v, exists := properties[key]; exists { if f, ok := v.(float64);
!ok || f < 0 || f > 1 { return error } }`: whether the error is returned. -/
def rejectsNonRate (properties : Option (List (String × PropValue))) (key : String) : Bool :=
  match propertyAt properties key with
  | none => false
  | some v =>
    match assertFloat v with
    | none => true
    | some f => decide (f < 0 ∨ f > 1)

/-- Translation of `validateGenericServiceProperties`. -/
def validateGenericServiceProperties (properties : Option (List (String × PropValue))) :
    Option String :=
  if rejectsNonPositive properties "processing_time" then
    some "processing_time must be a positive number"
  else if rejectsNonRate properties "failure_rate" then
    some "failure_rate must be a number between 0 and 1"
  else if rejectsNonPositive properties "max_concurrency" then
    some "max_concurrency must be a positive number"
  else none

/-- Translation of `validateDatabaseProperties`: the loop over the three latency
fields returns at the first field it rejects. -/
def validateDatabaseProperties (properties : Option (List (String × PropValue))) :
    Option String :=
  match ["read_latency", "write_latency", "query_latency"].find?
      (fun field => rejectsNonPositive properties field) with
  | some field => some (field ++ " must be a positive number")
  | none =>
    if rejectsNonRate properties "failure_rate" then
      some "failure_rate must be a number between 0 and 1"
    else if rejectsNonPositive properties "max_connections" then
      some "max_connections must be a positive number"
    else none

/-- Translation of `validateMessageQueueProperties`. -/
def validateMessageQueueProperties (properties : Option (List (String × PropValue))) :
    Option String :=
  if rejectsNonPositive properties "processing_time" then
    some "processing_time must be a positive number"
  else if rejectsNonRate properties "failure_rate" then
    some "failure_rate must be a number between 0 and 1"
  else if rejectsNonPositive properties "max_queue_size" then
    some "max_queue_size must be a positive number"
  else none

/-- Translation of `validateLoadBalancerProperties`: `algorithm`, when present,
must be one of the three names, and `health_check_interval` positive; no other
key is looked at. -/
def validateLoadBalancerProperties (properties : Option (List (String × PropValue))) :
    Option String :=
  let algoRejected :=
    match propertyAt properties "algorithm" with
    | none => false
    | some algo =>
      match assertString algo with
      | none => true
      | some algoStr =>
        algoStr != "round_robin" && algoStr != "least_connections" && algoStr != "weighted"
  if algoRejected then
    some "algorithm must be one of: round_robin, least_connections, weighted"
  else if rejectsNonPositive properties "health_check_interval" then
    some "health_check_interval must be a positive number"
  else none

/-- Translation of `validateCacheProperties`. -/
def validateCacheProperties (properties : Option (List (String × PropValue))) :
    Option String :=
  if rejectsNonRate properties "hit_ratio" then
    some "hit_ratio must be a number between 0 and 1"
  else if rejectsNonPositive properties "access_time" then
    some "access_time must be a positive number"
  else if rejectsNonRate properties "failure_rate" then
    some "failure_rate must be a number between 0 and 1"
  else if rejectsNonPositive properties "max_size" then
    some "max_size must be a positive number"
  else none

/-- Translation of `validateAPIGatewayProperties`. -/
def validateAPIGatewayProperties (properties : Option (List (String × PropValue))) :
    Option String :=
  if rejectsNonPositive properties "routing_latency" then
    some "routing_latency must be a positive number"
  else if rejectsNonRate properties "failure_rate" then
    some "failure_rate must be a number between 0 and 1"
  else if rejectsNonPositive properties "max_concurrency" then
    some "max_concurrency must be a positive number"
  else none

/-- Translation of `DefaultComponentFactory.ValidateComponentProperties`: the
error message, `none` for a `nil` error. -/
def ValidateComponentProperties (componentType : ComponentType)
    (properties : Option (List (String × PropValue))) : Option String :=
  if componentType = TypeGenericService then validateGenericServiceProperties properties
  else if componentType = TypeDatabase then validateDatabaseProperties properties
  else if componentType = TypeMessageQueue then validateMessageQueueProperties properties
  else if componentType = TypeLoadBalancer then validateLoadBalancerProperties properties
  else if componentType = TypeCache then validateCacheProperties properties
  else if componentType = TypeAPIGateway then validateAPIGatewayProperties properties
  else some ("unsupported component type: " ++ componentType)

/-- A property map with a concurrency limit of one half, used as concrete
input. -/
def halfConcurrency : List (String × PropValue) :=
  [("max_concurrency", PropValue.scalar (Value.float (1 / 2)))]

/-- A property map with a failure rate of 2, used as concrete input. -/
def doubleFailureRate : List (String × PropValue) :=
  [("failure_rate", PropValue.scalar (Value.float 2))]

/-- A property map whose backend list holds a server without fields, used as
concrete input. -/
def emptyBackend : List (String × PropValue) :=
  [("backend_servers", PropValue.list [PropValue.map []])]

/-- Four healthy backends with weights 1, the largest `int`, the largest `int`
and 10, used as concrete input. -/
def heavyServers : List BackendServer :=
  [{ ID := "b1", Weight := 1, IsHealthy := true, Connections := 0, LastCheck := 0 },
   { ID := "b2", Weight := 9223372036854775807, IsHealthy := true, Connections := 0,
     LastCheck := 0 },
   { ID := "b3", Weight := 9223372036854775807, IsHealthy := true, Connections := 0,
     LastCheck := 0 },
   { ID := "b4", Weight := 10, IsHealthy := true, Connections := 0, LastCheck := 0 }]

/-- The weighted balancer over `heavyServers`, used as concrete input. -/
def heavyBalancer : LoadBalancer :=
  { NewLoadBalancer "lb" with
    Algorithm := Weighted, FailureRate := 0, BackendServers := heavyServers }

/-- A healthy backend `b1` whose connection count is the largest `int`, used as
concrete input. -/
def fullBackend : BackendServer :=
  { ID := "b1", Weight := 1, IsHealthy := true, Connections := 9223372036854775807,
    LastCheck := 0 }

/-- A round-robin balancer that never fails to route, with one healthy backend
`b1` whose connection count is the largest `int`, used as concrete input. -/
def fullBackendBalancer : LoadBalancer :=
  { NewLoadBalancer "lb" with FailureRate := 0, BackendServers := [fullBackend] }

/-- The round-robin balancer over `sampleServers` with its index at the largest
`int`, used as concrete input. -/
def lastIndexBalancer : LoadBalancer :=
  { sampleBalancer RoundRobin with CurrentServerIndex := 9223372036854775807 }

/-- The conversions of the Go standard library between a scalar and its JSON
text, taken as parameters.

* `writeString s` is the string denoted by the text `Marshal` writes for `s`
  (`s` itself when `s` is valid UTF-8; an invalid byte is written as U+FFFD).
* `writeFloat f` is the number denoted by the digits `Marshal` writes for the
  `float64` `f` (`strconv.AppendFloat`, shortest digits), `none` for the error
  `Marshal` returns on a NaN or an infinity.
* `readFloat x` is the `float64` `Unmarshal` reads from digits denoting `x`
  (`strconv.ParseFloat`, the nearest `float64`), `none` for the error on a
  number out of the range of `float64`.
* `writeTime t` is the instant of the string `Time.MarshalJSON` writes, `none`
  for the error it returns when the year is outside `[0,9999]`. -/
structure JSONCodec where
  writeString : String → String
  writeFloat : Rat → Option Rat
  readFloat : Rat → Option Rat
  writeTime : Int → Option Int

/-- A JSON value that is not an array or an object. -/
inductive JSONValue where
  | null
  | bool (b : Bool)
  | number (r : Rat)
  | string (s : String)
  deriving DecidableEq, Repr

/-- A member value of a JSON object: a scalar, the string of an instant, or an
object of scalars. -/
inductive JSON where
  | value (v : JSONValue)
  | instant (t : Int)
  | object (members : List (String × JSONValue))
  deriving DecidableEq, Repr

/-- A JSON text that is an object, as the list of its members. -/
abbrev JSONText := List (String × JSON)

/-- What `json.Marshal` writes for a value held in an `interface{}`: `null` for
`nil`, a string, the digits of an `int` (which denote it exactly), the digits
of a `float64`, a boolean; `none` for the error on a `float64` that has no
digits.  A value of another type is outside the model (`none`). -/
def marshalInterface (codec : JSONCodec) : Value → Option JSONValue
  | Value.nil => some JSONValue.null
  | Value.str s => some (JSONValue.string (codec.writeString s))
  | Value.int i => some (JSONValue.number i)
  | Value.float r => (codec.writeFloat r).map JSONValue.number
  | Value.bool b => some (JSONValue.bool b)
  | Value.other _ => none

/-- What `json.Marshal` writes for a `map[string]interface{}`: an object with
one member per key (the text lists them in key order, which a map does not
keep). -/
def marshalMap (codec : JSONCodec) : List (String × Value) → Option (List (String × JSONValue))
  | [] => some []
  | p :: rest =>
    match marshalInterface codec p.2, marshalMap codec rest with
    | some j, some js => some ((codec.writeString p.1, j) :: js)
    | _, _ => none

/-- What `json.Marshal` writes for an `Event`: an object with one member per
field, named by the field's `json` tag; `none` for an error. -/
def Marshal (codec : JSONCodec) (e : Event) : Option JSONText :=
  match marshalMap codec e.Data, codec.writeFloat e.Timestamp, codec.writeTime e.CreatedAt with
  | some data, some timestamp, some createdAt =>
    some [("id", JSON.value (JSONValue.string (codec.writeString e.ID))),
          ("timestamp", JSON.value (JSONValue.number timestamp)),
          ("type", JSON.value (JSONValue.string (codec.writeString e.Kind))),
          ("component_id", JSON.value (JSONValue.string (codec.writeString e.ComponentID))),
          ("data", JSON.object data),
          ("priority", JSON.value (JSONValue.number e.Priority)),
          ("created_at", JSON.instant createdAt)]
  | _, _, _ => none

/-- What `json.Unmarshal` stores in an `interface{}`: `nil` for `null`, a `bool`,
a `float64` for every number, a `string`; `none` for the error on a number no
`float64` is read from. -/
def unmarshalInterface (codec : JSONCodec) : JSONValue → Option Value
  | JSONValue.null => some Value.nil
  | JSONValue.bool b => some (Value.bool b)
  | JSONValue.number r => (codec.readFloat r).map Value.float
  | JSONValue.string s => some (Value.str s)

/-- What `json.Unmarshal` stores in a field of a string type: the string, the
zero value when the member is absent or `null`; `none` for the error on a value
of another kind. -/
def unmarshalString : Option JSON → Option String
  | none => some ""
  | some (JSON.value JSONValue.null) => some ""
  | some (JSON.value (JSONValue.string s)) => some s
  | some _ => none

/-- What `json.Unmarshal` stores in a `float64` field. -/
def unmarshalFloat (codec : JSONCodec) : Option JSON → Option Rat
  | none => some 0
  | some (JSON.value JSONValue.null) => some 0
  | some (JSON.value (JSONValue.number r)) => codec.readFloat r
  | some _ => none

/-- What `json.Unmarshal` stores in an `int` field: the number when it is whole,
an error otherwise. -/
def unmarshalInt : Option JSON → Option Int
  | none => some 0
  | some (JSON.value JSONValue.null) => some 0
  | some (JSON.value (JSONValue.number r)) => if r.den = 1 then some r.num else none
  | some _ => none

/-- The entries `json.Unmarshal` stores for the members of an object read into
a `map[string]interface{}`. -/
def unmarshalMembers (codec : JSONCodec) :
    List (String × JSONValue) → Option (List (String × Value))
  | [] => some []
  | m :: rest =>
    match unmarshalInterface codec m.2, unmarshalMembers codec rest with
    | some v, some vs => some ((m.1, v) :: vs)
    | _, _ => none

/-- What `json.Unmarshal` stores in a `map[string]interface{}` field: one entry
per member, each value as `unmarshalInterface` stores it. -/
def unmarshalMap (codec : JSONCodec) : Option JSON → Option (List (String × Value))
  | none => some []
  | some (JSON.value JSONValue.null) => some []
  | some (JSON.object members) => unmarshalMembers codec members
  | some _ => none

/-- What `json.Unmarshal` stores in a `time.Time` field: the instant of the string. -/
def unmarshalTime : Option JSON → Option Int
  | none => some 0
  | some (JSON.value JSONValue.null) => some 0
  | some (JSON.instant t) => some t
  | some _ => none

/-- What `json.Unmarshal` does with an object and a pointer to a zero `Event`:
each field is set from the member named by its tag; `none` for an error. -/
def Unmarshal (codec : JSONCodec) (text : JSONText) : Option Event :=
  match unmarshalString (text.lookup "id"), unmarshalFloat codec (text.lookup "timestamp"),
      unmarshalString (text.lookup "type"), unmarshalString (text.lookup "component_id"),
      unmarshalMap codec (text.lookup "data"), unmarshalInt (text.lookup "priority"),
      unmarshalTime (text.lookup "created_at") with
  | some id, some timestamp, some kind, some componentID, some data, some priority,
      some createdAt =>
    some { ID := id, Timestamp := timestamp, Kind := kind, ComponentID := componentID,
           Data := data, Priority := priority, CreatedAt := createdAt }
  | _, _, _, _, _, _, _ => none

/-- Translation of `Event.ToJSON`: the text `json.Marshal` returns, `none` for
an error. -/
def Event.ToJSON (e : Event) (codec : JSONCodec) : Option JSONText := Marshal codec e

/-- Translation of `FromJSON`: the event `json.Unmarshal` fills, `none` for an
error. -/
def FromJSON (codec : JSONCodec) (jsonStr : JSONText) : Option Event := Unmarshal codec jsonStr

/-- The library writes the string unchanged: the case of a string that is valid
UTF-8. -/
def JSONCodec.keepsString (codec : JSONCodec) (s : String) : Prop := codec.writeString s = s

/-- The library writes the `float64` and reads the same `float64` from what it
wrote: the case of a finite `float64`, by the round-trip guarantee of
`strconv`. -/
def JSONCodec.keepsFloat (codec : JSONCodec) (r : Rat) : Prop :=
  (codec.writeFloat r).bind codec.readFloat = some r

/-- The payload value is `nil`, a boolean, a string the library writes unchanged,
or a `float64` the library writes and reads back. -/
def JSONCodec.keepsValue (codec : JSONCodec) : Value → Prop
  | Value.nil => True
  | Value.bool _ => True
  | Value.str s => codec.keepsString s
  | Value.float r => codec.keepsFloat r
  | Value.int _ => False
  | Value.other _ => False

/-- The library where it changes nothing: every string is written unchanged,
every number is written and read exactly, every instant is written.  It is the
library on valid UTF-8 strings, on numbers that are `float64` values and on
instants of the years 0 to 9999; used as concrete input. -/
def plainCodec : JSONCodec :=
  { writeString := fun s => s, writeFloat := fun r => some r, readFloat := fun r => some r,
    writeTime := fun t => some t }

/-- An event whose payload holds a string, a boolean, a `float64` and `nil`,
used as concrete input. -/
def hitEvent : Event :=
  { ID := "cache_hit_req-1", Timestamp := 3 / 2, Kind := RequestCompleted, ComponentID := "c",
    Data := [("key", Value.str "k"), ("hit", Value.bool true),
             ("access_time", Value.float (1 / 1000)), ("value", Value.nil)],
    Priority := 2, CreatedAt := 7 }

/-! ## Theorems: machine integers -/

theorem wrapInt64_of_range (x : Int) (h1 : minInt ≤ x) (h2 : x ≤ maxInt) : wrapInt64 x = x := by
  unfold minInt at h1
  unfold maxInt at h2
  unfold wrapInt64
  omega

theorem wrapInt64_range (x : Int) : minInt ≤ wrapInt64 x ∧ wrapInt64 x ≤ maxInt := by
  unfold minInt maxInt wrapInt64
  omega

theorem wrapInt64_succ_maxInt : wrapInt64 (maxInt + 1) = minInt := by decide

/-! ## Theorems: event queue -/

theorem keyLE_refl (a : Event) : keyLE a a := Or.inr ⟨rfl, le_refl _⟩

theorem keyLE_trans {a b c : Event} (h1 : keyLE a b) (h2 : keyLE b c) : keyLE a c := by
  unfold keyLE at *
  rcases h1 with h1 | ⟨h1, h1'⟩ <;> rcases h2 with h2 | ⟨h2, h2'⟩
  · exact Or.inl (lt_trans h1 h2)
  · exact Or.inl (h2 ▸ h1)
  · exact Or.inl (h1 ▸ h2)
  · exact Or.inr ⟨h1.trans h2, le_trans h1' h2'⟩

theorem eventLess_false_iff (a b : Event) : eventLess a b = false ↔ keyLE b a := by
  unfold eventLess keyLE
  by_cases h : a.Timestamp = b.Timestamp
  · simp only [h, ne_eq, not_true_eq_false, if_false, decide_eq_false_iff_not, not_lt,
      lt_self_iff_false, true_and, false_or]
  · rcases lt_or_gt_of_ne h with h' | h'
    · have h3 : ¬ b.Timestamp < a.Timestamp := not_lt.mpr (le_of_lt h')
      have h4 : ¬ b.Timestamp = a.Timestamp := fun e => h e.symm
      simp [h, h', h3, h4]
    · have h3 : ¬ a.Timestamp < b.Timestamp := not_lt.mpr (le_of_lt h')
      simp [h, h', h3]

theorem keyLE_of_eventLess {a b : Event} (h : eventLess a b = true) : keyLE a b := by
  unfold eventLess at h
  unfold keyLE
  by_cases h' : a.Timestamp = b.Timestamp
  · simp only [h', ne_eq, not_true_eq_false, if_false, decide_eq_true_eq] at h
    exact Or.inr ⟨h', le_of_lt h⟩
  · simp only [ne_eq, h', not_false_eq_true, if_true, decide_eq_true_eq] at h
    exact Or.inl h

theorem itemAt_of_lt {l : List Event} {k : Nat} (h : k < l.length) :
    l[k]? = some (itemAt l k) := by
  simp [itemAt, List.getD, List.getElem?_eq_getElem h]

theorem Less_eq (q : EventQueue) {i j : Nat} (hi : i < q.items.length)
    (hj : j < q.items.length) :
    q.Less i j = eventLess (itemAt q.items i) (itemAt q.items j) := by
  unfold EventQueue.Less
  rw [itemAt_of_lt hi, itemAt_of_lt hj]

theorem Swap_length (q : EventQueue) (i j : Nat) :
    (q.Swap i j).items.length = q.items.length := by
  unfold EventQueue.Swap
  split <;> simp

theorem Swap_itemAt (q : EventQueue) {i j : Nat} (hi : i < q.items.length)
    (hj : j < q.items.length) (k : Nat) :
    itemAt (q.Swap i j).items k =
      if k = j then itemAt q.items i else if k = i then itemAt q.items j
      else itemAt q.items k := by
  unfold EventQueue.Swap
  rw [itemAt_of_lt hi, itemAt_of_lt hj]
  simp only [itemAt, List.getD_eq_getElem?_getD, List.getElem?_set, List.length_set]
  by_cases h1 : k = j
  · subst h1
    simp [hi, hj]
  · by_cases h2 : k = i
    · subst h2
      simp [hi, h1, Ne.symm h1]
    · simp [h1, h2, Ne.symm h1, Ne.symm h2]

theorem count_set_add {α : Type} [DecidableEq α] (l : List α) (i : Nat) (hi : i < l.length)
    (a x : α) :
    (l.set i a).count x + (if l[i] = x then 1 else 0)
      = l.count x + (if a = x then 1 else 0) := by
  rw [List.count_set _ _ _ _ hi]
  have hmem : l[i] = x → 0 < List.count x l := by
    intro h
    rw [List.count_pos_iff]
    exact h ▸ List.getElem_mem hi
  simp only [beq_iff_eq]
  by_cases h1 : l[i] = x
  · have := hmem h1
    simp only [h1, if_true]
    omega
  · simp only [h1, if_false]
    omega

theorem set_set_swap_perm {α : Type} [DecidableEq α] (l : List α) (i j : Nat)
    (hi : i < l.length) (hj : j < l.length) :
    ((l.set i l[j]).set j l[i]).Perm l := by
  rw [List.perm_iff_count]
  intro x
  have hj' : j < (l.set i l[j]).length := by simpa using hj
  have e1 := count_set_add (l.set i l[j]) j hj' l[i] x
  have e2 := count_set_add l i hi l[j] x
  by_cases hij : i = j
  · subst hij
    simp only [List.getElem_set_self] at e1
    omega
  · rw [List.getElem_set_ne hij] at e1
    omega

theorem Swap_perm (q : EventQueue) (i j : Nat) : (q.Swap i j).items.Perm q.items := by
  unfold EventQueue.Swap
  split
  · rename_i a b ha hb
    have hi : i < q.items.length := by
      by_contra h
      rw [List.getElem?_eq_none (not_lt.mp h)] at ha
      exact Option.noConfusion ha
    have hj : j < q.items.length := by
      by_contra h
      rw [List.getElem?_eq_none (not_lt.mp h)] at hb
      exact Option.noConfusion hb
    rw [List.getElem?_eq_getElem hi] at ha
    rw [List.getElem?_eq_getElem hj] at hb
    injection ha with ha
    injection hb with hb
    subst ha hb
    exact set_set_swap_perm q.items i j hi hj
  · exact List.Perm.refl _
theorem up_spec : ∀ (j : Nat) (q : EventQueue), j < q.items.length →
    (∀ k, 0 < k → k < q.items.length → k ≠ j →
      keyLE (itemAt q.items ((k - 1) / 2)) (itemAt q.items k)) →
    (∀ k, 0 < k → k < q.items.length → (k - 1) / 2 = j → 0 < j →
      keyLE (itemAt q.items ((j - 1) / 2)) (itemAt q.items k)) →
    IsHeap (heap.up q j).items ∧ (heap.up q j).items.Perm q.items := by
  intro j
  induction j using Nat.strong_induction_on with
  | _ j ih =>
    intro q hj h1 h2
    have hi : (j - 1) / 2 < q.items.length := by omega
    rw [heap.up]
    split
    · rename_i hstop
      refine ⟨?_, List.Perm.refl _⟩
      intro k hk0 hk _
      by_cases hkj : k = j
      · subst hkj
        rcases hstop with h | h
        · omega
        · rw [Less_eq q hj hi] at h
          exact (eventLess_false_iff _ _).mp h
      · exact h1 k hk0 hk hkj
    · rename_i hgo
      have hgo' := not_or.mp hgo
      have hj0 : 0 < j := by
        by_contra h0
        have : j = 0 := by omega
        subst this
        exact hgo'.1 rfl
      have hless : eventLess (itemAt q.items j) (itemAt q.items ((j - 1) / 2)) = true := by
        rw [← Less_eq q hj hi]
        simpa using hgo'.2
      have hlt := keyLE_of_eventLess hless
      have hlen := Swap_length q ((j - 1) / 2) j
      have key := ih ((j - 1) / 2) (by omega) (q.Swap ((j - 1) / 2) j) (by omega) ?_ ?_
      · exact ⟨key.1, key.2.trans (Swap_perm q _ _)⟩
      · intro k hk0 hk hki
        rw [hlen] at hk
        rw [Swap_itemAt q hi hj, Swap_itemAt q hi hj]
        by_cases hkj : k = j
        · subst hkj
          have hne : (k - 1) / 2 ≠ k := by omega
          simp only [hne, if_false, if_true]
          exact hlt
        · simp only [hkj, hki, if_false]
          by_cases hp1 : (k - 1) / 2 = j
          · simp only [hp1, if_true]
            exact h2 k hk0 hk hp1 hj0
          · simp only [hp1, if_false]
            by_cases hp2 : (k - 1) / 2 = (j - 1) / 2
            · simp only [hp2, if_true]
              have := h1 k hk0 hk hkj
              rw [hp2] at this
              exact keyLE_trans hlt this
            · simp only [hp2, if_false]
              exact h1 k hk0 hk hkj
      · intro k hk0 hk hpk hi0
        rw [hlen] at hk
        rw [Swap_itemAt q hi hj, Swap_itemAt q hi hj]
        have hne1 : ((j - 1) / 2 - 1) / 2 ≠ j := by omega
        have hne2 : ((j - 1) / 2 - 1) / 2 ≠ (j - 1) / 2 := by omega
        have hki : k ≠ (j - 1) / 2 := by omega
        have hpar := h1 ((j - 1) / 2) hi0 hi (by omega)
        simp only [hne1, hne2, hki, if_false]
        by_cases hkj : k = j
        · simp only [hkj, if_true]
          exact hpar
        · simp only [hkj, if_false]
          have := h1 k hk0 hk hkj
          rw [hpk] at this
          exact keyLE_trans hpar this

theorem IsHeap_nil : IsHeap [] := by
  intro k _ hk _
  simp at hk

theorem itemAt_append_left {l : List Event} {k : Nat} (h : k < l.length) (x : Event) :
    itemAt (l ++ [x]) k = itemAt l k := by
  simp [itemAt, List.getElem?_append_left h]

theorem heap_Push_spec (q : EventQueue) (x : Event) (hq : IsHeap q.items) :
    IsHeap (heap.Push q x).items ∧ (heap.Push q x).items.Perm (x :: q.items) := by
  unfold heap.Push
  simp only [EventQueue.Push, EventQueue.Len, List.length_append, List.length_singleton,
    Nat.add_sub_cancel]
  have key := up_spec q.items.length { items := q.items ++ [x] } (by simp) ?_ ?_
  · refine ⟨key.1, key.2.trans ?_⟩
    simp
  · intro k hk0 hk hkn
    simp only [List.length_append, List.length_singleton] at hk
    have hk' : k < q.items.length := by omega
    rw [itemAt_append_left hk', itemAt_append_left (by omega)]
    exact hq k hk0 hk' (Nat.zero_le _)
  · intro k hk0 hk hpk _
    simp only [List.length_append, List.length_singleton] at hk
    omega

theorem downLoop_spec (n lo : Nat) : ∀ (m : Nat) (q : EventQueue) (i : Nat), n - i = m →
    n ≤ q.items.length → lo ≤ i →
    (∀ k, 0 < k → k < n → lo ≤ (k - 1) / 2 → (k - 1) / 2 ≠ i →
      keyLE (itemAt q.items ((k - 1) / 2)) (itemAt q.items k)) →
    (∀ k, 0 < k → k < n → (k - 1) / 2 = i → 0 < i → lo ≤ (i - 1) / 2 →
      keyLE (itemAt q.items ((i - 1) / 2)) (itemAt q.items k)) →
    HeapOn (heap.downLoop q i n).1.items n lo ∧
      (heap.downLoop q i n).1.items.Perm q.items ∧
      (heap.downLoop q i n).1.items.length = q.items.length ∧
      ∀ k, n ≤ k → itemAt (heap.downLoop q i n).1.items k = itemAt q.items k := by
  intro m
  induction m using Nat.strong_induction_on with
  | _ m ih =>
    intro q i hm hn hlo h1 h2
    have main : ∀ j, j < n → (j - 1) / 2 = i → 0 < j →
        (∀ k, 0 < k → k < n → (k - 1) / 2 = i → keyLE (itemAt q.items j) (itemAt q.items k)) →
        HeapOn (if q.Less j i = false then (q, i)
            else heap.downLoop (q.Swap i j) j n).1.items n lo ∧
          (if q.Less j i = false then (q, i)
            else heap.downLoop (q.Swap i j) j n).1.items.Perm q.items ∧
          (if q.Less j i = false then (q, i)
            else heap.downLoop (q.Swap i j) j n).1.items.length = q.items.length ∧
          ∀ k, n ≤ k → itemAt (if q.Less j i = false then (q, i)
            else heap.downLoop (q.Swap i j) j n).1.items k = itemAt q.items k := by
      intro j hjn hpj hj0 hmin
      have hj : j < q.items.length := by omega
      have hi : i < q.items.length := by omega
      have hij : i < j := by omega
      split
      · rename_i hstop
        rw [Less_eq q hj hi] at hstop
        have hle := (eventLess_false_iff _ _).mp hstop
        refine ⟨?_, List.Perm.refl _, rfl, fun _ _ => rfl⟩
        intro k hk0 hk hlok
        by_cases hpk : (k - 1) / 2 = i
        · rw [hpk]
          exact keyLE_trans hle (hmin k hk0 hk hpk)
        · exact h1 k hk0 hk hlok hpk
      · rename_i hgo
        have hless : eventLess (itemAt q.items j) (itemAt q.items i) = true := by
          rw [← Less_eq q hj hi]
          simpa using hgo
        have hlt := keyLE_of_eventLess hless
        have hlen := Swap_length q i j
        have key := ih (n - j) (by omega) (q.Swap i j) j rfl (by omega) (by omega) ?_ ?_
        · refine ⟨key.1, key.2.1.trans (Swap_perm q _ _), by omega, ?_⟩
          intro k hk
          rw [key.2.2.2 k hk, Swap_itemAt q hi hj]
          have e1 : k ≠ j := by omega
          have e2 : k ≠ i := by omega
          simp only [e1, e2, if_false]
        · intro k hk0 hk hlok hpk
          rw [Swap_itemAt q hi hj, Swap_itemAt q hi hj]
          simp only [hpk, if_false]
          by_cases hkj : k = j
          · subst hkj
            simp only [hpj, if_true]
            exact hlt
          · simp only [hkj, if_false]
            by_cases hki : k = i
            · subst hki
              have hne : (k - 1) / 2 ≠ k := by omega
              simp only [hne, if_false, if_true]
              exact h2 j hj0 hjn hpj hk0 hlok
            · simp only [hki, if_false]
              by_cases hpi : (k - 1) / 2 = i
              · simp only [hpi, if_true]
                exact hmin k hk0 hk hpi
              · simp only [hpi, if_false]
                exact h1 k hk0 hk hlok hpi
        · intro k hk0 hk hpk _ _
          rw [Swap_itemAt q hi hj, Swap_itemAt q hi hj]
          have e0 : (j - 1) / 2 ≠ j := by omega
          have e1 : k ≠ j := by omega
          have e2 : k ≠ i := by omega
          have e3 : i ≠ j := by omega
          simp only [e0, e1, e2, e3, hpj, if_false, if_true]
          have h3 := h1 k hk0 hk (by omega) (by omega)
          rw [hpk] at h3
          exact h3
    rw [heap.downLoop]
    split
    · rename_i hstop
      refine ⟨?_, List.Perm.refl _, rfl, fun _ _ => rfl⟩
      intro k hk0 hk hlok
      by_cases hpk : (k - 1) / 2 = i
      · omega
      · exact h1 k hk0 hk hlok hpk
    · rename_i hgo
      have hi : i < q.items.length := by omega
      have h21 : 2 * i + 1 < q.items.length := by omega
      by_cases hc : 2 * i + 1 + 1 < n ∧ q.Less (2 * i + 1 + 1) (2 * i + 1) = true
      · simp only [hc, and_self, if_true]
        apply main (2 * i + 1 + 1) hc.1 (by omega) (by omega)
        intro k hk0 hk hpk
        have hless := hc.2
        rw [Less_eq q (by omega) h21] at hless
        have hk' : k = 2 * i + 1 ∨ k = 2 * i + 1 + 1 := by omega
        rcases hk' with hk' | hk'
        · rw [hk']
          exact keyLE_of_eventLess hless
        · rw [hk']
          exact keyLE_refl _
      · simp only [hc, if_false]
        apply main (2 * i + 1) (by omega) (by omega) (by omega)
        intro k hk0 hk hpk
        have hk' : k = 2 * i + 1 ∨ k = 2 * i + 1 + 1 := by omega
        rcases hk' with hk' | hk'
        · rw [hk']
          exact keyLE_refl _
        · rw [hk']
          rw [hk'] at hk
          have hf : q.Less (2 * i + 1 + 1) (2 * i + 1) = false := by
            cases hL : q.Less (2 * i + 1 + 1) (2 * i + 1)
            · rfl
            · exact absurd ⟨hk, hL⟩ hc
          rw [Less_eq q (by omega) h21] at hf
          exact (eventLess_false_iff _ _).mp hf

theorem initLoop_spec (n : Nat) : ∀ (k : Nat) (q : EventQueue), n ≤ q.items.length →
    HeapOn q.items n k →
    HeapOn (heap.initLoop q n k).items n 0 ∧ (heap.initLoop q n k).items.Perm q.items ∧
      (heap.initLoop q n k).items.length = q.items.length := by
  intro k
  induction k with
  | zero =>
    intro q _ h
    exact ⟨h, List.Perm.refl _, rfl⟩
  | succ k ih =>
    intro q hn h
    have key := downLoop_spec n k (n - k) q k rfl hn (le_refl _)
      (fun j hj0 hj hlo hne => h j hj0 hj (by omega)) (fun j _ _ _ _ hlo => by omega)
    have key2 := ih (heap.down q k n).1 (by simp only [heap.down]; omega) key.1
    simp only [heap.initLoop]
    refine ⟨key2.1, key2.2.1.trans key.2.1, ?_⟩
    rw [key2.2.2]
    exact key.2.2.1

theorem heap_Init_spec (q : EventQueue) :
    IsHeap (heap.Init q).items ∧ (heap.Init q).items.Perm q.items := by
  have key := initLoop_spec q.Len (q.Len / 2) q (le_refl _)
    (fun k _ hk hlo => by simp only [EventQueue.Len] at *; omega)
  unfold heap.Init IsHeap
  rw [key.2.2]
  exact ⟨key.1, key.2.1⟩

theorem itemAt_dropLast {l : List Event} {k : Nat} (h : k < l.length - 1) :
    itemAt l.dropLast k = itemAt l k := by
  simp only [itemAt, List.getD_eq_getElem?_getD, List.getElem?_dropLast, h, if_true]

theorem heap_Pop_spec (q : EventQueue) (hq : IsHeap q.items) (hne : q.items ≠ []) :
    (heap.Pop q).1 = some (itemAt q.items 0) ∧ IsHeap (heap.Pop q).2.items ∧
      (itemAt q.items 0 :: (heap.Pop q).2.items).Perm q.items := by
  have hlen : 0 < q.items.length := List.length_pos.mpr hne
  have hn : q.items.length - 1 < q.items.length := by omega
  have hswap := Swap_length q 0 (q.items.length - 1)
  have key := downLoop_spec (q.items.length - 1) 0 (q.items.length - 1 - 0)
    (q.Swap 0 (q.items.length - 1)) 0 rfl (by omega) (le_refl _) ?_ ?_
  · have hlast : (heap.downLoop (q.Swap 0 (q.items.length - 1)) 0
        (q.items.length - 1)).1.items.getLast? = some (itemAt q.items 0) := by
      rw [List.getLast?_eq_getElem?, key.2.2.1, hswap, itemAt_of_lt (by omega),
        key.2.2.2 _ (le_refl _), Swap_itemAt q hlen hn]
      simp
    unfold heap.Pop EventQueue.Pop
    simp only [EventQueue.Len, heap.down, hlast]
    refine ⟨trivial, ?_, ?_⟩
    · intro k hk0 hk _
      simp only [List.length_dropLast, key.2.2.1, hswap] at hk
      rw [itemAt_dropLast (by omega), itemAt_dropLast (by omega)]
      exact key.1 k hk0 hk (Nat.zero_le _)
    · have h2 := List.dropLast_append_getLast? _ hlast
      have h3 : (itemAt q.items 0 :: (heap.downLoop (q.Swap 0 (q.items.length - 1)) 0
          (q.items.length - 1)).1.items.dropLast).Perm
          (heap.downLoop (q.Swap 0 (q.items.length - 1)) 0 (q.items.length - 1)).1.items := by
        conv => rhs; rw [← h2]
        exact (List.perm_append_singleton _ _).symm
      exact h3.trans (key.2.1.trans (Swap_perm q _ _))
  · intro k hk0 hk _ hpk
    rw [Swap_itemAt q hlen hn, Swap_itemAt q hlen hn]
    have e1 : k ≠ q.items.length - 1 := by omega
    have e2 : k ≠ 0 := by omega
    have e3 : (k - 1) / 2 ≠ q.items.length - 1 := by omega
    simp only [e1, e2, e3, hpk, if_false]
    exact hq k hk0 (by omega) (Nat.zero_le _)
  · intro k _ _ _ h0
    omega

theorem IsHeap_root_le {l : List Event} (h : IsHeap l) :
    ∀ k, k < l.length → keyLE (itemAt l 0) (itemAt l k) := by
  intro k
  induction k using Nat.strong_induction_on with
  | _ k ih =>
    intro hk
    by_cases hk0 : k = 0
    · subst hk0
      exact keyLE_refl _
    · exact keyLE_trans (ih ((k - 1) / 2) (by omega) (by omega))
        (h k (by omega) hk (Nat.zero_le _))

theorem IsHeap_root_min {l : List Event} (h : IsHeap l) :
    ∀ x ∈ l, keyLE (itemAt l 0) x := by
  intro x hx
  obtain ⟨k, hk, rfl⟩ := List.getElem_of_mem hx
  have := IsHeap_root_le h k hk
  have e : itemAt l k = l[k] := by
    have := itemAt_of_lt hk
    rw [List.getElem?_eq_getElem hk] at this
    exact (Option.some.inj this).symm
  rw [e] at this
  exact this

theorem NewEventQueue_items : NewEventQueue.items = [] := by
  have h := (heap_Init_spec { items := [] }).2
  exact List.Perm.eq_nil h

theorem Enqueue_spec (q : EventQueue) (x : Event) (hq : IsHeap q.items) :
    IsHeap (q.Enqueue x).items ∧ (q.Enqueue x).items.Perm (x :: q.items) :=
  heap_Push_spec q x hq

theorem Dequeue_empty (q : EventQueue) (h : q.items = []) : q.Dequeue = (none, q) := by
  simp [EventQueue.Dequeue, EventQueue.Len, h]

theorem Dequeue_spec (q : EventQueue) (hq : IsHeap q.items) (hne : q.items ≠ []) :
    q.Dequeue.1 = some (itemAt q.items 0) ∧ IsHeap q.Dequeue.2.items ∧
      (itemAt q.items 0 :: q.Dequeue.2.items).Perm q.items := by
  have hlen : q.Len ≠ 0 := by
    simp only [EventQueue.Len, ne_eq, List.length_eq_zero]
    exact hne
  simp only [EventQueue.Dequeue, hlen, if_false]
  exact heap_Pop_spec q hq hne

theorem itemAt_zero_mem {l : List Event} (hne : l ≠ []) : itemAt l 0 ∈ l := by
  cases l with
  | nil => exact absurd rfl hne
  | cons a t => simp [itemAt]

theorem enqueueAll_spec : ∀ (es : List Event) (q : EventQueue), IsHeap q.items →
    IsHeap (enqueueAll q es).items ∧ (enqueueAll q es).items.Perm (q.items ++ es) := by
  intro es
  induction es with
  | nil =>
    intro q hq
    simpa [enqueueAll] using hq
  | cons e es ih =>
    intro q hq
    have h1 := Enqueue_spec q e hq
    have h2 := ih (q.Enqueue e) h1.1
    simp only [enqueueAll, List.foldl_cons] at *
    refine ⟨h2.1, h2.2.trans ?_⟩
    exact (List.Perm.append_right es h1.2).trans (by simpa using List.perm_middle.symm)

theorem enqueueAll_new_spec (es : List Event) :
    IsHeap (enqueueAll NewEventQueue es).items ∧
      (enqueueAll NewEventQueue es).items.Perm es := by
  have h := enqueueAll_spec es NewEventQueue (by rw [NewEventQueue_items]; exact IsHeap_nil)
  rw [NewEventQueue_items] at h
  simpa using h

theorem dequeueN_spec : ∀ (k : Nat) (q : EventQueue), IsHeap q.items →
    (dequeueN k q).1.Pairwise keyLE ∧
      (∀ x ∈ (dequeueN k q).1, ∀ y ∈ (dequeueN k q).2.items, keyLE x y) ∧
      IsHeap (dequeueN k q).2.items ∧
      ((dequeueN k q).1 ++ (dequeueN k q).2.items).Perm q.items ∧
      (dequeueN k q).1.length = min k q.items.length := by
  intro k
  induction k with
  | zero =>
    intro q hq
    simp [dequeueN, hq]
  | succ k ih =>
    intro q hq
    by_cases hne : q.items = []
    · have h := ih q hq
      simp only [dequeueN, Dequeue_empty q hne]
      refine ⟨h.1, h.2.1, h.2.2.1, h.2.2.2.1, ?_⟩
      rw [h.2.2.2.2, hne]
      simp
    · have hd := Dequeue_spec q hq hne
      have h := ih q.Dequeue.2 hd.2.1
      have hmin := IsHeap_root_min hq
      have hsplit : q.Dequeue = (some (itemAt q.items 0), q.Dequeue.2) := by
        rw [← hd.1]
      have hsub : ∀ y, y ∈ (dequeueN k q.Dequeue.2).1 ++ (dequeueN k q.Dequeue.2).2.items →
          y ∈ q.items := by
        intro y hy
        have h1 : y ∈ q.Dequeue.2.items := h.2.2.2.1.subset hy
        exact hd.2.2.subset (List.mem_cons_of_mem _ h1)
      have hlen : q.Dequeue.2.items.length + 1 = q.items.length := by
        simpa using hd.2.2.length_eq
      rw [dequeueN, hsplit]
      simp only []
      refine ⟨?_, ?_, h.2.2.1, ?_, ?_⟩
      · rw [List.pairwise_cons]
        exact ⟨fun y hy => hmin y (hsub y (List.mem_append_left _ hy)), h.1⟩
      · intro x hx y hy
        rcases List.mem_cons.mp hx with hx | hx
        · rw [hx]
          exact hmin y (hsub y (List.mem_append_right _ hy))
        · exact h.2.1 x hx y hy
      · exact (List.Perm.cons _ h.2.2.2.1).trans hd.2.2
      · simp only [List.length_cons, h.2.2.2.2]
        omega

theorem keyLE_timestamp {a b : Event} (h : keyLE a b) : a.Timestamp ≤ b.Timestamp := by
  rcases h with h | ⟨h, _⟩
  · exact le_of_lt h
  · exact le_of_eq h

/-- C1: on a non-empty queue built by `Enqueue` calls, `Dequeue` returns a queued
event that is lexicographically minimal in (timestamp, priority) among all queued
events, and what remains in the queue is the previous content minus that one
event; the queue content before the call is exactly the enqueued events. -/
theorem dequeue_returns_minimum (es : List Event) (hne : es ≠ []) :
    ∃ e, (enqueueAll NewEventQueue es).Dequeue.1 = some e ∧
      e ∈ (enqueueAll NewEventQueue es).items ∧
      (∀ x ∈ (enqueueAll NewEventQueue es).items, keyLE e x) ∧
      (enqueueAll NewEventQueue es).Dequeue.2.items.Perm
        ((enqueueAll NewEventQueue es).items.erase e) ∧
      (enqueueAll NewEventQueue es).items.Perm es := by
  have h := enqueueAll_new_spec es
  have hne' : (enqueueAll NewEventQueue es).items ≠ [] := by
    intro h0
    rw [h0] at h
    exact hne (List.Perm.eq_nil h.2.symm)
  have hd := Dequeue_spec _ h.1 hne'
  have hmem := itemAt_zero_mem hne'
  refine ⟨_, hd.1, hmem, IsHeap_root_min h.1, ?_, h.2⟩
  exact List.Perm.cons_inv (hd.2.2.trans (List.perm_cons_erase hmem))

/-- Witness for C1: two events enqueued out of order. -/
theorem dequeue_returns_minimum_witness :
    [arrivalAt "a" 2 0, arrivalAt "b" 1 0] ≠ [] ∧
    ∃ e, (enqueueAll NewEventQueue [arrivalAt "a" 2 0, arrivalAt "b" 1 0]).Dequeue.1 = some e ∧
      e ∈ (enqueueAll NewEventQueue [arrivalAt "a" 2 0, arrivalAt "b" 1 0]).items ∧
      (∀ x ∈ (enqueueAll NewEventQueue [arrivalAt "a" 2 0, arrivalAt "b" 1 0]).items,
        keyLE e x) ∧
      (enqueueAll NewEventQueue [arrivalAt "a" 2 0, arrivalAt "b" 1 0]).Dequeue.2.items.Perm
        ((enqueueAll NewEventQueue [arrivalAt "a" 2 0, arrivalAt "b" 1 0]).items.erase e) ∧
      (enqueueAll NewEventQueue [arrivalAt "a" 2 0, arrivalAt "b" 1 0]).items.Perm
        [arrivalAt "a" 2 0, arrivalAt "b" 1 0] :=
  ⟨by simp, dequeue_returns_minimum _ (by simp)⟩

/-- C2 (counterexample): three events `a`, `b`, `c` with the same timestamp and the
same priority, enqueued in that order, are dequeued in the order `a`, `c`, `b`:
`b` was enqueued before `c` and is returned after it. -/
theorem dequeue_not_stable :
    (dequeueN 3 (enqueueAll NewEventQueue
        [arrivalAt "a" 1 0, arrivalAt "b" 1 0, arrivalAt "c" 1 0])).1
      = [arrivalAt "a" 1 0, arrivalAt "c" 1 0, arrivalAt "b" 1 0] ∧
    ¬ StableDequeue [arrivalAt "a" 1 0, arrivalAt "b" 1 0, arrivalAt "c" 1 0] := by
  have hout : (dequeueN 3 (enqueueAll NewEventQueue
        [arrivalAt "a" 1 0, arrivalAt "b" 1 0, arrivalAt "c" 1 0])).1
      = [arrivalAt "a" 1 0, arrivalAt "c" 1 0, arrivalAt "b" 1 0] := by
    simp [dequeueN, enqueueAll, NewEventQueue, heap.Init, heap.initLoop, EventQueue.Enqueue,
      heap.Push, EventQueue.Push, heap.up, EventQueue.Len, EventQueue.Less, EventQueue.Swap,
      eventLess, arrivalAt, EventQueue.Dequeue, heap.Pop, heap.down, heap.downLoop,
      EventQueue.Pop]
  refine ⟨hout, ?_⟩
  intro hst
  have h := hst (arrivalAt "b" 1 0) (arrivalAt "c" 1 0) (by decide) rfl rfl
  simp only [List.length_cons, List.length_nil] at h
  rw [hout] at h
  revert h
  decide

/-- C2 (amended): successive `Dequeue` calls on a queue built by `Enqueue` calls
return every enqueued event exactly once, in non-decreasing (timestamp,
priority) order: an event returned earlier has the smaller timestamp, or the same
timestamp and a priority that is not larger.  Nothing is promised about the
relative order of events with equal timestamp and equal priority. -/
theorem dequeue_order_by_key (es : List Event) :
    (dequeueN es.length (enqueueAll NewEventQueue es)).1.Perm es ∧
      (dequeueN es.length (enqueueAll NewEventQueue es)).1.Pairwise keyLE := by
  have h := enqueueAll_new_spec es
  have hd := dequeueN_spec es.length _ h.1
  refine ⟨?_, hd.1⟩
  have hlen : (dequeueN es.length (enqueueAll NewEventQueue es)).1.length
      = ((dequeueN es.length (enqueueAll NewEventQueue es)).1
          ++ (dequeueN es.length (enqueueAll NewEventQueue es)).2.items).length := by
    rw [hd.2.2.2.1.length_eq, hd.2.2.2.2, h.2.length_eq]
    simp
  have hnil : (dequeueN es.length (enqueueAll NewEventQueue es)).2.items = [] := by
    rw [List.length_append] at hlen
    exact List.length_eq_zero.mp (by omega)
  have hp := hd.2.2.2.1
  rw [hnil, List.append_nil] at hp
  exact hp.trans h.2

/-! ## Theorems: engine -/

theorem up_perm : ∀ (j : Nat) (q : EventQueue), (heap.up q j).items.Perm q.items := by
  intro j
  induction j using Nat.strong_induction_on with
  | _ j ih =>
    intro q
    rw [heap.up]
    split
    · exact List.Perm.refl _
    · rename_i hgo
      have hgo' := not_or.mp hgo
      have hlt : (j - 1) / 2 < j := by omega
      exact (ih _ hlt _).trans (Swap_perm q _ _)

theorem Enqueue_perm (q : EventQueue) (x : Event) : (q.Enqueue x).items.Perm (x :: q.items) := by
  unfold EventQueue.Enqueue heap.Push
  refine (up_perm _ _).trans ?_
  simp [EventQueue.Push]

/-- C4: `ScheduleEvent` returns an error exactly when the event's timestamp is
before the current virtual time; then the engine, and with it the queue, is
unchanged; otherwise the queue holds the previous events plus the new one and
no other part of the engine changes. -/
theorem ScheduleEvent_spec (se : SimulationEngine) (e : Event) :
    ((se.ScheduleEvent e).2.isSome = true ↔ e.Timestamp < se.currentTime) ∧
    (if e.Timestamp < se.currentTime then (se.ScheduleEvent e).1 = se
     else
      (se.ScheduleEvent e).1.eventQueue.items.Perm (e :: se.eventQueue.items) ∧
      (se.ScheduleEvent e).1 = { se with eventQueue := (se.ScheduleEvent e).1.eventQueue }) := by
  unfold SimulationEngine.ScheduleEvent
  by_cases h : e.Timestamp < se.currentTime
  · simp [h]
  · simp only [h, if_false, Option.isSome_none, Bool.false_eq_true, and_true, true_and]
    exact Enqueue_perm _ _

theorem ScheduleEvent_inv (se : SimulationEngine) (e : Event) (h : EngineInv se) :
    (se.ScheduleEvent e).1.config = se.config ∧
      (se.ScheduleEvent e).1.currentTime = se.currentTime ∧ EngineInv (se.ScheduleEvent e).1 := by
  unfold SimulationEngine.ScheduleEvent
  by_cases hlt : e.Timestamp < se.currentTime
  · simp only [hlt, if_true]
    exact ⟨trivial, trivial, h⟩
  · simp only [hlt, if_false]
    refine ⟨trivial, trivial, (Enqueue_spec _ e h.1).1, ?_⟩
    intro x hx
    have hx' := (Enqueue_perm se.eventQueue e).subset hx
    rcases List.mem_cons.mp hx' with hx' | hx'
    · rw [hx']
      exact not_lt.mp hlt
    · exact h.2 x hx'

theorem scheduleResults_inv : ∀ (evs : List Event) (se : SimulationEngine), EngineInv se →
    (se.scheduleResults evs).config = se.config ∧
      (se.scheduleResults evs).currentTime = se.currentTime ∧
      EngineInv (se.scheduleResults evs) := by
  intro evs
  induction evs with
  | nil => intro se h; exact ⟨rfl, rfl, h⟩
  | cons e evs ih =>
    intro se h
    have h1 := ScheduleEvent_inv se e h
    have h2 := ih _ h1.2.2
    simp only [SimulationEngine.scheduleResults, List.foldl_cons] at *
    exact ⟨h2.1.trans h1.1, h2.2.1.trans h1.2.1, h2.2.2⟩

theorem processEvent_inv (se se2 : SimulationEngine) (rt : Runtime) (fuel : Nat) (event : Event)
    (h : EngineInv se) (hp : se.processEvent rt fuel event = Outcome.done se2) :
    se2.config = se.config ∧ se2.currentTime = se.currentTime ∧ EngineInv se2 := by
  unfold SimulationEngine.processEvent at hp
  split at hp
  · split at hp
    · rename_i r _
      injection hp with hp
      subst hp
      exact scheduleResults_inv r.2 _ h
    · exact Outcome.noConfusion hp
    · exact Outcome.noConfusion hp
  · injection hp with hp
    subst hp
    exact ⟨rfl, rfl, h⟩

theorem Dequeue_none_inv (q q1 : EventQueue) (hq : IsHeap q.items)
    (h : q.Dequeue = (none, q1)) : q1.items = [] := by
  by_cases hne : q.items = []
  · rw [Dequeue_empty q hne] at h
    injection h with _ h2
    rw [← h2]
    exact hne
  · have hd := (Dequeue_spec q hq hne).1
    rw [h] at hd
    exact Option.noConfusion hd

theorem Dequeue_some_inv (q q1 : EventQueue) (event : Event) (hq : IsHeap q.items)
    (h : q.Dequeue = (some event, q1)) :
    event ∈ q.items ∧ IsHeap q1.items ∧ (∀ x ∈ q1.items, event.Timestamp ≤ x.Timestamp) ∧
      ∀ x ∈ q1.items, x ∈ q.items := by
  have hne : q.items ≠ [] := by
    intro hne
    rw [Dequeue_empty q hne] at h
    injection h with h1 _
    exact Option.noConfusion h1
  have hd := Dequeue_spec q hq hne
  rw [h] at hd
  have he : event = itemAt q.items 0 := Option.some.inj hd.1
  have hsub : ∀ x ∈ q1.items, x ∈ q.items :=
    fun x hx => hd.2.2.subset (List.mem_cons_of_mem _ hx)
  refine ⟨he ▸ itemAt_zero_mem hne, hd.2.1, ?_, hsub⟩
  intro x hx
  rw [he]
  exact keyLE_timestamp (IsHeap_root_min hq x (hsub x hx))

theorem iteration_inv (se : SimulationEngine) (rt : Runtime) (fuel : Nat) (now : Int)
    (r : IterationResult) (hstep : 0 ≤ se.config.TimeStep) (h : EngineInv se)
    (hr : se.runSimulationIteration rt fuel now = some r) :
    r.engine.config = se.config ∧ EngineInv r.engine ∧
      se.currentTime ≤ r.engine.currentTime ∧
      ∀ d, r.dispatched = some d → d.Timestamp = r.engine.currentTime := by
  unfold SimulationEngine.runSimulationIteration at hr
  split at hr
  · injection hr with hr
    subst hr
    exact ⟨rfl, h, le_refl _, fun d hd => Option.noConfusion hd⟩
  split at hr
  · injection hr with hr
    subst hr
    exact ⟨rfl, h, le_refl _, fun d hd => Option.noConfusion hd⟩
  split at hr
  · injection hr with hr
    subst hr
    exact ⟨rfl, h, le_refl _, fun d hd => Option.noConfusion hd⟩
  split at hr
  · rename_i q hdq
    injection hr with hr
    subst hr
    have hnil := Dequeue_none_inv _ _ h.1 hdq
    refine ⟨rfl, ⟨?_, ?_⟩, ?_, fun d hd => Option.noConfusion hd⟩
    · simp only [hnil]
      exact IsHeap_nil
    · intro x hx
      simp only [hnil, List.not_mem_nil] at hx
    · simp only
      linarith
  · rename_i event q hdq
    have hd := Dequeue_some_inv _ _ _ h.1 hdq
    have hge : se.currentTime ≤ event.Timestamp := h.2 event hd.1
    have hinv1 : EngineInv { se with eventQueue := q, currentTime := event.Timestamp } :=
      ⟨hd.2.1, hd.2.2.1⟩
    dsimp only at hr
    split at hr
    · exact Option.noConfusion hr
    · injection hr with hr
      subst hr
      exact ⟨rfl, hinv1, hge, fun d hd' => by injection hd' with hd'; rw [← hd']⟩
    · rename_i se2 hp
      have hp2 := processEvent_inv _ se2 rt fuel event hinv1 hp
      have hinv3 : EngineInv (se2.updateMetrics event) := hp2.2.2
      have hcfg : (se2.updateMetrics event).config = se.config := hp2.1
      have htime : (se2.updateMetrics event).currentTime = event.Timestamp := hp2.2.1
      split at hr
      · injection hr with hr
        subst hr
        refine ⟨hcfg, hinv3, ?_, fun d hd' => ?_⟩
        · show se.currentTime ≤ (se2.updateMetrics event).currentTime
          rw [htime]
          exact hge
        · injection hd' with hd'
          rw [← hd']
          exact htime.symm
      · injection hr with hr
        subst hr
        refine ⟨hcfg, hinv3, ?_, fun d hd' => ?_⟩
        · show se.currentTime ≤ (se2.updateMetrics event).currentTime
          rw [htime]
          exact hge
        · injection hd' with hd'
          rw [← hd']
          exact htime.symm

theorem runActions_inv : ∀ (acts : List EngineAction) (se se' : SimulationEngine)
    (d : List Event), 0 ≤ se.config.TimeStep → EngineInv se →
    runActions se acts = some (se', d) →
    se'.config = se.config ∧ EngineInv se' ∧ se.currentTime ≤ se'.currentTime ∧
      d.Pairwise (fun a b => a.Timestamp ≤ b.Timestamp) ∧
      ∀ x ∈ d, se.currentTime ≤ x.Timestamp ∧ x.Timestamp ≤ se'.currentTime := by
  intro acts
  induction acts with
  | nil =>
    intro se se' d _ h hr
    simp only [runActions, Option.some.injEq, Prod.mk.injEq] at hr
    obtain ⟨rfl, rfl⟩ := hr
    exact ⟨rfl, h, le_refl _, List.Pairwise.nil, fun x hx => absurd hx (List.not_mem_nil x)⟩
  | cons a acts ih =>
    intro se se' d hstep h hr
    cases a with
    | schedule event =>
      simp only [runActions] at hr
      have h1 := ScheduleEvent_inv se event h
      have h2 := ih _ se' d (by rw [h1.1]; exact hstep) h1.2.2 hr
      rw [h1.1, h1.2.1] at h2
      exact h2
    | iterate rt fuel now =>
      simp only [runActions] at hr
      split at hr
      · exact Option.noConfusion hr
      · rename_i r hit
        split at hr
        · exact Option.noConfusion hr
        · rename_i out hout
          simp only [Option.some.injEq, Prod.mk.injEq] at hr
          obtain ⟨rfl, rfl⟩ := hr
          have h1 := iteration_inv se rt fuel now r hstep h hit
          have h2 := ih r.engine out.1 out.2 (by rw [h1.1]; exact hstep) h1.2.1 hout
          refine ⟨h2.1.trans h1.1, h2.2.1, le_trans h1.2.2.1 h2.2.2.1, ?_, ?_⟩
          · rw [List.pairwise_append]
            refine ⟨?_, h2.2.2.2.1, ?_⟩
            · cases r.dispatched <;> simp
            · intro x hx y hy
              cases hd : r.dispatched with
              | none => rw [hd] at hx; simp at hx
              | some ev =>
                rw [hd] at hx
                simp only [Option.toList_some, List.mem_singleton] at hx
                rw [hx, h1.2.2.2 ev hd]
                exact (h2.2.2.2.2 y hy).1
          · intro x hx
            rcases List.mem_append.mp hx with hx | hx
            · cases hd : r.dispatched with
              | none => rw [hd] at hx; simp at hx
              | some ev =>
                rw [hd] at hx
                simp only [Option.toList_some, List.mem_singleton] at hx
                rw [hx, h1.2.2.2 ev hd]
                exact ⟨h1.2.2.1, h2.2.2.1⟩
            · exact ⟨le_trans h1.2.2.1 (h2.2.2.2.2 x hx).1, (h2.2.2.2.2 x hx).2⟩

theorem NewSimulationEngine_inv (config : Option SimulationConfig) :
    EngineInv (NewSimulationEngine config) := by
  unfold EngineInv NewSimulationEngine
  simp only [NewEventQueue_items]
  exact ⟨IsHeap_nil, fun x hx => absurd hx (List.not_mem_nil x)⟩

/-- C5: with a non-negative `time_step`, from an engine state in which the queue
is heap ordered and no queued event lies before the current time (as in a new
engine), along every sequence of dispatch-loop passes and `ScheduleEvent` calls
the virtual time at a later point is never below the time at an earlier point,
the events are dispatched with non-decreasing timestamps, and again no queued
event lies before the current time. -/
theorem currentTime_never_decreases (se s1 s2 : SimulationEngine)
    (a1 a2 : List EngineAction) (d1 d2 : List Event)
    (hstep : 0 ≤ se.config.TimeStep) (hinv : EngineInv se)
    (h1 : runActions se a1 = some (s1, d1)) (h2 : runActions s1 a2 = some (s2, d2)) :
    s1.currentTime ≤ s2.currentTime ∧
      (d1 ++ d2).Pairwise (fun a b => a.Timestamp ≤ b.Timestamp) ∧
      (∀ x ∈ s2.eventQueue.items, s2.currentTime ≤ x.Timestamp) := by
  have k1 := runActions_inv a1 se s1 d1 hstep hinv h1
  have k2 := runActions_inv a2 s1 s2 d2 (by rw [k1.1]; exact hstep) k1.2.1 h2
  refine ⟨k2.2.2.1, ?_, k2.2.1.2⟩
  rw [List.pairwise_append]
  refine ⟨k1.2.2.2.1, k2.2.2.2.1, ?_⟩
  intro x hx y hy
  exact le_trans (k1.2.2.2.2 x hx).2 (k2.2.2.2.2 y hy).1

theorem iteration_isSome (se : SimulationEngine) (rt : Runtime) (fuel : Nat) (now : Int)
    (hc : se.components = []) : (se.runSimulationIteration rt fuel now).isSome = true := by
  unfold SimulationEngine.runSimulationIteration
  split
  · rfl
  split
  · rfl
  split
  · rfl
  split
  · rfl
  · rename_i event q _
    have hp : ({ se with eventQueue := q, currentTime := event.Timestamp } :
        SimulationEngine).processEvent rt fuel event
        = Outcome.done { se with eventQueue := q, currentTime := event.Timestamp } := by
      simp [SimulationEngine.processEvent, hc]
    dsimp only
    rw [hp]
    dsimp only
    split <;> rfl

theorem runActions_single_iterate (se : SimulationEngine) (rt : Runtime) (fuel : Nat)
    (now : Int) (r : IterationResult) (h : se.runSimulationIteration rt fuel now = some r) :
    runActions se [EngineAction.iterate rt fuel now]
      = some (r.engine, r.dispatched.toList ++ []) := by
  simp [runActions, h]

/-- Witness for C5: a started engine, one `ScheduleEvent` call, then one pass of
the dispatch loop. -/
theorem currentTime_never_decreases_witness :
    0 ≤ runningEngine.config.TimeStep ∧ EngineInv runningEngine ∧
    ∃ s2 d2,
      runActions (runningEngine.ScheduleEvent (arrivalAt "a" 5 0)).1
        [EngineAction.iterate quietRuntime 0 0] = some (s2, d2) ∧
      (runningEngine.ScheduleEvent (arrivalAt "a" 5 0)).1.currentTime ≤ s2.currentTime ∧
      (([] : List Event) ++ d2).Pairwise (fun a b => a.Timestamp ≤ b.Timestamp) ∧
      (∀ x ∈ s2.eventQueue.items, s2.currentTime ≤ x.Timestamp) := by
  have hstep : 0 ≤ runningEngine.config.TimeStep := by
    simp [runningEngine, NewSimulationEngine, DefaultSimulationConfig]
  have hinv : EngineInv runningEngine := NewSimulationEngine_inv none
  have hc : (runningEngine.ScheduleEvent (arrivalAt "a" 5 0)).1.components = [] := by
    unfold SimulationEngine.ScheduleEvent
    split <;> rfl
  obtain ⟨r, hr⟩ := Option.isSome_iff_exists.mp
    (iteration_isSome (runningEngine.ScheduleEvent (arrivalAt "a" 5 0)).1 quietRuntime 0 0 hc)
  have h2 := runActions_single_iterate _ _ _ _ r hr
  exact ⟨hstep, hinv, r.engine, r.dispatched.toList ++ [], h2,
    currentTime_never_decreases runningEngine _ _
      [EngineAction.schedule (arrivalAt "a" 5 0)] _ [] _ hstep hinv rfl h2⟩

/-! ## Theorems: components -/

@[simp] theorem newEvent_Timestamp (rt : Runtime) (m : Nat) (tag id : String) (ts : Rat)
    (k : EventType) (target : String) (data : List (String × Value)) :
    (rt.newEvent m tag id ts k target data).Timestamp = ts := rfl

theorem GenericService.validate_pos_gs (gs : GenericService) (hv : gs.Validate = none) :
    0 < gs.ProcessingTime := by
  unfold GenericService.Validate at hv
  split at hv
  · exact Option.noConfusion hv
  · split_ifs at hv with h1
    exact not_le.mp h1

theorem GenericService.handle_causal_gs (gs : GenericService) (rt : Runtime) (event : Event)
    (hv : gs.Validate = none) :
    ∀ ev ∈ (gs.HandleEvent rt event).2, event.Timestamp ≤ ev.Timestamp := by
  have hpt := gs.validate_pos_gs hv
  intro ev hev
  unfold GenericService.HandleEvent at hev
  split_ifs at hev
  · simp only [GenericService.handleRequestArrival] at hev
    split_ifs at hev <;> simp only [List.mem_singleton] at hev <;> subst hev <;>
      simp only [newEvent_Timestamp, GenericService.SetState, le_refl] <;> linarith
  · simp only [GenericService.handleRequestProcessed, List.mem_singleton] at hev
    subst hev
    simp
  · simp at hev

theorem Database.validate_pos_db (db : Database) (hv : db.Validate = none) :
    0 < db.ReadLatency ∧ 0 < db.WriteLatency ∧ 0 < db.QueryLatency := by
  unfold Database.Validate at hv
  split at hv
  · exact Option.noConfusion hv
  · split_ifs at hv with h1 h2 h3
    exact ⟨not_le.mp h1, not_le.mp h2, not_le.mp h3⟩

theorem Database.handle_causal_db (db : Database) (rt : Runtime) (event : Event)
    (hv : db.Validate = none) :
    ∀ ev ∈ (db.HandleEvent rt event).2, event.Timestamp ≤ ev.Timestamp := by
  have hpt := db.validate_pos_db hv
  intro ev hev
  unfold Database.HandleEvent at hev
  split_ifs at hev
  · simp only [Database.handleDatabaseRead] at hev
    split_ifs at hev <;> simp only [List.mem_singleton] at hev <;> subst hev <;>
      simp [Database.SetState] <;> linarith
  · simp only [Database.handleDatabaseWrite] at hev
    split_ifs at hev <;> simp only [List.mem_singleton] at hev <;> subst hev <;>
      simp [Database.SetState] <;> linarith
  · simp only [Database.handleDatabaseQuery] at hev
    split_ifs at hev <;> simp only [List.mem_singleton] at hev <;> subst hev <;>
      simp [Database.SetState] <;> linarith
  · simp at hev

theorem MessageQueue.validate_pos_mq (mq : MessageQueue) (hv : mq.Validate = none) :
    0 < mq.ProcessingTime := by
  unfold MessageQueue.Validate at hv
  split at hv
  · exact Option.noConfusion hv
  · split_ifs at hv with h1
    exact not_le.mp h1

theorem MessageQueue.handle_causal_mq (mq : MessageQueue) (rt : Runtime) (event : Event)
    (hv : mq.Validate = none) :
    ∀ ev ∈ (mq.HandleEvent rt event).2, event.Timestamp ≤ ev.Timestamp := by
  have hpt := mq.validate_pos_mq hv
  intro ev hev
  unfold MessageQueue.HandleEvent at hev
  split_ifs at hev
  · simp only [MessageQueue.handleMessageEnqueue] at hev
    split_ifs at hev <;>
      simp only [List.mem_singleton, List.mem_cons, List.mem_nil_iff, or_false] at hev
    · subst hev; simp
    · subst hev; simp
    · rcases hev with hev | hev <;> subst hev <;> simp [MessageQueue.SetState] <;> linarith
    · subst hev
      simp [MessageQueue.SetState]
      linarith
  · simp only [MessageQueue.handleMessageDequeue] at hev
    split_ifs at hev <;> simp only [List.mem_singleton] at hev <;> subst hev <;>
      simp [MessageQueue.SetState] <;> linarith
  · simp at hev

theorem LoadBalancer.validate_pos_lb (lb : LoadBalancer) (hv : lb.Validate = none) :
    0 < lb.RoutingLatency := by
  unfold LoadBalancer.Validate at hv
  split at hv
  · exact Option.noConfusion hv
  · split_ifs at hv with h1
    exact not_le.mp h1

theorem LoadBalancer.selectRoundRobin_latency (lb lb1 : LoadBalancer)
    (hs : List (Nat × BackendServer)) (x : Option Nat)
    (h : lb.selectRoundRobin hs = some (lb1, x)) : lb1.RoutingLatency = lb.RoutingLatency := by
  unfold LoadBalancer.selectRoundRobin at h
  dsimp only at h
  split_ifs at h
  · simp only [Option.some.injEq, Prod.mk.injEq] at h
    rw [← h.1]
  · split at h
    · exact Option.noConfusion h
    · simp only [Option.some.injEq, Prod.mk.injEq] at h
      rw [← h.1]

theorem LoadBalancer.selectBackendServer_latency (lb lb1 : LoadBalancer) (rt : Runtime)
    (hs : List (Nat × BackendServer)) (x : Option Nat)
    (h : lb.selectBackendServer rt hs = some (lb1, x)) :
    lb1.RoutingLatency = lb.RoutingLatency := by
  unfold LoadBalancer.selectBackendServer at h
  split_ifs at h
  · simp only [Option.some.injEq, Prod.mk.injEq] at h
    rw [← h.1]
  · exact lb.selectRoundRobin_latency lb1 hs x h
  · simp only [Option.some.injEq, Prod.mk.injEq] at h
    rw [← h.1]
  · unfold LoadBalancer.selectWeighted at h
    dsimp only at h
    split_ifs at h
    · exact lb.selectRoundRobin_latency lb1 hs x h
    · split at h <;> simp only [Option.some.injEq, Prod.mk.injEq] at h <;> rw [← h.1]
  · exact lb.selectRoundRobin_latency lb1 hs x h

theorem LoadBalancer.handle_causal_lb (lb : LoadBalancer) (rt : Runtime) (event : Event)
    (r : LoadBalancer × List Event) (hv : lb.Validate = none)
    (h : lb.HandleEvent rt event = some r) :
    ∀ ev ∈ r.2, event.Timestamp ≤ ev.Timestamp := by
  have hpt := lb.validate_pos_lb hv
  intro ev hev
  unfold LoadBalancer.HandleEvent at h
  split_ifs at h
  · split at h
    · exact Option.noConfusion h
    · rename_i r1 hr1
      simp only [Option.some.injEq] at h
      subst h
      simp only at hev
      unfold LoadBalancer.handleRequestRouting at hr1
      dsimp only at hr1
      split_ifs at hr1
      · simp only [Option.some.injEq] at hr1
        subst hr1
        simp only [List.mem_singleton] at hev
        subst hev
        simp
      · simp only [Option.some.injEq] at hr1
        subst hr1
        simp only [List.mem_singleton] at hev
        subst hev
        simp
      · split at hr1
        · exact Option.noConfusion hr1
        · simp only [Option.some.injEq] at hr1
          subst hr1
          simp only [List.mem_singleton] at hev
          subst hev
          simp
        · rename_i lb1 i hsel
          have hlat := lb.selectBackendServer_latency lb1 rt _ _ hsel
          split at hr1
          · exact Option.noConfusion hr1
          · simp only [Option.some.injEq] at hr1
            subst hr1
            simp only [List.mem_cons, List.mem_singleton, List.mem_nil_iff, or_false] at hev
            rcases hev with hev | hev <;> subst hev <;>
              simp [LoadBalancer.SetState, hlat] <;> linarith
  · simp only [Option.some.injEq] at h
    subst h
    simp at hev

theorem Cache.validate_pos_cache (c : Cache) (hv : c.Validate = none) : 0 < c.AccessTime := by
  unfold Cache.Validate at hv
  split at hv
  · exact Option.noConfusion hv
  · split_ifs at hv with h1 h2
    exact not_le.mp h2

theorem Cache.evictEntries_AccessTime (rt : Runtime) (requiredSpace : Int) :
    ∀ (fuel k : Nat) (c c' : Cache), Cache.evictEntries rt requiredSpace fuel k c = some c' →
      c'.AccessTime = c.AccessTime := by
  intro fuel
  induction fuel with
  | zero =>
    intro k c c' h
    unfold Cache.evictEntries at h
    split_ifs at h
    simp only [Option.some.injEq] at h
    rw [← h]
  | succ fuel ih =>
    intro k c c' h
    unfold Cache.evictEntries at h
    split_ifs at h
    · have h1 := ih _ _ _ h
      rw [h1]
      split_ifs
      · split <;> rfl
      · rfl
    · simp only [Option.some.injEq] at h
      rw [← h]

theorem Cache.readLookup_AccessTime (c : Cache) (rt : Runtime) (keyStr : String)
    (event : Event) : (c.readLookup rt keyStr event).1.AccessTime = c.AccessTime := by
  unfold Cache.readLookup
  split
  · split_ifs <;> rfl
  · rfl

theorem Cache.storeEntry_AccessTime (c : Cache) (keyStr : String) (value : Value) (size : Int)
    (event : Event) : (c.storeEntry keyStr value size event).AccessTime = c.AccessTime := by
  unfold Cache.storeEntry
  split <;> rfl

theorem Cache.makeRoom_AccessTime (c c' : Cache) (rt : Runtime) (fuel : Nat) (size : Int)
    (h : c.makeRoom rt fuel size = some c') : c'.AccessTime = c.AccessTime := by
  unfold Cache.makeRoom at h
  split_ifs at h
  · exact Cache.evictEntries_AccessTime rt _ _ _ _ _ h
  · simp only [Option.some.injEq] at h
    rw [← h]

theorem Cache.handle_causal_cache (c : Cache) (rt : Runtime) (fuel : Nat) (event : Event)
    (r : Cache × List Event) (hv : c.Validate = none)
    (h : c.HandleEvent rt fuel event = some r) :
    ∀ ev ∈ r.2, event.Timestamp ≤ ev.Timestamp := by
  have hpt := c.validate_pos_cache hv
  intro ev hev
  unfold Cache.HandleEvent at h
  split_ifs at h
  · simp only [Option.some.injEq] at h
    subst h
    simp only [Cache.handleCacheRead] at hev
    split_ifs at hev <;> simp only [List.mem_singleton] at hev <;> subst hev <;>
      simp [Cache.SetState, Cache.readLookup_AccessTime] <;> linarith
  · split at h
    · exact Option.noConfusion h
    · rename_i r1 hr1
      simp only [Option.some.injEq] at h
      subst h
      simp only at hev
      unfold Cache.handleCacheWrite at hr1
      dsimp only at hr1
      split_ifs at hr1
      · simp only [Option.some.injEq] at hr1
        subst hr1
        simp only [List.mem_singleton] at hev
        subst hev
        simp
      · split at hr1
        · exact Option.noConfusion hr1
        · rename_i c2 hc2
          have hat : c2.AccessTime = c.AccessTime :=
            (Cache.makeRoom_AccessTime _ _ _ _ _ hc2).trans rfl
          simp only [Option.some.injEq] at hr1
          subst hr1
          simp only [List.mem_singleton] at hev
          subst hev
          simp only [newEvent_Timestamp, Cache.storeEntry_AccessTime, hat]
          linarith
  · simp only [Option.some.injEq] at h
    subst h
    simp at hev

theorem APIGateway.validate_pos_ag (ag : APIGateway) (hv : ag.Validate = none) :
    0 < ag.RoutingLatency := by
  unfold APIGateway.Validate at hv
  split at hv
  · exact Option.noConfusion hv
  · split_ifs at hv with h1
    exact not_le.mp h1

theorem APIGateway.handle_causal_ag (ag : APIGateway) (rt : Runtime) (event : Event)
    (hv : ag.Validate = none) :
    ∀ ev ∈ (ag.HandleEvent rt event).2, event.Timestamp ≤ ev.Timestamp := by
  have hpt := ag.validate_pos_ag hv
  intro ev hev
  unfold APIGateway.HandleEvent at hev
  split_ifs at hev
  · simp only [APIGateway.handleAPIRequest] at hev
    repeat' split at hev
    all_goals
      simp only [List.mem_singleton] at hev
      subst hev
      simp only [newEvent_Timestamp, APIGateway.SetState, le_refl]
    linarith
  · simp only [APIGateway.handleRequestCompletion, List.mem_singleton] at hev
    subst hev
    simp
  · simp at hev


/-- C6: for each of the six component kinds, when the component passes `Validate`,
every event that `HandleEvent` returns for an event `e`, whatever the state, the
random draws and the clock, has a timestamp at or after `e`'s; hence
`ScheduleEvent` of an engine whose virtual time is `e`'s timestamp refuses none
of them. -/
theorem reactions_not_before_event (c c' : Component) (rt : Runtime) (fuel : Nat)
    (event : Event) (evs : List Event) (hv : c.Validate = none)
    (h : c.HandleEvent rt fuel event = Outcome.done (c', evs)) :
    (∀ ev ∈ evs, event.Timestamp ≤ ev.Timestamp) ∧
      ∀ se : SimulationEngine, se.currentTime = event.Timestamp →
        ∀ ev ∈ evs, (se.ScheduleEvent ev).2 = none := by
  have main : ∀ ev ∈ evs, event.Timestamp ≤ ev.Timestamp := by
    cases c with
    | genericService s =>
      simp only [Component.HandleEvent, Outcome.done.injEq, Prod.mk.injEq] at h
      rw [← h.2]
      exact s.handle_causal_gs rt event hv
    | database s =>
      simp only [Component.HandleEvent, Outcome.done.injEq, Prod.mk.injEq] at h
      rw [← h.2]
      exact s.handle_causal_db rt event hv
    | messageQueue s =>
      simp only [Component.HandleEvent, Outcome.done.injEq, Prod.mk.injEq] at h
      rw [← h.2]
      exact s.handle_causal_mq rt event hv
    | loadBalancer s =>
      simp only [Component.HandleEvent] at h
      split at h
      · exact Outcome.noConfusion h
      · rename_i r hr
        simp only [Outcome.done.injEq, Prod.mk.injEq] at h
        rw [← h.2]
        exact s.handle_causal_lb rt event r hv hr
    | cache s =>
      simp only [Component.HandleEvent] at h
      split at h
      · exact Outcome.noConfusion h
      · rename_i r hr
        simp only [Outcome.done.injEq, Prod.mk.injEq] at h
        rw [← h.2]
        exact s.handle_causal_cache rt fuel event r hv hr
    | apiGateway s =>
      simp only [Component.HandleEvent, Outcome.done.injEq, Prod.mk.injEq] at h
      rw [← h.2]
      exact s.handle_causal_ag rt event hv
  refine ⟨main, ?_⟩
  intro se hse ev hev
  have hle := main ev hev
  unfold SimulationEngine.ScheduleEvent
  rw [hse, if_neg (not_lt.mpr hle)]

/-- Witness for C6: a generic service with the constructor defaults handling an
arrival. -/
theorem reactions_not_before_event_witness :
    (Component.genericService (NewGenericService "svc")).Validate = none ∧
    (Component.genericService (NewGenericService "svc")).HandleEvent quietRuntime 0
        (arrivalAt "e" 1 0)
      = Outcome.done
          (Component.genericService
            ((NewGenericService "svc").HandleEvent quietRuntime (arrivalAt "e" 1 0)).1,
           ((NewGenericService "svc").HandleEvent quietRuntime (arrivalAt "e" 1 0)).2) ∧
    ((∀ ev ∈ ((NewGenericService "svc").HandleEvent quietRuntime (arrivalAt "e" 1 0)).2,
        (arrivalAt "e" 1 0).Timestamp ≤ ev.Timestamp) ∧
      ∀ se : SimulationEngine, se.currentTime = (arrivalAt "e" 1 0).Timestamp →
        ∀ ev ∈ ((NewGenericService "svc").HandleEvent quietRuntime (arrivalAt "e" 1 0)).2,
          (se.ScheduleEvent ev).2 = none) := by
  have hv : (Component.genericService (NewGenericService "svc")).Validate = none := by
    simp [Component.Validate, GenericService.Validate, BaseComponent.Validate, NewGenericService,
      NewBaseComponent, TypeGenericService]
    norm_num
  exact ⟨hv, rfl, reactions_not_before_event _ _ quietRuntime 0 (arrivalAt "e" 1 0) _ hv rfl⟩

theorem GenericService.SetMetric_sameBut (gs g : GenericService) (k : String) (v : PropValue)
    (h : ∃ b, g = { gs with base := b } ∧ b.State = gs.base.State) :
    ∃ b, g.SetMetric k v = { gs with base := b } ∧ b.State = gs.base.State := by
  obtain ⟨b, rfl, hs⟩ := h
  exact ⟨_, rfl, hs⟩

theorem GenericService.updateMetrics_eq (gs : GenericService) (e : Event) :
    ∃ b, gs.updateMetrics e = { gs with base := b } ∧ b.State = gs.base.State := by
  unfold GenericService.updateMetrics
  apply GenericService.SetMetric_sameBut
  split_ifs <;> (repeat apply GenericService.SetMetric_sameBut) <;> exact ⟨gs.base, rfl, rfl⟩

theorem GenericService.HandleEvent_arrival (gs : GenericService) (rt : Runtime) (e : Event)
    (hk : e.Kind = RequestArrival) :
    gs.HandleEvent rt e
      = ((gs.handleRequestArrival rt e).1.updateMetrics e, (gs.handleRequestArrival rt e).2) := by
  unfold GenericService.HandleEvent
  rw [if_pos hk]

theorem GenericService.HandleEvent_processed (gs : GenericService) (rt : Runtime) (e : Event)
    (hk : e.Kind = RequestProcessed) :
    gs.HandleEvent rt e
      = ((gs.handleRequestProcessed rt e).1.updateMetrics e,
         (gs.handleRequestProcessed rt e).2) := by
  unfold GenericService.HandleEvent
  have hne : ¬ e.Kind = RequestArrival := by rw [hk]; decide
  rw [if_neg hne, if_pos hk]

theorem GenericService.handleRequestArrival_accept (gs : GenericService) (rt : Runtime)
    (e : Event) (hlt : gs.CurrentLoad < gs.MaxConcurrency)
    (hd : ¬ rt.Float64 0 < gs.FailureRate) :
    gs.handleRequestArrival rt e
      = ((({ gs with CurrentLoad := gs.CurrentLoad + 1 }).SetState StateProcessing),
         [rt.newEvent 0 "complete" gs.GetID (e.Timestamp + gs.ProcessingTime) RequestProcessed
            gs.GetID [("request_id", (e.GetDataValue "request_id").1),
              ("processing_time", Value.float gs.ProcessingTime)]]) := by
  unfold GenericService.handleRequestArrival
  rw [if_neg (not_le.mpr hlt)]
  dsimp only
  split_ifs with h2 h3
  · exact absurd h2 hd
  · exact absurd h2 hd
  · rfl

theorem GenericService.handleRequestArrival_reject (gs : GenericService) (rt : Runtime)
    (e : Event) (hge : gs.MaxConcurrency ≤ gs.CurrentLoad) :
    gs.handleRequestArrival rt e
      = ({ gs with RequestsFailed := gs.RequestsFailed + 1 },
         [rt.newEvent 0 "fail" gs.GetID e.Timestamp RequestFailed gs.GetID
            [("reason", Value.str "service_overloaded"),
             ("request_id", (e.GetDataValue "request_id").1)]]) := by
  unfold GenericService.handleRequestArrival
  rw [if_pos hge]

theorem GenericService.arrival_accept (gs : GenericService) (rt : Runtime) (e : Event)
    (hlt : gs.CurrentLoad < gs.MaxConcurrency) (hnd : ¬ rt.Float64 0 < gs.FailureRate)
    (hk : e.Kind = RequestArrival) :
    (gs.HandleEvent rt e).1.CurrentLoad = gs.CurrentLoad + 1 ∧
      (gs.HandleEvent rt e).1.MaxConcurrency = gs.MaxConcurrency ∧
      (gs.HandleEvent rt e).1.FailureRate = gs.FailureRate ∧
      (gs.HandleEvent rt e).1.RequestsFailed = gs.RequestsFailed ∧
      isAccepted (gs.HandleEvent rt e).2 = true ∧
      (gs.HandleEvent rt e).1.base.State = StateProcessing := by
  obtain ⟨b, hb, hst⟩ := GenericService.updateMetrics_eq (gs.handleRequestArrival rt e).1 e
  rw [gs.handleRequestArrival_accept rt e hlt hnd] at hst
  rw [gs.HandleEvent_arrival rt e hk, hb, gs.handleRequestArrival_accept rt e hlt hnd]
  exact ⟨rfl, rfl, rfl, rfl, rfl, hst⟩

theorem GenericService.processed_step (gs : GenericService) (rt : Runtime) (e : Event)
    (hk : e.Kind = RequestProcessed) :
    (gs.HandleEvent rt e).1.CurrentLoad = gs.CurrentLoad - 1 ∧
      (gs.HandleEvent rt e).1.MaxConcurrency = gs.MaxConcurrency ∧
      (gs.HandleEvent rt e).1.FailureRate = gs.FailureRate ∧
      (gs.HandleEvent rt e).1.base.State
        = if gs.CurrentLoad - 1 = 0 then StateIdle else gs.base.State := by
  obtain ⟨b, hb, hst⟩ := GenericService.updateMetrics_eq (gs.handleRequestProcessed rt e).1 e
  rw [gs.HandleEvent_processed rt e hk, hb]
  unfold GenericService.handleRequestProcessed at hst ⊢
  dsimp only at hst ⊢
  refine ⟨?_, ?_, ?_, ?_⟩
  · split_ifs <;> rfl
  · split_ifs <;> rfl
  · split_ifs <;> rfl
  · rw [hst]
    split_ifs <;> rfl

theorem GenericService.arrival_reject (gs : GenericService) (rt : Runtime) (e : Event)
    (hge : gs.MaxConcurrency ≤ gs.CurrentLoad) (hk : e.Kind = RequestArrival) :
    (gs.HandleEvent rt e).1.CurrentLoad = gs.CurrentLoad ∧
      (gs.HandleEvent rt e).1.MaxConcurrency = gs.MaxConcurrency ∧
      (gs.HandleEvent rt e).1.FailureRate = gs.FailureRate ∧
      (gs.HandleEvent rt e).1.RequestsFailed = gs.RequestsFailed + 1 ∧
      isOverloadRejection e.Timestamp (gs.HandleEvent rt e).2 = true := by
  obtain ⟨b, hb, _⟩ := GenericService.updateMetrics_eq (gs.handleRequestArrival rt e).1 e
  rw [gs.HandleEvent_arrival rt e hk, hb, gs.handleRequestArrival_reject rt e hge]
  refine ⟨rfl, rfl, rfl, rfl, ?_⟩
  simp [isOverloadRejection, Runtime.newEvent, NewEvent, List.lookup]


theorem GenericService.handleAll_arrivals (k : Nat) (t : Rat) :
    ∀ (inputs : List (Runtime × Event)) (gs : GenericService) (l : Nat),
    gs.MaxConcurrency = k → gs.FailureRate = 0 → gs.CurrentLoad = l → l ≤ k →
    (∀ p ∈ inputs, p.1.Valid ∧ p.2.Kind = RequestArrival ∧ p.2.Timestamp = t) →
    (gs.handleAll inputs).2.length = inputs.length ∧
      (∀ out ∈ (gs.handleAll inputs).2.take (k - l), isAccepted out = true) ∧
      (∀ out ∈ (gs.handleAll inputs).2.drop (k - l), isOverloadRejection t out = true) ∧
      (gs.handleAll inputs).1.RequestsFailed
        = gs.RequestsFailed + ((inputs.length - (k - l) : Nat) : Int) ∧
      (gs.handleAll inputs).1.CurrentLoad = ((min (l + inputs.length) k : Nat) : Int) := by
  intro inputs
  induction inputs with
  | nil =>
    intro gs l _ _ hl hlk _
    simp only [GenericService.handleAll, List.length_nil, List.take_nil, List.drop_nil,
      List.not_mem_nil, false_implies, implies_true, Nat.zero_sub, Nat.cast_zero, add_zero,
      true_and]
    rw [hl, Nat.min_eq_left hlk]
  | cons p rest ih =>
    intro gs l hmax hfr hl hlk hin
    have hp := hin p (List.mem_cons_self _ _)
    have hrest : ∀ q ∈ rest, q.1.Valid ∧ q.2.Kind = RequestArrival ∧ q.2.Timestamp = t :=
      fun q hq => hin q (List.mem_cons_of_mem _ hq)
    by_cases hfull : l < k
    · have hlt : gs.CurrentLoad < gs.MaxConcurrency := by
        rw [hl, hmax]
        exact_mod_cast hfull
      have hnd : ¬ p.1.Float64 0 < gs.FailureRate := by
        rw [hfr]
        exact not_lt.mpr (hp.1.1 0).1
      have hs := gs.arrival_accept p.1 p.2 hlt hnd hp.2.1
      have hi := ih (gs.HandleEvent p.1 p.2).1 (l + 1) (hs.2.1.trans hmax) (hs.2.2.1.trans hfr)
        (by rw [hs.1, hl]; push_cast; ring) hfull hrest
      have e1 : k - l = (k - (l + 1)) + 1 := by omega
      simp only [GenericService.handleAll, List.length_cons]
      rw [e1, List.take_succ_cons, List.drop_succ_cons]
      refine ⟨by rw [hi.1], ?_, hi.2.2.1, ?_, ?_⟩
      · intro out hout
        rcases List.mem_cons.mp hout with h | h
        · rw [h]
          exact hs.2.2.2.2.1
        · exact hi.2.1 out h
      · rw [hi.2.2.2.1, hs.2.2.2.1]
        congr 2
        omega
      · rw [hi.2.2.2.2]
        congr 1
        omega
    · have hlk' : l = k := by omega
      have hge : gs.MaxConcurrency ≤ gs.CurrentLoad := by
        rw [hl, hmax, hlk']
      have hs := gs.arrival_reject p.1 p.2 hge hp.2.1
      have hi := ih (gs.HandleEvent p.1 p.2).1 l (hs.2.1.trans hmax) (hs.2.2.1.trans hfr)
        (by rw [hs.1, hl]) hlk hrest
      have e0 : k - l = 0 := by omega
      simp only [GenericService.handleAll, List.length_cons]
      rw [e0] at hi ⊢
      simp only [List.take_zero, List.drop_zero, List.not_mem_nil, false_implies, implies_true,
        true_and, Nat.sub_zero] at hi ⊢
      refine ⟨by rw [hi.1], ?_, ?_, ?_⟩
      · intro out hout
        rcases List.mem_cons.mp hout with h | h
        · rw [h, ← hp.2.2]
          exact hs.2.2.2.2
        · exact hi.2.1 out h
      · rw [hi.2.2.1, hs.2.2.2.1]
        push_cast
        ring
      · rw [hi.2.2.2]
        congr 1
        omega


theorem isAccepted_not_rejection (t : Rat) (out : List Event) (h : isAccepted out = true) :
    isOverloadRejection t out = false := by
  unfold isAccepted at h
  unfold isOverloadRejection
  split at h
  · rename_i ev
    have hk : ev.Kind = RequestProcessed := by simpa using h
    have hne : ¬ ev.Kind = RequestFailed := by rw [hk]; decide
    simp [hne]
  · exact absurd h (by simp)

theorem quietRuntime_valid : quietRuntime.Valid := by
  refine ⟨fun k => ?_, fun n hn => ?_, fun k n => List.Perm.refl _⟩
  · simp only [quietRuntime]
    norm_num
  · simp only [quietRuntime]
    exact ⟨le_refl _, hn⟩

/-- C7: a freshly started generic service with `max_concurrency = k` and
`failure_rate = 0` that handles `n` `RequestArrival` events with the same
timestamp `t`, one after the other, accepts the first `min n k` (each call
returns one `RequestProcessed`) and rejects the others (each call returns one
`RequestFailed` at `t` with reason `service_overloaded`): exactly `n - k`
rejections, truncated at zero, and `requests_failed` ends at that number,
whatever the draws in `[0, 1)`. -/
theorem overload_rejections (gs0 : GenericService) (k n : Nat) (t : Rat)
    (inputs : List (Runtime × Event)) (hk : 1 ≤ k) (hmax : gs0.MaxConcurrency = k)
    (hfr : gs0.FailureRate = 0) (hn : inputs.length = n)
    (hin : ∀ p ∈ inputs, p.1.Valid ∧ p.2.Kind = RequestArrival ∧ p.2.Timestamp = t) :
    (gs0.Start.handleAll inputs).2.length = n ∧
      (∀ out ∈ (gs0.Start.handleAll inputs).2.take k, isAccepted out = true) ∧
      (∀ out ∈ (gs0.Start.handleAll inputs).2.drop k, isOverloadRejection t out = true) ∧
      (gs0.Start.handleAll inputs).2.countP (isOverloadRejection t) = n - k ∧
      (gs0.Start.handleAll inputs).1.RequestsFailed = ((n - k : Nat) : Int) ∧
      (gs0.Start.handleAll inputs).1.CurrentLoad = ((min n k : Nat) : Int) := by
  have _hk := hk
  have h := GenericService.handleAll_arrivals k t inputs gs0.Start 0 hmax hfr rfl
    (Nat.zero_le _) hin
  simp only [Nat.sub_zero, Nat.zero_add, hn] at h
  refine ⟨h.1, h.2.1, h.2.2.1, ?_, ?_, h.2.2.2.2⟩
  · have hsplit := List.take_append_drop k (gs0.Start.handleAll inputs).2
    rw [← hsplit, List.countP_append]
    have h0 : List.countP (isOverloadRejection t) ((gs0.Start.handleAll inputs).2.take k) = 0 := by
      rw [List.countP_eq_zero]
      intro out hout
      rw [isAccepted_not_rejection t out (h.2.1 out hout)]
      exact Bool.false_ne_true
    have h1 : List.countP (isOverloadRejection t) ((gs0.Start.handleAll inputs).2.drop k)
        = ((gs0.Start.handleAll inputs).2.drop k).length := by
      rw [List.countP_eq_length]
      exact h.2.2.1
    rw [h0, h1, List.length_drop, h.1]
    omega
  · rw [h.2.2.2.1]
    show (0 : Int) + _ = _
    simp


/-- Witness for C7: capacity 2, three arrivals at time 1 with priorities 0, 1, 2. -/
theorem overload_rejections_witness :
    1 ≤ 2 ∧ overloadService.MaxConcurrency = ((2 : Nat) : Int) ∧
    overloadService.FailureRate = 0 ∧ threeArrivals.length = 3 ∧
    (∀ p ∈ threeArrivals, p.1.Valid ∧ p.2.Kind = RequestArrival ∧ p.2.Timestamp = 1) ∧
    ((overloadService.Start.handleAll threeArrivals).2.length = 3 ∧
      (∀ out ∈ (overloadService.Start.handleAll threeArrivals).2.take 2,
        isAccepted out = true) ∧
      (∀ out ∈ (overloadService.Start.handleAll threeArrivals).2.drop 2,
        isOverloadRejection 1 out = true) ∧
      (overloadService.Start.handleAll threeArrivals).2.countP (isOverloadRejection 1) = 3 - 2 ∧
      (overloadService.Start.handleAll threeArrivals).1.RequestsFailed = ((3 - 2 : Nat) : Int) ∧
      (overloadService.Start.handleAll threeArrivals).1.CurrentLoad
        = ((min 3 2 : Nat) : Int)) := by
  have hin : ∀ p ∈ threeArrivals,
      p.1.Valid ∧ p.2.Kind = RequestArrival ∧ p.2.Timestamp = 1 := by
    intro p hp
    simp only [threeArrivals, List.mem_cons, List.mem_singleton, List.mem_nil_iff,
      or_false] at hp
    rcases hp with rfl | rfl | rfl <;> exact ⟨quietRuntime_valid, rfl, rfl⟩
  exact ⟨le_of_lt one_lt_two, rfl, rfl, rfl, hin,
    overload_rejections overloadService 2 3 1 threeArrivals (le_of_lt one_lt_two) rfl rfl rfl hin⟩

/-- C9 (failing input): a started generic service that handles one
`RequestProcessed` event no arrival preceded ends with `current_load = -1`. -/
theorem current_load_negative_after_unmatched_processed :
    ((NewGenericService "svc").Start.handleAll
      [(quietRuntime, processedAt "p" 1)]).1.CurrentLoad = -1 := by
  have h := ((NewGenericService "svc").Start).processed_step quietRuntime
    (processedAt "p" 1) rfl
  simp only [GenericService.handleAll]
  rw [h.1]
  rfl

/-- C10 (failing input): a started generic service that handles a
`RequestProcessed` no arrival preceded and then a `RequestArrival` is in state
`processing` with `current_load = 0`. -/
theorem processing_state_with_zero_load :
    ((NewGenericService "svc").Start.handleAll
      [(quietRuntime, processedAt "p" 1), (quietRuntime, arrivalAt "a" 2 0)]).1.CurrentLoad = 0 ∧
    ((NewGenericService "svc").Start.handleAll
      [(quietRuntime, processedAt "p" 1), (quietRuntime, arrivalAt "a" 2 0)]).1.base.State
        = StateProcessing := by
  have h := ((NewGenericService "svc").Start).processed_step quietRuntime
    (processedAt "p" 1) rfl
  have hload : ((NewGenericService "svc").Start.HandleEvent quietRuntime
      (processedAt "p" 1)).1.CurrentLoad = -1 := by
    rw [h.1]
    rfl
  have hlt : ((NewGenericService "svc").Start.HandleEvent quietRuntime
      (processedAt "p" 1)).1.CurrentLoad
      < ((NewGenericService "svc").Start.HandleEvent quietRuntime
        (processedAt "p" 1)).1.MaxConcurrency := by
    rw [hload, h.2.1]
    decide
  have hnd : ¬ quietRuntime.Float64 0
      < ((NewGenericService "svc").Start.HandleEvent quietRuntime
        (processedAt "p" 1)).1.FailureRate := by
    rw [h.2.2.1]
    simp only [quietRuntime, GenericService.Start, GenericService.SetState, NewGenericService]
    norm_num
  have h2 := GenericService.arrival_accept _ quietRuntime (arrivalAt "a" 2 0) hlt hnd rfl
  simp only [GenericService.handleAll]
  refine ⟨?_, h2.2.2.2.2.2⟩
  rw [h2.1, hload]
  rfl

/-- C11: a generic service with `current_load < max_concurrency` that handles a
`RequestArrival` at time `t` when the failure draw does not fire (the draw is at
least `failure_rate`, which every draw in `[0, 1)` is when `failure_rate = 0`)
returns exactly one event: a `RequestProcessed` for the service itself at
`t + processing_time` carrying the arrival's `request_id`; `current_load` is one
higher than before and `requests_failed` is unchanged. -/
theorem arrival_accept_path (gs : GenericService) (rt : Runtime) (event : Event)
    (hk : event.Kind = RequestArrival) (hlt : gs.CurrentLoad < gs.MaxConcurrency)
    (hd : gs.FailureRate ≤ rt.Float64 0 ∨ (gs.FailureRate = 0 ∧ rt.Valid)) :
    (∃ ev, (gs.HandleEvent rt event).2 = [ev] ∧ ev.Kind = RequestProcessed ∧
      ev.ComponentID = gs.GetID ∧ ev.Timestamp = event.Timestamp + gs.ProcessingTime ∧
      ev.GetDataValue "request_id" = ((event.GetDataValue "request_id").1, true)) ∧
    (gs.HandleEvent rt event).1.CurrentLoad = gs.CurrentLoad + 1 ∧
    (gs.HandleEvent rt event).1.RequestsFailed = gs.RequestsFailed := by
  have hnd : ¬ rt.Float64 0 < gs.FailureRate := by
    rcases hd with hd | ⟨h0, hv⟩
    · exact not_lt.mpr hd
    · rw [h0]
      exact not_lt.mpr (hv.1 0).1
  have hs := gs.arrival_accept rt event hlt hnd hk
  refine ⟨?_, hs.1, hs.2.2.2.1⟩
  rw [gs.HandleEvent_arrival rt event hk, gs.handleRequestArrival_accept rt event hlt hnd]
  exact ⟨_, rfl, rfl, rfl, rfl, rfl⟩

/-- Witness for C11: a new service (capacity 10, processing time 1) handling an
arrival at time 1 with the draw `1/2`. -/
theorem arrival_accept_path_witness :
    (arrivalAt "e" 1 0).Kind = RequestArrival ∧
    (NewGenericService "svc").CurrentLoad < (NewGenericService "svc").MaxConcurrency ∧
    ((∃ ev, ((NewGenericService "svc").HandleEvent quietRuntime (arrivalAt "e" 1 0)).2 = [ev] ∧
        ev.Kind = RequestProcessed ∧ ev.ComponentID = (NewGenericService "svc").GetID ∧
        ev.Timestamp = (arrivalAt "e" 1 0).Timestamp + (NewGenericService "svc").ProcessingTime ∧
        ev.GetDataValue "request_id" = (((arrivalAt "e" 1 0).GetDataValue "request_id").1, true)) ∧
      ((NewGenericService "svc").HandleEvent quietRuntime (arrivalAt "e" 1 0)).1.CurrentLoad
        = (NewGenericService "svc").CurrentLoad + 1 ∧
      ((NewGenericService "svc").HandleEvent quietRuntime (arrivalAt "e" 1 0)).1.RequestsFailed
        = (NewGenericService "svc").RequestsFailed) :=
  ⟨rfl, by decide,
    arrival_accept_path (NewGenericService "svc") quietRuntime (arrivalAt "e" 1 0) rfl (by decide)
      (Or.inl (by simp only [NewGenericService, quietRuntime]; norm_num))⟩

/-! ## Theorems: load balancer selection -/

/-- The loop of `selectLeastConnections` from any accumulator `(m, r)`: either no
server of the list is below `m` and the accumulator is returned, or the result
is the first server of the list with the least connection count, which is
below `m`. -/
theorem leastLoop_spec : ∀ (l : List (Nat × BackendServer)) (m : Int) (r : Option Nat),
    ((∀ t ∈ l, m ≤ t.2.Connections) ∧
      l.foldl (fun (acc : Int × Option Nat) server =>
        if server.2.Connections < acc.1 then (server.2.Connections, some server.1) else acc)
        (m, r) = (m, r)) ∨
    (∃ (i : Nat) (s : Nat × BackendServer), l[i]? = some s ∧
      l.foldl (fun (acc : Int × Option Nat) server =>
        if server.2.Connections < acc.1 then (server.2.Connections, some server.1) else acc)
        (m, r) = (s.2.Connections, some s.1) ∧
      s.2.Connections < m ∧ (∀ t ∈ l, s.2.Connections ≤ t.2.Connections) ∧
      (∀ (j : Nat) (t : Nat × BackendServer), j < i → l[j]? = some t →
        s.2.Connections < t.2.Connections)) := by
  intro l
  induction l with
  | nil =>
    intro m r
    exact Or.inl ⟨fun t ht => absurd ht (List.not_mem_nil t), rfl⟩
  | cons x rest ih =>
    intro m r
    rw [List.foldl_cons]
    by_cases hx : x.2.Connections < m
    · rw [if_pos hx]
      right
      rcases ih x.2.Connections (some x.1) with ⟨hall, hres⟩ | ⟨i, s, hi, hres, hlt, hmin, hfirst⟩
      · refine ⟨0, x, List.getElem?_cons_zero, hres, hx, ?_, ?_⟩
        · intro t ht
          rcases List.mem_cons.mp ht with rfl | ht
          · exact le_refl _
          · exact hall t ht
        · intro j t hj
          exact absurd hj (Nat.not_lt_zero j)
      · refine ⟨i + 1, s, ?_, hres, lt_trans hlt hx, ?_, ?_⟩
        · rw [List.getElem?_cons_succ]
          exact hi
        · intro t ht
          rcases List.mem_cons.mp ht with rfl | ht
          · exact le_of_lt hlt
          · exact hmin t ht
        · intro j t hj hjt
          cases j with
          | zero =>
            rw [List.getElem?_cons_zero] at hjt
            cases hjt
            exact hlt
          | succ j =>
            rw [List.getElem?_cons_succ] at hjt
            exact hfirst j t (by omega) hjt
    · rw [if_neg hx]
      have hmx : m ≤ x.2.Connections := not_lt.mp hx
      rcases ih m r with ⟨hall, hres⟩ | ⟨i, s, hi, hres, hlt, hmin, hfirst⟩
      · left
        refine ⟨?_, hres⟩
        intro t ht
        rcases List.mem_cons.mp ht with rfl | ht
        · exact hmx
        · exact hall t ht
      · right
        refine ⟨i + 1, s, ?_, hres, hlt, ?_, ?_⟩
        · rw [List.getElem?_cons_succ]
          exact hi
        · intro t ht
          rcases List.mem_cons.mp ht with rfl | ht
          · exact le_of_lt (lt_of_lt_of_le hlt hmx)
          · exact hmin t ht
        · intro j t hj hjt
          cases j with
          | zero =>
            rw [List.getElem?_cons_zero] at hjt
            cases hjt
            exact lt_of_lt_of_le hlt hmx
          | succ j =>
            rw [List.getElem?_cons_succ] at hjt
            exact hfirst j t (by omega) hjt

/-- C16: for a non-empty list of healthy backends whose connection counts are all
below the largest `int`, `selectLeastConnections` returns a backend of the list
whose connection count is the least over the list, and it is the first such
backend in list order: every backend before it has strictly more connections. -/
theorem least_connections_first_minimum (lb : LoadBalancer)
    (healthyServers : List (Nat × BackendServer)) (hne : healthyServers ≠ [])
    (hlt : ∀ s ∈ healthyServers, s.2.Connections < maxInt) :
    ∃ (i : Nat) (s : Nat × BackendServer), healthyServers[i]? = some s ∧
      lb.selectLeastConnections healthyServers = some s.1 ∧
      (∀ t ∈ healthyServers, s.2.Connections ≤ t.2.Connections) ∧
      (∀ (j : Nat) (t : Nat × BackendServer), j < i → healthyServers[j]? = some t →
        s.2.Connections < t.2.Connections) := by
  unfold LoadBalancer.selectLeastConnections
  have hlen : ¬ healthyServers.length = 0 := by
    intro h
    exact hne (List.length_eq_zero.mp h)
  rw [if_neg hlen]
  rcases leastLoop_spec healthyServers maxInt none with
    ⟨hall, _⟩ | ⟨i, s, hi, hres, _, hmin, hfirst⟩
  · obtain ⟨x, hx⟩ := List.exists_mem_of_ne_nil healthyServers hne
    exact absurd (hlt x hx) (not_lt.mpr (hall x hx))
  · exact ⟨i, s, hi, by rw [hres], hmin, hfirst⟩

/-- Witness for C16: backends with 2, 1 and 1 connections. -/
theorem least_connections_first_minimum_witness :
    (sampleBalancer LeastConnections).getHealthyServers ≠ [] ∧
    (∀ s ∈ (sampleBalancer LeastConnections).getHealthyServers, s.2.Connections < maxInt) ∧
    ∃ (i : Nat) (s : Nat × BackendServer),
      (sampleBalancer LeastConnections).getHealthyServers[i]? = some s ∧
      (sampleBalancer LeastConnections).selectLeastConnections
        (sampleBalancer LeastConnections).getHealthyServers = some s.1 ∧
      (∀ t ∈ (sampleBalancer LeastConnections).getHealthyServers,
        s.2.Connections ≤ t.2.Connections) ∧
      (∀ (j : Nat) (t : Nat × BackendServer), j < i →
        (sampleBalancer LeastConnections).getHealthyServers[j]? = some t →
        s.2.Connections < t.2.Connections) := by
  have hne : (sampleBalancer LeastConnections).getHealthyServers ≠ [] := by decide
  have hlt : ∀ s ∈ (sampleBalancer LeastConnections).getHealthyServers,
      s.2.Connections < maxInt := by decide
  exact ⟨hne, hlt, least_connections_first_minimum _ _ hne hlt⟩

theorem mem_of_getElem_some {α : Type} {l : List α} {i : Nat} {a : α}
    (h : l[i]? = some a) : a ∈ l := by
  obtain ⟨hlt, heq⟩ := List.getElem?_eq_some.mp h
  rw [← heq]
  exact List.getElem_mem hlt

theorem weight_sum_nonneg : ∀ (l : List (Nat × BackendServer)),
    (∀ s ∈ l, 1 ≤ s.2.Weight) → 0 ≤ (l.map (fun server => server.2.Weight)).sum := by
  intro l
  induction l with
  | nil => intro _; simp
  | cons x rest ih =>
    intro hw
    rw [List.map_cons, List.sum_cons]
    have hx := hw x (List.mem_cons_self x rest)
    have := ih (fun s hs => hw s (List.mem_cons_of_mem x hs))
    omega

/-- The first loop of `selectWeighted` computes the exact sum of the weights when
the weights are at least `1` and the sum is at most the largest `int`. -/
theorem foldl_weight_eq (l : List (Nat × BackendServer)) (a : Int) (ha : 0 ≤ a)
    (hw : ∀ s ∈ l, 1 ≤ s.2.Weight)
    (hmax : a + (l.map (fun server => server.2.Weight)).sum ≤ maxInt) :
    l.foldl (fun acc server => wrapInt64 (acc + server.2.Weight)) a
      = a + (l.map (fun server => server.2.Weight)).sum := by
  induction l generalizing a with
  | nil => simp
  | cons x rest ih =>
    rw [List.map_cons, List.sum_cons] at hmax
    have hx := hw x (List.mem_cons_self x rest)
    have hrest := weight_sum_nonneg rest (fun s hs => hw s (List.mem_cons_of_mem x hs))
    have hwrap : wrapInt64 (a + x.2.Weight) = a + x.2.Weight :=
      wrapInt64_of_range _ (by unfold minInt; omega) (by omega)
    rw [List.foldl_cons, hwrap,
      ih (a + x.2.Weight) (by omega) (fun s hs => hw s (List.mem_cons_of_mem x hs)) (by omega),
      List.map_cons, List.sum_cons]
    ring

theorem cumulativeWeight_zero (l : List (Nat × BackendServer)) : cumulativeWeight l 0 = 0 := by
  simp [cumulativeWeight]

theorem cumulativeWeight_succ_cons (x : Nat × BackendServer) (rest : List (Nat × BackendServer))
    (i : Nat) : cumulativeWeight (x :: rest) (i + 1) = x.2.Weight + cumulativeWeight rest i := by
  simp [cumulativeWeight]

theorem cumulativeWeight_length (l : List (Nat × BackendServer)) :
    cumulativeWeight l l.length = (l.map (fun server => server.2.Weight)).sum := by
  simp [cumulativeWeight]

theorem cumulativeWeight_succ (l : List (Nat × BackendServer)) (i : Nat)
    (s : Nat × BackendServer) (hi : l[i]? = some s) :
    cumulativeWeight l (i + 1) = cumulativeWeight l i + s.2.Weight := by
  induction l generalizing i with
  | nil => simp at hi
  | cons x rest ih =>
    cases i with
    | zero =>
      rw [List.getElem?_cons_zero] at hi
      cases hi
      simp [cumulativeWeight]
    | succ i =>
      rw [List.getElem?_cons_succ] at hi
      rw [cumulativeWeight_succ_cons, cumulativeWeight_succ_cons, ih i hi]
      ring

/-- The second loop of `selectWeighted` started with `currentWeight = c`: when the
draw is at least `c` and below `c` plus the total weight of the list, it returns
the first server whose cumulative weight exceeds the draw. -/
theorem weightedScan_spec (r : Int) : ∀ (l : List (Nat × BackendServer)) (c : Int),
    0 ≤ c → (∀ s ∈ l, 1 ≤ s.2.Weight) →
    c + (l.map (fun server => server.2.Weight)).sum ≤ maxInt →
    c ≤ r → r < c + (l.map (fun server => server.2.Weight)).sum →
    ∃ (i : Nat) (s : Nat × BackendServer), l[i]? = some s ∧
      weightedScan r c l = some s.1 ∧
      r < c + cumulativeWeight l (i + 1) ∧
      (∀ j, j < i → c + cumulativeWeight l (j + 1) ≤ r) := by
  intro l
  induction l with
  | nil =>
    intro c _ _ _ h1 h2
    simp at h2
    omega
  | cons x rest ih =>
    intro c hc hw hmax h1 h2
    rw [List.map_cons, List.sum_cons] at h2 hmax
    have hxw := hw x (List.mem_cons_self x rest)
    have hrest := weight_sum_nonneg rest (fun s hs => hw s (List.mem_cons_of_mem x hs))
    have hwrap : wrapInt64 (c + x.2.Weight) = c + x.2.Weight :=
      wrapInt64_of_range _ (by unfold minInt; omega) (by omega)
    unfold weightedScan
    rw [hwrap]
    by_cases hx : r < c + x.2.Weight
    · rw [if_pos hx]
      refine ⟨0, x, List.getElem?_cons_zero, rfl, ?_, ?_⟩
      · rw [cumulativeWeight_succ_cons, cumulativeWeight_zero]
        omega
      · intro j hj
        exact absurd hj (Nat.not_lt_zero j)
    · rw [if_neg hx]
      obtain ⟨i, s, hi, hres, hlt, hfirst⟩ := ih (c + x.2.Weight) (by omega)
        (fun s hs => hw s (List.mem_cons_of_mem x hs)) (by omega) (not_lt.mp hx) (by omega)
      refine ⟨i + 1, s, ?_, hres, ?_, ?_⟩
      · rw [List.getElem?_cons_succ]
        exact hi
      · rw [cumulativeWeight_succ_cons]
        omega
      · intro j hj
        cases j with
        | zero =>
          rw [cumulativeWeight_succ_cons, cumulativeWeight_zero]
          omega
        | succ j =>
          have := hfirst j (by omega)
          rw [cumulativeWeight_succ_cons]
          omega

theorem weight_sum_pos : ∀ (l : List (Nat × BackendServer)), l ≠ [] →
    (∀ s ∈ l, 1 ≤ s.2.Weight) → 1 ≤ (l.map (fun server => server.2.Weight)).sum := by
  intro l
  induction l with
  | nil => intro h; exact absurd rfl h
  | cons x rest ih =>
    intro _ hw
    rw [List.map_cons, List.sum_cons]
    have hx := hw x (List.mem_cons_self x rest)
    by_cases hr : rest = []
    · subst hr
      simp
      exact hx
    · have := ih hr (fun s hs => hw s (List.mem_cons_of_mem x hs))
      omega

/-- The value of `selectWeighted` on a non-empty list with weights at least `1`
when `rand.Intn` returns `r` inside `[0, total)`. -/
theorem selectWeighted_eq_scan (lb : LoadBalancer) (rt : Runtime)
    (hs : List (Nat × BackendServer)) (hne : hs ≠ []) (hw : ∀ s ∈ hs, 1 ≤ s.2.Weight)
    (hmax : cumulativeWeight hs hs.length ≤ maxInt) (r : Int)
    (hdraw : rt.Intn (cumulativeWeight hs hs.length) = r) (i : Nat)
    (hscan : weightedScan r 0 hs = some i) :
    lb.selectWeighted rt hs = some (lb, some i) := by
  unfold LoadBalancer.selectWeighted
  have hlen : ¬ hs.length = 0 := fun h => hne (List.length_eq_zero.mp h)
  have hpos := weight_sum_pos hs hne hw
  rw [if_neg hlen]
  dsimp only
  rw [cumulativeWeight_length] at hdraw hmax
  rw [foldl_weight_eq hs 0 (le_refl 0) hw (by omega), zero_add]
  rw [if_neg (by omega), if_neg (by omega), hdraw, hscan]

theorem countP_range_interval (a w : Nat) : ∀ (n : Nat),
    (List.range n).countP (fun r => decide (a ≤ r ∧ r < a + w)) = min (a + w) n - min a n := by
  intro n
  induction n with
  | zero => simp
  | succ n ih =>
    rw [List.range_succ, List.countP_append, ih]
    by_cases h : a ≤ n ∧ n < a + w
    · rw [List.countP_singleton]
      simp only [h, and_self, decide_True, if_true]
      omega
    · rw [List.countP_singleton]
      simp only [h, decide_False]
      simp
      omega

theorem cumulativeWeight_mono (l : List (Nat × BackendServer))
    (hw : ∀ s ∈ l, 1 ≤ s.2.Weight) : ∀ (b a : Nat), a ≤ b →
    cumulativeWeight l a ≤ cumulativeWeight l b := by
  intro b
  induction b with
  | zero =>
    intro a ha
    have : a = 0 := by omega
    rw [this]
  | succ b ih =>
    intro a ha
    by_cases hab : a = b + 1
    · rw [hab]
    · have h1 := ih a (by omega)
      by_cases hb : b < l.length
      · have hget : l[b]? = some l[b] := List.getElem?_eq_getElem hb
        rw [cumulativeWeight_succ l b _ hget]
        have := hw l[b] (List.getElem_mem hb)
        omega
      · have e1 : cumulativeWeight l (b + 1) = cumulativeWeight l b := by
          unfold cumulativeWeight
          rw [List.take_of_length_le (by omega), List.take_of_length_le (by omega)]
        rw [e1]
        exact h1

theorem cumulativeWeight_nonneg (l : List (Nat × BackendServer))
    (hw : ∀ s ∈ l, 1 ≤ s.2.Weight) (a : Nat) : 0 ≤ cumulativeWeight l a := by
  have := cumulativeWeight_mono l hw a 0 (Nat.zero_le a)
  rw [cumulativeWeight_zero] at this
  exact this

theorem cumulativeWeight_le_total (l : List (Nat × BackendServer))
    (hw : ∀ s ∈ l, 1 ≤ s.2.Weight) (a : Nat) :
    cumulativeWeight l a ≤ cumulativeWeight l l.length := by
  by_cases h : a ≤ l.length
  · exact cumulativeWeight_mono l hw l.length a h
  · unfold cumulativeWeight
    rw [List.take_of_length_le (by omega), List.take_of_length_le (le_refl _)]

/-- With draw `r` in `[0, total)` the weighted selection returns the server at
the first position whose cumulative weight exceeds `r`. -/
theorem selectWeighted_first (lb : LoadBalancer) (rt : Runtime)
    (hs : List (Nat × BackendServer)) (hne : hs ≠ []) (hw : ∀ s ∈ hs, 1 ≤ s.2.Weight)
    (hmax : cumulativeWeight hs hs.length ≤ maxInt)
    (r : Int) (hr0 : 0 ≤ r) (hr1 : r < cumulativeWeight hs hs.length) :
    ∃ (i : Nat) (s : Nat × BackendServer), hs[i]? = some s ∧
      lb.selectWeighted (rt.withDraw r) hs = some (lb, some s.1) ∧
      r < cumulativeWeight hs (i + 1) ∧ (∀ j, j < i → cumulativeWeight hs (j + 1) ≤ r) := by
  have hmax1 := hmax
  rw [cumulativeWeight_length] at hr1 hmax1
  obtain ⟨i, s, hi, hscan, hlt, hfirst⟩ :=
    weightedScan_spec r hs 0 (le_refl 0) hw (by omega) hr0 (by omega)
  refine ⟨i, s, hi, selectWeighted_eq_scan lb _ hs hne hw hmax r rfl s.1 hscan, by omega, ?_⟩
  intro j hj
  have := hfirst j hj
  omega

/-- C17 (amended): for a non-empty list of healthy backends with weights at
least `1` whose total weight is at most the largest `int`, and every draw `r` of
`rand.Intn` with `0 <= r < total weight`, `selectWeighted` returns the first
backend whose cumulative weight exceeds `r`; hence, the backends of the list
being told apart by their position in the backend list (as in the list
`getHealthyServers` returns), the backend at position `i` is the one chosen for
exactly `weight_i` of the `total weight` possible draws. -/
theorem weighted_selection_cumulative (lb : LoadBalancer) (rt : Runtime)
    (healthyServers : List (Nat × BackendServer)) (hne : healthyServers ≠ [])
    (hw : ∀ s ∈ healthyServers, 1 ≤ s.2.Weight)
    (hmax : cumulativeWeight healthyServers healthyServers.length ≤ maxInt) :
    (∀ r : Int, 0 ≤ r → r < cumulativeWeight healthyServers healthyServers.length →
      ∃ (i : Nat) (s : Nat × BackendServer), healthyServers[i]? = some s ∧
        lb.selectWeighted (rt.withDraw r) healthyServers = some (lb, some s.1) ∧
        r < cumulativeWeight healthyServers (i + 1) ∧
        (∀ j, j < i → cumulativeWeight healthyServers (j + 1) ≤ r)) ∧
    ((healthyServers.map Prod.fst).Nodup →
      ∀ (i : Nat) (s : Nat × BackendServer), healthyServers[i]? = some s →
      (List.range (cumulativeWeight healthyServers healthyServers.length).toNat).countP
        (fun (r : Nat) => decide
          ((lb.selectWeighted (rt.withDraw (r : Int)) healthyServers).map Prod.snd
            = some (some s.1))) = s.2.Weight.toNat) := by
  refine ⟨fun r hr0 hr1 => selectWeighted_first lb rt healthyServers hne hw hmax r hr0 hr1, ?_⟩
  intro hnodup i s hi
  have hcount := countP_range_interval (cumulativeWeight healthyServers i).toNat s.2.Weight.toNat
    (cumulativeWeight healthyServers healthyServers.length).toNat
  have hsucc := cumulativeWeight_succ healthyServers i s hi
  have hle := cumulativeWeight_le_total healthyServers hw (i + 1)
  have h0 := cumulativeWeight_nonneg healthyServers hw i
  have hws : 1 ≤ s.2.Weight := hw s (mem_of_getElem_some hi)
  have hcongr : (List.range (cumulativeWeight healthyServers healthyServers.length).toNat).countP
      (fun (r : Nat) => decide
        ((lb.selectWeighted (rt.withDraw (r : Int)) healthyServers).map Prod.snd
          = some (some s.1)))
      = (List.range (cumulativeWeight healthyServers healthyServers.length).toNat).countP
        (fun (r : Nat) => decide ((cumulativeWeight healthyServers i).toNat ≤ r ∧
          r < (cumulativeWeight healthyServers i).toNat + s.2.Weight.toNat)) := by
    apply List.countP_congr
    intro r hr
    rw [List.mem_range] at hr
    have hr1 : (r : Int) < cumulativeWeight healthyServers healthyServers.length := by omega
    obtain ⟨i', s', hi', hsel, hlt', hfirst'⟩ :=
      selectWeighted_first lb rt healthyServers hne hw hmax (r : Int) (by omega) hr1
    simp only [decide_eq_true_eq]
    rw [hsel]
    simp only [Option.map_some', Option.some.injEq]
    constructor
    · intro hlabel
      have hidx : i' = i := by
        have hi'lt : i' < healthyServers.length := by
          by_contra hcon
          rw [List.getElem?_eq_none (by omega)] at hi'
          cases hi'
        have hilt : i < healthyServers.length := by
          by_contra hcon
          rw [List.getElem?_eq_none (by omega)] at hi
          cases hi
        have e1 : (healthyServers.map Prod.fst)[i']? = some s'.1 := by
          rw [List.getElem?_map, hi']
          rfl
        have e2 : (healthyServers.map Prod.fst)[i]? = some s.1 := by
          rw [List.getElem?_map, hi]
          rfl
        rw [← hlabel] at e2
        have hl1 : i' < (healthyServers.map Prod.fst).length := by
          rw [List.length_map]; exact hi'lt
        have hl2 : i < (healthyServers.map Prod.fst).length := by
          rw [List.length_map]; exact hilt
        rw [List.getElem?_eq_getElem hl1] at e1
        rw [List.getElem?_eq_getElem hl2] at e2
        have e3 : (healthyServers.map Prod.fst)[i'] = (healthyServers.map Prod.fst)[i] := by
          rw [Option.some.inj e1, Option.some.inj e2]
        exact (List.Nodup.getElem_inj_iff hnodup).mp e3
      subst hidx
      have hlow : cumulativeWeight healthyServers i' ≤ r := by
        cases i' with
        | zero => rw [cumulativeWeight_zero]; omega
        | succ k => exact hfirst' k (Nat.lt_succ_self k)
      omega
    · intro hbounds
      have hidx : i' = i := by
        rcases Nat.lt_trichotomy i' i with h | h | h
        · have := cumulativeWeight_mono healthyServers hw i (i' + 1) (by omega)
          omega
        · exact h
        · have := hfirst' i h
          omega
      subst hidx
      rw [hi] at hi'
      cases hi'
      rfl
  rw [hcongr, hcount]
  omega

/-- The healthy servers are listed with distinct positions. -/
theorem LoadBalancer.getHealthyServers_nodup (lb : LoadBalancer) :
    (lb.getHealthyServers.map Prod.fst).Nodup := by
  unfold LoadBalancer.getHealthyServers
  have hsub : ((lb.BackendServers.enum.filter (fun p => p.2.IsHealthy)).map Prod.fst).Sublist
      (lb.BackendServers.enum.map Prod.fst) :=
    (List.filter_sublist _).map Prod.fst
  rw [List.enum_map_fst] at hsub
  exact (List.nodup_range _).sublist hsub

/-- Witness for C17: backends with weights 1, 2 and 3; the draw `2` selects the
second backend, and each backend is selected by as many draws as its weight. -/
theorem weighted_selection_cumulative_witness :
    (sampleBalancer Weighted).getHealthyServers ≠ [] ∧
    (∀ s ∈ (sampleBalancer Weighted).getHealthyServers, 1 ≤ s.2.Weight) ∧
    cumulativeWeight (sampleBalancer Weighted).getHealthyServers
      (sampleBalancer Weighted).getHealthyServers.length ≤ maxInt ∧
    (∃ (i : Nat) (s : Nat × BackendServer),
        (sampleBalancer Weighted).getHealthyServers[i]? = some s ∧
        (sampleBalancer Weighted).selectWeighted (quietRuntime.withDraw 2)
          (sampleBalancer Weighted).getHealthyServers = some (sampleBalancer Weighted, some s.1) ∧
        (2 : Int) < cumulativeWeight (sampleBalancer Weighted).getHealthyServers (i + 1) ∧
        (∀ j, j < i →
          cumulativeWeight (sampleBalancer Weighted).getHealthyServers (j + 1) ≤ 2)) ∧
    (∀ (i : Nat) (s : Nat × BackendServer),
      (sampleBalancer Weighted).getHealthyServers[i]? = some s →
      (List.range (cumulativeWeight (sampleBalancer Weighted).getHealthyServers
          (sampleBalancer Weighted).getHealthyServers.length).toNat).countP
        (fun (r : Nat) => decide
          (((sampleBalancer Weighted).selectWeighted (quietRuntime.withDraw (r : Int))
            (sampleBalancer Weighted).getHealthyServers).map Prod.snd
            = some (some s.1))) = s.2.Weight.toNat) := by
  have hne : (sampleBalancer Weighted).getHealthyServers ≠ [] := by decide
  have hw : ∀ s ∈ (sampleBalancer Weighted).getHealthyServers, 1 ≤ s.2.Weight := by decide
  have hmax : cumulativeWeight (sampleBalancer Weighted).getHealthyServers
      (sampleBalancer Weighted).getHealthyServers.length ≤ maxInt := by decide
  have h := weighted_selection_cumulative (sampleBalancer Weighted) quietRuntime _ hne hw hmax
  exact ⟨hne, hw, hmax, h.1 2 (by decide) (by decide),
    h.2 (sampleBalancer Weighted).getHealthyServers_nodup⟩

/-! ## Theorems: load balancer connections -/

theorem LoadBalancer.SetMetric_sameBut_lb (lb l : LoadBalancer) (k : String) (v : PropValue)
    (h : ∃ b, l = { lb with base := b } ∧ b.State = lb.base.State) :
    ∃ b, l.SetMetric k v = { lb with base := b } ∧ b.State = lb.base.State := by
  obtain ⟨b, rfl, hs⟩ := h
  exact ⟨_, rfl, hs⟩

theorem LoadBalancer.updateMetrics_eq_lb (lb : LoadBalancer) (e : Event) :
    ∃ b, lb.updateMetrics e = { lb with base := b } ∧ b.State = lb.base.State := by
  unfold LoadBalancer.updateMetrics
  dsimp only
  split_ifs <;> (repeat apply LoadBalancer.SetMetric_sameBut_lb) <;> exact ⟨lb.base, rfl, rfl⟩

theorem LoadBalancer.selectRoundRobin_frame (lb lb1 : LoadBalancer)
    (hs : List (Nat × BackendServer)) (x : Option Nat)
    (h : lb.selectRoundRobin hs = some (lb1, x)) :
    ∃ idx, lb1 = { lb with CurrentServerIndex := idx } := by
  unfold LoadBalancer.selectRoundRobin at h
  dsimp only at h
  split_ifs at h
  · simp only [Option.some.injEq, Prod.mk.injEq] at h
    exact ⟨lb.CurrentServerIndex, h.1.symm⟩
  · split at h
    · exact Option.noConfusion h
    · simp only [Option.some.injEq, Prod.mk.injEq] at h
      exact ⟨_, h.1.symm⟩

theorem LoadBalancer.selectBackendServer_frame (lb lb1 : LoadBalancer) (rt : Runtime)
    (hs : List (Nat × BackendServer)) (x : Option Nat)
    (h : lb.selectBackendServer rt hs = some (lb1, x)) :
    ∃ idx, lb1 = { lb with CurrentServerIndex := idx } := by
  unfold LoadBalancer.selectBackendServer at h
  split_ifs at h
  · simp only [Option.some.injEq, Prod.mk.injEq] at h
    exact ⟨lb.CurrentServerIndex, h.1.symm⟩
  · exact lb.selectRoundRobin_frame lb1 hs x h
  · simp only [Option.some.injEq, Prod.mk.injEq] at h
    exact ⟨lb.CurrentServerIndex, h.1.symm⟩
  · unfold LoadBalancer.selectWeighted at h
    dsimp only at h
    split_ifs at h
    · exact lb.selectRoundRobin_frame lb1 hs x h
    · split at h <;> simp only [Option.some.injEq, Prod.mk.injEq] at h <;>
        exact ⟨lb.CurrentServerIndex, h.1.symm⟩
  · exact lb.selectRoundRobin_frame lb1 hs x h

/-- One routing call either returns a single `RequestFailed` and leaves the
backends as they were, or increments the connection count of one backend (an
`int`, so the increment wraps at the largest value) and returns the
`RequestProcessed` for that backend followed by the cleanup event for the
balancer itself. -/
theorem LoadBalancer.routing_step (lb : LoadBalancer) (rt : Runtime) (event : Event)
    (r : LoadBalancer × List Event) (h : lb.handleRequestRouting rt event = some r) :
    (r.1.BackendServers = lb.BackendServers ∧
      ∃ failEvent, r.2 = [failEvent] ∧ failEvent.Kind = RequestFailed) ∨
    (∃ (i : Nat) (s : BackendServer), lb.BackendServers[i]? = some s ∧
      r.1.BackendServers
        = lb.BackendServers.set i { s with Connections := wrapInt64 (s.Connections + 1) } ∧
      ∃ routed cleanup, r.2 = [routed, cleanup] ∧ routed.Kind = RequestProcessed ∧
        routed.ComponentID = s.ID ∧ cleanup.Kind = RequestCompleted ∧
        cleanup.ComponentID = lb.GetID ∧
        cleanup.Data.lookup "cleanup" = some (Value.bool true)) := by
  unfold LoadBalancer.handleRequestRouting at h
  dsimp only at h
  split_ifs at h
  · simp only [Option.some.injEq] at h
    subst h
    exact Or.inl ⟨rfl, _, rfl, rfl⟩
  · simp only [Option.some.injEq] at h
    subst h
    exact Or.inl ⟨rfl, _, rfl, rfl⟩
  · split at h
    · exact Option.noConfusion h
    · rename_i lb1 hsel
      obtain ⟨idx, rfl⟩ := lb.selectBackendServer_frame lb1 rt _ _ hsel
      simp only [Option.some.injEq] at h
      subst h
      exact Or.inl ⟨rfl, _, rfl, rfl⟩
    · rename_i lb1 i hsel
      obtain ⟨idx, rfl⟩ := lb.selectBackendServer_frame lb1 rt _ _ hsel
      split at h
      · exact Option.noConfusion h
      · rename_i s hs
        simp only [Option.some.injEq] at h
        subst h
        exact Or.inr ⟨i, s, hs, rfl, _, _, rfl, rfl, rfl, rfl, rfl, rfl⟩

/-- The same for `HandleEvent` on a `RequestArrival`. -/
theorem LoadBalancer.arrival_step (lb : LoadBalancer) (rt : Runtime) (event : Event)
    (r : LoadBalancer × List Event) (h : lb.HandleEvent rt event = some r) :
    (r.1.BackendServers = lb.BackendServers ∧ processedTargets [r.2] = []) ∨
    (∃ (i : Nat) (s : BackendServer), lb.BackendServers[i]? = some s ∧
      r.1.BackendServers
        = lb.BackendServers.set i { s with Connections := wrapInt64 (s.Connections + 1) } ∧
      processedTargets [r.2] = [s.ID]) := by
  unfold LoadBalancer.HandleEvent at h
  split_ifs at h
  · split at h
    · exact Option.noConfusion h
    · rename_i r1 hr1
      simp only [Option.some.injEq] at h
      subst h
      obtain ⟨b, hb, _⟩ := LoadBalancer.updateMetrics_eq_lb r1.1 event
      rw [hb]
      rcases lb.routing_step rt event r1 hr1 with ⟨hsame, f, hf, hfk⟩ |
        ⟨i, s, hs, hset, routed, cleanup, hout, hk1, hc1, hk2, _, _⟩
      · left
        refine ⟨hsame, ?_⟩
        simp only [processedTargets, hf, hfk, List.flatten, List.append_nil, List.filter_cons]
        rw [if_neg (by decide)]
        rfl
      · right
        refine ⟨i, s, hs, hset, ?_⟩
        simp only [processedTargets, hout, List.flatten, List.append_nil, List.filter_cons, hk1,
          hk2]
        rw [if_pos (by decide), if_neg (by decide)]
        simp only [List.filter_nil, List.map_cons, List.map_nil, hc1]
  · simp only [Option.some.injEq] at h
    subst h
    exact Or.inl ⟨rfl, rfl⟩

theorem processedTargets_cons (evs : List Event) (outs : List (List Event)) :
    processedTargets (evs :: outs) = processedTargets [evs] ++ processedTargets outs := by
  simp [processedTargets]

theorem connectionsOf_set (id : String) : ∀ (l : List BackendServer) (i : Nat)
    (s : BackendServer), l[i]? = some s →
    connectionsOf id (l.set i { s with Connections := s.Connections + 1 })
      = connectionsOf id l + (if s.ID = id then 1 else 0) := by
  intro l
  induction l with
  | nil =>
    intro i s h
    simp at h
  | cons x rest ih =>
    intro i s h
    cases i with
    | zero =>
      rw [List.getElem?_cons_zero] at h
      cases h
      unfold connectionsOf
      rw [List.set_cons_zero]
      by_cases hid : x.ID = id
      · simp [List.filter_cons, hid]
        ring
      · simp [List.filter_cons, hid]
    | succ i =>
      rw [List.getElem?_cons_succ] at h
      have := ih i s h
      unfold connectionsOf at this ⊢
      rw [List.set_cons_succ]
      by_cases hid : x.ID = id
      · simp only [List.filter_cons, hid, beq_self_eq_true, if_true, List.map_cons, List.sum_cons]
        rw [this]
        ring
      · have hb : (x.ID == id) = false := by simpa using hid
        simp only [List.filter_cons, hb]
        exact this

theorem getElem?_set_conn (l : List BackendServer) (i : Nat) (s : BackendServer)
    (hs : l[i]? = some s) (j : Nat) (t t' : BackendServer) (ht : l[j]? = some t)
    (ht' : (l.set i { s with Connections := s.Connections + 1 })[j]? = some t') :
    t'.ID = t.ID ∧ t'.Weight = t.Weight ∧ t'.IsHealthy = t.IsHealthy ∧
      t.Connections ≤ t'.Connections ∧ t'.Connections ≤ t.Connections + 1 := by
  by_cases hij : i = j
  · subst hij
    rw [hs] at ht
    cases ht
    have hlt : i < l.length := (List.getElem?_eq_some.mp hs).1
    rw [List.getElem?_set_self hlt] at ht'
    cases ht'
    exact ⟨rfl, rfl, rfl, by show s.Connections ≤ s.Connections + 1; omega, le_refl _⟩
  · rw [List.getElem?_set_ne hij, ht] at ht'
    cases ht'
    exact ⟨rfl, rfl, rfl, le_refl _, by omega⟩

/-- Along a sequence of calls that all return, on a balancer whose connection
counts are `int` values that stay at most the largest `int` when every call of
the sequence adds one: the backend list keeps its length, identities, weights
and health flags, no connection count decreases, and for every id the
connection counts of the backends with that id grow by the number of
`RequestProcessed` events returned for that id. -/
theorem LoadBalancer.handleAll_connections : ∀ (inputs : List (Runtime × Event))
    (lb lb' : LoadBalancer) (outs : List (List Event)),
    lb.handleAll inputs = some (lb', outs) →
    (∀ (j : Nat) (t : BackendServer), lb.BackendServers[j]? = some t →
      minInt ≤ t.Connections ∧ t.Connections + inputs.length ≤ maxInt) →
    lb'.BackendServers.length = lb.BackendServers.length ∧
    (∀ (j : Nat) (t t' : BackendServer), lb.BackendServers[j]? = some t →
      lb'.BackendServers[j]? = some t' →
      t'.ID = t.ID ∧ t'.Weight = t.Weight ∧ t'.IsHealthy = t.IsHealthy ∧
        t.Connections ≤ t'.Connections) ∧
    (∀ id, connectionsOf id lb'.BackendServers
      = connectionsOf id lb.BackendServers + ((processedTargets outs).count id : Nat)) := by
  intro inputs
  induction inputs with
  | nil =>
    intro lb lb' outs h _
    simp only [LoadBalancer.handleAll, Option.some.injEq, Prod.mk.injEq] at h
    obtain ⟨rfl, rfl⟩ := h
    refine ⟨rfl, ?_, ?_⟩
    · intro j t t' ht ht'
      rw [ht] at ht'
      cases ht'
      exact ⟨rfl, rfl, rfl, le_refl _⟩
    · intro id
      simp [processedTargets]
  | cons p rest ih =>
    intro lb lb' outs h hbound
    simp only [LoadBalancer.handleAll] at h
    split at h
    · exact Option.noConfusion h
    · rename_i r hr
      split at h
      · exact Option.noConfusion h
      · rename_i out hout
        simp only [Option.some.injEq, Prod.mk.injEq] at h
        obtain ⟨rfl, rfl⟩ := h
        have hlen1 : ((p :: rest).length : Int) = (rest.length : Int) + 1 := by
          rw [List.length_cons]; push_cast; rfl
        rcases lb.arrival_step p.1 p.2 r hr with ⟨hsame, htg⟩ | ⟨i, s, hs, hset, htg⟩
        · have hb1 : ∀ (j : Nat) (t : BackendServer), r.1.BackendServers[j]? = some t →
              minInt ≤ t.Connections ∧ t.Connections + rest.length ≤ maxInt := by
            intro j t ht
            rw [hsame] at ht
            have := hbound j t ht
            omega
          obtain ⟨hlen, hpt, hcnt⟩ := ih r.1 out.1 out.2 (by rw [hout]) hb1
          rw [hsame] at hlen hpt hcnt
          refine ⟨hlen, hpt, ?_⟩
          intro id
          rw [hcnt id, processedTargets_cons, htg, List.nil_append]
        · have hsb := hbound i s hs
          have hwrap : wrapInt64 (s.Connections + 1) = s.Connections + 1 :=
            wrapInt64_of_range _ (by omega) (by omega)
          rw [hwrap] at hset
          have hb1 : ∀ (j : Nat) (t : BackendServer), r.1.BackendServers[j]? = some t →
              minInt ≤ t.Connections ∧ t.Connections + rest.length ≤ maxInt := by
            intro j t ht
            rw [hset] at ht
            have hjlt : j < lb.BackendServers.length := by
              have := (List.getElem?_eq_some.mp ht).1
              rw [List.length_set] at this
              exact this
            have h0 := List.getElem?_eq_getElem hjlt
            have h1 := getElem?_set_conn lb.BackendServers i s hs j _ t h0 ht
            have := hbound j _ h0
            omega
          obtain ⟨hlen, hpt, hcnt⟩ := ih r.1 out.1 out.2 (by rw [hout]) hb1
          rw [hset] at hlen hpt hcnt
          rw [List.length_set] at hlen
          refine ⟨hlen, ?_, ?_⟩
          · intro j t t' ht ht'
            have hjlt : j < lb.BackendServers.length := (List.getElem?_eq_some.mp ht).1
            have hm : ∃ tm, (lb.BackendServers.set i
                { s with Connections := s.Connections + 1 })[j]? = some tm := by
              have : j < (lb.BackendServers.set i
                  { s with Connections := s.Connections + 1 }).length := by
                rw [List.length_set]; exact hjlt
              exact ⟨_, List.getElem?_eq_getElem this⟩
            obtain ⟨tm, htm⟩ := hm
            have h1 := getElem?_set_conn lb.BackendServers i s hs j t tm ht htm
            have h2 := hpt j tm t' htm ht'
            exact ⟨h2.1.trans h1.1, h2.2.1.trans h1.2.1, h2.2.2.1.trans h1.2.2.1,
              le_trans h1.2.2.2.1 h2.2.2.2⟩
          · intro id
            rw [hcnt id, connectionsOf_set id lb.BackendServers i s hs, processedTargets_cons, htg]
            simp only [List.singleton_append, List.count_cons]
            by_cases hid : s.ID = id
            · simp [hid]
              ring
            · have : (s.ID == id) = false := by simpa using hid
              simp [hid, this]

/-- C18 (amended): the load balancer does not consume the cleanup event it
schedules.  Handling a `RequestCompleted` with `cleanup = true`, or any event
that is not a `RequestArrival`, returns no events and leaves the balancer, hence
every connection count, as it was.  One handled event either leaves the
backends unchanged and routes nothing, or increments the connection count of
one backend and returns one `RequestProcessed` for that backend; the increment
adds exactly one when the count is below the largest `int`.  Along every
sequence of handled events on connection counts that stay at most the largest
`int` (each count plus the number of events is at most it) no connection count
decreases, and for every backend id the connection counts grow by the number of
requests routed to that id. -/
theorem cleanup_event_not_consumed (lb : LoadBalancer) :
    (∀ (rt : Runtime) (event : Event), event.Kind ≠ RequestArrival →
      lb.HandleEvent rt event = some (lb, [])) ∧
    (∀ (rt : Runtime) (event : Event) (r : LoadBalancer × List Event),
      lb.HandleEvent rt event = some r →
      (r.1.BackendServers = lb.BackendServers ∧ processedTargets [r.2] = []) ∨
      (∃ (i : Nat) (s : BackendServer), lb.BackendServers[i]? = some s ∧
        r.1.BackendServers
          = lb.BackendServers.set i { s with Connections := wrapInt64 (s.Connections + 1) } ∧
        (minInt ≤ s.Connections → s.Connections < maxInt →
          wrapInt64 (s.Connections + 1) = s.Connections + 1) ∧
        processedTargets [r.2] = [s.ID])) ∧
    (∀ (inputs : List (Runtime × Event)) (lb' : LoadBalancer) (outs : List (List Event)),
      lb.handleAll inputs = some (lb', outs) →
      (∀ (j : Nat) (t : BackendServer), lb.BackendServers[j]? = some t →
        minInt ≤ t.Connections ∧ t.Connections + inputs.length ≤ maxInt) →
      lb'.BackendServers.length = lb.BackendServers.length ∧
      (∀ (j : Nat) (t t' : BackendServer), lb.BackendServers[j]? = some t →
        lb'.BackendServers[j]? = some t' →
        t'.ID = t.ID ∧ t'.Weight = t.Weight ∧ t'.IsHealthy = t.IsHealthy ∧
          t.Connections ≤ t'.Connections) ∧
      (∀ id, connectionsOf id lb'.BackendServers
        = connectionsOf id lb.BackendServers + ((processedTargets outs).count id : Nat))) := by
  refine ⟨?_, ?_,
    fun inputs lb' outs h hb => LoadBalancer.handleAll_connections inputs lb lb' outs h hb⟩
  · intro rt event hk
    unfold LoadBalancer.HandleEvent
    rw [if_neg hk]
  · intro rt event r h
    rcases lb.arrival_step rt event r h with hsame | ⟨i, s, hs, hset, htg⟩
    · exact Or.inl hsame
    · exact Or.inr ⟨i, s, hs, hset,
        fun h1 h2 => wrapInt64_of_range _ (by omega) (by omega), htg⟩

/-- Witness for C18: the cleanup event handled by a balancer with three backends. -/
theorem cleanup_event_not_consumed_witness :
    cleanupEvent.Kind ≠ RequestArrival ∧
    cleanupEvent.Data.lookup "cleanup" = some (Value.bool true) ∧
    (sampleBalancer RoundRobin).HandleEvent quietRuntime cleanupEvent
      = some (sampleBalancer RoundRobin, []) :=
  ⟨by decide, rfl,
    (cleanup_event_not_consumed (sampleBalancer RoundRobin)).1 quietRuntime cleanupEvent
      (by decide)⟩

/-! ## Theorems: round-robin selection -/

theorem healthy_lookup (l : List BackendServer) (n : Nat) (p : Nat × BackendServer)
    (h : (l.enum.filter (fun q => q.2.IsHealthy))[n]? = some p) : l[p.1]? = some p.2 := by
  have hmem := mem_of_getElem_some h
  have hmem2 := (List.mem_filter.mp hmem).1
  exact List.mk_mem_enum_iff_getElem?.mp hmem2

theorem enumFrom_set_healthy (c : Int) : ∀ (l : List BackendServer) (i : Nat)
    (s : BackendServer) (k : Nat), l[i]? = some s →
    (((l.set i { s with Connections := c }).enumFrom k).filter
        (fun q => q.2.IsHealthy)).map (fun q => q.2.ID)
      = ((l.enumFrom k).filter (fun q => q.2.IsHealthy)).map (fun q => q.2.ID) := by
  intro l
  induction l with
  | nil =>
    intro i s k h
    simp at h
  | cons x rest ih =>
    intro i s k h
    cases i with
    | zero =>
      rw [List.getElem?_cons_zero] at h
      cases h
      rw [List.set_cons_zero, List.enumFrom_cons, List.enumFrom_cons, List.filter_cons,
        List.filter_cons]
      dsimp only
      split_ifs <;> rfl
    | succ i =>
      rw [List.getElem?_cons_succ] at h
      rw [List.set_cons_succ, List.enumFrom_cons, List.enumFrom_cons, List.filter_cons,
        List.filter_cons]
      dsimp only
      have := ih i s (k + 1) h
      split_ifs
      · rw [List.map_cons, List.map_cons, this]
      · exact this

theorem LoadBalancer.selectRoundRobin_eq (lb : LoadBalancer) (hs : List (Nat × BackendServer))
    (server : Nat × BackendServer) (hidx : 0 ≤ lb.CurrentServerIndex)
    (hget : hs[lb.CurrentServerIndex.toNat % hs.length]? = some server) :
    lb.selectRoundRobin hs
      = some ({ lb with CurrentServerIndex := wrapInt64 (lb.CurrentServerIndex + 1) },
              some server.1) := by
  have hlt : lb.CurrentServerIndex.toNat % hs.length < hs.length :=
    (List.getElem?_eq_some.mp hget).1
  have hpos : 0 < hs.length := by omega
  unfold LoadBalancer.selectRoundRobin
  rw [if_neg (by omega)]
  dsimp only
  have hmod : Int.tmod lb.CurrentServerIndex (hs.length : Int)
      = ((lb.CurrentServerIndex.toNat % hs.length : Nat) : Int) := by
    rw [Int.tmod_eq_emod hidx (Int.ofNat_nonneg _)]
    push_cast
    rw [Int.toNat_of_nonneg hidx]
  rw [hmod, if_neg (by omega), Int.toNat_ofNat, hget]

/-- One arrival handled by a round-robin balancer with a healthy backend, a
non-negative index and no routing failure: the request goes to the healthy
backend at position `index mod m`, and the index is incremented (it wraps at the
largest `int`). -/
theorem LoadBalancer.roundRobin_step (lb : LoadBalancer) (rt : Runtime) (event : Event)
    (halg : lb.Algorithm = RoundRobin) (hm : 1 ≤ lb.getHealthyServers.length)
    (hidx : 0 ≤ lb.CurrentServerIndex) (hk : event.Kind = RequestArrival)
    (hd : ¬ rt.Float64 0 < lb.FailureRate) :
    ∃ (r : LoadBalancer × List Event) (id : String), lb.HandleEvent rt event = some r ∧
      lb.healthyIDs[lb.CurrentServerIndex.toNat % lb.getHealthyServers.length]? = some id ∧
      processedTargets [r.2] = [id] ∧
      r.1.CurrentServerIndex = wrapInt64 (lb.CurrentServerIndex + 1) ∧
      r.1.Algorithm = lb.Algorithm ∧ r.1.FailureRate = lb.FailureRate ∧
      r.1.healthyIDs = lb.healthyIDs := by
  have hlt : lb.CurrentServerIndex.toNat % lb.getHealthyServers.length
      < lb.getHealthyServers.length := Nat.mod_lt _ (by omega)
  have hget := List.getElem?_eq_getElem hlt
  have hsel : lb.selectBackendServer rt lb.getHealthyServers
      = some ({ lb with CurrentServerIndex := wrapInt64 (lb.CurrentServerIndex + 1) },
          some (lb.getHealthyServers[lb.CurrentServerIndex.toNat
            % lb.getHealthyServers.length]).1) := by
    unfold LoadBalancer.selectBackendServer
    rw [if_neg (by omega), if_pos halg]
    exact lb.selectRoundRobin_eq _ _ hidx hget
  have hsrv := healthy_lookup lb.BackendServers _ _ hget
  have hroute : ∃ r1, lb.handleRequestRouting rt event = some r1 ∧
      r1.1.BackendServers = lb.BackendServers.set
        (lb.getHealthyServers[lb.CurrentServerIndex.toNat % lb.getHealthyServers.length]).1
        { (lb.getHealthyServers[lb.CurrentServerIndex.toNat
            % lb.getHealthyServers.length]).2 with
          Connections := wrapInt64 ((lb.getHealthyServers[lb.CurrentServerIndex.toNat
            % lb.getHealthyServers.length]).2.Connections + 1) } ∧
      r1.1.CurrentServerIndex = wrapInt64 (lb.CurrentServerIndex + 1) ∧
      r1.1.Algorithm = lb.Algorithm ∧ r1.1.FailureRate = lb.FailureRate ∧
      processedTargets [r1.2] = [(lb.getHealthyServers[lb.CurrentServerIndex.toNat
            % lb.getHealthyServers.length]).2.ID] := by
    unfold LoadBalancer.handleRequestRouting
    dsimp only
    rw [if_neg (by omega), if_neg hd, hsel]
    dsimp only
    rw [hsrv]
    refine ⟨_, rfl, rfl, rfl, rfl, rfl, ?_⟩
    simp only [processedTargets, List.flatten, List.append_nil, List.filter_cons, Runtime.newEvent,
      NewEvent]
    rw [if_pos (by decide), if_neg (by decide)]
    rfl
  obtain ⟨r1, hr1, hset, hi1, ha1, hf1, ht1⟩ := hroute
  obtain ⟨b, hb, _⟩ := LoadBalancer.updateMetrics_eq_lb r1.1 event
  refine ⟨(r1.1.updateMetrics event, r1.2), _, ?_, ?_, ht1, ?_, ?_, ?_, ?_⟩
  · unfold LoadBalancer.HandleEvent
    rw [if_pos hk, hr1]
  · unfold LoadBalancer.healthyIDs
    rw [List.getElem?_map, hget]
    rfl
  · rw [hb]; exact hi1
  · rw [hb]; exact ha1
  · rw [hb]; exact hf1
  · rw [hb]
    unfold LoadBalancer.healthyIDs LoadBalancer.getHealthyServers
    dsimp only
    rw [hset]
    exact enumFrom_set_healthy _ lb.BackendServers _ _ 0 hsrv

/-- A burst of arrivals handled by a round-robin balancer with `m >= 1` healthy
backends and no routing failure, from a non-negative index that stays at most
the largest `int` up to the last request of the burst: every call returns, and
the `t`-th request goes to the healthy backend at position `(index + t) mod m`. -/
theorem LoadBalancer.roundRobin_run : ∀ (inputs : List (Runtime × Event)) (lb : LoadBalancer),
    lb.Algorithm = RoundRobin → 1 ≤ lb.getHealthyServers.length →
    (inputs ≠ [] → 0 ≤ lb.CurrentServerIndex) →
    lb.CurrentServerIndex + inputs.length ≤ maxInt + 1 →
    (∀ p ∈ inputs, p.2.Kind = RequestArrival ∧ ¬ p.1.Float64 0 < lb.FailureRate) →
    ∃ (lb' : LoadBalancer) (outs : List (List Event)), lb.handleAll inputs = some (lb', outs) ∧
      processedTargets outs = (List.range inputs.length).map (fun t =>
        lb.healthyIDs.getD ((lb.CurrentServerIndex.toNat + t) % lb.healthyIDs.length) "") := by
  intro inputs
  induction inputs with
  | nil =>
    intro lb _ _ _ _ _
    exact ⟨lb, [], rfl, rfl⟩
  | cons p rest ih =>
    intro lb halg hm hidx0 hmax hin
    have hidx : 0 ≤ lb.CurrentServerIndex := hidx0 (List.cons_ne_nil _ _)
    obtain ⟨hk, hd⟩ := hin p (List.mem_cons_self p rest)
    obtain ⟨r, id, hr, hid, htg, hi1, ha1, hf1, hh1⟩ :=
      lb.roundRobin_step p.1 p.2 halg hm hidx hk hd
    have hlen1 : ((p :: rest).length : Int) = (rest.length : Int) + 1 := by
      rw [List.length_cons]; push_cast; rfl
    have hlen : lb.healthyIDs.length = lb.getHealthyServers.length := by
      unfold LoadBalancer.healthyIDs
      rw [List.length_map]
    have hm1 : 1 ≤ r.1.getHealthyServers.length := by
      have : r.1.healthyIDs.length = r.1.getHealthyServers.length := by
        unfold LoadBalancer.healthyIDs
        rw [List.length_map]
      rw [← this, hh1, hlen]
      exact hm
    have hnext : rest ≠ [] → r.1.CurrentServerIndex = lb.CurrentServerIndex + 1 := by
      intro hne
      have hpos : 1 ≤ (rest.length : Int) := by
        have := List.length_pos.mpr hne
        omega
      rw [hi1]
      exact wrapInt64_of_range _ (by unfold minInt; omega) (by unfold maxInt at hmax ⊢; omega)
    have hwrapmax : r.1.CurrentServerIndex ≤ maxInt := by
      rw [hi1]
      exact (wrapInt64_range _).2
    obtain ⟨lb', outs, hrun, htargets⟩ := ih r.1 (ha1.trans halg) hm1
      (fun hne => by rw [hnext hne]; omega)
      (by
        by_cases hne : rest = []
        · rw [hne]
          simp only [List.length_nil, Nat.cast_zero, add_zero]
          omega
        · rw [hnext hne]; omega)
      (fun q hq => by
        rw [hf1]
        exact hin q (List.mem_cons_of_mem p hq))
    refine ⟨lb', r.2 :: outs, ?_, ?_⟩
    · simp only [LoadBalancer.handleAll, hr, hrun]
    · rw [processedTargets_cons, htg, htargets, List.length_cons, List.range_succ_eq_map,
        List.map_cons, List.map_map, hh1]
      rw [List.singleton_append]
      congr 1
      · rw [Nat.add_zero, hlen, List.getD_eq_getElem?_getD, hid]
        rfl
      · apply List.map_congr_left
        intro t ht
        have hne : rest ≠ [] := by
          intro h0
          rw [h0] at ht
          simp at ht
        rw [hnext hne]
        have e : (lb.CurrentServerIndex + 1).toNat = lb.CurrentServerIndex.toNat + 1 := by omega
        simp only [Function.comp, e]
        congr 2
        omega

theorem rotate_eq_map_range (ids : List String) (a : Nat) :
    (List.range ids.length).map (fun t => ids.getD ((a + t) % ids.length) "") = ids.rotate a := by
  apply List.ext_getElem?
  intro n
  by_cases hn : n < ids.length
  · rw [List.getElem?_rotate hn, List.getElem?_map, List.getElem?_range hn]
    simp only [Option.map_some']
    have hlt : (n + a) % ids.length < ids.length := Nat.mod_lt _ (by omega)
    rw [List.getD_eq_getElem?_getD, Nat.add_comm a n, List.getElem?_eq_getElem hlt]
    rfl
  · rw [List.getElem?_eq_none (by rw [List.length_map, List.length_range]; omega),
      List.getElem?_eq_none (by rw [List.length_rotate]; omega)]

theorem map_range_blocks (ids : List String) (a : Nat) : ∀ (k : Nat),
    (List.range (k * ids.length)).map (fun t => ids.getD ((a + t) % ids.length) "")
      = (List.replicate k (ids.rotate a)).flatten := by
  intro k
  induction k with
  | zero => simp
  | succ k ih =>
    rw [Nat.succ_mul, List.range_add, List.map_append, ih, List.replicate_succ',
      List.flatten_append, List.map_map]
    congr 1
    rw [List.flatten_singleton, ← rotate_eq_map_range ids a]
    apply List.map_congr_left
    intro t _
    simp only [Function.comp]
    congr 1
    rw [← Nat.add_assoc, Nat.add_comm a (k * ids.length), Nat.add_assoc, Nat.mul_comm,
      Nat.mul_add_mod]

theorem count_flatten_replicate (id : String) (x : List String) : ∀ (k : Nat),
    (List.replicate k x).flatten.count id = k * x.count id := by
  intro k
  induction k with
  | zero => simp
  | succ k ih =>
    rw [List.replicate_succ, List.flatten_cons, List.count_append, ih]
    ring

theorem chain_ne_map_range (ids : List String) (a n : Nat) (hm : 2 ≤ ids.length)
    (hnd : ids.Nodup) :
    List.Chain' (fun x y => x ≠ y)
      ((List.range n).map (fun t => ids.getD ((a + t) % ids.length) "")) := by
  rw [List.chain'_map]
  cases n with
  | zero => exact List.chain'_nil
  | succ n =>
    rw [List.chain'_range_succ]
    intro t _ heq
    have h1 : (a + t) % ids.length < ids.length := Nat.mod_lt _ (by omega)
    have h2 : (a + (t + 1)) % ids.length < ids.length := Nat.mod_lt _ (by omega)
    rw [List.getD_eq_getElem?_getD, List.getD_eq_getElem?_getD, List.getElem?_eq_getElem h1,
      List.getElem?_eq_getElem h2] at heq
    simp only [Option.getD_some] at heq
    have hidx := (List.Nodup.getElem_inj_iff hnd).mp heq
    have h3 : (a + (t + 1)) % ids.length = ((a + t) % ids.length + 1) % ids.length := by
      rw [← Nat.add_assoc, Nat.add_mod (a + t) 1, Nat.add_mod ((a + t) % ids.length) 1,
        Nat.mod_mod]
    rw [h3] at hidx
    by_cases hlast : (a + t) % ids.length + 1 < ids.length
    · rw [Nat.mod_eq_of_lt hlast] at hidx
      omega
    · have : (a + t) % ids.length + 1 = ids.length := by omega
      rw [this, Nat.mod_self] at hidx
      omega

/-- C15 (amended): a round-robin load balancer with `m >= 1` healthy backends and
a non-negative round-robin index that stays at most the largest `int` up to the
last request of the burst (index plus `k * m - 1` is at most it) handles `k * m`
consecutive `RequestArrival` events, none with a routing failure and with no
other call in between.  Every call returns, the targets of the returned
`RequestProcessed` events are `k` rounds through the healthy backends in list
order, started at position `index mod m`; so every id is targeted `k` times for
each healthy backend that carries it.  From index `0` the targets are the
healthy list itself repeated `k` times, and with `m >= 2` backends of distinct
ids no two consecutive targets are the same. -/
theorem round_robin_fairness (lb : LoadBalancer) (k : Nat) (inputs : List (Runtime × Event))
    (halg : lb.Algorithm = RoundRobin) (hm : 1 ≤ lb.getHealthyServers.length)
    (hidx : 0 ≤ lb.CurrentServerIndex)
    (hlen : inputs.length = k * lb.getHealthyServers.length)
    (hmax : lb.CurrentServerIndex + (k * lb.getHealthyServers.length : Nat) ≤ maxInt + 1)
    (hin : ∀ p ∈ inputs, p.2.Kind = RequestArrival ∧ ¬ p.1.Float64 0 < lb.FailureRate) :
    ∃ (lb' : LoadBalancer) (outs : List (List Event)), lb.handleAll inputs = some (lb', outs) ∧
      processedTargets outs
        = (List.replicate k (lb.healthyIDs.rotate lb.CurrentServerIndex.toNat)).flatten ∧
      (∀ id, (processedTargets outs).count id = k * lb.healthyIDs.count id) ∧
      (lb.CurrentServerIndex = 0 →
        processedTargets outs = (List.replicate k lb.healthyIDs).flatten) ∧
      (2 ≤ lb.getHealthyServers.length → lb.healthyIDs.Nodup →
        List.Chain' (fun x y => x ≠ y) (processedTargets outs)) := by
  have hl : lb.healthyIDs.length = lb.getHealthyServers.length := by
    unfold LoadBalancer.healthyIDs
    rw [List.length_map]
  obtain ⟨lb', outs, hrun, htargets⟩ :=
    LoadBalancer.roundRobin_run inputs lb halg hm (fun _ => hidx) (by rw [hlen]; exact hmax)
      hin
  have hblocks : processedTargets outs
      = (List.replicate k (lb.healthyIDs.rotate lb.CurrentServerIndex.toNat)).flatten := by
    rw [htargets, hlen, ← hl]
    exact map_range_blocks lb.healthyIDs lb.CurrentServerIndex.toNat k
  refine ⟨lb', outs, hrun, hblocks, ?_, ?_, ?_⟩
  · intro id
    rw [hblocks, count_flatten_replicate, (List.rotate_perm lb.healthyIDs _).count_eq]
  · intro h0
    rw [hblocks, h0]
    simp
  · intro h2 hnd
    rw [htargets]
    exact chain_ne_map_range lb.healthyIDs _ _ (by rw [hl]; exact h2) hnd

/-- Witness for C15 (amended): backends `b1`, `b2`, `b3` and six arrivals from
index `0` are routed to `b1, b2, b3, b1, b2, b3`. -/
theorem round_robin_fairness_witness :
    (sampleBalancer RoundRobin).Algorithm = RoundRobin ∧
    1 ≤ (sampleBalancer RoundRobin).getHealthyServers.length ∧
    0 ≤ (sampleBalancer RoundRobin).CurrentServerIndex ∧
    sixArrivals.length = 2 * (sampleBalancer RoundRobin).getHealthyServers.length ∧
    (sampleBalancer RoundRobin).CurrentServerIndex
      + (2 * (sampleBalancer RoundRobin).getHealthyServers.length : Nat) ≤ maxInt + 1 ∧
    (∀ p ∈ sixArrivals, p.2.Kind = RequestArrival ∧
      ¬ p.1.Float64 0 < (sampleBalancer RoundRobin).FailureRate) ∧
    ∃ (lb' : LoadBalancer) (outs : List (List Event)),
      (sampleBalancer RoundRobin).handleAll sixArrivals = some (lb', outs) ∧
      processedTargets outs = ["b1", "b2", "b3", "b1", "b2", "b3"] := by
  have hin : ∀ p ∈ sixArrivals, p.2.Kind = RequestArrival ∧
      ¬ p.1.Float64 0 < (sampleBalancer RoundRobin).FailureRate := by
    intro p hp
    simp only [sixArrivals, List.mem_cons, List.mem_singleton, List.mem_nil_iff, or_false] at hp
    have hq : ¬ quietRuntime.Float64 0 < (sampleBalancer RoundRobin).FailureRate := by
      simp only [quietRuntime, sampleBalancer]
      norm_num
    rcases hp with rfl | rfl | rfl | rfl | rfl | rfl <;> exact ⟨rfl, hq⟩
  obtain ⟨lb', outs, hrun, _, _, h0, _⟩ :=
    round_robin_fairness (sampleBalancer RoundRobin) 2 sixArrivals rfl (by decide) (by decide)
      (by decide) (by decide) hin
  exact ⟨rfl, by decide, by decide, by decide, by decide, hin, lb', outs, hrun,
    by rw [h0 rfl]; decide⟩

/-! ## Theorems: message queue -/

theorem MessageQueue.SetMetric_sameBut_mq (mq m : MessageQueue) (k : String) (v : PropValue)
    (h : ∃ b, m = { mq with base := b } ∧ b.State = mq.base.State) :
    ∃ b, m.SetMetric k v = { mq with base := b } ∧ b.State = mq.base.State := by
  obtain ⟨b, rfl, hs⟩ := h
  exact ⟨_, rfl, hs⟩

theorem MessageQueue.updateMetrics_eq_mq (mq : MessageQueue) (e : Event) :
    ∃ b, mq.updateMetrics e = { mq with base := b } ∧ b.State = mq.base.State := by
  unfold MessageQueue.updateMetrics
  dsimp only
  split_ifs <;> (repeat apply MessageQueue.SetMetric_sameBut_mq) <;> exact ⟨mq.base, rfl, rfl⟩

theorem MessageQueue.HandleEvent_enqueue (mq : MessageQueue) (rt : Runtime) (e : Event)
    (hk : e.Kind = MessageEnqueued) :
    mq.HandleEvent rt e
      = ((mq.handleMessageEnqueue rt e).1.updateMetrics e, (mq.handleMessageEnqueue rt e).2) := by
  unfold MessageQueue.HandleEvent
  rw [if_pos hk]

theorem MessageQueue.HandleEvent_dequeue (mq : MessageQueue) (rt : Runtime) (e : Event)
    (hk : e.Kind = MessageDequeued) :
    mq.HandleEvent rt e
      = ((mq.handleMessageDequeue rt e).1.updateMetrics e, (mq.handleMessageDequeue rt e).2) := by
  unfold MessageQueue.HandleEvent
  have hne : ¬ e.Kind = MessageEnqueued := by rw [hk]; decide
  rw [if_neg hne, if_pos hk]

theorem MessageQueue.handleMessageEnqueue_full (mq : MessageQueue) (rt : Runtime) (e : Event)
    (hfull : mq.MaxQueueSize ≤ mq.CurrentQueueSize) :
    mq.handleMessageEnqueue rt e
      = ({ mq with MessagesDropped := mq.MessagesDropped + 1 },
         [rt.newEvent 0 "drop" mq.GetID e.Timestamp RequestFailed mq.GetID
            [("reason", Value.str "queue_full"), ("operation", Value.str "enqueue"),
             ("message_id", (e.GetDataValue "message_id").1)]]) := by
  unfold MessageQueue.handleMessageEnqueue
  rw [if_pos hfull]

theorem MessageQueue.handleMessageEnqueue_bounds (mq : MessageQueue) (rt : Runtime) (e : Event)
    (h0 : 0 ≤ mq.CurrentQueueSize) (h1 : mq.CurrentQueueSize ≤ mq.MaxQueueSize) :
    0 ≤ (mq.handleMessageEnqueue rt e).1.CurrentQueueSize ∧
      (mq.handleMessageEnqueue rt e).1.CurrentQueueSize ≤ mq.MaxQueueSize ∧
      (mq.handleMessageEnqueue rt e).1.MaxQueueSize = mq.MaxQueueSize := by
  unfold MessageQueue.handleMessageEnqueue
  dsimp only
  split_ifs with hfull hfail hone
  · exact ⟨h0, h1, rfl⟩
  · exact ⟨h0, h1, rfl⟩
  · refine ⟨?_, ?_, rfl⟩
    · show 0 ≤ mq.CurrentQueueSize + 1
      omega
    · show mq.CurrentQueueSize + 1 ≤ mq.MaxQueueSize
      omega
  · refine ⟨?_, ?_, rfl⟩
    · show 0 ≤ mq.CurrentQueueSize + 1
      omega
    · show mq.CurrentQueueSize + 1 ≤ mq.MaxQueueSize
      omega

theorem MessageQueue.handleMessageDequeue_bounds (mq : MessageQueue) (rt : Runtime) (e : Event)
    (h0 : 0 ≤ mq.CurrentQueueSize) (h1 : mq.CurrentQueueSize ≤ mq.MaxQueueSize) :
    0 ≤ (mq.handleMessageDequeue rt e).1.CurrentQueueSize ∧
      (mq.handleMessageDequeue rt e).1.CurrentQueueSize ≤ mq.MaxQueueSize ∧
      (mq.handleMessageDequeue rt e).1.MaxQueueSize = mq.MaxQueueSize := by
  unfold MessageQueue.handleMessageDequeue
  dsimp only
  split_ifs with hempty hfail hzero
  · exact ⟨h0, h1, rfl⟩
  · exact ⟨h0, h1, rfl⟩
  · refine ⟨?_, ?_, rfl⟩
    · show 0 ≤ mq.CurrentQueueSize - 1
      omega
    · show mq.CurrentQueueSize - 1 ≤ mq.MaxQueueSize
      omega
  · refine ⟨?_, ?_, rfl⟩
    · show 0 ≤ mq.CurrentQueueSize - 1
      omega
    · show mq.CurrentQueueSize - 1 ≤ mq.MaxQueueSize
      omega

theorem MessageQueue.handle_bounds (mq : MessageQueue) (rt : Runtime) (e : Event)
    (h0 : 0 ≤ mq.CurrentQueueSize) (h1 : mq.CurrentQueueSize ≤ mq.MaxQueueSize) :
    0 ≤ (mq.HandleEvent rt e).1.CurrentQueueSize ∧
      (mq.HandleEvent rt e).1.CurrentQueueSize ≤ mq.MaxQueueSize ∧
      (mq.HandleEvent rt e).1.MaxQueueSize = mq.MaxQueueSize := by
  by_cases hk : e.Kind = MessageEnqueued
  · obtain ⟨b, hb, _⟩ := MessageQueue.updateMetrics_eq_mq (mq.handleMessageEnqueue rt e).1 e
    rw [mq.HandleEvent_enqueue rt e hk, hb]
    exact mq.handleMessageEnqueue_bounds rt e h0 h1
  · by_cases hk2 : e.Kind = MessageDequeued
    · obtain ⟨b, hb, _⟩ := MessageQueue.updateMetrics_eq_mq (mq.handleMessageDequeue rt e).1 e
      rw [mq.HandleEvent_dequeue rt e hk2, hb]
      exact mq.handleMessageDequeue_bounds rt e h0 h1
    · unfold MessageQueue.HandleEvent
      rw [if_neg hk, if_neg hk2]
      exact ⟨h0, h1, rfl⟩

theorem MessageQueue.handleAll_bounds : ∀ (inputs : List (Runtime × Event)) (mq : MessageQueue),
    0 ≤ mq.CurrentQueueSize → mq.CurrentQueueSize ≤ mq.MaxQueueSize →
    0 ≤ (mq.handleAll inputs).1.CurrentQueueSize ∧
      (mq.handleAll inputs).1.CurrentQueueSize ≤ mq.MaxQueueSize ∧
      (mq.handleAll inputs).1.MaxQueueSize = mq.MaxQueueSize := by
  intro inputs
  induction inputs with
  | nil => intro mq h0 h1; exact ⟨h0, h1, rfl⟩
  | cons p rest ih =>
    intro mq h0 h1
    have hs := mq.handle_bounds p.1 p.2 h0 h1
    have h2 := ih (mq.HandleEvent p.1 p.2).1 hs.1 (by rw [hs.2.2]; exact hs.2.1)
    simp only [MessageQueue.handleAll]
    rw [hs.2.2] at h2
    exact h2

/-- C19: after `Start` on a message queue with `max_queue_size >= 1`, whatever
events are passed to `HandleEvent` (`MessageEnqueued`, `MessageDequeued` or any
other kind, in any order) and whatever the runtime supplies,
`0 <= current_queue_size <= max_queue_size` holds after the whole sequence,
hence after each of its prefixes, and `max_queue_size` is unchanged. -/
theorem queue_size_within_bounds (mq0 : MessageQueue) (inputs : List (Runtime × Event))
    (hmax : 1 ≤ mq0.MaxQueueSize) :
    0 ≤ (mq0.Start.handleAll inputs).1.CurrentQueueSize ∧
      (mq0.Start.handleAll inputs).1.CurrentQueueSize ≤ mq0.MaxQueueSize ∧
      (mq0.Start.handleAll inputs).1.MaxQueueSize = mq0.MaxQueueSize := by
  have h1 : mq0.Start.CurrentQueueSize ≤ mq0.Start.MaxQueueSize := by
    show (0 : Int) ≤ mq0.MaxQueueSize
    omega
  exact MessageQueue.handleAll_bounds inputs mq0.Start (le_refl _) h1

/-- Witness for C19: room for one message, two enqueues and a dequeue. -/
theorem queue_size_within_bounds_witness :
    1 ≤ unitQueue.MaxQueueSize ∧
    (0 ≤ (unitQueue.Start.handleAll [(quietRuntime, enqueueAt "m1" 1),
        (quietRuntime, enqueueAt "m2" 1), (quietRuntime, dequeueAt "m1" 2)]).1.CurrentQueueSize ∧
      (unitQueue.Start.handleAll [(quietRuntime, enqueueAt "m1" 1),
        (quietRuntime, enqueueAt "m2" 1), (quietRuntime, dequeueAt "m1" 2)]).1.CurrentQueueSize
        ≤ unitQueue.MaxQueueSize ∧
      (unitQueue.Start.handleAll [(quietRuntime, enqueueAt "m1" 1),
        (quietRuntime, enqueueAt "m2" 1), (quietRuntime, dequeueAt "m1" 2)]).1.MaxQueueSize
        = unitQueue.MaxQueueSize) :=
  ⟨by decide, queue_size_within_bounds unitQueue _ (by decide)⟩

theorem MessageQueue.handleMessageEnqueue_accept (mq : MessageQueue) (rt : Runtime) (e : Event)
    (hlt : mq.CurrentQueueSize < mq.MaxQueueSize) (hd : ¬ rt.Float64 0 < mq.FailureRate)
    (hone : mq.CurrentQueueSize + 1 = 1) :
    mq.handleMessageEnqueue rt e
      = (({ mq with CurrentQueueSize := mq.CurrentQueueSize + 1,
                    MessagesEnqueued := mq.MessagesEnqueued + 1 }).SetState StateProcessing,
         [rt.newEvent 0 "enqueue_success" mq.GetID (e.Timestamp + mq.ProcessingTime)
            RequestCompleted mq.GetID
            [("operation", Value.str "enqueue"), ("message_id", (e.GetDataValue "message_id").1),
             ("queue_size", Value.int (mq.CurrentQueueSize + 1)),
             ("processing_time", Value.float mq.ProcessingTime)],
          rt.newEvent 1 "auto_dequeue" mq.GetID (e.Timestamp + mq.ProcessingTime + 1 / 100)
            MessageDequeued mq.GetID
            [("message_id", (e.GetDataValue "message_id").1), ("auto", Value.bool true)]]) := by
  unfold MessageQueue.handleMessageEnqueue
  rw [if_neg (not_le.mpr hlt), if_neg hd]
  dsimp only
  have h1 : (({ mq with CurrentQueueSize := mq.CurrentQueueSize + 1,
                        MessagesEnqueued := mq.MessagesEnqueued + 1 }).SetState
      StateProcessing).CurrentQueueSize = 1 := hone
  rw [if_pos h1]
  rfl

/-- C20: a message queue with `current_queue_size >= max_queue_size` that handles
a `MessageEnqueued` at time `t` returns exactly one event, a `RequestFailed` for
the queue itself at `t` with reason `queue_full`; `messages_dropped` grows by one
and `current_queue_size`, `messages_enqueued`, `messages_dequeued` and
`messages_failed` are unchanged, whatever the runtime supplies. -/
theorem queue_full_drop (mq : MessageQueue) (rt : Runtime) (event : Event)
    (hk : event.Kind = MessageEnqueued) (hfull : mq.MaxQueueSize ≤ mq.CurrentQueueSize) :
    (∃ ev, (mq.HandleEvent rt event).2 = [ev] ∧ ev.Kind = RequestFailed ∧
      ev.Data.lookup "reason" = some (Value.str "queue_full") ∧
      ev.Timestamp = event.Timestamp ∧ ev.ComponentID = mq.GetID) ∧
    (mq.HandleEvent rt event).1.MessagesDropped = mq.MessagesDropped + 1 ∧
    (mq.HandleEvent rt event).1.CurrentQueueSize = mq.CurrentQueueSize ∧
    (mq.HandleEvent rt event).1.MessagesEnqueued = mq.MessagesEnqueued ∧
    (mq.HandleEvent rt event).1.MessagesDequeued = mq.MessagesDequeued ∧
    (mq.HandleEvent rt event).1.MessagesFailed = mq.MessagesFailed := by
  obtain ⟨b, hb, _⟩ := MessageQueue.updateMetrics_eq_mq (mq.handleMessageEnqueue rt event).1 event
  rw [mq.HandleEvent_enqueue rt event hk, hb, mq.handleMessageEnqueue_full rt event hfull]
  exact ⟨⟨_, rfl, rfl, rfl, rfl, rfl⟩, rfl, rfl, rfl, rfl, rfl⟩

/-- Witness for C20: a started queue with room for one message, processing time
`0.1` and no failures, and two `MessageEnqueued` at time `1`.  The first call
returns the `RequestCompleted` of the enqueue at `1.1` and the automatic
`MessageDequeued` at `1.11`; the second call, on the full queue, returns one
`RequestFailed` with reason `queue_full` at `1`, and `messages_dropped` is `1`. -/
theorem queue_full_drop_witness :
    (∃ done auto, (unitQueue.Start.HandleEvent quietRuntime (enqueueAt "m1" 1)).2 = [done, auto] ∧
      done.Kind = RequestCompleted ∧ done.Timestamp = 11 / 10 ∧
      done.Data.lookup "operation" = some (Value.str "enqueue") ∧
      auto.Kind = MessageDequeued ∧ auto.Timestamp = 111 / 100) ∧
    (∃ ev, ((unitQueue.Start.HandleEvent quietRuntime (enqueueAt "m1" 1)).1.HandleEvent
        quietRuntime (enqueueAt "m2" 1)).2 = [ev] ∧ ev.Kind = RequestFailed ∧
      ev.Data.lookup "reason" = some (Value.str "queue_full") ∧ ev.Timestamp = 1) ∧
    ((unitQueue.Start.HandleEvent quietRuntime (enqueueAt "m1" 1)).1.HandleEvent
        quietRuntime (enqueueAt "m2" 1)).1.MessagesDropped = 1 := by
  have hd : ¬ quietRuntime.Float64 0 < unitQueue.Start.FailureRate := by
    simp only [quietRuntime, unitQueue, MessageQueue.Start, MessageQueue.SetState]
    norm_num
  have hacc := unitQueue.Start.handleMessageEnqueue_accept quietRuntime (enqueueAt "m1" 1)
    (by decide) hd (by decide)
  obtain ⟨b, hb, _⟩ := MessageQueue.updateMetrics_eq_mq
    (unitQueue.Start.handleMessageEnqueue quietRuntime (enqueueAt "m1" 1)).1 (enqueueAt "m1" 1)
  have hstep : unitQueue.Start.HandleEvent quietRuntime (enqueueAt "m1" 1)
      = ((unitQueue.Start.handleMessageEnqueue quietRuntime (enqueueAt "m1" 1)).1.updateMetrics
          (enqueueAt "m1" 1),
        (unitQueue.Start.handleMessageEnqueue quietRuntime (enqueueAt "m1" 1)).2) :=
    unitQueue.Start.HandleEvent_enqueue quietRuntime (enqueueAt "m1" 1) rfl
  have hfull : (unitQueue.Start.HandleEvent quietRuntime (enqueueAt "m1" 1)).1.MaxQueueSize
      ≤ (unitQueue.Start.HandleEvent quietRuntime (enqueueAt "m1" 1)).1.CurrentQueueSize := by
    rw [hstep, hb, hacc]
    show unitQueue.Start.MaxQueueSize ≤ unitQueue.Start.CurrentQueueSize + 1
    decide
  have hdrop0 : (unitQueue.Start.HandleEvent quietRuntime (enqueueAt "m1" 1)).1.MessagesDropped
      = 0 := by
    rw [hstep, hb, hacc]
    rfl
  have h := queue_full_drop (unitQueue.Start.HandleEvent quietRuntime (enqueueAt "m1" 1)).1
    quietRuntime (enqueueAt "m2" 1) rfl hfull
  obtain ⟨⟨ev, hev, hk, hreason, hts, _⟩, hdrop, _⟩ := h
  refine ⟨?_, ⟨ev, hev, hk, hreason, hts⟩, by rw [hdrop, hdrop0]; rfl⟩
  rw [hstep, hacc]
  refine ⟨_, _, rfl, rfl, ?_, rfl, rfl, ?_⟩
  · simp only [Runtime.newEvent, NewEvent, enqueueAt, unitQueue, MessageQueue.Start,
      MessageQueue.SetState]
    norm_num
  · simp only [Runtime.newEvent, NewEvent, enqueueAt, unitQueue, MessageQueue.Start,
      MessageQueue.SetState]
    norm_num

/-! ## Theorems: cache -/

theorem lookup_none_iff {β : Type} (m : List (String × β)) (k : String) :
    m.lookup k = none ↔ k ∉ m.map Prod.fst := by
  induction m with
  | nil => simp
  | cons x rest ih =>
    obtain ⟨a, b⟩ := x
    by_cases h : k = a
    · subst h
      simp [List.lookup]
    · have hb : (k == a) = false := by simpa using h
      simp only [List.lookup, hb, List.map_cons, List.mem_cons, h, false_or]
      exact ih

theorem lookup_of_mem {β : Type} (m : List (String × β)) (k : String) (v : β)
    (hnd : (m.map Prod.fst).Nodup) (hmem : (k, v) ∈ m) : m.lookup k = some v := by
  induction m with
  | nil => simp at hmem
  | cons x rest ih =>
    obtain ⟨a, b⟩ := x
    rw [List.map_cons, List.nodup_cons] at hnd
    rcases List.mem_cons.mp hmem with heq | hrest
    · cases heq
      simp [List.lookup]
    · have hne : k ≠ a := by
        intro h
        subst h
        exact hnd.1 (List.mem_map.mpr ⟨(k, v), hrest, rfl⟩)
      have hb : (k == a) = false := by simpa using hne
      simp only [List.lookup, hb]
      exact ih hnd.2 hrest

theorem mem_of_lookup {β : Type} (m : List (String × β)) (k : String) (v : β)
    (h : m.lookup k = some v) : (k, v) ∈ m := by
  induction m with
  | nil => simp at h
  | cons x rest ih =>
    obtain ⟨a, b⟩ := x
    by_cases hk : k = a
    · subst hk
      simp [List.lookup] at h
      subst h
      exact List.mem_cons_self _ _
    · have hb : (k == a) = false := by simpa using hk
      simp only [List.lookup, hb] at h
      exact List.mem_cons_of_mem _ (ih h)

theorem mapDelete_keys {β : Type} (m : List (String × β)) (k : String) :
    (mapDelete m k).map Prod.fst = (m.map Prod.fst).filter (fun a => a != k) := by
  unfold mapDelete
  induction m with
  | nil => rfl
  | cons x rest ih =>
    simp only [List.filter_cons, List.map_cons]
    split_ifs
    · rw [List.map_cons, ih]
    · exact ih

theorem mapDelete_nodup {β : Type} (m : List (String × β)) (k : String)
    (hnd : (m.map Prod.fst).Nodup) : ((mapDelete m k).map Prod.fst).Nodup := by
  rw [mapDelete_keys]
  exact hnd.filter _

theorem mapDelete_size (m : List (String × CacheEntry)) (k : String) (v : CacheEntry)
    (hnd : (m.map Prod.fst).Nodup) (h : m.lookup k = some v) :
    entriesSize (mapDelete m k) = entriesSize m - v.Size := by
  unfold mapDelete entriesSize
  induction m with
  | nil => simp at h
  | cons x rest ih =>
    obtain ⟨a, b⟩ := x
    rw [List.map_cons, List.nodup_cons] at hnd
    by_cases hk : k = a
    · subst hk
      simp [List.lookup] at h
      subst h
      have hrest : rest.filter (fun p => p.1 != k) = rest := by
        rw [List.filter_eq_self]
        intro p hp
        have : p.1 ≠ k := by
          intro heq
          exact hnd.1 (heq ▸ List.mem_map.mpr ⟨p, hp, rfl⟩)
        simpa using this
      simp only [List.filter_cons, bne_self_eq_false, Bool.false_eq_true, if_false, hrest,
        List.map_cons, List.sum_cons]
      ring
    · have hb : (k == a) = false := by simpa using hk
      have hb2 : (a != k) = true := by
        simp only [bne_iff_ne, ne_eq]
        exact fun h' => hk h'.symm
      simp only [List.lookup, hb] at h
      simp only [List.filter_cons, hb2, if_true, List.map_cons, List.sum_cons]
      rw [ih hnd.2 h]
      ring

theorem mapSet_keys_of_some {β : Type} (m : List (String × β)) (k : String) (v : β)
    (h : (m.lookup k).isSome = true) : (mapSet m k v).map Prod.fst = m.map Prod.fst := by
  unfold mapSet
  rw [if_pos h, List.map_map]
  apply List.map_congr_left
  intro p _
  simp only [Function.comp]
  split_ifs with hp
  · exact hp.symm
  · rfl

theorem mapSet_keys_of_none {β : Type} (m : List (String × β)) (k : String) (v : β)
    (h : m.lookup k = none) : (mapSet m k v).map Prod.fst = m.map Prod.fst ++ [k] := by
  unfold mapSet
  rw [h]
  simp

theorem mapSet_nodup {β : Type} (m : List (String × β)) (k : String) (v : β)
    (hnd : (m.map Prod.fst).Nodup) : ((mapSet m k v).map Prod.fst).Nodup := by
  cases h : m.lookup k with
  | none =>
    rw [mapSet_keys_of_none m k v h]
    rw [List.nodup_append]
    refine ⟨hnd, List.nodup_singleton k, ?_⟩
    intro a ha hk
    rw [List.mem_singleton] at hk
    subst hk
    exact (lookup_none_iff m a).mp h ha
  | some w =>
    rw [mapSet_keys_of_some m k v (by rw [h]; rfl)]
    exact hnd

theorem mapSet_size_of_none (m : List (String × CacheEntry)) (k : String) (v : CacheEntry)
    (h : m.lookup k = none) : entriesSize (mapSet m k v) = entriesSize m + v.Size := by
  unfold mapSet entriesSize
  rw [h]
  simp

theorem mapSet_size_of_some (m : List (String × CacheEntry)) (k : String) (v w : CacheEntry)
    (hnd : (m.map Prod.fst).Nodup) (h : m.lookup k = some w) :
    entriesSize (mapSet m k v) = entriesSize m - w.Size + v.Size := by
  unfold mapSet entriesSize
  rw [h]
  simp only [Option.isSome_some, if_true]
  induction m with
  | nil => simp at h
  | cons x rest ih =>
    obtain ⟨a, b⟩ := x
    rw [List.map_cons, List.nodup_cons] at hnd
    by_cases hk : k = a
    · subst hk
      simp [List.lookup] at h
      subst h
      have hrest : rest.map (fun p => if p.1 = k then (k, v) else p) = rest := by
        conv_rhs => rw [← List.map_id rest]
        apply List.map_congr_left
        intro p hp
        have : p.1 ≠ k := by
          intro heq
          exact hnd.1 (heq ▸ List.mem_map.mpr ⟨p, hp, rfl⟩)
        simp [this]
      simp only [List.map_cons, if_true, hrest, List.sum_cons]
      ring
    · have hb : (k == a) = false := by simpa using hk
      have hak : ¬ a = k := fun h' => hk h'.symm
      simp only [List.lookup, hb] at h
      simp only [List.map_cons, hak, if_false, List.sum_cons]
      rw [ih hnd.2 h]
      ring

theorem Cache.SetMetric_sameBut_cache (c d : Cache) (k : String) (v : PropValue)
    (h : ∃ b, d = { c with base := b } ∧ b.State = c.base.State) :
    ∃ b, d.SetMetric k v = { c with base := b } ∧ b.State = c.base.State := by
  obtain ⟨b, rfl, hs⟩ := h
  exact ⟨_, rfl, hs⟩

theorem Cache.updateMetrics_eq_cache (c : Cache) (e : Event) :
    ∃ b, c.updateMetrics e = { c with base := b } ∧ b.State = c.base.State := by
  unfold Cache.updateMetrics
  dsimp only
  split_ifs <;> (repeat apply Cache.SetMetric_sameBut_cache) <;> exact ⟨c.base, rfl, rfl⟩

/-- The eviction loop keeps the representation invariant and `MaxSize`, and when
it ends the new entry fits or the cache is empty. -/
theorem Cache.evictEntries_inv (rt : Runtime) (requiredSpace : Int) :
    ∀ (fuel k : Nat) (c c' : Cache), Cache.evictEntries rt requiredSpace fuel k c = some c' →
    c.SizeInv →
    c'.SizeInv ∧ c'.MaxSize = c.MaxSize ∧
      (wrapInt64 (c'.CurrentSize + requiredSpace) ≤ c'.MaxSize ∨ c'.Entries = []) ∧
      (∀ p ∈ c'.Entries, p ∈ c.Entries) := by
  intro fuel
  induction fuel with
  | zero =>
    intro k c c' h hinv
    unfold Cache.evictEntries at h
    split_ifs at h with hc
    simp only [Option.some.injEq] at h
    subst h
    refine ⟨hinv, rfl, ?_, fun p hp => hp⟩
    by_cases hfit : wrapInt64 (c.CurrentSize + requiredSpace) ≤ c.MaxSize
    · exact Or.inl hfit
    · right
      have : ¬ c.Entries.length > 0 := fun hl => hc ⟨not_le.mp hfit, hl⟩
      exact List.length_eq_zero.mp (by omega)
  | succ fuel ih =>
    intro k c c' h hinv
    unfold Cache.evictEntries at h
    split_ifs at h with hc
    · dsimp only at h
      split_ifs at h with hkey
      · split at h
        · rename_i entry hlook
          obtain ⟨h1, h2, h3, h4⟩ := ih (k + 1) _ c' h (by
            refine ⟨mapDelete_nodup _ _ hinv.1, ?_⟩
            show c.CurrentSize - entry.Size = entriesSize (mapDelete c.Entries _)
            rw [mapDelete_size c.Entries _ entry hinv.1 hlook, hinv.2])
          refine ⟨h1, h2, h3, ?_⟩
          intro p hp
          have := h4 p hp
          exact (List.mem_filter.mp this).1
        · exact ih (k + 1) c c' h hinv
      · exact ih (k + 1) c c' h hinv
    · simp only [Option.some.injEq] at h
      subst h
      refine ⟨hinv, rfl, ?_, fun p hp => hp⟩
      by_cases hfit : wrapInt64 (c.CurrentSize + requiredSpace) ≤ c.MaxSize
      · exact Or.inl hfit
      · right
        have : ¬ c.Entries.length > 0 := fun hl => hc ⟨not_le.mp hfit, hl⟩
        exact List.length_eq_zero.mp (by omega)

theorem Cache.makeRoom_inv (c c' : Cache) (rt : Runtime) (fuel : Nat) (size : Int)
    (h : c.makeRoom rt fuel size = some c') (hinv : c.SizeInv) :
    c'.SizeInv ∧ c'.MaxSize = c.MaxSize ∧
      (wrapInt64 (c'.CurrentSize + size) ≤ c'.MaxSize ∨ c'.Entries = []) ∧
      (∀ p ∈ c'.Entries, p ∈ c.Entries) := by
  unfold Cache.makeRoom at h
  split_ifs at h with hc
  · exact Cache.evictEntries_inv rt size fuel 0 c c' h hinv
  · simp only [Option.some.injEq] at h
    subst h
    exact ⟨hinv, rfl, Or.inl (not_lt.mp hc), fun p hp => hp⟩

theorem Cache.storeEntry_inv (c : Cache) (keyStr : String) (value : Value) (size : Int)
    (event : Event) (hinv : c.SizeInv) :
    (c.storeEntry keyStr value size event).SizeInv ∧
      (c.storeEntry keyStr value size event).MaxSize = c.MaxSize := by
  unfold Cache.storeEntry
  split
  · rename_i existingEntry hlook
    refine ⟨⟨mapSet_nodup _ _ _ hinv.1, ?_⟩, rfl⟩
    show c.CurrentSize - existingEntry.Size + size = entriesSize (mapSet c.Entries keyStr _)
    rw [mapSet_size_of_some c.Entries keyStr _ existingEntry hinv.1 hlook, hinv.2]
  · rename_i hlook
    refine ⟨⟨mapSet_nodup _ _ _ hinv.1, ?_⟩, rfl⟩
    show c.CurrentSize + size = entriesSize (mapSet c.Entries keyStr _)
    rw [mapSet_size_of_none c.Entries keyStr _ hlook, hinv.2]

theorem Cache.readLookup_inv (c : Cache) (rt : Runtime) (keyStr : String) (event : Event)
    (hinv : c.SizeInv) :
    (c.readLookup rt keyStr event).1.SizeInv ∧
      (c.readLookup rt keyStr event).1.MaxSize = c.MaxSize ∧
      (c.readLookup rt keyStr event).1.CurrentSize = c.CurrentSize := by
  unfold Cache.readLookup
  split
  · rename_i entry hlook
    split_ifs
    · refine ⟨⟨mapSet_nodup _ _ _ hinv.1, ?_⟩, rfl, rfl⟩
      show c.CurrentSize = entriesSize (mapSet c.Entries keyStr _)
      rw [mapSet_size_of_some c.Entries keyStr _ entry hinv.1 hlook, hinv.2]
      show _ = entriesSize c.Entries - entry.Size + entry.Size
      ring
    · exact ⟨hinv, rfl, rfl⟩
  · exact ⟨hinv, rfl, rfl⟩

theorem Cache.handleCacheRead_inv (c : Cache) (rt : Runtime) (event : Event) (hinv : c.SizeInv) :
    (c.handleCacheRead rt event).1.SizeInv ∧ (c.handleCacheRead rt event).1.MaxSize = c.MaxSize ∧
      (c.handleCacheRead rt event).1.CurrentSize = c.CurrentSize := by
  unfold Cache.handleCacheRead
  dsimp only
  have h := (c.SetState StateProcessing).readLookup_inv rt
    (((event.GetDataValue "key").1).format rt) event hinv
  split_ifs
  · exact ⟨hinv, rfl, rfl⟩
  · exact h
  · exact h

theorem Cache.handleCacheWrite_inv (c : Cache) (rt : Runtime) (fuel : Nat) (event : Event)
    (r : Cache × List Event) (h : c.handleCacheWrite rt fuel event = some r) (hinv : c.SizeInv) :
    r.1.SizeInv ∧ r.1.MaxSize = c.MaxSize := by
  unfold Cache.handleCacheWrite at h
  dsimp only at h
  split_ifs at h
  · simp only [Option.some.injEq] at h
    subst h
    exact ⟨hinv, rfl⟩
  · split at h
    · exact Option.noConfusion h
    · rename_i c2 hroom
      simp only [Option.some.injEq] at h
      subst h
      have hinv1 : (c.SetState StateProcessing).SizeInv := hinv
      obtain ⟨h2, hmax, _, _⟩ := Cache.makeRoom_inv _ c2 rt fuel _ hroom hinv1
      have h3 := c2.storeEntry_inv (((event.GetDataValue "key").1).format rt)
        (event.GetDataValue "value").1 (writeSize event) event h2
      exact ⟨h3.1, h3.2.trans hmax⟩

theorem Cache.HandleEvent_inv (c : Cache) (rt : Runtime) (fuel : Nat) (event : Event)
    (r : Cache × List Event) (h : c.HandleEvent rt fuel event = some r) (hinv : c.SizeInv) :
    r.1.SizeInv ∧ r.1.MaxSize = c.MaxSize := by
  unfold Cache.HandleEvent at h
  split_ifs at h
  · simp only [Option.some.injEq] at h
    subst h
    obtain ⟨b, hb, _⟩ := Cache.updateMetrics_eq_cache (c.handleCacheRead rt event).1 event
    have := c.handleCacheRead_inv rt event hinv
    dsimp only
    rw [hb]
    exact ⟨this.1, this.2.1⟩
  · split at h
    · exact Option.noConfusion h
    · rename_i r1 hr1
      simp only [Option.some.injEq] at h
      subst h
      obtain ⟨b, hb, _⟩ := Cache.updateMetrics_eq_cache r1.1 event
      have := c.handleCacheWrite_inv rt fuel event r1 hr1 hinv
      dsimp only
      rw [hb]
      exact this
  · simp only [Option.some.injEq] at h
    subst h
    exact ⟨hinv, rfl⟩

theorem Cache.handleAll_inv : ∀ (inputs : List (Runtime × Nat × Event)) (c c' : Cache)
    (outs : List (List Event)), c.handleAll inputs = some (c', outs) → c.SizeInv →
    c'.SizeInv ∧ c'.MaxSize = c.MaxSize := by
  intro inputs
  induction inputs with
  | nil =>
    intro c c' outs h hinv
    simp only [Cache.handleAll, Option.some.injEq, Prod.mk.injEq] at h
    obtain ⟨rfl, _⟩ := h
    exact ⟨hinv, rfl⟩
  | cons p rest ih =>
    intro c c' outs h hinv
    simp only [Cache.handleAll] at h
    split at h
    · exact Option.noConfusion h
    · rename_i r hr
      split at h
      · exact Option.noConfusion h
      · rename_i out hout
        simp only [Option.some.injEq, Prod.mk.injEq] at h
        obtain ⟨rfl, _⟩ := h
        have h1 := c.HandleEvent_inv p.1 p.2.1 p.2.2 r hr hinv
        have h2 := ih r.1 out.1 out.2 (by rw [hout]) h1.1
        exact ⟨h2.1, h2.2.trans h1.2⟩

theorem Cache.Start_inv (c : Cache) : c.Start.SizeInv :=
  ⟨List.nodup_nil, rfl⟩

/-- A write whose failure draw does not fire and whose eviction loop returns `c2`:
the call returns one event, and apart from the metrics and the state the cache
is `c2` with the entry stored and `CacheWrites` advanced. -/
theorem Cache.write_result (c c2 : Cache) (rt : Runtime) (fuel : Nat) (event : Event)
    (hk : event.Kind = DatabaseWrite) (hd : ¬ rt.Float64 0 < c.FailureRate)
    (hroom : (c.SetState StateProcessing).makeRoom rt fuel (writeSize event) = some c2) :
    ∃ (r : Cache × List Event), c.HandleEvent rt fuel event = some r ∧ r.2.length = 1 ∧
      ∃ (b : BaseComponent), r.1 =
        { c2.storeEntry (((event.GetDataValue "key").1).format rt)
            (event.GetDataValue "value").1 (writeSize event) event with
          base := b,
          CacheWrites := (c2.storeEntry (((event.GetDataValue "key").1).format rt)
            (event.GetDataValue "value").1 (writeSize event) event).CacheWrites + 1 } := by
  have hne : ¬ event.Kind = DatabaseRead := by rw [hk]; decide
  unfold Cache.HandleEvent
  rw [if_neg hne, if_pos hk]
  unfold Cache.handleCacheWrite
  dsimp only
  rw [if_neg hd, hroom]
  dsimp only
  refine ⟨_, rfl, rfl, ?_⟩
  exact ⟨_, (Cache.updateMetrics_eq_cache _ event).choose_spec.1⟩

/-- A write whose eviction loop does not end within any bound never returns. -/
theorem Cache.write_hangs (c : Cache) (rt : Runtime) (fuel : Nat) (event : Event)
    (hk : event.Kind = DatabaseWrite) (hd : ¬ rt.Float64 0 < c.FailureRate)
    (hroom : (c.SetState StateProcessing).makeRoom rt fuel (writeSize event) = none) :
    c.HandleEvent rt fuel event = none := by
  have hne : ¬ event.Kind = DatabaseRead := by rw [hk]; decide
  unfold Cache.HandleEvent
  rw [if_neg hne, if_pos hk]
  unfold Cache.handleCacheWrite
  dsimp only
  rw [if_neg hd, hroom]

/-- C12: after `Start`, whatever events a cache handles (`DatabaseRead`,
`DatabaseWrite` or any other kind, in any order) and whatever the runtime
supplies, when the calls have returned `current_size` equals the sum of
`entry.size` over the entries of the cache; this covers the state after each
handled event, a prefix of a sequence being a sequence. -/
theorem current_size_is_sum_of_entry_sizes (c0 : Cache)
    (inputs : List (Runtime × Nat × Event)) (c' : Cache) (outs : List (List Event))
    (h : c0.Start.handleAll inputs = some (c', outs)) :
    c'.CurrentSize = entriesSize c'.Entries :=
  (Cache.handleAll_inv inputs c0.Start c' outs h c0.Start_inv).1.2

/-! ### The eviction loop -/

/-- The inner loop of `evictEntries` from an accumulator that holds an entry with a
non-negative timestamp, over entries with non-negative timestamps: it ends
holding an entry with the least timestamp. -/
theorem oldestLoop_spec : ∀ (l : List (String × CacheEntry)) (a : String × CacheEntry),
    0 ≤ a.2.Timestamp → (∀ p ∈ l, 0 ≤ p.2.Timestamp) →
    ∃ m ∈ a :: l,
      l.foldl (fun (acc : String × Rat) p =>
          if acc.2 < 0 ∨ p.2.Timestamp < acc.2 then (p.1, p.2.Timestamp) else acc)
        (a.1, a.2.Timestamp) = (m.1, m.2.Timestamp) ∧
      ∀ q ∈ a :: l, m.2.Timestamp ≤ q.2.Timestamp := by
  intro l
  induction l with
  | nil =>
    intro a _ _
    refine ⟨a, List.mem_singleton.mpr rfl, rfl, ?_⟩
    intro q hq
    rw [List.mem_singleton] at hq
    rw [hq]
  | cons x rest ih =>
    intro a ha hl
    have hx : 0 ≤ x.2.Timestamp := hl x (List.mem_cons_self x rest)
    have hrest : ∀ p ∈ rest, 0 ≤ p.2.Timestamp := fun p hp => hl p (List.mem_cons_of_mem x hp)
    rw [List.foldl_cons]
    by_cases hlt : x.2.Timestamp < a.2.Timestamp
    · rw [if_pos (Or.inr hlt)]
      obtain ⟨m, hm, hres, hmin⟩ := ih x hx hrest
      refine ⟨m, List.mem_cons_of_mem a hm, hres, ?_⟩
      intro q hq
      rcases List.mem_cons.mp hq with rfl | hq
      · exact le_trans (hmin x (List.mem_cons_self x rest)) (le_of_lt hlt)
      · exact hmin q hq
    · have hcond : ¬ ((a.1, a.2.Timestamp).2 < 0 ∨ x.2.Timestamp < (a.1, a.2.Timestamp).2) := by
        intro h
        rcases h with h | h
        · exact absurd ha (not_le.mpr h)
        · exact hlt h
      rw [if_neg hcond]
      obtain ⟨m, hm, hres, hmin⟩ := ih a ha hrest
      refine ⟨m, ?_, hres, ?_⟩
      · rcases List.mem_cons.mp hm with rfl | hm
        · exact List.mem_cons_self _ _
        · exact List.mem_cons_of_mem _ (List.mem_cons_of_mem _ hm)
      · intro q hq
        rcases List.mem_cons.mp hq with rfl | hq
        · exact hmin q (List.mem_cons_self _ _)
        · rcases List.mem_cons.mp hq with rfl | hq
          · exact le_trans (hmin a (List.mem_cons_self _ _)) (not_lt.mp hlt)
          · exact hmin q (List.mem_cons_of_mem _ hq)

/-- On a non-empty visiting order with non-negative timestamps `findOldest` holds
an entry with the least timestamp. -/
theorem findOldest_spec (l : List (String × CacheEntry)) (hne : l ≠ [])
    (hnn : ∀ p ∈ l, 0 ≤ p.2.Timestamp) :
    ∃ m ∈ l, findOldest l = (m.1, m.2.Timestamp) ∧ ∀ q ∈ l, m.2.Timestamp ≤ q.2.Timestamp := by
  cases l with
  | nil => exact absurd rfl hne
  | cons x rest =>
    unfold findOldest
    rw [List.foldl_cons, if_pos (Or.inl (by norm_num))]
    exact oldestLoop_spec rest x (hnn x (List.mem_cons_self x rest))
      (fun p hp => hnn p (List.mem_cons_of_mem x hp))

/-- The key `findOldest` ends with is the empty string or the key of a visited
entry. -/
theorem findOldest_key (l : List (String × CacheEntry)) :
    (findOldest l).1 = "" ∨ ∃ p ∈ l, (findOldest l).1 = p.1 := by
  unfold findOldest
  have hgen : ∀ (l : List (String × CacheEntry)) (acc : String × Rat),
      (l.foldl (fun (acc : String × Rat) p =>
          if acc.2 < 0 ∨ p.2.Timestamp < acc.2 then (p.1, p.2.Timestamp) else acc) acc).1 = acc.1 ∨
      ∃ p ∈ l, (l.foldl (fun (acc : String × Rat) p =>
          if acc.2 < 0 ∨ p.2.Timestamp < acc.2 then (p.1, p.2.Timestamp) else acc) acc).1
            = p.1 := by
    intro l
    induction l with
    | nil => intro acc; exact Or.inl rfl
    | cons x rest ih =>
      intro acc
      rw [List.foldl_cons]
      split_ifs
      · rcases ih (x.1, x.2.Timestamp) with h | ⟨p, hp, h⟩
        · exact Or.inr ⟨x, List.mem_cons_self _ _, h⟩
        · exact Or.inr ⟨p, List.mem_cons_of_mem _ hp, h⟩
      · rcases ih acc with h | ⟨p, hp, h⟩
        · exact Or.inl h
        · exact Or.inr ⟨p, List.mem_cons_of_mem _ hp, h⟩
  exact hgen l ("", -1)

theorem filterMap_range_getElem {α : Type} : ∀ (l : List α),
    (List.range l.length).filterMap (fun i => l[i]?) = l := by
  intro l
  induction l with
  | nil => rfl
  | cons x rest ih =>
    rw [List.length_cons, List.range_succ_eq_map, List.filterMap_cons]
    simp only [List.getElem?_cons_zero, List.filterMap_map]
    congr 1
    have hf : ((fun i => (x :: rest)[i]?) ∘ Nat.succ) = (fun i => rest[i]?) := by
      funext i
      simp
    rw [hf]
    exact ih

/-- A map traversal visits the entries of the cache, each once. -/
theorem Cache.rangeEntries_perm (c : Cache) (rt : Runtime) (k : Nat) (hv : rt.Valid) :
    (c.rangeEntries rt k).Perm c.Entries := by
  unfold Cache.rangeEntries
  have h := (hv.2.2 k c.Entries.length).filterMap (fun i => c.Entries[i]?)
  rw [filterMap_range_getElem] at h
  exact h

theorem Cache.rangeEntries_subset (c : Cache) (rt : Runtime) (k : Nat) :
    ∀ p ∈ c.rangeEntries rt k, p ∈ c.Entries := by
  intro p hp
  unfold Cache.rangeEntries at hp
  obtain ⟨i, _, hi⟩ := List.mem_filterMap.mp hp
  exact mem_of_getElem_some hi

theorem Cache.evicting_nil (c : Cache) : c.evicting [] = c := by
  cases c
  simp [Cache.evicting, entriesSize]

theorem Cache.evictEntries_done (rt : Runtime) (requiredSpace : Int) (fuel k : Nat) (c : Cache)
    (h : ¬ (wrapInt64 (c.CurrentSize + requiredSpace) > c.MaxSize ∧ c.Entries.length > 0)) :
    Cache.evictEntries rt requiredSpace fuel k c = some c := by
  cases fuel with
  | zero =>
    unfold Cache.evictEntries
    rw [if_neg h]
  | succ fuel =>
    unfold Cache.evictEntries
    rw [if_neg h]

theorem Cache.evictEntries_step (rt : Runtime) (requiredSpace : Int) (fuel k : Nat) (c d : Cache)
    (key : String) (entry : CacheEntry)
    (hcond : wrapInt64 (c.CurrentSize + requiredSpace) > c.MaxSize ∧ c.Entries.length > 0)
    (hkey : (findOldest (c.rangeEntries rt k)).1 = key) (hne : key ≠ "")
    (hlook : c.Entries.lookup key = some entry)
    (hd : d = c.evicting [(key, entry)]) :
    Cache.evictEntries rt requiredSpace (fuel + 1) k c
      = Cache.evictEntries rt requiredSpace fuel (k + 1) d := by
  conv_lhs => unfold Cache.evictEntries
  rw [if_pos hcond]
  dsimp only
  rw [hkey, if_pos hne, hlook]
  dsimp only
  congr 1
  rw [hd]
  cases c
  simp [Cache.evicting, entriesSize, mapDelete]
  rfl

theorem Cache.evictEntries_stall (rt : Runtime) (requiredSpace : Int) (fuel k : Nat) (c : Cache)
    (hcond : wrapInt64 (c.CurrentSize + requiredSpace) > c.MaxSize ∧ c.Entries.length > 0)
    (hkey : (findOldest (c.rangeEntries rt k)).1 = "") :
    Cache.evictEntries rt requiredSpace (fuel + 1) k c
      = Cache.evictEntries rt requiredSpace fuel (k + 1) c := by
  conv_lhs => unfold Cache.evictEntries
  rw [if_pos hcond]
  dsimp only
  rw [hkey, if_neg (by simp)]

theorem Cache.evicting_cons (c : Cache) (m : String × CacheEntry)
    (ev : List (String × CacheEntry)) :
    (c.evicting [m]).evicting ev = c.evicting (m :: ev) := by
  cases c
  simp only [Cache.evicting, entriesSize, List.map_cons, List.map_nil, List.sum_cons,
    List.sum_nil, List.length_cons, List.length_nil, List.filter_filter, Cache.mk.injEq,
    true_and]
  refine ⟨by ring, ?_, ?_⟩
  · apply List.filter_congr
    intro p _
    simp only [List.mem_cons, List.mem_singleton, List.not_mem_nil, or_false]
    by_cases h1 : p.1 = m.1 <;> by_cases h2 : p.1 ∈ List.map Prod.fst ev <;> simp [h1, h2]
  · refine ⟨?_, trivial⟩
    push_cast
    ring

/-- Evicting the oldest entry leaves the other entries, oldest first as before. -/
theorem Cache.evicting_head (c : Cache) (m : String × CacheEntry)
    (rest : List (String × CacheEntry)) (hperm : (m :: rest).Perm c.Entries)
    (hnd : (c.Entries.map Prod.fst).Nodup) :
    rest.Perm (c.evicting [(m.1, m.2)]).Entries ∧
      ((c.evicting [(m.1, m.2)]).Entries.map Prod.fst).Nodup ∧
      (c.evicting [(m.1, m.2)]).CurrentSize = c.CurrentSize - m.2.Size := by
  have hperm1 : rest.Perm (c.evicting [(m.1, m.2)]).Entries := by
    show rest.Perm (c.Entries.filter (fun p => decide (p.1 ∉ [(m.1, m.2)].map Prod.fst)))
    have h1 := hperm.filter (fun p => decide (p.1 ∉ [(m.1, m.2)].map Prod.fst))
    have hkeysnd : ((m :: rest).map Prod.fst).Nodup :=
      (hperm.map Prod.fst).nodup_iff.mpr hnd
    rw [List.map_cons, List.nodup_cons] at hkeysnd
    rw [List.filter_cons] at h1
    simp only [List.map_cons, List.map_nil, List.mem_singleton, not_true_eq_false,
      decide_False, Bool.false_eq_true, if_false] at h1
    have h2 : rest.filter (fun p => decide (p.1 ∉ [(m.1, m.2)].map Prod.fst)) = rest := by
      rw [List.filter_eq_self]
      intro p hp
      have : p.1 ≠ m.1 := by
        intro heq
        exact hkeysnd.1 (heq ▸ List.mem_map.mpr ⟨p, hp, rfl⟩)
      simpa using this
    simp only [List.map_cons, List.map_nil, List.mem_singleton] at h2
    rw [h2] at h1
    simpa using h1
  refine ⟨hperm1, ?_, ?_⟩
  · exact (hperm1.map Prod.fst).nodup_iff.mp (((hperm.map Prod.fst).nodup_iff.mpr hnd).of_cons)
  · simp [Cache.evicting, entriesSize]

/-- The oldest entry of the cache is the one `findOldest` holds, whatever the
visiting order, when the timestamps are non-negative and pairwise distinct. -/
theorem Cache.findOldest_head (c : Cache) (rt : Runtime) (k : Nat) (hv : rt.Valid)
    (m : String × CacheEntry) (rest : List (String × CacheEntry))
    (hperm : (m :: rest).Perm c.Entries)
    (hsorted : (m :: rest).Pairwise (fun a b => a.2.Timestamp < b.2.Timestamp))
    (hnn : ∀ p ∈ m :: rest, 0 ≤ p.2.Timestamp) :
    (findOldest (c.rangeEntries rt k)).1 = m.1 := by
  have hrange := c.rangeEntries_perm rt k hv
  have hperm2 : (c.rangeEntries rt k).Perm (m :: rest) := hrange.trans hperm.symm
  have hne : c.rangeEntries rt k ≠ [] := by
    intro h
    rw [h] at hperm2
    exact absurd hperm2.symm (List.cons_ne_nil _ _ ∘ List.Perm.eq_nil)
  obtain ⟨m', hm', hres, hmin⟩ := findOldest_spec (c.rangeEntries rt k) hne
    (fun p hp => hnn p (hperm2.mem_iff.mp hp))
  have hmem : m ∈ c.rangeEntries rt k := hperm2.mem_iff.mpr (List.mem_cons_self _ _)
  have hle := hmin m hmem
  rcases List.mem_cons.mp (hperm2.mem_iff.mp hm') with heq | hrest
  · rw [hres, heq]
  · have hlt := (List.pairwise_cons.mp hsorted).1 m' hrest
    exact absurd hle (not_le.mpr hlt)

/-- LRU order of the eviction loop.  For a cache whose entries, listed oldest
first, are `sorted` (pairwise distinct non-negative timestamps), the loop evicts
the first `evictionCount` of them, in that order, provided none of these is
stored under the empty key and the iteration bound is at least their number. -/
theorem Cache.evictEntries_lru (rt : Runtime) (requiredSpace : Int) (hv : rt.Valid) :
    ∀ (sorted : List (String × CacheEntry)) (fuel k : Nat) (c : Cache),
    sorted.Perm c.Entries → (c.Entries.map Prod.fst).Nodup →
    sorted.Pairwise (fun a b => a.2.Timestamp < b.2.Timestamp) →
    (∀ p ∈ sorted, 0 ≤ p.2.Timestamp) →
    "" ∉ (sorted.take (evictionCount c.CurrentSize c.MaxSize requiredSpace sorted)).map Prod.fst →
    evictionCount c.CurrentSize c.MaxSize requiredSpace sorted ≤ fuel →
    Cache.evictEntries rt requiredSpace fuel k c
      = some (c.evicting
          (sorted.take (evictionCount c.CurrentSize c.MaxSize requiredSpace sorted))) := by
  intro sorted
  induction sorted with
  | nil =>
    intro fuel k c hperm _ _ _ _ _
    have hnil : c.Entries = [] := List.Perm.eq_nil hperm.symm
    rw [Cache.evictEntries_done rt requiredSpace fuel k c (by rw [hnil]; simp)]
    simp only [evictionCount, List.take_nil, Cache.evicting_nil]
  | cons m rest ih =>
    intro fuel k c hperm hnd hsorted hnn hkeys hfuel
    by_cases hfit : wrapInt64 (c.CurrentSize + requiredSpace) > c.MaxSize
    · have hcount : evictionCount c.CurrentSize c.MaxSize requiredSpace (m :: rest)
          = evictionCount (c.CurrentSize - m.2.Size) c.MaxSize requiredSpace rest + 1 := by
        simp only [evictionCount, hfit, if_true]
      rw [hcount] at hkeys hfuel ⊢
      rw [List.take_succ_cons] at hkeys ⊢
      rw [List.map_cons, List.mem_cons, not_or] at hkeys
      obtain ⟨fuel', rfl⟩ : ∃ f, fuel = f + 1 := ⟨fuel - 1, by omega⟩
      have hmem : m ∈ c.Entries := hperm.mem_iff.mp (List.mem_cons_self _ _)
      have hlen : c.Entries.length > 0 := List.length_pos_of_mem hmem
      have hlook : c.Entries.lookup m.1 = some m.2 := lookup_of_mem c.Entries m.1 m.2 hnd hmem
      have hkey := c.findOldest_head rt k hv m rest hperm hsorted hnn
      rw [Cache.evictEntries_step rt requiredSpace fuel' k c (c.evicting [(m.1, m.2)]) m.1 m.2
        ⟨hfit, hlen⟩ hkey (fun h => hkeys.1 h.symm) hlook rfl]
      obtain ⟨hperm1, hnd1, hcs⟩ := c.evicting_head m rest hperm hnd
      have hstep := ih fuel' (k + 1) (c.evicting [(m.1, m.2)]) hperm1 hnd1
        (List.pairwise_cons.mp hsorted).2 (fun p hp => hnn p (List.mem_cons_of_mem _ hp))
      have hms : (c.evicting [(m.1, m.2)]).MaxSize = c.MaxSize := rfl
      rw [hcs, hms] at hstep
      rw [hstep (fun h => hkeys.2 h) (by omega), Cache.evicting_cons]
    · have hcount : evictionCount c.CurrentSize c.MaxSize requiredSpace (m :: rest) = 0 := by
        simp only [evictionCount, hfit, if_false]
      rw [hcount, List.take_zero, Cache.evicting_nil]
      exact Cache.evictEntries_done rt requiredSpace fuel k c (fun h => hfit h.1)

/-- The prefix counted by `evictionCount` is the shortest after whose removal the
required space fits, or the whole list when no prefix makes it fit. -/
theorem evictionCount_spec (maxSize requiredSpace : Int) :
    ∀ (sorted : List (String × CacheEntry)) (currentSize : Int),
    evictionCount currentSize maxSize requiredSpace sorted ≤ sorted.length ∧
    (∀ i, i < evictionCount currentSize maxSize requiredSpace sorted →
      wrapInt64 (currentSize - entriesSize (sorted.take i) + requiredSpace) > maxSize) ∧
    (evictionCount currentSize maxSize requiredSpace sorted = sorted.length ∨
      wrapInt64 (currentSize - entriesSize
          (sorted.take (evictionCount currentSize maxSize requiredSpace sorted))
        + requiredSpace) ≤ maxSize) := by
  intro sorted
  induction sorted with
  | nil =>
    intro currentSize
    exact ⟨le_refl _, fun i hi => absurd hi (Nat.not_lt_zero i), Or.inl rfl⟩
  | cons m rest ih =>
    intro currentSize
    by_cases hfit : wrapInt64 (currentSize + requiredSpace) > maxSize
    · have hcount : evictionCount currentSize maxSize requiredSpace (m :: rest)
          = evictionCount (currentSize - m.2.Size) maxSize requiredSpace rest + 1 := by
        simp only [evictionCount, hfit, if_true]
      obtain ⟨h1, h2, h3⟩ := ih (currentSize - m.2.Size)
      rw [hcount]
      refine ⟨by rw [List.length_cons]; omega, ?_, ?_⟩
      · intro i hi
        cases i with
        | zero =>
          simp only [List.take_zero, entriesSize, List.map_nil, List.sum_nil, sub_zero]
          exact hfit
        | succ i =>
          have := h2 i (by omega)
          rw [List.take_succ_cons]
          simp only [entriesSize, List.map_cons, List.sum_cons] at this ⊢
          rw [show currentSize - (m.2.Size + (List.map (fun p => p.2.Size)
              (List.take i rest)).sum) + requiredSpace
            = currentSize - m.2.Size - (List.map (fun p => p.2.Size) (List.take i rest)).sum
              + requiredSpace by ring]
          exact this
      · rcases h3 with h3 | h3
        · left
          rw [h3, List.length_cons]
        · right
          rw [List.take_succ_cons]
          simp only [entriesSize, List.map_cons, List.sum_cons] at h3 ⊢
          rw [show currentSize - (m.2.Size + (List.map (fun p => p.2.Size)
              (List.take (evictionCount (currentSize - m.2.Size) maxSize requiredSpace rest)
                rest)).sum) + requiredSpace
            = currentSize - m.2.Size - (List.map (fun p => p.2.Size)
              (List.take (evictionCount (currentSize - m.2.Size) maxSize requiredSpace rest)
                rest)).sum + requiredSpace by ring]
          exact h3
    · have hcount : evictionCount currentSize maxSize requiredSpace (m :: rest) = 0 := by
        simp only [evictionCount, hfit, if_false]
      rw [hcount]
      refine ⟨Nat.zero_le _, fun i hi => absurd hi (Nat.not_lt_zero i), Or.inr ?_⟩
      simp only [List.take_zero, entriesSize, List.map_nil, List.sum_nil, sub_zero]
      exact not_lt.mp hfit

/-- The loop spins when the oldest entry is stored under the empty key. -/
theorem Cache.evictEntries_spin (rt : Runtime) (requiredSpace : Int) (c : Cache)
    (hcond : wrapInt64 (c.CurrentSize + requiredSpace) > c.MaxSize ∧ c.Entries.length > 0)
    (hkey : ∀ k, (findOldest (c.rangeEntries rt k)).1 = "") :
    ∀ (fuel k : Nat), Cache.evictEntries rt requiredSpace fuel k c = none := by
  intro fuel
  induction fuel with
  | zero =>
    intro k
    unfold Cache.evictEntries
    rw [if_pos hcond]
  | succ fuel ih =>
    intro k
    rw [Cache.evictEntries_stall rt requiredSpace fuel k c hcond (hkey k)]
    exact ih (k + 1)

/-- The eviction loop does not end when one of the entries it has to evict is
stored under the empty key: whatever the iteration bound, it is still running. -/
theorem Cache.evictEntries_hang (rt : Runtime) (requiredSpace : Int) (hv : rt.Valid) :
    ∀ (sorted : List (String × CacheEntry)) (fuel k : Nat) (c : Cache),
    sorted.Perm c.Entries → (c.Entries.map Prod.fst).Nodup →
    sorted.Pairwise (fun a b => a.2.Timestamp < b.2.Timestamp) →
    (∀ p ∈ sorted, 0 ≤ p.2.Timestamp) →
    "" ∈ (sorted.take (evictionCount c.CurrentSize c.MaxSize requiredSpace sorted)).map Prod.fst →
    Cache.evictEntries rt requiredSpace fuel k c = none := by
  intro sorted
  induction sorted with
  | nil =>
    intro fuel k c _ _ _ _ hkeys
    simp [evictionCount] at hkeys
  | cons m rest ih =>
    intro fuel k c hperm hnd hsorted hnn hkeys
    by_cases hfit : wrapInt64 (c.CurrentSize + requiredSpace) > c.MaxSize
    · have hcount : evictionCount c.CurrentSize c.MaxSize requiredSpace (m :: rest)
          = evictionCount (c.CurrentSize - m.2.Size) c.MaxSize requiredSpace rest + 1 := by
        simp only [evictionCount, hfit, if_true]
      rw [hcount, List.take_succ_cons, List.map_cons, List.mem_cons] at hkeys
      have hmem : m ∈ c.Entries := hperm.mem_iff.mp (List.mem_cons_self _ _)
      have hlen : c.Entries.length > 0 := List.length_pos_of_mem hmem
      by_cases hm : m.1 = ""
      · exact Cache.evictEntries_spin rt requiredSpace c ⟨hfit, hlen⟩
          (fun k' => by rw [c.findOldest_head rt k' hv m rest hperm hsorted hnn, hm]) fuel k
      · have hrest : "" ∈ (rest.take
            (evictionCount (c.CurrentSize - m.2.Size) c.MaxSize requiredSpace rest)).map
            Prod.fst := by
          rcases hkeys with h | h
          · exact absurd h.symm hm
          · exact h
        cases fuel with
        | zero =>
          unfold Cache.evictEntries
          rw [if_pos ⟨hfit, hlen⟩]
        | succ fuel' =>
          have hlook : c.Entries.lookup m.1 = some m.2 :=
            lookup_of_mem c.Entries m.1 m.2 hnd hmem
          have hkey := c.findOldest_head rt k hv m rest hperm hsorted hnn
          rw [Cache.evictEntries_step rt requiredSpace fuel' k c (c.evicting [(m.1, m.2)]) m.1
            m.2 ⟨hfit, hlen⟩ hkey hm hlook rfl]
          obtain ⟨hperm1, hnd1, hcs⟩ := c.evicting_head m rest hperm hnd
          have hstep := ih fuel' (k + 1) (c.evicting [(m.1, m.2)]) hperm1 hnd1
            (List.pairwise_cons.mp hsorted).2 (fun p hp => hnn p (List.mem_cons_of_mem _ hp))
          have hms : (c.evicting [(m.1, m.2)]).MaxSize = c.MaxSize := rfl
          rw [hcs, hms] at hstep
          exact hstep hrest
    · have hcount : evictionCount c.CurrentSize c.MaxSize requiredSpace (m :: rest) = 0 := by
        simp only [evictionCount, hfit, if_false]
      rw [hcount] at hkeys
      simp at hkeys

theorem Cache.makeRoom_lru (c : Cache) (rt : Runtime) (fuel : Nat) (size : Int) (hv : rt.Valid)
    (sorted : List (String × CacheEntry)) (hperm : sorted.Perm c.Entries)
    (hnd : (c.Entries.map Prod.fst).Nodup)
    (hsorted : sorted.Pairwise (fun a b => a.2.Timestamp < b.2.Timestamp))
    (hnn : ∀ p ∈ sorted, 0 ≤ p.2.Timestamp)
    (hkeys : "" ∉ (sorted.take (evictionCount c.CurrentSize c.MaxSize size sorted)).map Prod.fst)
    (hfuel : evictionCount c.CurrentSize c.MaxSize size sorted ≤ fuel) :
    c.makeRoom rt fuel size
      = some (c.evicting (sorted.take (evictionCount c.CurrentSize c.MaxSize size sorted))) := by
  unfold Cache.makeRoom
  split_ifs with hfit
  · exact Cache.evictEntries_lru rt size hv sorted fuel 0 c hperm hnd hsorted hnn hkeys hfuel
  · have hzero : evictionCount c.CurrentSize c.MaxSize size sorted = 0 := by
      cases sorted with
      | nil => rfl
      | cons m rest => simp only [evictionCount, hfit, if_false]
    rw [hzero, List.take_zero, Cache.evicting_nil]

theorem Cache.makeRoom_hang (c : Cache) (rt : Runtime) (fuel : Nat) (size : Int) (hv : rt.Valid)
    (sorted : List (String × CacheEntry)) (hperm : sorted.Perm c.Entries)
    (hnd : (c.Entries.map Prod.fst).Nodup)
    (hsorted : sorted.Pairwise (fun a b => a.2.Timestamp < b.2.Timestamp))
    (hnn : ∀ p ∈ sorted, 0 ≤ p.2.Timestamp)
    (hkeys : "" ∈ (sorted.take (evictionCount c.CurrentSize c.MaxSize size sorted)).map Prod.fst) :
    c.makeRoom rt fuel size = none := by
  unfold Cache.makeRoom
  split_ifs with hfit
  · exact Cache.evictEntries_hang rt size hv sorted fuel 0 c hperm hnd hsorted hnn hkeys
  · have hzero : evictionCount c.CurrentSize c.MaxSize size sorted = 0 := by
      cases sorted with
      | nil => rfl
      | cons m rest => simp only [evictionCount, hfit, if_false]
    rw [hzero] at hkeys
    simp at hkeys

theorem Cache.storeEntry_base (c : Cache) (b : BaseComponent) (keyStr : String) (value : Value)
    (size : Int) (event : Event) :
    ({ c with base := b }).storeEntry keyStr value size event
      = { c.storeEntry keyStr value size event with base := b } := by
  unfold Cache.storeEntry
  dsimp only
  cases c.Entries.lookup keyStr <;> rfl

/-- LRU order of a write.  For a cache whose entries, listed oldest first, are
`sorted` (pairwise distinct non-negative timestamps), a `DatabaseWrite` whose
failure draw does not fire evicts the shortest prefix of `sorted` after which the
new size fits (all of it when none does), then stores the entry; it returns when
none of the evicted entries is stored under the empty key, and does not return
when one is. -/
theorem Cache.write_lru (c : Cache) (rt : Runtime) (fuel : Nat) (event : Event) (hv : rt.Valid)
    (hk : event.Kind = DatabaseWrite) (hd : ¬ rt.Float64 0 < c.FailureRate)
    (sorted : List (String × CacheEntry)) (hperm : sorted.Perm c.Entries)
    (hnd : (c.Entries.map Prod.fst).Nodup)
    (hsorted : sorted.Pairwise (fun a b => a.2.Timestamp < b.2.Timestamp))
    (hnn : ∀ p ∈ sorted, 0 ≤ p.2.Timestamp) :
    ("" ∉ (sorted.take
        (evictionCount c.CurrentSize c.MaxSize (writeSize event) sorted)).map Prod.fst →
      evictionCount c.CurrentSize c.MaxSize (writeSize event) sorted ≤ fuel →
      ∃ (r : Cache × List Event), c.HandleEvent rt fuel event = some r ∧ r.2.length = 1 ∧
        ∃ (b : BaseComponent), r.1 =
          { (c.evicting (sorted.take
                (evictionCount c.CurrentSize c.MaxSize (writeSize event) sorted))).storeEntry
              (((event.GetDataValue "key").1).format rt) (event.GetDataValue "value").1
              (writeSize event) event with
            base := b,
            CacheWrites := c.CacheWrites + 1 }) ∧
    ("" ∈ (sorted.take
        (evictionCount c.CurrentSize c.MaxSize (writeSize event) sorted)).map Prod.fst →
      c.HandleEvent rt fuel event = none) := by
  constructor
  · intro hkeys hfuel
    have hroom := (c.SetState StateProcessing).makeRoom_lru rt fuel (writeSize event) hv sorted
      hperm hnd hsorted hnn hkeys hfuel
    obtain ⟨r, hr, hlen, b, hb⟩ := c.write_result _ rt fuel event hk hd hroom
    refine ⟨r, hr, hlen, b, ?_⟩
    rw [hb]
    have h1 : (c.SetState StateProcessing).evicting (sorted.take
        (evictionCount c.CurrentSize c.MaxSize (writeSize event) sorted))
        = { c.evicting (sorted.take
              (evictionCount c.CurrentSize c.MaxSize (writeSize event) sorted)) with
            base := c.base.SetState StateProcessing } := rfl
    have h2 : (c.SetState StateProcessing).CurrentSize = c.CurrentSize := rfl
    have h3 : (c.SetState StateProcessing).MaxSize = c.MaxSize := rfl
    rw [h2, h3, h1, Cache.storeEntry_base]
    unfold Cache.storeEntry
    cases (c.evicting (sorted.take
      (evictionCount c.CurrentSize c.MaxSize (writeSize event) sorted))).Entries.lookup
        (((event.GetDataValue "key").1).format rt) <;> rfl
  · intro hkeys
    exact c.write_hangs rt fuel event hk hd
      ((c.SetState StateProcessing).makeRoom_hang rt fuel (writeSize event) hv sorted hperm hnd
        hsorted hnn hkeys)

/-- The data of the cache after a write that returns, in terms of the data before
it: see `Cache.write_lru`. -/
theorem Cache.write_data (c : Cache) (rt : Runtime) (fuel : Nat) (event : Event) (hv : rt.Valid)
    (hk : event.Kind = DatabaseWrite) (hd : ¬ rt.Float64 0 < c.FailureRate)
    (sorted : List (String × CacheEntry)) (hperm : sorted.Perm c.Entries)
    (hnd : (c.Entries.map Prod.fst).Nodup)
    (hsorted : sorted.Pairwise (fun a b => a.2.Timestamp < b.2.Timestamp))
    (hnn : ∀ p ∈ sorted, 0 ≤ p.2.Timestamp)
    (hkeys : "" ∉ (sorted.take
        (evictionCount c.CurrentSize c.MaxSize (writeSize event) sorted)).map Prod.fst)
    (hfuel : evictionCount c.CurrentSize c.MaxSize (writeSize event) sorted ≤ fuel) :
    ∃ (r : Cache × List Event), c.HandleEvent rt fuel event = some r ∧
      r.1.Entries = ((c.evicting (sorted.take
          (evictionCount c.CurrentSize c.MaxSize (writeSize event) sorted))).storeEntry
        (((event.GetDataValue "key").1).format rt) (event.GetDataValue "value").1
        (writeSize event) event).Entries ∧
      r.1.CurrentSize = ((c.evicting (sorted.take
          (evictionCount c.CurrentSize c.MaxSize (writeSize event) sorted))).storeEntry
        (((event.GetDataValue "key").1).format rt) (event.GetDataValue "value").1
        (writeSize event) event).CurrentSize ∧
      r.1.MaxSize = c.MaxSize ∧ r.1.FailureRate = c.FailureRate ∧
      r.1.CacheEvictions = c.CacheEvictions
        + (evictionCount c.CurrentSize c.MaxSize (writeSize event) sorted : Nat) := by
  obtain ⟨r, hr, _, b, hb⟩ :=
    (c.write_lru rt fuel event hv hk hd sorted hperm hnd hsorted hnn).1 hkeys hfuel
  refine ⟨r, hr, ?_⟩
  have hj := (evictionCount_spec c.MaxSize (writeSize event) sorted c.CurrentSize).1
  rw [hb]
  refine ⟨rfl, rfl, ?_, ?_, ?_⟩
  · unfold Cache.storeEntry
    split <;> rfl
  · unfold Cache.storeEntry
    split <;> rfl
  · unfold Cache.storeEntry
    split
    · show c.CacheEvictions + ((sorted.take _).length : Nat) = _
      rw [List.length_take, Nat.min_eq_left hj]
    · show c.CacheEvictions + ((sorted.take _).length : Nat) = _
      rw [List.length_take, Nat.min_eq_left hj]

theorem Cache.handleAll_cons_some (c : Cache) (p : Runtime × Nat × Event)
    (rest : List (Runtime × Nat × Event)) (r : Cache × List Event) (c' : Cache)
    (outs : List (List Event)) (h1 : c.HandleEvent p.1 p.2.1 p.2.2 = some r)
    (h2 : r.1.handleAll rest = some (c', outs)) :
    c.handleAll (p :: rest) = some (c', r.2 :: outs) := by
  simp only [Cache.handleAll, h1, h2]

theorem quiet_no_failure (c : Cache) (h : c.FailureRate ≤ 1 / 2) :
    ¬ quietRuntime.Float64 0 < c.FailureRate := by
  simp only [quietRuntime]
  exact not_lt.mpr h

/-- A write of a key that is not in the cache after the eviction, with the draw
`1/2`, in data terms: `entries` are the entries oldest first, `j` of them are
evicted, and the new entry is added. -/
theorem Cache.write_new_step (c : Cache) (key : String) (size : Int) (t : Rat) (fuel : Nat)
    (entries : List (String × CacheEntry)) (n m e : Int) (j : Nat)
    (hE : c.Entries = entries) (hS : c.CurrentSize = n) (hM : c.MaxSize = m)
    (hF : c.FailureRate ≤ 1 / 2) (hEv : c.CacheEvictions = e)
    (hnd : (entries.map Prod.fst).Nodup)
    (hsorted : entries.Pairwise (fun a b => a.2.Timestamp < b.2.Timestamp))
    (hnn : ∀ p ∈ entries, 0 ≤ p.2.Timestamp)
    (hj : evictionCount n m size entries = j)
    (hkeys : "" ∉ (entries.take j).map Prod.fst) (hfuel : j ≤ fuel)
    (hnew : (entries.filter (fun p => decide (p.1 ∉ (entries.take j).map Prod.fst))).lookup key
      = none) :
    ∃ (r : Cache × List Event), c.HandleEvent quietRuntime fuel (writeAt key size t) = some r ∧
      r.1.Entries = entries.filter (fun p => decide (p.1 ∉ (entries.take j).map Prod.fst))
        ++ [(key, entryAt key size t)] ∧
      r.1.CurrentSize = n - entriesSize (entries.take j) + size ∧
      r.1.MaxSize = m ∧ r.1.FailureRate = c.FailureRate ∧ r.1.CacheEvictions = e + j := by
  have hd := quiet_no_failure c hF
  have hw : writeSize (writeAt key size t) = size := rfl
  have hcount : evictionCount c.CurrentSize c.MaxSize (writeSize (writeAt key size t)) entries
      = j := by
    rw [hS, hM, hw, hj]
  obtain ⟨r, hr, h1, h2, h3, h4, h5⟩ := c.write_data quietRuntime fuel (writeAt key size t)
    quietRuntime_valid rfl hd entries (by rw [hE]) (by rw [hE]; exact hnd) hsorted hnn
    (by rw [hcount]; exact hkeys) (by rw [hcount]; exact hfuel)
  rw [hcount] at h1 h2 h5
  have hkey : (((writeAt key size t).GetDataValue "key").1).format quietRuntime = key := rfl
  rw [hkey, hw] at h1 h2
  have hlook : (c.evicting (entries.take j)).Entries.lookup key = none := by
    show (c.Entries.filter (fun p => decide (p.1 ∉ (entries.take j).map Prod.fst))).lookup key
      = none
    rw [hE]
    exact hnew
  refine ⟨r, hr, ?_, ?_, h3.trans hM, h4, by rw [h5, hEv]⟩
  · rw [h1]
    unfold Cache.storeEntry
    rw [hlook]
    show mapSet (c.Entries.filter (fun p => decide (p.1 ∉ (entries.take j).map Prod.fst))) key _
      = _
    rw [hE]
    unfold mapSet
    rw [hnew]
    rfl
  · rw [h2]
    unfold Cache.storeEntry
    rw [hlook]
    show c.CurrentSize - entriesSize (entries.take j) + size = _
    rw [hS]

/-- A write of a key that is still in the cache after the eviction, with the draw
`1/2`: `CurrentSize` loses the old size of the entry and gains the new one. -/
theorem Cache.write_existing_step (c : Cache) (key : String) (size : Int) (t : Rat) (fuel : Nat)
    (entries : List (String × CacheEntry)) (n m : Int) (j : Nat) (old : CacheEntry)
    (hE : c.Entries = entries) (hS : c.CurrentSize = n) (hM : c.MaxSize = m)
    (hF : c.FailureRate ≤ 1 / 2)
    (hnd : (entries.map Prod.fst).Nodup)
    (hsorted : entries.Pairwise (fun a b => a.2.Timestamp < b.2.Timestamp))
    (hnn : ∀ p ∈ entries, 0 ≤ p.2.Timestamp)
    (hj : evictionCount n m size entries = j)
    (hkeys : "" ∉ (entries.take j).map Prod.fst) (hfuel : j ≤ fuel)
    (hold : (entries.filter (fun p => decide (p.1 ∉ (entries.take j).map Prod.fst))).lookup key
      = some old) :
    ∃ (r : Cache × List Event), c.HandleEvent quietRuntime fuel (writeAt key size t) = some r ∧
      r.1.CurrentSize = n - entriesSize (entries.take j) - old.Size + size ∧
      r.1.MaxSize = m := by
  have hd := quiet_no_failure c hF
  have hw : writeSize (writeAt key size t) = size := rfl
  have hcount : evictionCount c.CurrentSize c.MaxSize (writeSize (writeAt key size t)) entries
      = j := by
    rw [hS, hM, hw, hj]
  obtain ⟨r, hr, _, h2, h3, _, _⟩ := c.write_data quietRuntime fuel (writeAt key size t)
    quietRuntime_valid rfl hd entries (by rw [hE]) (by rw [hE]; exact hnd) hsorted hnn
    (by rw [hcount]; exact hkeys) (by rw [hcount]; exact hfuel)
  rw [hcount] at h2
  have hkey : (((writeAt key size t).GetDataValue "key").1).format quietRuntime = key := rfl
  rw [hkey, hw] at h2
  have hlook : (c.evicting (entries.take j)).Entries.lookup key = some old := by
    show (c.Entries.filter (fun p => decide (p.1 ∉ (entries.take j).map Prod.fst))).lookup key
      = some old
    rw [hE]
    exact hold
  refine ⟨r, hr, ?_, h3.trans hM⟩
  rw [h2]
  unfold Cache.storeEntry
  rw [hlook]
  show c.CurrentSize - entriesSize (entries.take j) - old.Size + size = _
  rw [hS]

/-- The LRU scenario: a started cache of capacity 3 that handles the writes of
`A`, `B`, `C`, `D` (size 1, times 1 to 4) returns from each call, evicts exactly
`A` on the last write and ends with the entries `B`, `C`, `D`, `current_size = 3`
and `cache_evictions = 1`. -/
theorem lruWrites_run :
    ∃ (c' : Cache) (outs : List (List Event)),
      (sampleCache 3).Start.handleAll lruWrites = some (c', outs) ∧
      c'.Entries = [("B", entryAt "B" 1 2), ("C", entryAt "C" 1 3), ("D", entryAt "D" 1 4)] ∧
      c'.CurrentSize = 3 ∧ c'.MaxSize = 3 ∧ c'.CacheEvictions = 1 := by
  have hF0 : (sampleCache 3).Start.FailureRate ≤ 1 / 2 := by
    show (0 : Rat) ≤ 1 / 2
    norm_num
  obtain ⟨r1, hr1, hE1, hS1, hM1, hF1, hEv1⟩ :=
    (sampleCache 3).Start.write_new_step "A" 1 1 3 [] 0 3 0 0 rfl rfl rfl hF0 rfl
      List.nodup_nil List.Pairwise.nil (fun p hp => absurd hp (List.not_mem_nil p)) rfl
      (by simp) (by decide) rfl
  have hE1' : r1.1.Entries = [("A", entryAt "A" 1 1)] := by rw [hE1]; rfl
  have hS1' : r1.1.CurrentSize = 1 := by rw [hS1]; rfl
  have hEv1' : r1.1.CacheEvictions = 0 := by rw [hEv1]; rfl
  obtain ⟨r2, hr2, hE2, hS2, hM2, hF2, hEv2⟩ :=
    r1.1.write_new_step "B" 1 2 3 [("A", entryAt "A" 1 1)] 1 3 0 0 hE1' hS1' hM1
      (by rw [hF1]; exact hF0) hEv1'
      (by decide) (by simp) (by simp [entryAt]) rfl (by simp) (by decide) (by decide)
  have hE2' : r2.1.Entries = [("A", entryAt "A" 1 1), ("B", entryAt "B" 1 2)] := by
    rw [hE2]; rfl
  have hS2' : r2.1.CurrentSize = 2 := by rw [hS2]; rfl
  have hEv2' : r2.1.CacheEvictions = 0 := by rw [hEv2]; rfl
  obtain ⟨r3, hr3, hE3, hS3, hM3, hF3, hEv3⟩ :=
    r2.1.write_new_step "C" 1 3 3 [("A", entryAt "A" 1 1), ("B", entryAt "B" 1 2)] 2 3 0 0
      hE2' hS2' hM2 (by rw [hF2, hF1]; exact hF0) hEv2' (by decide) (by simp [entryAt])
      (by simp [entryAt]) rfl (by simp) (by decide) (by decide)
  have hE3' : r3.1.Entries
      = [("A", entryAt "A" 1 1), ("B", entryAt "B" 1 2), ("C", entryAt "C" 1 3)] := by
    rw [hE3]; rfl
  have hS3' : r3.1.CurrentSize = 3 := by rw [hS3]; rfl
  have hEv3' : r3.1.CacheEvictions = 0 := by rw [hEv3]; rfl
  obtain ⟨r4, hr4, hE4, hS4, hM4, hF4, hEv4⟩ :=
    r3.1.write_new_step "D" 1 4 3
      [("A", entryAt "A" 1 1), ("B", entryAt "B" 1 2), ("C", entryAt "C" 1 3)] 3 3 0 1 hE3'
      hS3' hM3 (by rw [hF3, hF2, hF1]; exact hF0) hEv3' (by decide)
      (by simp [entryAt]; norm_num) (by simp [entryAt]) rfl (by simp) (by decide) (by decide)
  have hE4' : r4.1.Entries
      = [("B", entryAt "B" 1 2), ("C", entryAt "C" 1 3), ("D", entryAt "D" 1 4)] := by
    rw [hE4]; rfl
  have hS4' : r4.1.CurrentSize = 3 := by rw [hS4]; rfl
  have hEv4' : r4.1.CacheEvictions = 1 := by rw [hEv4]; rfl
  refine ⟨r4.1, [r1.2, r2.2, r3.2, r4.2], ?_, hE4', hS4', hM4, hEv4'⟩
  exact Cache.handleAll_cons_some _ _ _ r1 _ _ hr1
    (Cache.handleAll_cons_some _ _ _ r2 _ _ hr2
      (Cache.handleAll_cons_some _ _ _ r3 _ _ hr3
        (Cache.handleAll_cons_some _ _ _ r4 _ _ hr4 rfl)))

/-! ### The capacity bound -/

theorem mem_mapSet {β : Type} (m : List (String × β)) (k : String) (v : β) (p : String × β)
    (h : p ∈ mapSet m k v) : p = (k, v) ∨ p ∈ m := by
  unfold mapSet at h
  split_ifs at h
  · obtain ⟨q, hq, hqp⟩ := List.mem_map.mp h
    split_ifs at hqp
    · exact Or.inl hqp.symm
    · exact Or.inr (hqp ▸ hq)
  · rcases List.mem_append.mp h with h | h
    · exact Or.inr h
    · exact Or.inl (List.mem_singleton.mp h)

theorem Cache.readLookup_sizes (c : Cache) (rt : Runtime) (keyStr : String) (event : Event)
    (hsz : ∀ p ∈ c.Entries, 0 ≤ p.2.Size) :
    ∀ p ∈ (c.readLookup rt keyStr event).1.Entries, 0 ≤ p.2.Size := by
  unfold Cache.readLookup
  split
  · rename_i entry hlook
    split_ifs
    · intro p hp
      rcases mem_mapSet _ _ _ p hp with h | h
      · rw [h]
        exact hsz (keyStr, entry) (mem_of_lookup c.Entries keyStr entry hlook)
      · exact hsz p h
    · exact hsz
  · exact hsz

theorem Cache.handleCacheRead_bound (c : Cache) (rt : Runtime) (event : Event)
    (hinv : c.BoundInv) :
    (c.handleCacheRead rt event).1.BoundInv ∧
      (c.handleCacheRead rt event).1.MaxSize = c.MaxSize := by
  obtain ⟨h1, h2, h3⟩ := c.handleCacheRead_inv rt event hinv.1
  refine ⟨⟨h1, ?_, by rw [h3, h2]; exact hinv.2.2⟩, h2⟩
  unfold Cache.handleCacheRead
  dsimp only
  have hs := (c.SetState StateProcessing).readLookup_sizes rt
    (((event.GetDataValue "key").1).format rt) event hinv.2.1
  split_ifs
  · exact hinv.2.1
  · exact hs
  · exact hs

theorem Cache.storeEntry_bound (c : Cache) (keyStr : String) (value : Value) (size : Int)
    (event : Event) (hinv : c.SizeInv) (hsz : ∀ p ∈ c.Entries, 0 ≤ p.2.Size)
    (h0 : 0 ≤ size) (hsize : size ≤ c.MaxSize)
    (hroom : c.CurrentSize + size ≤ c.MaxSize ∨ c.Entries = []) :
    (c.storeEntry keyStr value size event).BoundInv := by
  have h1 := c.storeEntry_inv keyStr value size event hinv
  refine ⟨h1.1, ?_, ?_⟩
  · unfold Cache.storeEntry
    split
    · intro p hp
      rcases mem_mapSet _ _ _ p hp with h | h
      · rw [h]
        exact h0
      · exact hsz p h
    · intro p hp
      rcases mem_mapSet _ _ _ p hp with h | h
      · rw [h]
        exact h0
      · exact hsz p h
  · unfold Cache.storeEntry
    split
    · rename_i existingEntry hlook
      have hmem := mem_of_lookup c.Entries keyStr existingEntry hlook
      have hpos := hsz _ hmem
      have hfit : c.CurrentSize + size ≤ c.MaxSize := by
        rcases hroom with h | h
        · exact h
        · rw [h] at hmem
          exact absurd hmem (List.not_mem_nil _)
      show c.CurrentSize - existingEntry.Size + size ≤ c.MaxSize
      have hpos' : 0 ≤ existingEntry.Size := hpos
      omega
    · show c.CurrentSize + size ≤ c.MaxSize
      rcases hroom with h | h
      · exact h
      · have : c.CurrentSize = 0 := by
          rw [hinv.2, h]
          rfl
        omega

theorem entriesSize_nonneg : ∀ (l : List (String × CacheEntry)),
    (∀ p ∈ l, 0 ≤ p.2.Size) → 0 ≤ entriesSize l := by
  intro l
  induction l with
  | nil => intro _; exact le_refl _
  | cons x rest ih =>
    intro h
    have hx := h x (List.mem_cons_self x rest)
    have hr := ih (fun p hp => h p (List.mem_cons_of_mem x hp))
    unfold entriesSize at hr ⊢
    rw [List.map_cons, List.sum_cons]
    omega

/-- The eviction loop does not raise `CurrentSize` when no entry has a negative
size. -/
theorem Cache.evictEntries_le (rt : Runtime) (requiredSpace : Int) :
    ∀ (fuel k : Nat) (c c' : Cache), Cache.evictEntries rt requiredSpace fuel k c = some c' →
    (∀ p ∈ c.Entries, 0 ≤ p.2.Size) → c'.CurrentSize ≤ c.CurrentSize := by
  intro fuel
  induction fuel with
  | zero =>
    intro k c c' h _
    unfold Cache.evictEntries at h
    split_ifs at h
    simp only [Option.some.injEq] at h
    subst h
    exact le_refl _
  | succ fuel ih =>
    intro k c c' h hsz
    unfold Cache.evictEntries at h
    split_ifs at h with hc
    · dsimp only at h
      split_ifs at h with hkey
      · split at h
        · rename_i entry hlook
          have hpos := hsz _ (mem_of_lookup c.Entries _ entry hlook)
          have hpos' : 0 ≤ entry.Size := hpos
          have := ih (k + 1) _ c' h (fun p hp => hsz p (List.mem_filter.mp hp).1)
          have hcs : c'.CurrentSize ≤ c.CurrentSize - entry.Size := this
          omega
        · exact ih (k + 1) c c' h hsz
      · exact ih (k + 1) c c' h hsz
    · simp only [Option.some.injEq] at h
      subst h
      exact le_refl _

theorem Cache.makeRoom_le (c c' : Cache) (rt : Runtime) (fuel : Nat) (size : Int)
    (h : c.makeRoom rt fuel size = some c') (hsz : ∀ p ∈ c.Entries, 0 ≤ p.2.Size) :
    c'.CurrentSize ≤ c.CurrentSize := by
  unfold Cache.makeRoom at h
  split_ifs at h
  · exact Cache.evictEntries_le rt size fuel 0 c c' h hsz
  · simp only [Option.some.injEq] at h
    subst h
    exact le_refl _

theorem Cache.handleCacheWrite_bound (c : Cache) (rt : Runtime) (fuel : Nat) (event : Event)
    (r : Cache × List Event) (h : c.handleCacheWrite rt fuel event = some r)
    (hinv : c.BoundInv) (h0 : 0 ≤ writeSize event) (hsize : writeSize event ≤ c.MaxSize)
    (hcap : c.MaxSize + writeSize event ≤ maxInt) :
    r.1.BoundInv ∧ r.1.MaxSize = c.MaxSize := by
  have hmaxeq := (c.handleCacheWrite_inv rt fuel event r h hinv.1).2
  refine ⟨?_, hmaxeq⟩
  unfold Cache.handleCacheWrite at h
  dsimp only at h
  split_ifs at h
  · simp only [Option.some.injEq] at h
    subst h
    exact hinv
  · split at h
    · exact Option.noConfusion h
    · rename_i c2 hroom
      simp only [Option.some.injEq] at h
      subst h
      have hinv1 : (c.SetState StateProcessing).SizeInv := hinv.1
      obtain ⟨h2, hmax, hfit, hsub⟩ := Cache.makeRoom_inv _ c2 rt fuel _ hroom hinv1
      have hmax' : c2.MaxSize = c.MaxSize := hmax
      have hle : c2.CurrentSize ≤ c.CurrentSize :=
        Cache.makeRoom_le (c.SetState StateProcessing) c2 rt fuel _ hroom hinv.2.1
      have hnn : 0 ≤ c2.CurrentSize := by
        rw [h2.2]
        exact entriesSize_nonneg _ (fun p hp => hinv.2.1 p (hsub p hp))
      have hcur := hinv.2.2
      have hwrap : wrapInt64 (c2.CurrentSize + writeSize event)
          = c2.CurrentSize + writeSize event :=
        wrapInt64_of_range _ (by unfold minInt; omega) (by omega)
      rw [hwrap] at hfit
      exact c2.storeEntry_bound _ _ _ event h2 (fun p hp => hinv.2.1 p (hsub p hp)) h0
        (by rw [hmax']; exact hsize) hfit

theorem Cache.HandleEvent_bound (c : Cache) (rt : Runtime) (fuel : Nat) (event : Event)
    (r : Cache × List Event) (h : c.HandleEvent rt fuel event = some r) (hinv : c.BoundInv)
    (hsz : event.Kind = DatabaseWrite → 0 ≤ writeSize event ∧ writeSize event ≤ c.MaxSize ∧
      c.MaxSize + writeSize event ≤ maxInt) :
    r.1.BoundInv ∧ r.1.MaxSize = c.MaxSize := by
  unfold Cache.HandleEvent at h
  split_ifs at h with hread hwrite
  · simp only [Option.some.injEq] at h
    subst h
    obtain ⟨b, hb, _⟩ := Cache.updateMetrics_eq_cache (c.handleCacheRead rt event).1 event
    have := c.handleCacheRead_bound rt event hinv
    dsimp only
    rw [hb]
    exact this
  · split at h
    · exact Option.noConfusion h
    · rename_i r1 hr1
      simp only [Option.some.injEq] at h
      subst h
      obtain ⟨b, hb, _⟩ := Cache.updateMetrics_eq_cache r1.1 event
      have := c.handleCacheWrite_bound rt fuel event r1 hr1 hinv (hsz hwrite).1
        (hsz hwrite).2.1 (hsz hwrite).2.2
      dsimp only
      rw [hb]
      exact this
  · simp only [Option.some.injEq] at h
    subst h
    exact ⟨hinv, rfl⟩

theorem Cache.handleAll_bound : ∀ (inputs : List (Runtime × Nat × Event)) (c c' : Cache)
    (outs : List (List Event)), c.handleAll inputs = some (c', outs) → c.BoundInv →
    (∀ p ∈ inputs, p.2.2.Kind = DatabaseWrite →
      0 ≤ writeSize p.2.2 ∧ writeSize p.2.2 ≤ c.MaxSize ∧
      c.MaxSize + writeSize p.2.2 ≤ maxInt) →
    c'.BoundInv ∧ c'.MaxSize = c.MaxSize := by
  intro inputs
  induction inputs with
  | nil =>
    intro c c' outs h hinv _
    simp only [Cache.handleAll, Option.some.injEq, Prod.mk.injEq] at h
    obtain ⟨rfl, _⟩ := h
    exact ⟨hinv, rfl⟩
  | cons p rest ih =>
    intro c c' outs h hinv hsz
    simp only [Cache.handleAll] at h
    split at h
    · exact Option.noConfusion h
    · rename_i r hr
      split at h
      · exact Option.noConfusion h
      · rename_i out hout
        simp only [Option.some.injEq, Prod.mk.injEq] at h
        obtain ⟨rfl, _⟩ := h
        have h1 := c.HandleEvent_bound p.1 p.2.1 p.2.2 r hr hinv
          (hsz p (List.mem_cons_self p rest))
        have h2 := ih r.1 out.1 out.2 (by rw [hout]) h1.1
          (fun q hq hk => by
            rw [h1.2]
            exact hsz q (List.mem_cons_of_mem p hq) hk)
        exact ⟨h2.1, h2.2.trans h1.2⟩

/-! ### The cache claims -/

/-- Witness for C12: the LRU scenario (capacity 3, writes of `A`, `B`, `C`, `D`). -/
theorem current_size_is_sum_of_entry_sizes_witness :
    ∃ (c' : Cache) (outs : List (List Event)),
      (sampleCache 3).Start.handleAll lruWrites = some (c', outs) ∧
      c'.CurrentSize = entriesSize c'.Entries := by
  obtain ⟨c', outs, h, _⟩ := lruWrites_run
  exact ⟨c', outs, h, current_size_is_sum_of_entry_sizes (sampleCache 3) lruWrites c' outs h⟩

/-- The bound on `current_size` fails after a write that is larger than the
cache (a started default cache, `max_size = 1000`, one write of size 1001 ends
with `current_size = 1001`), and after an update of an entry of negative size
(capacity 3, writes of `A` with size -2, `B` with size 3 and `A` again with size
2 end with `current_size = 5`). -/
theorem current_size_exceeds_by_size :
    (∃ (c' : Cache) (outs : List (List Event)),
      (NewCache "c").Start.handleAll [(quietRuntime, 0, writeAt "A" 1001 1)] = some (c', outs) ∧
      c'.MaxSize = 1000 ∧ c'.CurrentSize = 1001 ∧ ¬ c'.CurrentSize ≤ c'.MaxSize) ∧
    (∃ (c' : Cache) (outs : List (List Event)),
      (sampleCache 3).Start.handleAll [(quietRuntime, 0, writeAt "A" (-2) 1),
        (quietRuntime, 0, writeAt "B" 3 2), (quietRuntime, 0, writeAt "A" 2 3)]
        = some (c', outs) ∧
      c'.MaxSize = 3 ∧ c'.CurrentSize = 5 ∧ ¬ c'.CurrentSize ≤ c'.MaxSize) := by
  constructor
  · have hF0 : (NewCache "c").Start.FailureRate ≤ 1 / 2 := by
      show (1 / 1000 : Rat) ≤ 1 / 2
      norm_num
    obtain ⟨r1, hr1, _, hS1, hM1, _, _⟩ :=
      (NewCache "c").Start.write_new_step "A" 1001 1 0 [] 0 1000 0 0 rfl rfl rfl hF0 rfl
        List.nodup_nil List.Pairwise.nil (fun p hp => absurd hp (List.not_mem_nil p)) rfl
        (by simp) (by decide) rfl
    have hS1' : r1.1.CurrentSize = 1001 := by rw [hS1]; rfl
    refine ⟨r1.1, [r1.2], Cache.handleAll_cons_some _ _ _ r1 _ _ hr1 rfl, hM1, hS1', ?_⟩
    rw [hS1', hM1]
    decide
  · have hF0 : (sampleCache 3).Start.FailureRate ≤ 1 / 2 := by
      show (0 : Rat) ≤ 1 / 2
      norm_num
    obtain ⟨r1, hr1, hE1, hS1, hM1, hF1, _⟩ :=
      (sampleCache 3).Start.write_new_step "A" (-2) 1 0 [] 0 3 0 0 rfl rfl rfl hF0 rfl
        List.nodup_nil List.Pairwise.nil (fun p hp => absurd hp (List.not_mem_nil p)) rfl
        (by simp) (by decide) rfl
    have hE1' : r1.1.Entries = [("A", entryAt "A" (-2) 1)] := by rw [hE1]; rfl
    have hS1' : r1.1.CurrentSize = -2 := by rw [hS1]; rfl
    obtain ⟨r2, hr2, hE2, hS2, hM2, hF2, _⟩ :=
      r1.1.write_new_step "B" 3 2 0 [("A", entryAt "A" (-2) 1)] (-2) 3 r1.1.CacheEvictions 0 hE1'
        hS1' hM1
        (by rw [hF1]; exact hF0) rfl (by decide) (by simp) (by simp [entryAt]) rfl (by simp)
        (by decide) (by decide)
    have hE2' : r2.1.Entries = [("A", entryAt "A" (-2) 1), ("B", entryAt "B" 3 2)] := by
      rw [hE2]; rfl
    have hS2' : r2.1.CurrentSize = 1 := by rw [hS2]; rfl
    obtain ⟨r3, hr3, hS3, hM3⟩ :=
      r2.1.write_existing_step "A" 2 3 0 [("A", entryAt "A" (-2) 1), ("B", entryAt "B" 3 2)] 1 3
        0 (entryAt "A" (-2) 1) hE2' hS2' hM2 (by rw [hF2, hF1]; exact hF0) (by decide)
        (by simp [entryAt]) (by simp [entryAt]) rfl (by simp) (by decide) (by decide)
    have hS3' : r3.1.CurrentSize = 5 := by rw [hS3]; rfl
    refine ⟨r3.1, [r1.2, r2.2, r3.2], ?_, hM3, hS3', ?_⟩
    · exact Cache.handleAll_cons_some _ _ _ r1 _ _ hr1
        (Cache.handleAll_cons_some _ _ _ r2 _ _ hr2
          (Cache.handleAll_cons_some _ _ _ r3 _ _ hr3 rfl))
    · rw [hS3', hM3]
      decide

/-- A cache of capacity `2^63 - 1024` takes writes of `A` with size 24, `B` with
size 1000 and `A` again with size `2^63 - 1024`, each size between 0 and the
capacity.  At the third write the sum `current_size + size` of the capacity
test is `2^63`, which wraps to the smallest `int`: nothing is evicted and
`current_size` ends at `2^63 - 24`, above the capacity. -/
theorem current_size_exceeds_by_wrap :
    ∃ (c' : Cache) (outs : List (List Event)),
      (sampleCache 9223372036854774784).Start.handleAll
        [(quietRuntime, 0, writeAt "A" 24 1), (quietRuntime, 0, writeAt "B" 1000 2),
         (quietRuntime, 0, writeAt "A" 9223372036854774784 3)] = some (c', outs) ∧
      c'.MaxSize = 9223372036854774784 ∧ c'.CurrentSize = 9223372036854775784 ∧
      ¬ c'.CurrentSize ≤ c'.MaxSize ∧
      wrapInt64 (1024 + 9223372036854774784) = minInt := by
  have hF0 : (sampleCache 9223372036854774784).Start.FailureRate ≤ 1 / 2 := by
    show (0 : Rat) ≤ 1 / 2
    norm_num
  obtain ⟨r1, hr1, hE1, hS1, hM1, hF1, _⟩ :=
    (sampleCache 9223372036854774784).Start.write_new_step "A" 24 1 0 [] 0
      9223372036854774784 0 0 rfl rfl rfl hF0 rfl
      List.nodup_nil List.Pairwise.nil (fun p hp => absurd hp (List.not_mem_nil p)) rfl
      (by simp) (by decide) rfl
  have hE1' : r1.1.Entries = [("A", entryAt "A" 24 1)] := by rw [hE1]; rfl
  have hS1' : r1.1.CurrentSize = 24 := by rw [hS1]; rfl
  obtain ⟨r2, hr2, hE2, hS2, hM2, hF2, _⟩ :=
    r1.1.write_new_step "B" 1000 2 0 [("A", entryAt "A" 24 1)] 24 9223372036854774784
      r1.1.CacheEvictions 0 hE1' hS1' hM1
      (by rw [hF1]; exact hF0) rfl (by decide) (by simp) (by simp [entryAt]) rfl (by simp)
      (by decide) (by decide)
  have hE2' : r2.1.Entries = [("A", entryAt "A" 24 1), ("B", entryAt "B" 1000 2)] := by
    rw [hE2]; rfl
  have hS2' : r2.1.CurrentSize = 1024 := by rw [hS2]; rfl
  obtain ⟨r3, hr3, hS3, hM3⟩ :=
    r2.1.write_existing_step "A" 9223372036854774784 3 0
      [("A", entryAt "A" 24 1), ("B", entryAt "B" 1000 2)] 1024 9223372036854774784
      0 (entryAt "A" 24 1) hE2' hS2' hM2 (by rw [hF2, hF1]; exact hF0) (by decide)
      (by simp [entryAt]) (by simp [entryAt]) rfl (by simp) (by decide) (by decide)
  have hS3' : r3.1.CurrentSize = 9223372036854775784 := by rw [hS3]; rfl
  refine ⟨r3.1, [r1.2, r2.2, r3.2], ?_, hM3, hS3', ?_, by decide⟩
  · exact Cache.handleAll_cons_some _ _ _ r1 _ _ hr1
      (Cache.handleAll_cons_some _ _ _ r2 _ _ hr2
        (Cache.handleAll_cons_some _ _ _ r3 _ _ hr3 rfl))
  · rw [hS3', hM3]
    decide

/-- C13 (counterexample): `current_size` exceeds `max_size` after a write that is
larger than the cache (a started default cache, `max_size = 1000`, one write of
size 1001 ends with `current_size = 1001`), after an update of an entry of
negative size (capacity 3, writes of `A` with size -2, `B` with size 3 and `A`
again with size 2 end with `current_size = 5`), and after a write whose size is
within the capacity but makes the sum of the capacity test wrap (capacity
`2^63 - 1024`, writes of `A` with size 24, `B` with size 1000 and `A` again with
size `2^63 - 1024` end with `current_size = 2^63 - 24`). -/
theorem current_size_exceeds_max_size :
    (∃ (c' : Cache) (outs : List (List Event)),
      (NewCache "c").Start.handleAll [(quietRuntime, 0, writeAt "A" 1001 1)] = some (c', outs) ∧
      c'.MaxSize = 1000 ∧ c'.CurrentSize = 1001 ∧ ¬ c'.CurrentSize ≤ c'.MaxSize) ∧
    (∃ (c' : Cache) (outs : List (List Event)),
      (sampleCache 3).Start.handleAll [(quietRuntime, 0, writeAt "A" (-2) 1),
        (quietRuntime, 0, writeAt "B" 3 2), (quietRuntime, 0, writeAt "A" 2 3)]
        = some (c', outs) ∧
      c'.MaxSize = 3 ∧ c'.CurrentSize = 5 ∧ ¬ c'.CurrentSize ≤ c'.MaxSize) ∧
    (∃ (c' : Cache) (outs : List (List Event)),
      (sampleCache 9223372036854774784).Start.handleAll
        [(quietRuntime, 0, writeAt "A" 24 1), (quietRuntime, 0, writeAt "B" 1000 2),
         (quietRuntime, 0, writeAt "A" 9223372036854774784 3)] = some (c', outs) ∧
      c'.MaxSize = 9223372036854774784 ∧ c'.CurrentSize = 9223372036854775784 ∧
      ¬ c'.CurrentSize ≤ c'.MaxSize ∧
      wrapInt64 (1024 + 9223372036854774784) = minInt) :=
  ⟨current_size_exceeds_by_size.1, current_size_exceeds_by_size.2, current_size_exceeds_by_wrap⟩

/-- C13 (amended): after `Start` on a cache with `max_size >= 1`, for every
sequence of handled events in which every `DatabaseWrite` has a size between `0`
and `max_size` with `max_size + size` at most the largest `int` (so that the sum
`current_size + size` of the capacity test cannot wrap), and whatever the
runtime supplies, when the calls have returned `current_size <= max_size` holds
and `max_size` is unchanged; this covers the state after each handled event, a
prefix of a sequence being a sequence. -/
theorem current_size_le_max_size_for_bounded_writes (c0 : Cache)
    (inputs : List (Runtime × Nat × Event)) (c' : Cache) (outs : List (List Event))
    (hmax : 1 ≤ c0.MaxSize)
    (hsizes : ∀ p ∈ inputs, p.2.2.Kind = DatabaseWrite →
      0 ≤ writeSize p.2.2 ∧ writeSize p.2.2 ≤ c0.MaxSize ∧
      c0.MaxSize + writeSize p.2.2 ≤ maxInt)
    (h : c0.Start.handleAll inputs = some (c', outs)) :
    c'.CurrentSize ≤ c0.MaxSize ∧ c'.MaxSize = c0.MaxSize := by
  have hinv : c0.Start.BoundInv := by
    refine ⟨c0.Start_inv, fun p hp => absurd hp (List.not_mem_nil p), ?_⟩
    show (0 : Int) ≤ c0.MaxSize
    omega
  obtain ⟨h1, h2⟩ := Cache.handleAll_bound inputs c0.Start c' outs h hinv hsizes
  have h3 : c'.MaxSize = c0.MaxSize := h2
  exact ⟨by rw [← h3]; exact h1.2.2, h3⟩

/-- Witness for C13 (amended): the LRU scenario, capacity 3 and four writes of
size 1. -/
theorem current_size_le_max_size_for_bounded_writes_witness :
    1 ≤ (sampleCache 3).MaxSize ∧
    (∀ p ∈ lruWrites, p.2.2.Kind = DatabaseWrite →
      0 ≤ writeSize p.2.2 ∧ writeSize p.2.2 ≤ (sampleCache 3).MaxSize ∧
      (sampleCache 3).MaxSize + writeSize p.2.2 ≤ maxInt) ∧
    ∃ (c' : Cache) (outs : List (List Event)),
      (sampleCache 3).Start.handleAll lruWrites = some (c', outs) ∧
      c'.CurrentSize ≤ (sampleCache 3).MaxSize ∧ c'.MaxSize = (sampleCache 3).MaxSize := by
  have hsizes : ∀ p ∈ lruWrites, p.2.2.Kind = DatabaseWrite →
      0 ≤ writeSize p.2.2 ∧ writeSize p.2.2 ≤ (sampleCache 3).MaxSize ∧
      (sampleCache 3).MaxSize + writeSize p.2.2 ≤ maxInt := by
    intro p hp _
    simp only [lruWrites, List.mem_cons, List.mem_singleton, List.mem_nil_iff, or_false] at hp
    rcases hp with rfl | rfl | rfl | rfl <;> exact ⟨by decide, by decide, by decide⟩
  obtain ⟨c', outs, h, _⟩ := lruWrites_run
  exact ⟨by decide, hsizes, c', outs, h,
    current_size_le_max_size_for_bounded_writes (sampleCache 3) lruWrites c' outs (by decide)
      hsizes h⟩

/-- C14 (failing input): a started cache of capacity 1 stores a write under the
empty key (size 1, time 1).  The next write (key `B`, size 1, time 2) has to
evict that entry, the only and oldest one; instead the call is still in the
eviction loop after any number of iterations: it never returns, and nothing is
evicted. -/
theorem lru_write_hangs_on_empty_key :
    ∃ (c1 : Cache) (outs : List (List Event)),
      (sampleCache 1).Start.handleAll [(quietRuntime, 0, writeAt "" 1 1)] = some (c1, outs) ∧
      c1.Entries = [("", entryAt "" 1 1)] ∧ c1.CurrentSize = 1 ∧ c1.MaxSize = 1 ∧
      ∀ fuel, c1.HandleEvent quietRuntime fuel (writeAt "B" 1 2) = none := by
  have hF0 : (sampleCache 1).Start.FailureRate ≤ 1 / 2 := by
    show (0 : Rat) ≤ 1 / 2
    norm_num
  obtain ⟨r1, hr1, hE1, hS1, hM1, hF1, _⟩ :=
    (sampleCache 1).Start.write_new_step "" 1 1 0 [] 0 1 0 0 rfl rfl rfl hF0 rfl
      List.nodup_nil List.Pairwise.nil (fun p hp => absurd hp (List.not_mem_nil p)) rfl
      (by simp) (by decide) rfl
  have hE1' : r1.1.Entries = [("", entryAt "" 1 1)] := by rw [hE1]; rfl
  have hS1' : r1.1.CurrentSize = 1 := by rw [hS1]; rfl
  refine ⟨r1.1, [r1.2], Cache.handleAll_cons_some _ _ _ r1 _ _ hr1 rfl, hE1', hS1', hM1, ?_⟩
  intro fuel
  have hd := quiet_no_failure r1.1 (by rw [hF1]; exact hF0)
  refine (r1.1.write_lru quietRuntime fuel (writeAt "B" 1 2) quietRuntime_valid rfl hd
    [("", entryAt "" 1 1)] (by rw [hE1']) (by rw [hE1']; decide) (by simp)
    (by simp [entryAt])).2 ?_
  rw [hS1', hM1]
  decide

/-- With the round-robin index at `-1` and three healthy backends the remainder
`-1 % 3` is `-1` and the slice access panics: the first arrival is not routed
and a burst of six arrivals does not complete, so no backend is targeted. -/
theorem round_robin_index_negative :
    negativeIndexBalancer.Algorithm = RoundRobin ∧
    negativeIndexBalancer.getHealthyServers.length = 3 ∧
    negativeIndexBalancer.HandleEvent quietRuntime (arrivalAt "r1" 1 0) = none ∧
    negativeIndexBalancer.handleAll sixArrivals = none := by
  have hd : ¬ quietRuntime.Float64 0 < negativeIndexBalancer.FailureRate := by
    simp only [quietRuntime, negativeIndexBalancer, sampleBalancer]
    norm_num
  have hsel : negativeIndexBalancer.selectBackendServer quietRuntime
      negativeIndexBalancer.getHealthyServers = none := by
    unfold LoadBalancer.selectBackendServer
    have halg : negativeIndexBalancer.Algorithm = RoundRobin := rfl
    rw [if_neg (by decide), if_pos halg]
    unfold LoadBalancer.selectRoundRobin
    rw [if_neg (by decide)]
    dsimp only
    rw [if_pos (by decide)]
  have hlen : ¬ negativeIndexBalancer.getHealthyServers.length = 0 := by decide
  have hroute : negativeIndexBalancer.handleRequestRouting quietRuntime (arrivalAt "r1" 1 0)
      = none := by
    unfold LoadBalancer.handleRequestRouting
    dsimp only
    rw [if_neg hlen, if_neg hd, hsel]
  have hstep : negativeIndexBalancer.HandleEvent quietRuntime (arrivalAt "r1" 1 0) = none := by
    unfold LoadBalancer.HandleEvent
    have hk : (arrivalAt "r1" 1 0).Kind = RequestArrival := rfl
    rw [if_pos hk, hroute]
  refine ⟨rfl, by decide, hstep, ?_⟩
  simp only [sixArrivals, LoadBalancer.handleAll, hstep]

/-! ## Theorems: enqueue and auto-drain -/

theorem MessageQueue.handleMessageEnqueue_accept_more (mq : MessageQueue) (rt : Runtime)
    (e : Event) (hlt : mq.CurrentQueueSize < mq.MaxQueueSize)
    (hd : ¬ rt.Float64 0 < mq.FailureRate) (hmore : ¬ mq.CurrentQueueSize + 1 = 1) :
    mq.handleMessageEnqueue rt e
      = (({ mq with CurrentQueueSize := mq.CurrentQueueSize + 1,
                    MessagesEnqueued := mq.MessagesEnqueued + 1 }).SetState StateProcessing,
         [rt.newEvent 0 "enqueue_success" mq.GetID (e.Timestamp + mq.ProcessingTime)
            RequestCompleted mq.GetID
            [("operation", Value.str "enqueue"), ("message_id", (e.GetDataValue "message_id").1),
             ("queue_size", Value.int (mq.CurrentQueueSize + 1)),
             ("processing_time", Value.float mq.ProcessingTime)]]) := by
  unfold MessageQueue.handleMessageEnqueue
  rw [if_neg (not_le.mpr hlt), if_neg hd]
  dsimp only
  have h1 : ¬ (({ mq with CurrentQueueSize := mq.CurrentQueueSize + 1,
                          MessagesEnqueued := mq.MessagesEnqueued + 1 }).SetState
      StateProcessing).CurrentQueueSize = 1 := hmore
  rw [if_neg h1]
  rfl

/-- C21: a message queue with `current_queue_size < max_queue_size` that handles
a `MessageEnqueued` at time `t` while the failure draw does not fire
(`failure_rate <= rand.Float64()`) has `current_queue_size` one larger
afterwards, and the result starts with a `RequestCompleted` with operation
`enqueue` at `t + processing_time`.  When the queue was empty before the insert
the result is that event followed by one `MessageDequeued` targeted at the queue
at `t + processing_time + 0.01`; otherwise the result is that event alone.  So a
`MessageDequeued` is returned if and only if the queue was empty. -/
theorem enqueue_and_auto_drain (mq : MessageQueue) (rt : Runtime) (event : Event)
    (hk : event.Kind = MessageEnqueued) (hlt : mq.CurrentQueueSize < mq.MaxQueueSize)
    (hd : mq.FailureRate ≤ rt.Float64 0) :
    (mq.HandleEvent rt event).1.CurrentQueueSize = mq.CurrentQueueSize + 1 ∧
    (∃ done, (mq.HandleEvent rt event).2.head? = some done ∧ done.Kind = RequestCompleted ∧
      done.ComponentID = mq.GetID ∧
      done.Data.lookup "operation" = some (Value.str "enqueue") ∧
      done.Timestamp = event.Timestamp + mq.ProcessingTime ∧
      (mq.CurrentQueueSize = 0 → ∃ auto, (mq.HandleEvent rt event).2 = [done, auto] ∧
        auto.Kind = MessageDequeued ∧ auto.ComponentID = mq.GetID ∧
        auto.Timestamp = event.Timestamp + mq.ProcessingTime + 1 / 100) ∧
      (mq.CurrentQueueSize ≠ 0 → (mq.HandleEvent rt event).2 = [done])) ∧
    ((∃ auto ∈ (mq.HandleEvent rt event).2, auto.Kind = MessageDequeued)
      ↔ mq.CurrentQueueSize = 0) := by
  obtain ⟨b, hb, _⟩ := MessageQueue.updateMetrics_eq_mq (mq.handleMessageEnqueue rt event).1 event
  rw [mq.HandleEvent_enqueue rt event hk, hb]
  by_cases hz : mq.CurrentQueueSize = 0
  · rw [mq.handleMessageEnqueue_accept rt event hlt (not_lt.mpr hd) (by omega)]
    refine ⟨rfl, ⟨_, rfl, rfl, rfl, rfl, rfl, fun _ => ⟨_, rfl, rfl, rfl, rfl⟩,
      fun hne => absurd hz hne⟩, ?_⟩
    exact ⟨fun _ => hz, fun _ => ⟨_, List.mem_cons_of_mem _ (List.mem_singleton_self _), rfl⟩⟩
  · rw [mq.handleMessageEnqueue_accept_more rt event hlt (not_lt.mpr hd) (by omega)]
    refine ⟨rfl, ⟨_, rfl, rfl, rfl, rfl, rfl, fun h0 => absurd h0 hz, fun _ => rfl⟩, ?_⟩
    constructor
    · rintro ⟨auto, hmem, hkind⟩
      rw [List.mem_singleton] at hmem
      subst hmem
      exact absurd (show RequestCompleted = MessageDequeued from hkind) (by decide)
    · intro h0
      exact absurd h0 hz

/-- Witness for C21: a started queue with room for two messages, processing time
`0.1` and no failures.  The first `MessageEnqueued` at time `1` finds the queue
empty and returns the `RequestCompleted` at `1.1` and the `MessageDequeued` at
`1.11`; the size becomes `1`. -/
theorem enqueue_and_auto_drain_witness :
    (pairQueue.Start.HandleEvent quietRuntime (enqueueAt "m1" 1)).1.CurrentQueueSize = 1 ∧
    ∃ done auto, (pairQueue.Start.HandleEvent quietRuntime (enqueueAt "m1" 1)).2 = [done, auto] ∧
      done.Kind = RequestCompleted ∧ done.Timestamp = 11 / 10 ∧
      auto.Kind = MessageDequeued ∧ auto.ComponentID = "mq" ∧ auto.Timestamp = 111 / 100 := by
  have hd : pairQueue.Start.FailureRate ≤ quietRuntime.Float64 0 := by
    simp only [quietRuntime, pairQueue, MessageQueue.Start, MessageQueue.SetState]
    norm_num
  obtain ⟨hsize, ⟨done, _, hkind, _, _, hts, hempty, _⟩, _⟩ :=
    enqueue_and_auto_drain pairQueue.Start quietRuntime (enqueueAt "m1" 1) rfl (by decide) hd
  obtain ⟨auto, hout, hak, hat, hats⟩ := hempty rfl
  refine ⟨hsize, done, auto, hout, hkind, ?_, hak, hat, ?_⟩
  · rw [hts]
    simp only [enqueueAt, pairQueue, MessageQueue.Start, MessageQueue.SetState, NewMessageQueue]
    norm_num
  · rw [hats]
    simp only [enqueueAt, pairQueue, MessageQueue.Start, MessageQueue.SetState, NewMessageQueue]
    norm_num

/-! ## Theorems: database connections -/

theorem Database.SetMetric_sameBut_db (db d : Database) (k : String) (v : PropValue)
    (h : ∃ b, d = { db with base := b } ∧ b.State = db.base.State) :
    ∃ b, d.SetMetric k v = { db with base := b } ∧ b.State = db.base.State := by
  obtain ⟨b, rfl, hs⟩ := h
  exact ⟨_, rfl, hs⟩

theorem Database.updateMetrics_eq_db (db : Database) (e : Event) :
    ∃ b, db.updateMetrics e = { db with base := b } ∧ b.State = db.base.State := by
  unfold Database.updateMetrics
  dsimp only
  split_ifs <;> (repeat apply Database.SetMetric_sameBut_db) <;> exact ⟨db.base, rfl, rfl⟩

theorem Database.handleDatabaseRead_released (db : Database) (rt : Runtime) (e : Event)
    (h : db.Released) :
    (db.handleDatabaseRead rt e).1.Released ∧ noLimitReason (db.handleDatabaseRead rt e).2 ∧
      ∃ ev, (db.handleDatabaseRead rt e).2 = [ev] ∧
        (ev.Kind = RequestCompleted ∨
          ev.Data.lookup "reason" = some (Value.str "database_error")) := by
  obtain ⟨h0, hmax⟩ := h
  have hroom : ¬ db.CurrentConnections ≥ db.MaxConnections := by omega
  unfold Database.handleDatabaseRead
  rw [if_neg hroom]
  dsimp only
  have hback : db.CurrentConnections + 1 - 1 = 0 := by omega
  split_ifs with hfail hz hz
  · refine ⟨⟨hback, hmax⟩, ?_, _, rfl, Or.inr rfl⟩
    intro ev hev
    rw [List.mem_singleton] at hev
    subst hev
    intro hreason
    simp [Runtime.newEvent, NewEvent, List.lookup] at hreason
  · exact absurd hback hz
  · refine ⟨⟨hback, hmax⟩, ?_, _, rfl, Or.inl rfl⟩
    intro ev hev
    rw [List.mem_singleton] at hev
    subst hev
    intro hreason
    simp [Runtime.newEvent, NewEvent, List.lookup] at hreason
  · exact absurd hback hz

theorem Database.handleDatabaseWrite_released (db : Database) (rt : Runtime) (e : Event)
    (h : db.Released) :
    (db.handleDatabaseWrite rt e).1.Released ∧ noLimitReason (db.handleDatabaseWrite rt e).2 ∧
      ∃ ev, (db.handleDatabaseWrite rt e).2 = [ev] ∧
        (ev.Kind = RequestCompleted ∨
          ev.Data.lookup "reason" = some (Value.str "database_error")) := by
  obtain ⟨h0, hmax⟩ := h
  have hroom : ¬ db.CurrentConnections ≥ db.MaxConnections := by omega
  unfold Database.handleDatabaseWrite
  rw [if_neg hroom]
  dsimp only
  have hback : db.CurrentConnections + 1 - 1 = 0 := by omega
  split_ifs with hfail hz hz
  · refine ⟨⟨hback, hmax⟩, ?_, _, rfl, Or.inr rfl⟩
    intro ev hev
    rw [List.mem_singleton] at hev
    subst hev
    intro hreason
    simp [Runtime.newEvent, NewEvent, List.lookup] at hreason
  · exact absurd hback hz
  · refine ⟨⟨hback, hmax⟩, ?_, _, rfl, Or.inl rfl⟩
    intro ev hev
    rw [List.mem_singleton] at hev
    subst hev
    intro hreason
    simp [Runtime.newEvent, NewEvent, List.lookup] at hreason
  · exact absurd hback hz

theorem Database.handleDatabaseQuery_released (db : Database) (rt : Runtime) (e : Event)
    (h : db.Released) :
    (db.handleDatabaseQuery rt e).1.Released ∧ noLimitReason (db.handleDatabaseQuery rt e).2 ∧
      ∃ ev, (db.handleDatabaseQuery rt e).2 = [ev] ∧
        (ev.Kind = RequestCompleted ∨
          ev.Data.lookup "reason" = some (Value.str "database_error")) := by
  obtain ⟨h0, hmax⟩ := h
  have hroom : ¬ db.CurrentConnections ≥ db.MaxConnections := by omega
  unfold Database.handleDatabaseQuery
  rw [if_neg hroom]
  dsimp only
  have hback : db.CurrentConnections + 1 - 1 = 0 := by omega
  split_ifs with hfail hz hz
  · refine ⟨⟨hback, hmax⟩, ?_, _, rfl, Or.inr rfl⟩
    intro ev hev
    rw [List.mem_singleton] at hev
    subst hev
    intro hreason
    simp [Runtime.newEvent, NewEvent, List.lookup] at hreason
  · exact absurd hback hz
  · refine ⟨⟨hback, hmax⟩, ?_, _, rfl, Or.inl rfl⟩
    intro ev hev
    rw [List.mem_singleton] at hev
    subst hev
    intro hreason
    simp [Runtime.newEvent, NewEvent, List.lookup] at hreason
  · exact absurd hback hz

theorem Database.updateMetrics_released (db : Database) (e : Event) (h : db.Released) :
    (db.updateMetrics e).Released := by
  obtain ⟨b, hb, _⟩ := Database.updateMetrics_eq_db db e
  rw [hb]
  exact h

theorem Database.HandleEvent_released (db : Database) (rt : Runtime) (e : Event)
    (h : db.Released) :
    (db.HandleEvent rt e).1.Released ∧ noLimitReason (db.HandleEvent rt e).2 ∧
      (e.Kind = DatabaseRead ∨ e.Kind = DatabaseWrite ∨ e.Kind = DatabaseQuery →
        ∃ ev, (db.HandleEvent rt e).2 = [ev] ∧
          (ev.Kind = RequestCompleted ∨
            ev.Data.lookup "reason" = some (Value.str "database_error"))) := by
  unfold Database.HandleEvent
  split_ifs with hr hw hq
  · obtain ⟨h1, h2, h3⟩ := db.handleDatabaseRead_released rt e h
    exact ⟨Database.updateMetrics_released _ e h1, h2, fun _ => h3⟩
  · obtain ⟨h1, h2, h3⟩ := db.handleDatabaseWrite_released rt e h
    exact ⟨Database.updateMetrics_released _ e h1, h2, fun _ => h3⟩
  · obtain ⟨h1, h2, h3⟩ := db.handleDatabaseQuery_released rt e h
    exact ⟨Database.updateMetrics_released _ e h1, h2, fun _ => h3⟩
  · refine ⟨h, fun ev hev => absurd hev (List.not_mem_nil ev), fun hk => ?_⟩
    rcases hk with hk | hk | hk
    · exact absurd hk hr
    · exact absurd hk hw
    · exact absurd hk hq

theorem Database.handleAll_released : ∀ (inputs : List (Runtime × Event)) (db : Database),
    db.Released →
    (db.handleAll inputs).1.Released ∧ (∀ out ∈ (db.handleAll inputs).2, noLimitReason out) ∧
      ((∀ p ∈ inputs, p.2.Kind = DatabaseRead ∨ p.2.Kind = DatabaseWrite ∨
          p.2.Kind = DatabaseQuery) →
        ∀ out ∈ (db.handleAll inputs).2, ∃ ev, out = [ev] ∧
          (ev.Kind = RequestCompleted ∨
            ev.Data.lookup "reason" = some (Value.str "database_error"))) := by
  intro inputs
  induction inputs with
  | nil =>
    intro db h
    exact ⟨h, fun out hout => absurd hout (List.not_mem_nil out),
      fun _ out hout => absurd hout (List.not_mem_nil out)⟩
  | cons p rest ih =>
    intro db h
    obtain ⟨h1, h2, h3⟩ := db.HandleEvent_released p.1 p.2 h
    obtain ⟨i1, i2, i3⟩ := ih (db.HandleEvent p.1 p.2).1 h1
    refine ⟨i1, ?_, ?_⟩
    · intro out hout
      simp only [Database.handleAll, List.mem_cons] at hout
      rcases hout with rfl | hout
      · exact h2
      · exact i2 out hout
    · intro hkinds out hout
      simp only [Database.handleAll, List.mem_cons] at hout
      rcases hout with rfl | hout
      · exact h3 (hkinds p (List.mem_cons_self _ _))
      · exact i3 (fun q hq => hkinds q (List.mem_cons_of_mem _ hq)) out hout

theorem Database.handleAll_length : ∀ (inputs : List (Runtime × Event)) (db : Database),
    (db.handleAll inputs).2.length = inputs.length := by
  intro inputs
  induction inputs with
  | nil => intro db; rfl
  | cons p rest ih =>
    intro db
    simp only [Database.handleAll, List.length_cons, ih]

/-- C22: after `Start` on a database with `max_connections >= 1`, whatever events
are passed to `HandleEvent` and whatever the runtime supplies (the random draws
included), `current_connections` is `0` after each handled event (after every
prefix of the sequence) and no returned event carries the reason
`connection_limit_exceeded`.  Every call returns its result list, one per input;
when the events are `DatabaseRead`, `DatabaseWrite` and `DatabaseQuery` events,
each call returns exactly one event, a `RequestCompleted` or a `RequestFailed`
with reason `database_error`. -/
theorem database_connections_released (db0 : Database) (inputs : List (Runtime × Event))
    (hmax : 1 ≤ db0.MaxConnections) :
    (∀ n, (db0.Start.handleAll (inputs.take n)).1.CurrentConnections = 0) ∧
    (∀ out ∈ (db0.Start.handleAll inputs).2, ∀ ev ∈ out,
      ev.Data.lookup "reason" ≠ some (Value.str "connection_limit_exceeded")) ∧
    (db0.Start.handleAll inputs).2.length = inputs.length ∧
    ((∀ p ∈ inputs, p.2.Kind = DatabaseRead ∨ p.2.Kind = DatabaseWrite ∨
        p.2.Kind = DatabaseQuery) →
      ∀ out ∈ (db0.Start.handleAll inputs).2, ∃ ev, out = [ev] ∧
        (ev.Kind = RequestCompleted ∨
          ev.Data.lookup "reason" = some (Value.str "database_error"))) := by
  have hstart : db0.Start.Released := ⟨rfl, hmax⟩
  refine ⟨fun n => (Database.handleAll_released (inputs.take n) db0.Start hstart).1.1,
    (Database.handleAll_released inputs db0.Start hstart).2.1,
    Database.handleAll_length inputs db0.Start,
    (Database.handleAll_released inputs db0.Start hstart).2.2⟩

/-- Witness for C22: the default database (100 connections) handling a read, a
write whose failure draw fires and a query. -/
theorem database_connections_released_witness :
    1 ≤ (NewDatabase "db").MaxConnections ∧
    ((NewDatabase "db").Start.handleAll threeOperations).1.CurrentConnections = 0 ∧
    ((NewDatabase "db").Start.handleAll threeOperations).2.length = 3 ∧
    ∀ out ∈ ((NewDatabase "db").Start.handleAll threeOperations).2, ∃ ev, out = [ev] ∧
      ev.Data.lookup "reason" ≠ some (Value.str "connection_limit_exceeded") := by
  have h := database_connections_released (NewDatabase "db") threeOperations (by decide)
  refine ⟨by decide, h.1 3, h.2.2.1, fun out hout => ?_⟩
  have hkinds : ∀ p ∈ threeOperations, p.2.Kind = DatabaseRead ∨ p.2.Kind = DatabaseWrite ∨
      p.2.Kind = DatabaseQuery := by
    intro p hp
    simp only [threeOperations, List.mem_cons, List.mem_singleton, List.mem_nil_iff,
      or_false] at hp
    rcases hp with rfl | rfl | rfl
    · exact Or.inl rfl
    · exact Or.inr (Or.inl rfl)
    · exact Or.inr (Or.inr rfl)
  obtain ⟨ev, hev, _⟩ := h.2.2.2 hkinds out hout
  exact ⟨ev, hev, h.2.1 out hout ev (by rw [hev]; exact List.mem_singleton_self ev)⟩

/-! ## Theorems: API gateway -/

theorem lookup_map_set {β : Type} (k : String) (v : β) : ∀ (m : List (String × β)),
    (m.lookup k).isSome →
    (m.map (fun p => if p.1 = k then (k, v) else p)).lookup k = some v := by
  intro m
  induction m with
  | nil => intro h; simp at h
  | cons p rest ih =>
    intro h
    by_cases hp : p.1 = k
    · simp only [List.map_cons, if_pos hp, List.lookup_cons, beq_self_eq_true]
    · have hb : (k == p.1) = false := by
        rw [beq_eq_false_iff_ne]
        exact fun hk => hp hk.symm
      have hrest : (rest.lookup k).isSome := by
        obtain ⟨a, b⟩ := p
        simpa only [List.lookup_cons, hb] using h
      obtain ⟨a, b⟩ := p
      simp only [List.map_cons, if_neg hp, List.lookup_cons, hb]
      exact ih hrest

theorem lookup_append_new {β : Type} (k : String) (v : β) : ∀ (m : List (String × β)),
    m.lookup k = none → (m ++ [(k, v)]).lookup k = some v := by
  intro m
  induction m with
  | nil => intro _; simp [List.lookup_cons]
  | cons p rest ih =>
    intro h
    obtain ⟨a, b⟩ := p
    by_cases hb : (k == a) = true
    · simp [List.lookup_cons, hb] at h
    · have hb2 : (k == a) = false := by simpa using hb
      simp only [List.lookup_cons, hb2] at h
      simp only [List.cons_append, List.lookup_cons, hb2]
      exact ih h

theorem lookup_mapSet_self {β : Type} (m : List (String × β)) (k : String) (v : β) :
    (mapSet m k v).lookup k = some v := by
  unfold mapSet
  split_ifs with h
  · exact lookup_map_set k v m h
  · apply lookup_append_new
    cases hl : m.lookup k with
    | none => rfl
    | some w => rw [hl] at h; exact absurd rfl h

theorem lookup_mapSet_ne {β : Type} (k j : String) (v : β) (hne : j ≠ k) :
    ∀ (m : List (String × β)), (mapSet m k v).lookup j = m.lookup j := by
  have hmap : ∀ (m : List (String × β)),
      (m.map (fun p => if p.1 = k then (k, v) else p)).lookup j = m.lookup j := by
    intro m
    induction m with
    | nil => rfl
    | cons p rest ih =>
      obtain ⟨a, b⟩ := p
      by_cases hp : a = k
      · have hb : (j == a) = false := by
          rw [beq_eq_false_iff_ne, hp]
          exact hne
        have hb2 : (j == k) = false := by
          rw [beq_eq_false_iff_ne]
          exact hne
        simp only [List.map_cons, if_pos hp, List.lookup_cons, hb, hb2]
        exact ih
      · simp only [List.map_cons, if_neg hp, List.lookup_cons]
        rw [ih]
  have happ : ∀ (m : List (String × β)), (m ++ [(k, v)]).lookup j = m.lookup j := by
    intro m
    induction m with
    | nil =>
      have hb2 : (j == k) = false := by
        rw [beq_eq_false_iff_ne]
        exact hne
      simp [List.lookup_cons, hb2]
    | cons p rest ih =>
      obtain ⟨a, b⟩ := p
      simp only [List.cons_append, List.lookup_cons]
      rw [ih]
  intro m
  unfold mapSet
  split_ifs
  · exact hmap m
  · exact happ m

theorem APIGateway.SetMetric_sameBut_ag (ag a : APIGateway) (k : String) (v : PropValue)
    (h : ∃ b, a = { ag with base := b } ∧ b.State = ag.base.State) :
    ∃ b, a.SetMetric k v = { ag with base := b } ∧ b.State = ag.base.State := by
  obtain ⟨b, rfl, hs⟩ := h
  exact ⟨_, rfl, hs⟩

theorem APIGateway.updateMetrics_eq_ag (ag : APIGateway) (e : Event) :
    ∃ b, ag.updateMetrics e = { ag with base := b } ∧ b.State = ag.base.State := by
  unfold APIGateway.updateMetrics
  dsimp only
  split_ifs <;> (repeat apply APIGateway.SetMetric_sameBut_ag) <;> exact ⟨ag.base, rfl, rfl⟩

theorem APIGateway.HandleEvent_arrival_ag (ag : APIGateway) (rt : Runtime) (e : Event)
    (hk : e.Kind = RequestArrival) :
    ag.HandleEvent rt e
      = ((ag.handleAPIRequest rt e).1.updateMetrics e, (ag.handleAPIRequest rt e).2) := by
  unfold APIGateway.HandleEvent
  rw [if_pos hk]

theorem APIGateway.handleAPIRequest_not_found (ag : APIGateway) (rt : Runtime) (e : Event)
    (hload : ag.CurrentLoad < ag.MaxConcurrency)
    (hnone : ((ag.Routes.lookup (routeKeyOf ((e.GetDataValue "method").1.format rt)
        ((e.GetDataValue "path").1.format rt))).filter (fun route => route.IsEnabled)) = none) :
    ag.handleAPIRequest rt e
      = ({ ag with RequestsFailed := ag.RequestsFailed + 1 },
         [rt.newEvent 0 "route_not_found" ag.GetID e.Timestamp RequestFailed ag.GetID
            [("reason", Value.str "route_not_found"),
             ("path", Value.str ((e.GetDataValue "path").1.format rt)),
             ("method", Value.str ((e.GetDataValue "method").1.format rt)),
             ("request_id", (e.GetDataValue "request_id").1)]]) := by
  unfold APIGateway.handleAPIRequest
  rw [if_neg (not_le.mpr hload)]
  dsimp only
  rw [hnone]

theorem APIGateway.handleAPIRequest_found (ag : APIGateway) (rt : Runtime) (e : Event)
    (route : Route) (hload : ag.CurrentLoad < ag.MaxConcurrency)
    (hsome : ((ag.Routes.lookup (routeKeyOf ((e.GetDataValue "method").1.format rt)
        ((e.GetDataValue "path").1.format rt))).filter (fun route => route.IsEnabled))
        = some route) :
    ∀ ev ∈ (ag.handleAPIRequest rt e).2,
      ev.Data.lookup "reason" ≠ some (Value.str "route_not_found") := by
  unfold APIGateway.handleAPIRequest
  rw [if_neg (not_le.mpr hload)]
  dsimp only
  rw [hsome]
  dsimp only
  intro ev hev
  split_ifs at hev <;>
    (rw [List.mem_singleton] at hev; subst hev; intro hreason;
     simp [Runtime.newEvent, NewEvent, List.lookup] at hreason)

theorem APIGateway.handleAPIRequest_routed (ag : APIGateway) (rt : Runtime) (e : Event)
    (route : Route) (hload : ag.CurrentLoad < ag.MaxConcurrency)
    (hsome : ((ag.Routes.lookup (routeKeyOf ((e.GetDataValue "method").1.format rt)
        ((e.GetDataValue "path").1.format rt))).filter (fun route => route.IsEnabled))
        = some route)
    (hauth : ¬ rt.Float64 0 < 1 / 10) (hrate : ¬ rt.Float64 1 < 5 / 100)
    (hfail : ¬ rt.Float64 2 < ag.FailureRate) :
    ag.handleAPIRequest rt e
      = ({ ({ ag with CurrentLoad := ag.CurrentLoad + 1 }).SetState StateProcessing with
            RequestsRouted := ag.RequestsRouted + 1,
            RouteStats := mapSet ag.RouteStats
              (routeKeyOf ((e.GetDataValue "method").1.format rt)
                ((e.GetDataValue "path").1.format rt))
              (((ag.RouteStats.lookup (routeKeyOf ((e.GetDataValue "method").1.format rt)
                ((e.GetDataValue "path").1.format rt))).getD 0) + 1) },
         [rt.newEvent 0 "routed" ag.GetID (e.Timestamp + ag.RoutingLatency) RequestProcessed
            route.BackendURL
            [("request_id", (e.GetDataValue "request_id").1),
             ("path", Value.str ((e.GetDataValue "path").1.format rt)),
             ("method", Value.str ((e.GetDataValue "method").1.format rt)),
             ("backend_url", Value.str route.BackendURL),
             ("routing_latency", Value.float ag.RoutingLatency),
             ("timeout", Value.float route.Timeout)]]) := by
  unfold APIGateway.handleAPIRequest
  rw [if_neg (not_le.mpr hload)]
  dsimp only
  rw [hsome]
  dsimp only
  rw [if_neg hauth, if_neg hrate, if_neg hfail]
  rfl

/-- C23: an API gateway with `current_load < max_concurrency` whose route map
holds, under the key of `(method, path)`, an enabled route with backend `X`, and
that handles a `RequestArrival` whose `method` and `path` print as these strings
at time `t` while none of the three draws fires (authentication `>= 0.1`, rate
limit `>= 0.05`, gateway failure `>= failure_rate`), returns exactly one event: a
`RequestProcessed` targeted at `X` at `t + routing_latency` whose data has
`backend_url = X` and `timeout` the timeout of the route.  `current_load`,
`requests_routed` and the counter of the route each grow by one. -/
theorem gateway_routes_request (ag : APIGateway) (rt : Runtime) (event : Event)
    (method path : String) (route : Route)
    (hk : event.Kind = RequestArrival)
    (hmethod : (event.GetDataValue "method").1.format rt = method)
    (hpath : (event.GetDataValue "path").1.format rt = path)
    (hload : ag.CurrentLoad < ag.MaxConcurrency)
    (hroute : ag.Routes.lookup (routeKeyOf method path) = some route)
    (henabled : route.IsEnabled = true)
    (hauth : 1 / 10 ≤ rt.Float64 0) (hrate : 5 / 100 ≤ rt.Float64 1)
    (hfail : ag.FailureRate ≤ rt.Float64 2) :
    (∃ ev, (ag.HandleEvent rt event).2 = [ev] ∧ ev.Kind = RequestProcessed ∧
      ev.ComponentID = route.BackendURL ∧
      ev.Timestamp = event.Timestamp + ag.RoutingLatency ∧
      ev.Data.lookup "backend_url" = some (Value.str route.BackendURL) ∧
      ev.Data.lookup "timeout" = some (Value.float route.Timeout)) ∧
    (ag.HandleEvent rt event).1.CurrentLoad = ag.CurrentLoad + 1 ∧
    (ag.HandleEvent rt event).1.RequestsRouted = ag.RequestsRouted + 1 ∧
    ((ag.HandleEvent rt event).1.RouteStats.lookup (routeKeyOf method path)).getD 0
      = ((ag.RouteStats.lookup (routeKeyOf method path)).getD 0) + 1 := by
  have hsome : ((ag.Routes.lookup (routeKeyOf ((event.GetDataValue "method").1.format rt)
      ((event.GetDataValue "path").1.format rt))).filter (fun route => route.IsEnabled))
      = some route := by
    rw [hmethod, hpath, hroute]
    simp [Option.filter, henabled]
  obtain ⟨b, hb, _⟩ := APIGateway.updateMetrics_eq_ag (ag.handleAPIRequest rt event).1 event
  rw [ag.HandleEvent_arrival_ag rt event hk, hb,
    ag.handleAPIRequest_routed rt event route hload hsome (not_lt.mpr hauth) (not_lt.mpr hrate)
      (not_lt.mpr hfail)]
  refine ⟨⟨_, rfl, rfl, rfl, rfl, ?_, ?_⟩, rfl, rfl, ?_⟩
  · simp [Runtime.newEvent, NewEvent, List.lookup]
  · simp [Runtime.newEvent, NewEvent, List.lookup]
  · show ((mapSet ag.RouteStats _ _).lookup (routeKeyOf method path)).getD 0 = _
    rw [hmethod, hpath, lookup_mapSet_self]
    rfl

/-- Witness for C23: the default gateway with the enabled route `GET:/a` to
backend `X` (timeout 5, rate limit 100) and an arrival for `GET /a` at time 1,
all draws `1/2`.  One `RequestProcessed` for `X` at `1.02` is returned, with
`backend_url = X` and `timeout = 5`; the load is 1. -/
theorem gateway_routes_request_witness :
    (∃ ev, (sampleGateway.HandleEvent quietRuntime (gatewayArrival "GET" "/a" 1)).2 = [ev] ∧
      ev.Kind = RequestProcessed ∧ ev.ComponentID = "X" ∧ ev.Timestamp = 102 / 100 ∧
      ev.Data.lookup "backend_url" = some (Value.str "X") ∧
      ev.Data.lookup "timeout" = some (Value.float 5)) ∧
    (sampleGateway.HandleEvent quietRuntime (gatewayArrival "GET" "/a" 1)).1.CurrentLoad = 1 := by
  have hq : ∀ k, quietRuntime.Float64 k = 1 / 2 := fun _ => rfl
  have hroute : sampleGateway.Routes.lookup (routeKeyOf "GET" "/a")
      = some { Path := "/a", Method := "GET", BackendURL := "X", Timeout := 5, RateLimit := 100,
               IsEnabled := true } := by
    show (mapSet (NewAPIGateway "gw").Routes (routeKeyOf "GET" "/a") _).lookup _ = _
    exact lookup_mapSet_self _ _ _
  have hrate : sampleGateway.FailureRate = 1 / 1000 := rfl
  obtain ⟨⟨ev, hev, hkind, htarget, hts, hurl, htimeout⟩, hload, _⟩ :=
    gateway_routes_request sampleGateway quietRuntime (gatewayArrival "GET" "/a" 1) "GET" "/a" _
      rfl rfl rfl (by decide) hroute rfl (by rw [hq]; norm_num) (by rw [hq]; norm_num)
      (by rw [hq, hrate]; norm_num)
  refine ⟨⟨ev, hev, hkind, htarget, ?_, hurl, htimeout⟩, hload⟩
  rw [hts]
  have hlat : sampleGateway.RoutingLatency = 2 / 100 := rfl
  rw [hlat]
  simp only [gatewayArrival]
  norm_num

theorem APIGateway.DisableRoute_frame (ag : APIGateway) (path method : String) :
    (ag.DisableRoute path method).CurrentLoad = ag.CurrentLoad ∧
      (ag.DisableRoute path method).MaxConcurrency = ag.MaxConcurrency := by
  unfold APIGateway.DisableRoute
  split <;> exact ⟨rfl, rfl⟩

theorem APIGateway.EnableRoute_frame (ag : APIGateway) (path method : String) :
    (ag.EnableRoute path method).CurrentLoad = ag.CurrentLoad ∧
      (ag.EnableRoute path method).MaxConcurrency = ag.MaxConcurrency := by
  unfold APIGateway.EnableRoute
  split <;> exact ⟨rfl, rfl⟩

theorem APIGateway.DisableRoute_lookup (ag : APIGateway) (path method : String) :
    ((ag.DisableRoute path method).Routes.lookup (routeKeyOf method path)).filter
        (fun route => route.IsEnabled) = none ∧
      ((ag.Routes.lookup (routeKeyOf method path)).isSome →
        ((ag.DisableRoute path method).Routes.lookup (routeKeyOf method path)).isSome) := by
  unfold APIGateway.DisableRoute
  split
  · next route hroute =>
    dsimp only
    rw [lookup_mapSet_self]
    exact ⟨by simp [Option.filter], fun _ => rfl⟩
  · next hnone =>
    rw [hnone]
    exact ⟨rfl, fun h => h⟩

theorem APIGateway.EnableRoute_lookup (ag : APIGateway) (path method : String)
    (hreg : (ag.Routes.lookup (routeKeyOf method path)).isSome) :
    ∃ route, ((ag.EnableRoute path method).Routes.lookup (routeKeyOf method path)).filter
        (fun route => route.IsEnabled) = some route := by
  unfold APIGateway.EnableRoute
  split
  · next route hroute =>
    dsimp only
    rw [lookup_mapSet_self]
    exact ⟨{ route with IsEnabled := true }, by simp [Option.filter]⟩
  · next hnone =>
    rw [hnone] at hreg
    exact absurd hreg (by decide)

theorem APIGateway.rejectsNotFound_of_none (ag : APIGateway) (rt : Runtime) (event : Event)
    (hk : event.Kind = RequestArrival) (hload : ag.CurrentLoad < ag.MaxConcurrency)
    (hnone : ((ag.Routes.lookup (routeKeyOf ((event.GetDataValue "method").1.format rt)
        ((event.GetDataValue "path").1.format rt))).filter (fun route => route.IsEnabled))
        = none) :
    ag.rejectsNotFound rt event := by
  unfold APIGateway.rejectsNotFound
  obtain ⟨b, hb, _⟩ := APIGateway.updateMetrics_eq_ag (ag.handleAPIRequest rt event).1 event
  rw [ag.HandleEvent_arrival_ag rt event hk, hb, ag.handleAPIRequest_not_found rt event hload hnone]
  exact ⟨⟨_, rfl, rfl, rfl, rfl, rfl⟩, rfl, rfl, rfl⟩

theorem APIGateway.found_of_some (ag : APIGateway) (rt : Runtime) (event : Event)
    (route : Route) (hk : event.Kind = RequestArrival)
    (hload : ag.CurrentLoad < ag.MaxConcurrency)
    (hsome : ((ag.Routes.lookup (routeKeyOf ((event.GetDataValue "method").1.format rt)
        ((event.GetDataValue "path").1.format rt))).filter (fun route => route.IsEnabled))
        = some route) :
    ∀ ev ∈ (ag.HandleEvent rt event).2,
      ev.Data.lookup "reason" ≠ some (Value.str "route_not_found") := by
  rw [ag.HandleEvent_arrival_ag rt event hk]
  exact ag.handleAPIRequest_found rt event route hload hsome

/-- C24: an API gateway with `current_load < max_concurrency` handles a
`RequestArrival` whose `method` and `path` print as the given strings.  When the
route map has no route under the key of `(method, path)`, or has one that is
disabled, the call returns exactly one `RequestFailed` with reason
`route_not_found` at the timestamp of the arrival, `requests_failed` grows by one
and `current_load` and the route counters are unchanged, whatever the runtime
supplies; so it is after `DisableRoute(path, method)` on any gateway.  When a
route is registered for the pair, after `EnableRoute(path, method)`, also after
`DisableRoute` followed by `EnableRoute`, no returned event has the reason
`route_not_found`. -/
theorem gateway_route_not_found (ag : APIGateway) (rt : Runtime) (event : Event)
    (method path : String)
    (hk : event.Kind = RequestArrival)
    (hmethod : (event.GetDataValue "method").1.format rt = method)
    (hpath : (event.GetDataValue "path").1.format rt = path)
    (hload : ag.CurrentLoad < ag.MaxConcurrency) :
    ((ag.Routes.lookup (routeKeyOf method path) = none ∨
        ∃ route, ag.Routes.lookup (routeKeyOf method path) = some route ∧
          route.IsEnabled = false) →
      ag.rejectsNotFound rt event) ∧
    (ag.DisableRoute path method).rejectsNotFound rt event ∧
    ((ag.Routes.lookup (routeKeyOf method path)).isSome →
      (∀ ev ∈ ((ag.EnableRoute path method).HandleEvent rt event).2,
        ev.Data.lookup "reason" ≠ some (Value.str "route_not_found")) ∧
      ∀ ev ∈ (((ag.DisableRoute path method).EnableRoute path method).HandleEvent rt event).2,
        ev.Data.lookup "reason" ≠ some (Value.str "route_not_found")) := by
  have hloadD : (ag.DisableRoute path method).CurrentLoad
      < (ag.DisableRoute path method).MaxConcurrency := by
    rw [(ag.DisableRoute_frame path method).1, (ag.DisableRoute_frame path method).2]
    exact hload
  have hloadE : ∀ a : APIGateway, a.CurrentLoad < a.MaxConcurrency →
      (a.EnableRoute path method).CurrentLoad < (a.EnableRoute path method).MaxConcurrency := by
    intro a ha
    rw [(a.EnableRoute_frame path method).1, (a.EnableRoute_frame path method).2]
    exact ha
  refine ⟨?_, ?_, ?_⟩
  · intro hcase
    apply ag.rejectsNotFound_of_none rt event hk hload
    rw [hmethod, hpath]
    rcases hcase with hnone | ⟨route, hsome, hoff⟩
    · rw [hnone]
      rfl
    · rw [hsome]
      simp [Option.filter, hoff]
  · apply (ag.DisableRoute path method).rejectsNotFound_of_none rt event hk hloadD
    rw [hmethod, hpath]
    exact (ag.DisableRoute_lookup path method).1
  · intro hreg
    constructor
    · obtain ⟨route, hroute⟩ := ag.EnableRoute_lookup path method hreg
      apply (ag.EnableRoute path method).found_of_some rt event route hk (hloadE ag hload)
      rw [hmethod, hpath]
      exact hroute
    · obtain ⟨route, hroute⟩ := (ag.DisableRoute path method).EnableRoute_lookup path method
        ((ag.DisableRoute_lookup path method).2 hreg)
      apply ((ag.DisableRoute path method).EnableRoute path method).found_of_some rt event route
        hk (hloadE _ hloadD)
      rw [hmethod, hpath]
      exact hroute

/-- Witness for C24: the default gateway with the route `GET:/a` and an arrival
for `GET /a` at time 1.  After `DisableRoute` the arrival is answered with one
`RequestFailed` with reason `route_not_found` at time 1; after `EnableRoute` it
is no longer answered so. -/
theorem gateway_route_not_found_witness :
    (sampleGateway.DisableRoute "/a" "GET").rejectsNotFound quietRuntime
        (gatewayArrival "GET" "/a" 1) ∧
    ∀ ev ∈ (((sampleGateway.DisableRoute "/a" "GET").EnableRoute "/a" "GET").HandleEvent
        quietRuntime (gatewayArrival "GET" "/a" 1)).2,
      ev.Data.lookup "reason" ≠ some (Value.str "route_not_found") := by
  have hreg : (sampleGateway.Routes.lookup (routeKeyOf "GET" "/a")).isSome := by
    show ((mapSet (NewAPIGateway "gw").Routes (routeKeyOf "GET" "/a") _).lookup _).isSome
    rw [lookup_mapSet_self]
    rfl
  have h := gateway_route_not_found sampleGateway quietRuntime (gatewayArrival "GET" "/a" 1)
    "GET" "/a" rfl rfl rfl (by decide)
  exact ⟨h.2.1, (h.2.2 hreg).2⟩

/-! ## Theorems: route keys -/

theorem append_cons_inj {α : Type} (c : α) : ∀ (l1 l2 r1 r2 : List α),
    c ∉ l1 → c ∉ l2 → l1 ++ c :: r1 = l2 ++ c :: r2 → l1 = l2 ∧ r1 = r2 := by
  intro l1
  induction l1 with
  | nil =>
    intro l2 r1 r2 _ h2 h
    cases l2 with
    | nil =>
      simp only [List.nil_append, List.cons.injEq, true_and] at h
      exact ⟨rfl, h⟩
    | cons b l2 =>
      simp only [List.nil_append, List.cons_append, List.cons.injEq] at h
      exact absurd (h.1 ▸ List.mem_cons_self _ _) h2
  | cons a l1 ih =>
    intro l2 r1 r2 h1 h2 h
    cases l2 with
    | nil =>
      simp only [List.nil_append, List.cons_append, List.cons.injEq] at h
      exact absurd (h.1 ▸ List.mem_cons_self _ _) h1
    | cons b l2 =>
      simp only [List.cons_append, List.cons.injEq] at h
      obtain ⟨hl, hr⟩ := ih l2 r1 r2 (fun hc => h1 (List.mem_cons_of_mem _ hc))
        (fun hc => h2 (List.mem_cons_of_mem _ hc)) h.2
      exact ⟨by rw [h.1, hl], hr⟩

theorem routeKeyOf_data (method path : String) :
    (routeKeyOf method path).data = method.data ++ ':' :: path.data := by
  unfold routeKeyOf
  simp [String.data_append]

theorem routeKeyOf_inj (method1 path1 method2 path2 : String)
    (hcolon : (':' ∉ method1.data ∧ ':' ∉ method2.data) ∨
      (':' ∉ path1.data ∧ ':' ∉ path2.data))
    (h : routeKeyOf method1 path1 = routeKeyOf method2 path2) :
    method1 = method2 ∧ path1 = path2 := by
  have hdata : method1.data ++ ':' :: path1.data = method2.data ++ ':' :: path2.data := by
    rw [← routeKeyOf_data, ← routeKeyOf_data, h]
  rcases hcolon with ⟨h1, h2⟩ | ⟨h1, h2⟩
  · obtain ⟨hm, hp⟩ := append_cons_inj ':' _ _ _ _ h1 h2 hdata
    exact ⟨String.ext hm, String.ext hp⟩
  · have hrev : path1.data.reverse ++ ':' :: method1.data.reverse
        = path2.data.reverse ++ ':' :: method2.data.reverse := by
      have := congrArg List.reverse hdata
      simpa using this
    obtain ⟨hp, hm⟩ := append_cons_inj ':' _ _ _ _ (by simpa using h1) (by simpa using h2) hrev
    exact ⟨String.ext (List.reverse_injective hm), String.ext (List.reverse_injective hp)⟩

/-- C25 (counterexample): the pairs `(GET:, x)` and `(GET, :x)` are different and
have the same route key `GET::x`.  On the gateway whose only route was
registered for `(GET, :x)` with backend `X`, the key of `(GET:, x)` finds that
route, so an arrival for method `GET:` and path `x` is routed to `X`; and
`AddRoute` for `(GET:, x)` with backend `Y` overwrites the route: one route is
left, with backend `Y`. -/
theorem route_keys_collide :
    (("GET:", "x") : String × String) ≠ ("GET", ":x") ∧
    routeKeyOf "GET:" "x" = routeKeyOf "GET" ":x" ∧
    (colonGateway.Routes.lookup (routeKeyOf "GET:" "x")).map (fun route => route.BackendURL)
      = some "X" ∧
    (∃ ev, (colonGateway.HandleEvent quietRuntime (gatewayArrival "GET:" "x" 1)).2 = [ev] ∧
      ev.Kind = RequestProcessed ∧ ev.ComponentID = "X") ∧
    (colonGateway.AddRoute "x" "GET:" "Y" 5 100).Routes.map
      (fun p => (p.2.Method, p.2.Path, p.2.BackendURL)) = [("GET:", "x", "Y")] := by
  refine ⟨by decide, by decide, by decide, ?_, by decide⟩
  have hq : ∀ k, quietRuntime.Float64 k = 1 / 2 := fun _ => rfl
  have hrate : colonGateway.FailureRate = 1 / 1000 := rfl
  have hsome : ((colonGateway.Routes.lookup
      (routeKeyOf (((gatewayArrival "GET:" "x" 1).GetDataValue "method").1.format quietRuntime)
        (((gatewayArrival "GET:" "x" 1).GetDataValue "path").1.format quietRuntime))).filter
      (fun route => route.IsEnabled))
      = some { Path := ":x", Method := "GET", BackendURL := "X", Timeout := 5, RateLimit := 100,
               IsEnabled := true } := by
    show ((mapSet (NewAPIGateway "gw").Routes (routeKeyOf "GET" ":x") _).lookup
      (routeKeyOf "GET" ":x")).filter _ = _
    rw [lookup_mapSet_self]
    rfl
  rw [colonGateway.HandleEvent_arrival_ag quietRuntime (gatewayArrival "GET:" "x" 1) rfl,
    colonGateway.handleAPIRequest_routed quietRuntime (gatewayArrival "GET:" "x" 1) _
      (by decide) hsome (by rw [hq]; norm_num) (by rw [hq]; norm_num)
      (by rw [hq, hrate]; norm_num)]
  exact ⟨_, rfl, rfl, rfl⟩

/-- C25 (amended): for strings `method1`, `path1`, `method2`, `path2` such that
neither method contains the character `:` (or neither path does), with
`(method1, path1)` different from `(method2, path2)`, the route keys
`method:path` are different; then `AddRoute` for the first pair leaves what the
route map holds under the key of the second pair as it was (it overwrites no
route of the second pair, and a request for the second pair does not find the
route added for the first). -/
theorem route_keys_differ (method1 path1 method2 path2 : String)
    (hcolon : (':' ∉ method1.data ∧ ':' ∉ method2.data) ∨
      (':' ∉ path1.data ∧ ':' ∉ path2.data))
    (hne : (method1, path1) ≠ (method2, path2)) :
    routeKeyOf method1 path1 ≠ routeKeyOf method2 path2 ∧
    ∀ (ag : APIGateway) (backendURL : String) (timeout : Rat) (rateLimit : Int),
      (ag.AddRoute path1 method1 backendURL timeout rateLimit).Routes.lookup
          (routeKeyOf method2 path2)
        = ag.Routes.lookup (routeKeyOf method2 path2) := by
  have hkey : routeKeyOf method1 path1 ≠ routeKeyOf method2 path2 := by
    intro h
    obtain ⟨hm, hp⟩ := routeKeyOf_inj method1 path1 method2 path2 hcolon h
    exact hne (by rw [hm, hp])
  refine ⟨hkey, fun ag backendURL timeout rateLimit => ?_⟩
  unfold APIGateway.AddRoute
  exact lookup_mapSet_ne _ _ _ (fun h => hkey h.symm) _

/-- Witness for C25: `GET /a` and `POST /a`. -/
theorem route_keys_differ_witness :
    routeKeyOf "GET" "/a" ≠ routeKeyOf "POST" "/a" ∧
    ∀ (ag : APIGateway) (backendURL : String) (timeout : Rat) (rateLimit : Int),
      (ag.AddRoute "/a" "GET" backendURL timeout rateLimit).Routes.lookup (routeKeyOf "POST" "/a")
        = ag.Routes.lookup (routeKeyOf "POST" "/a") :=
  route_keys_differ "GET" "/a" "POST" "/a" (Or.inl ⟨by decide, by decide⟩) (by decide)

/-! ## Theorems: Initialize and Validate -/

theorem truncateFloat_spec (r : Rat) :
    (0 ≤ r → truncateFloat r = ⌊r⌋) ∧ (r ≤ 0 → truncateFloat r = ⌈r⌉) := by
  have hden : (0 : Int) ≤ r.den := Int.natCast_nonneg _
  constructor
  · intro h
    unfold truncateFloat
    rw [Rat.floor_def, Int.tdiv_eq_ediv (Rat.num_nonneg.mpr h) hden]
  · intro h
    unfold truncateFloat
    have hneg : (0 : Int) ≤ (-r).num := Rat.num_nonneg.mpr (neg_nonneg.mpr h)
    have hfloor : ⌊-r⌋ = Int.tdiv (-r).num (-r).den := by
      rw [Rat.floor_def, Int.tdiv_eq_ediv hneg (Int.natCast_nonneg _)]
    have hceil : ⌈r⌉ = -⌊-r⌋ := by rw [Int.floor_neg, neg_neg]
    rw [hceil, hfloor, Rat.neg_num, Rat.neg_den, Int.neg_tdiv, neg_neg]

theorem truncateFloat_intCast (n : Int) : truncateFloat (n : Rat) = n := by
  unfold truncateFloat
  simp

theorem floatToInt_of_range (r : Rat) (h1 : minInt ≤ truncateFloat r)
    (h2 : truncateFloat r ≤ maxInt) : floatToInt r = truncateFloat r := by
  unfold floatToInt
  rw [if_pos ⟨h1, h2⟩]

theorem floatToInt_out_of_range (r : Rat)
    (h : truncateFloat r < minInt ∨ maxInt < truncateFloat r) : floatToInt r = minInt := by
  unfold floatToInt
  rw [if_neg (by rw [not_and_or, not_le, not_le]; exact h)]

theorem floatToInt_spec (r : Rat) (h1 : minInt ≤ truncateFloat r)
    (h2 : truncateFloat r ≤ maxInt) :
    (0 ≤ r → floatToInt r = ⌊r⌋) ∧ (r ≤ 0 → floatToInt r = ⌈r⌉) := by
  rw [floatToInt_of_range r h1 h2]
  exact truncateFloat_spec r

theorem floatToInt_intCast (n : Int) (h1 : minInt ≤ n) (h2 : n ≤ maxInt) :
    floatToInt (n : Rat) = n := by
  rw [floatToInt_of_range (n : Rat) (by rw [truncateFloat_intCast]; exact h1)
    (by rw [truncateFloat_intCast]; exact h2), truncateFloat_intCast]

theorem GenericService.Initialize_fields_gs (gs : GenericService)
    (properties : Option (List (String × PropValue))) :
    (gs.Initialize properties).2 = none ∧
    (gs.Initialize properties).1.base = gs.base.Initialize properties ∧
    (gs.Initialize properties).1.ProcessingTime
      = ((propertyAt properties "processing_time").bind assertFloat).getD gs.ProcessingTime ∧
    (gs.Initialize properties).1.FailureRate
      = ((propertyAt properties "failure_rate").bind assertFloat).getD gs.FailureRate ∧
    (gs.Initialize properties).1.MaxConcurrency
      = (((propertyAt properties "max_concurrency").bind assertFloat).map floatToInt).getD
          gs.MaxConcurrency ∧
    (gs.Initialize properties).1.CurrentLoad = gs.CurrentLoad ∧
    (gs.Initialize properties).1.RequestsProcessed = gs.RequestsProcessed ∧
    (gs.Initialize properties).1.RequestsFailed = gs.RequestsFailed := by
  unfold GenericService.Initialize
  dsimp only
  cases (propertyAt properties "processing_time").bind assertFloat <;>
    cases (propertyAt properties "failure_rate").bind assertFloat <;>
    cases (propertyAt properties "max_concurrency").bind assertFloat <;>
    exact ⟨rfl, rfl, rfl, rfl, rfl, rfl, rfl, rfl⟩

/-- C29 (counterexample): `Initialize` of a new generic service with
`max_concurrency` `1e19`, a `float64` whose integer truncation `10^19` is above
the largest `int`: the conversion `int(mcInt)` leaves `max_concurrency` at the
smallest `int`, not at the truncation. -/
theorem initialize_truncation_out_of_range :
    propertyAt (some hugeConcurrency) "max_concurrency"
      = some (PropValue.scalar (Value.float 10000000000000000000)) ∧
    truncateFloat 10000000000000000000 = 10000000000000000000 ∧
    ((NewGenericService "svc").Initialize (some hugeConcurrency)).1.MaxConcurrency
      = -9223372036854775808 ∧
    ((NewGenericService "svc").Initialize (some hugeConcurrency)).1.MaxConcurrency
      ≠ truncateFloat 10000000000000000000 := by
  have ht : truncateFloat 10000000000000000000 = 10000000000000000000 := by
    rw [show (10000000000000000000 : Rat) = ((10000000000000000000 : Int) : Rat) by norm_num]
    exact truncateFloat_intCast _
  have hmc : ((NewGenericService "svc").Initialize (some hugeConcurrency)).1.MaxConcurrency
      = floatToInt 10000000000000000000 :=
    ((NewGenericService "svc").Initialize_fields_gs (some hugeConcurrency)).2.2.2.2.1
  have hf : floatToInt 10000000000000000000 = -9223372036854775808 :=
    floatToInt_out_of_range _ (Or.inr (by rw [ht]; decide))
  refine ⟨rfl, ht, by rw [hmc, hf], ?_⟩
  rw [hmc, hf, ht]
  decide

/-- C29 (amended): for a new generic service and every property map (`nil`
included), `Initialize` returns a `nil` error and afterwards `processing_time`
and `failure_rate` are the values of the map when these are `float64`,
`max_concurrency` is the conversion `int(v)` of the map's `float64` value `v`,
which is the integer truncation of `v` (its floor when the value is not
negative, its ceiling when it is not positive) when that truncation fits the
64-bit `int`, and each of the three keys that is absent from the map (also one
whose value is not a `float64`) keeps the constructor default `1.0`, `0.01`,
`10`. -/
theorem initialize_applies_configuration (id : String)
    (properties : Option (List (String × PropValue))) :
    ((NewGenericService id).Initialize properties).2 = none ∧
    (∀ r, propertyAt properties "processing_time" = some (PropValue.scalar (Value.float r)) →
      ((NewGenericService id).Initialize properties).1.ProcessingTime = r) ∧
    (∀ r, propertyAt properties "failure_rate" = some (PropValue.scalar (Value.float r)) →
      ((NewGenericService id).Initialize properties).1.FailureRate = r) ∧
    (∀ r, propertyAt properties "max_concurrency" = some (PropValue.scalar (Value.float r)) →
      ((NewGenericService id).Initialize properties).1.MaxConcurrency = floatToInt r ∧
      (minInt ≤ truncateFloat r → truncateFloat r ≤ maxInt →
        ((NewGenericService id).Initialize properties).1.MaxConcurrency = truncateFloat r ∧
        (0 ≤ r → ((NewGenericService id).Initialize properties).1.MaxConcurrency = ⌊r⌋) ∧
        (r ≤ 0 → ((NewGenericService id).Initialize properties).1.MaxConcurrency = ⌈r⌉))) ∧
    ((propertyAt properties "processing_time").bind assertFloat = none →
      ((NewGenericService id).Initialize properties).1.ProcessingTime = 1) ∧
    ((propertyAt properties "failure_rate").bind assertFloat = none →
      ((NewGenericService id).Initialize properties).1.FailureRate = 1 / 100) ∧
    ((propertyAt properties "max_concurrency").bind assertFloat = none →
      ((NewGenericService id).Initialize properties).1.MaxConcurrency = 10) := by
  obtain ⟨herr, _, hpt, hfr, hmc, _⟩ := (NewGenericService id).Initialize_fields_gs properties
  refine ⟨herr, ?_, ?_, ?_, ?_, ?_, ?_⟩
  · intro r h
    rw [hpt, h]
    rfl
  · intro r h
    rw [hfr, h]
    rfl
  · intro r h
    have hval : ((NewGenericService id).Initialize properties).1.MaxConcurrency
        = floatToInt r := by
      rw [hmc, h]
      rfl
    refine ⟨hval, fun h1 h2 => ⟨?_, fun h0 => ?_, fun h0 => ?_⟩⟩
    · rw [hval]
      exact floatToInt_of_range r h1 h2
    · rw [hval]
      exact (floatToInt_spec r h1 h2).1 h0
    · rw [hval]
      exact (floatToInt_spec r h1 h2).2 h0
  · intro h
    rw [hpt, h]
    rfl
  · intro h
    rw [hfr, h]
    rfl
  · intro h
    rw [hmc, h]
    rfl

/-- Witness for C29: the map of `TestGenericServiceInitialization`,
`processing_time 2.5`, `failure_rate 0.05`, `max_concurrency 20.0`, gives
`2.5`, `0.05` and `20`. -/
theorem initialize_applies_configuration_witness :
    ((NewGenericService "test-service").Initialize (some testProperties)).2 = none ∧
    ((NewGenericService "test-service").Initialize (some testProperties)).1.ProcessingTime
      = 5 / 2 ∧
    ((NewGenericService "test-service").Initialize (some testProperties)).1.FailureRate
      = 5 / 100 ∧
    ((NewGenericService "test-service").Initialize (some testProperties)).1.MaxConcurrency
      = 20 := by
  obtain ⟨herr, hpt, hfr, hmc, _⟩ :=
    initialize_applies_configuration "test-service" (some testProperties)
  refine ⟨herr, hpt _ rfl, hfr _ rfl, ?_⟩
  rw [(hmc 20 rfl).1]
  exact floatToInt_intCast 20 (by decide) (by decide)

theorem BaseComponent.Validate_eq_none (bc : BaseComponent) :
    bc.Validate = none ↔ bc.ID ≠ "" ∧ bc.Kind ≠ "" := by
  unfold BaseComponent.Validate
  split_ifs with h1 h2
  · exact ⟨fun h => h.elim, fun h => absurd h1 h.1⟩
  · exact ⟨fun h => h.elim, fun h => absurd h2 h.2⟩
  · exact ⟨fun _ => ⟨h1, h2⟩, fun _ => rfl⟩

theorem GenericService.Validate_eq_none_gs (gs : GenericService) :
    gs.Validate = none ↔
      gs.base.ID ≠ "" ∧ gs.base.Kind ≠ "" ∧ 0 < gs.ProcessingTime ∧ 0 ≤ gs.FailureRate ∧
        gs.FailureRate ≤ 1 ∧ 0 < gs.MaxConcurrency := by
  unfold GenericService.Validate
  cases hb : gs.base.Validate with
  | some err =>
    have hbase : ¬ (gs.base.ID ≠ "" ∧ gs.base.Kind ≠ "") := by
      rw [← BaseComponent.Validate_eq_none, hb]
      exact fun h => Option.noConfusion h
    exact ⟨fun h => Option.noConfusion h, fun h => absurd ⟨h.1, h.2.1⟩ hbase⟩
  | none =>
    obtain ⟨hid, hkind⟩ := (BaseComponent.Validate_eq_none gs.base).mp hb
    dsimp only
    split_ifs with h1 h2 h3
    · exact ⟨fun h => h.elim, fun h => absurd h1 (not_le.mpr h.2.2.1)⟩
    · refine ⟨fun h => h.elim, fun h => ?_⟩
      rcases h2 with h2 | h2
      · exact absurd h2 (not_lt.mpr h.2.2.2.1)
      · exact absurd h2 (not_lt.mpr h.2.2.2.2.1)
    · exact ⟨fun h => h.elim, fun h => absurd h3 (not_le.mpr h.2.2.2.2.2)⟩
    · refine ⟨fun _ => ⟨hid, hkind, not_le.mp h1, ?_, ?_, not_le.mp h3⟩, fun _ => rfl⟩
      · exact not_lt.mp (fun h => h2 (Or.inl h))
      · exact not_lt.mp (fun h => h2 (Or.inr h))

/-- C30: for a generic service (its component type is not empty, as for every
service `NewGenericService` builds), `Validate` returns an error if and only if
the id is empty, or `processing_time <= 0`, or `failure_rate < 0`, or
`failure_rate > 1`, or `max_concurrency <= 0`.  In particular the constructor
defaults are valid for every non-empty id, a negative processing time is
rejected and a failure rate of `1.5` is rejected. -/
theorem generic_service_validation (gs : GenericService) (hkind : gs.base.Kind ≠ "") :
    (gs.Validate ≠ none ↔
      gs.base.ID = "" ∨ gs.ProcessingTime ≤ 0 ∨ gs.FailureRate < 0 ∨ gs.FailureRate > 1 ∨
        gs.MaxConcurrency ≤ 0) ∧
    (∀ id : String, id ≠ "" → (NewGenericService id).Validate = none) ∧
    (∀ pt : Rat, pt < 0 → ({ gs with ProcessingTime := pt } : GenericService).Validate ≠ none) ∧
    ({ gs with FailureRate := 3 / 2 } : GenericService).Validate ≠ none := by
  refine ⟨?_, ?_, ?_, ?_⟩
  · rw [Ne, GenericService.Validate_eq_none_gs]
    constructor
    · intro h
      by_contra hcon
      push_neg at hcon
      exact h ⟨hcon.1, hkind, hcon.2.1, hcon.2.2.1, hcon.2.2.2.1, hcon.2.2.2.2⟩
    · rintro (h | h | h | h | h) hok
      · exact hok.1 h
      · exact absurd h (not_le.mpr hok.2.2.1)
      · exact absurd h (not_lt.mpr hok.2.2.2.1)
      · exact absurd h (not_lt.mpr hok.2.2.2.2.1)
      · exact absurd h (not_le.mpr hok.2.2.2.2.2)
  · intro id hid
    rw [GenericService.Validate_eq_none_gs]
    have hk : (NewGenericService id).base.Kind ≠ "" := by
      show TypeGenericService ≠ ""
      decide
    refine ⟨hid, hk, ?_, ?_, ?_, ?_⟩ <;>
      simp only [NewGenericService] <;> norm_num
  · intro pt hpt
    rw [Ne, GenericService.Validate_eq_none_gs]
    intro hok
    exact absurd hok.2.2.1 (not_lt.mpr (le_of_lt hpt))
  · rw [Ne, GenericService.Validate_eq_none_gs]
    intro hok
    have h1 : (3 / 2 : Rat) ≤ 1 := hok.2.2.2.2.1
    norm_num at h1

/-- Witness for C30: the service of `TestGenericServiceValidation`.  Its defaults
pass `Validate`; with `processing_time = -1`, and with `failure_rate = 1.5`, it is
rejected. -/
theorem generic_service_validation_witness :
    (NewGenericService "test-service").Validate = none ∧
    ({ NewGenericService "test-service" with ProcessingTime := -1 } : GenericService).Validate
      ≠ none ∧
    ({ NewGenericService "test-service" with FailureRate := 3 / 2 } : GenericService).Validate
      ≠ none := by
  have h := generic_service_validation (NewGenericService "test-service") (by decide)
  exact ⟨h.2.1 "test-service" (by decide), h.2.2.1 (-1) (by norm_num), h.2.2.2⟩

/-! ## Theorems: Initialize of the other components -/

theorem Database.Initialize_fields_db (db : Database)
    (properties : Option (List (String × PropValue))) :
    (db.Initialize properties).2 = none ∧
    (db.Initialize properties).1.base = db.base.Initialize properties ∧
    (db.Initialize properties).1.ReadLatency
      = ((propertyAt properties "read_latency").bind assertFloat).getD db.ReadLatency ∧
    (db.Initialize properties).1.WriteLatency
      = ((propertyAt properties "write_latency").bind assertFloat).getD db.WriteLatency ∧
    (db.Initialize properties).1.QueryLatency
      = ((propertyAt properties "query_latency").bind assertFloat).getD db.QueryLatency ∧
    (db.Initialize properties).1.FailureRate
      = ((propertyAt properties "failure_rate").bind assertFloat).getD db.FailureRate ∧
    (db.Initialize properties).1.MaxConnections
      = (((propertyAt properties "max_connections").bind assertFloat).map floatToInt).getD
          db.MaxConnections := by
  unfold Database.Initialize
  generalize (propertyAt properties "read_latency").bind assertFloat = o1
  generalize (propertyAt properties "write_latency").bind assertFloat = o2
  generalize (propertyAt properties "query_latency").bind assertFloat = o3
  generalize (propertyAt properties "failure_rate").bind assertFloat = o4
  generalize (propertyAt properties "max_connections").bind assertFloat = o5
  cases o1 <;> cases o2 <;> cases o3 <;> cases o4 <;> cases o5 <;>
    exact ⟨rfl, rfl, rfl, rfl, rfl, rfl, rfl⟩

theorem MessageQueue.Initialize_fields_mq (mq : MessageQueue)
    (properties : Option (List (String × PropValue))) :
    (mq.Initialize properties).2 = none ∧
    (mq.Initialize properties).1.base = mq.base.Initialize properties ∧
    (mq.Initialize properties).1.ProcessingTime
      = ((propertyAt properties "processing_time").bind assertFloat).getD mq.ProcessingTime ∧
    (mq.Initialize properties).1.FailureRate
      = ((propertyAt properties "failure_rate").bind assertFloat).getD mq.FailureRate ∧
    (mq.Initialize properties).1.MaxQueueSize
      = (((propertyAt properties "max_queue_size").bind assertFloat).map floatToInt).getD
          mq.MaxQueueSize := by
  unfold MessageQueue.Initialize
  generalize (propertyAt properties "processing_time").bind assertFloat = o1
  generalize (propertyAt properties "failure_rate").bind assertFloat = o2
  generalize (propertyAt properties "max_queue_size").bind assertFloat = o3
  cases o1 <;> cases o2 <;> cases o3 <;>
    exact ⟨rfl, rfl, rfl, rfl, rfl⟩

theorem Cache.Initialize_fields_cache (c : Cache)
    (properties : Option (List (String × PropValue))) :
    (c.Initialize properties).2 = none ∧
    (c.Initialize properties).1.base = c.base.Initialize properties ∧
    (c.Initialize properties).1.HitRatio
      = ((propertyAt properties "hit_ratio").bind assertFloat).getD c.HitRatio ∧
    (c.Initialize properties).1.AccessTime
      = ((propertyAt properties "access_time").bind assertFloat).getD c.AccessTime ∧
    (c.Initialize properties).1.FailureRate
      = ((propertyAt properties "failure_rate").bind assertFloat).getD c.FailureRate ∧
    (c.Initialize properties).1.MaxSize
      = (((propertyAt properties "max_size").bind assertFloat).map floatToInt).getD
          c.MaxSize := by
  unfold Cache.Initialize
  generalize (propertyAt properties "hit_ratio").bind assertFloat = o1
  generalize (propertyAt properties "access_time").bind assertFloat = o2
  generalize (propertyAt properties "failure_rate").bind assertFloat = o3
  generalize (propertyAt properties "max_size").bind assertFloat = o4
  cases o1 <;> cases o2 <;> cases o3 <;> cases o4 <;>
    exact ⟨rfl, rfl, rfl, rfl, rfl, rfl⟩

theorem LoadBalancer.initializeFields_fields_lb (lb : LoadBalancer)
    (properties : Option (List (String × PropValue))) :
    (lb.initializeFields properties).base = lb.base.Initialize properties ∧
    (lb.initializeFields properties).Algorithm
      = ((propertyAt properties "algorithm").bind assertString).getD lb.Algorithm ∧
    (lb.initializeFields properties).HealthCheckInterval
      = ((propertyAt properties "health_check_interval").bind assertFloat).getD
          lb.HealthCheckInterval ∧
    (lb.initializeFields properties).RoutingLatency
      = ((propertyAt properties "routing_latency").bind assertFloat).getD lb.RoutingLatency ∧
    (lb.initializeFields properties).FailureRate
      = ((propertyAt properties "failure_rate").bind assertFloat).getD lb.FailureRate := by
  unfold LoadBalancer.initializeFields
  generalize (propertyAt properties "algorithm").bind assertString = o1
  generalize (propertyAt properties "health_check_interval").bind assertFloat = o2
  generalize (propertyAt properties "routing_latency").bind assertFloat = o3
  generalize (propertyAt properties "failure_rate").bind assertFloat = o4
  cases o1 <;> cases o2 <;> cases o3 <;> cases o4 <;>
    exact ⟨rfl, rfl, rfl, rfl, rfl⟩

theorem LoadBalancer.appendServers_frame : ∀ (servers : List PropValue) (lb lb' : LoadBalancer),
    lb.appendServers servers = some lb' →
    lb' = { lb with BackendServers := lb'.BackendServers } := by
  intro servers
  induction servers with
  | nil =>
    intro lb lb' h
    simp only [LoadBalancer.appendServers, Option.some.injEq] at h
    rw [← h]
  | cons server rest ih =>
    intro lb lb' h
    unfold LoadBalancer.appendServers at h
    split at h
    · split at h
      · exact Option.noConfusion h
      · have := ih _ lb' h
        rw [this]
    · exact ih lb lb' h

theorem LoadBalancer.Initialize_fields_lb (lb : LoadBalancer)
    (properties : Option (List (String × PropValue))) (r : LoadBalancer × Option String)
    (h : lb.Initialize properties = some r) :
    r.2 = none ∧ r.1 = { lb.initializeFields properties with
      BackendServers := r.1.BackendServers } := by
  unfold LoadBalancer.Initialize at h
  dsimp only at h
  split at h
  · split at h
    · exact Option.noConfusion h
    · next l5 happ =>
      simp only [Option.some.injEq] at h
      rw [← h]
      exact ⟨rfl, LoadBalancer.appendServers_frame _ _ _ happ⟩
  · simp only [Option.some.injEq] at h
    rw [← h]
    exact ⟨rfl, rfl⟩

theorem APIGateway.initializeFields_fields_ag (ag : APIGateway)
    (properties : Option (List (String × PropValue))) :
    (ag.initializeFields properties).base = ag.base.Initialize properties ∧
    (ag.initializeFields properties).RoutingLatency
      = ((propertyAt properties "routing_latency").bind assertFloat).getD ag.RoutingLatency ∧
    (ag.initializeFields properties).FailureRate
      = ((propertyAt properties "failure_rate").bind assertFloat).getD ag.FailureRate ∧
    (ag.initializeFields properties).MaxConcurrency
      = (((propertyAt properties "max_concurrency").bind assertFloat).map floatToInt).getD
          ag.MaxConcurrency := by
  unfold APIGateway.initializeFields
  generalize (propertyAt properties "routing_latency").bind assertFloat = o1
  generalize (propertyAt properties "failure_rate").bind assertFloat = o2
  generalize (propertyAt properties "max_concurrency").bind assertFloat = o3
  cases o1 <;> cases o2 <;> cases o3 <;>
    exact ⟨rfl, rfl, rfl, rfl⟩

theorem APIGateway.addRoutes_frame : ∀ (routes : List PropValue) (ag ag' : APIGateway),
    ag.addRoutes routes = some ag' → ag' = { ag with Routes := ag'.Routes } := by
  intro routes
  induction routes with
  | nil =>
    intro ag ag' h
    simp only [APIGateway.addRoutes, Option.some.injEq] at h
    rw [← h]
  | cons route rest ih =>
    intro ag ag' h
    unfold APIGateway.addRoutes at h
    split at h
    · split at h
      · exact Option.noConfusion h
      · have := ih _ ag' h
        rw [this]
    · exact ih ag ag' h

theorem APIGateway.Initialize_fields_ag (ag : APIGateway)
    (properties : Option (List (String × PropValue))) (r : APIGateway × Option String)
    (h : ag.Initialize properties = some r) :
    r.2 = none ∧ r.1 = { ag.initializeFields properties with Routes := r.1.Routes } := by
  unfold APIGateway.Initialize at h
  dsimp only at h
  split at h
  · split at h
    · exact Option.noConfusion h
    · next a4 hadd =>
      simp only [Option.some.injEq] at h
      rw [← h]
      exact ⟨rfl, APIGateway.addRoutes_frame _ _ _ hadd⟩
  · simp only [Option.some.injEq] at h
    rw [← h]
    exact ⟨rfl, rfl⟩

theorem Component.Initialize_base (c c' : Component)
    (properties : Option (List (String × PropValue))) (err : Option String)
    (h : c.Initialize properties = Outcome.done (c', err)) :
    err = none ∧ c'.base = c.base.Initialize properties := by
  cases c with
  | genericService s =>
    simp only [Component.Initialize, Outcome.done.injEq, Prod.mk.injEq] at h
    rw [← h.1, ← h.2]
    exact ⟨(s.Initialize_fields_gs properties).1, (s.Initialize_fields_gs properties).2.1⟩
  | database s =>
    simp only [Component.Initialize, Outcome.done.injEq, Prod.mk.injEq] at h
    rw [← h.1, ← h.2]
    exact ⟨(s.Initialize_fields_db properties).1, (s.Initialize_fields_db properties).2.1⟩
  | messageQueue s =>
    simp only [Component.Initialize, Outcome.done.injEq, Prod.mk.injEq] at h
    rw [← h.1, ← h.2]
    exact ⟨(s.Initialize_fields_mq properties).1, (s.Initialize_fields_mq properties).2.1⟩
  | loadBalancer s =>
    simp only [Component.Initialize] at h
    split at h
    · exact Outcome.noConfusion h
    · next r hr =>
      simp only [Outcome.done.injEq, Prod.mk.injEq] at h
      obtain ⟨herr, hfields⟩ := s.Initialize_fields_lb properties r hr
      rw [← h.1, ← h.2]
      refine ⟨herr, ?_⟩
      show r.1.base = _
      rw [hfields]
      exact (s.initializeFields_fields_lb properties).1
  | cache s =>
    simp only [Component.Initialize, Outcome.done.injEq, Prod.mk.injEq] at h
    rw [← h.1, ← h.2]
    exact ⟨(s.Initialize_fields_cache properties).1, (s.Initialize_fields_cache properties).2.1⟩
  | apiGateway s =>
    simp only [Component.Initialize] at h
    split at h
    · exact Outcome.noConfusion h
    · next r hr =>
      simp only [Outcome.done.injEq, Prod.mk.injEq] at h
      obtain ⟨herr, hfields⟩ := s.Initialize_fields_ag properties r hr
      rw [← h.1, ← h.2]
      refine ⟨herr, ?_⟩
      show r.1.base = _
      rw [hfields]
      exact (s.initializeFields_fields_ag properties).1

/-! ## Theorems: component factory -/

theorem NewBaseComponent_valid (id : String) (kind : ComponentType) (hid : id ≠ "")
    (hkind : kind ≠ "") : (NewBaseComponent id kind).Validate = none :=
  (BaseComponent.Validate_eq_none _).mpr ⟨hid, hkind⟩

theorem NewGenericService_valid (id : String) (hid : id ≠ "") :
    (NewGenericService id).Validate = none := by
  have hbase : (NewGenericService id).base.Validate = none :=
    NewBaseComponent_valid id TypeGenericService hid (by decide)
  unfold GenericService.Validate
  rw [hbase]
  simp [NewGenericService]
  try norm_num

theorem NewDatabase_valid (id : String) (hid : id ≠ "") :
    (NewDatabase id).Validate = none := by
  have hbase : (NewDatabase id).base.Validate = none :=
    NewBaseComponent_valid id TypeDatabase hid (by decide)
  unfold Database.Validate
  rw [hbase]
  simp [NewDatabase]
  try norm_num

theorem NewMessageQueue_valid (id : String) (hid : id ≠ "") :
    (NewMessageQueue id).Validate = none := by
  have hbase : (NewMessageQueue id).base.Validate = none :=
    NewBaseComponent_valid id TypeMessageQueue hid (by decide)
  unfold MessageQueue.Validate
  rw [hbase]
  simp [NewMessageQueue]
  try norm_num

theorem NewLoadBalancer_valid (id : String) (hid : id ≠ "") :
    (NewLoadBalancer id).Validate = none := by
  have hbase : (NewLoadBalancer id).base.Validate = none :=
    NewBaseComponent_valid id TypeLoadBalancer hid (by decide)
  unfold LoadBalancer.Validate
  rw [hbase]
  simp [NewLoadBalancer]
  try norm_num

theorem NewCache_valid (id : String) (hid : id ≠ "") :
    (NewCache id).Validate = none := by
  have hbase : (NewCache id).base.Validate = none :=
    NewBaseComponent_valid id TypeCache hid (by decide)
  unfold Cache.Validate
  rw [hbase]
  simp [NewCache]
  try norm_num

theorem NewAPIGateway_valid (id : String) (hid : id ≠ "") :
    (NewAPIGateway id).Validate = none := by
  have hbase : (NewAPIGateway id).base.Validate = none :=
    NewBaseComponent_valid id TypeAPIGateway hid (by decide)
  unfold APIGateway.Validate
  rw [hbase]
  simp [NewAPIGateway]
  try norm_num

theorem constructComponent_supported (kind : ComponentType) (id : String)
    (h : kind ∈ GetSupportedTypes) :
    ∃ c, constructComponent kind id = some c ∧ c.base = NewBaseComponent id kind ∧
      (id ≠ "" → c.Validate = none) := by
  simp only [GetSupportedTypes, List.mem_cons, List.mem_singleton, List.mem_nil_iff,
    or_false] at h
  rcases h with rfl | rfl | rfl | rfl | rfl | rfl
  · exact ⟨_, rfl, rfl, NewGenericService_valid id⟩
  · exact ⟨_, rfl, rfl, NewDatabase_valid id⟩
  · exact ⟨_, rfl, rfl, NewMessageQueue_valid id⟩
  · exact ⟨_, rfl, rfl, NewLoadBalancer_valid id⟩
  · exact ⟨_, rfl, rfl, NewCache_valid id⟩
  · exact ⟨_, rfl, rfl, NewAPIGateway_valid id⟩

theorem constructComponent_unsupported (kind : ComponentType) (id : String)
    (h : kind ∉ GetSupportedTypes) : constructComponent kind id = none := by
  simp only [GetSupportedTypes, List.mem_cons, List.mem_singleton, List.mem_nil_iff,
    or_false, not_or] at h
  unfold constructComponent
  rw [if_neg h.1, if_neg h.2.1, if_neg h.2.2.1, if_neg h.2.2.2.1, if_neg h.2.2.2.2.1,
    if_neg h.2.2.2.2.2]

theorem constructComponent_some (kind : ComponentType) (id : String) (c : Component)
    (h : constructComponent kind id = some c) :
    kind ∈ GetSupportedTypes ∧ c.base = NewBaseComponent id kind ∧
      (id ≠ "" → c.Validate = none) := by
  by_cases hk : kind ∈ GetSupportedTypes
  · obtain ⟨c', hc', hbase, hvalid⟩ := constructComponent_supported kind id hk
    rw [hc', Option.some.injEq] at h
    rw [← h]
    exact ⟨hk, hbase, hvalid⟩
  · rw [constructComponent_unsupported kind id hk] at h
    exact Option.noConfusion h

theorem validateCreated_ok (component c : Component)
    (h : validateCreated component = Except.ok c) : c = component ∧ component.Validate = none := by
  unfold validateCreated at h
  split at h
  · exact Except.noConfusion h
  · next hv =>
    rw [Except.ok.injEq] at h
    exact ⟨h.symm, hv⟩

theorem CreateComponent_nil (kind : ComponentType) (id : String) (component : Component)
    (h : constructComponent kind id = some component) :
    CreateComponent kind id none = Outcome.done (validateCreated component) := by
  unfold CreateComponent
  rw [h]

/-- C27: for every non-empty id and the `nil` property map,
`CreateComponent(kind, id, nil)` succeeds if and only if `kind` is one of the six
supported kinds; on success the component is the one the constructor of the kind
builds, it has the given id and kind, and it passes `Validate`; for any other
kind the unsupported-kind error is returned and no component. -/
theorem factory_kind_dispatch (kind : ComponentType) (id : String) (hid : id ≠ "") :
    ((∃ c, CreateComponent kind id none = Outcome.done (Except.ok c))
      ↔ kind ∈ GetSupportedTypes) ∧
    (∀ c, CreateComponent kind id none = Outcome.done (Except.ok c) →
      constructComponent kind id = some c ∧ c.GetID = id ∧ c.GetType = kind ∧
        c.Validate = none) ∧
    (kind ∉ GetSupportedTypes →
      CreateComponent kind id none
        = Outcome.done (Except.error ("unsupported component type: " ++ kind))) := by
  have hunsupported : kind ∉ GetSupportedTypes →
      CreateComponent kind id none
        = Outcome.done (Except.error ("unsupported component type: " ++ kind)) := by
    intro hk
    unfold CreateComponent
    rw [constructComponent_unsupported kind id hk]
  have hsuccess : ∀ c, CreateComponent kind id none = Outcome.done (Except.ok c) →
      kind ∈ GetSupportedTypes ∧ constructComponent kind id = some c ∧ c.GetID = id ∧
        c.GetType = kind ∧ c.Validate = none := by
    intro c hc
    by_cases hk : kind ∈ GetSupportedTypes
    · obtain ⟨component, hcomp, hbase, hvalid⟩ := constructComponent_supported kind id hk
      rw [CreateComponent_nil kind id component hcomp, Outcome.done.injEq] at hc
      obtain ⟨heq, hv⟩ := validateCreated_ok component c hc
      subst heq
      refine ⟨hk, hcomp, ?_, ?_, hv⟩
      · show c.base.ID = id
        rw [hbase]
        rfl
      · show c.base.Kind = kind
        rw [hbase]
        rfl
    · rw [hunsupported hk, Outcome.done.injEq] at hc
      exact Except.noConfusion hc
  refine ⟨⟨?_, ?_⟩, fun c hc => (hsuccess c hc).2, hunsupported⟩
  · rintro ⟨c, hc⟩
    exact (hsuccess c hc).1
  · intro hk
    obtain ⟨component, hcomp, _, hvalid⟩ := constructComponent_supported kind id hk
    refine ⟨component, ?_⟩
    rw [CreateComponent_nil kind id component hcomp]
    unfold validateCreated
    rw [hvalid hid]

/-- Witness for C27: the kinds `generic_service` and `queue` with id
`test-service`, as in `TestComponentFactory`. -/
theorem factory_kind_dispatch_witness :
    (∃ c, CreateComponent TypeGenericService "test-service" none = Outcome.done (Except.ok c) ∧
      c.GetID = "test-service" ∧ c.GetType = TypeGenericService ∧ c.Validate = none) ∧
    CreateComponent "queue" "test-service" none
      = Outcome.done (Except.error "unsupported component type: queue") := by
  have h := factory_kind_dispatch TypeGenericService "test-service" (by decide)
  have h2 := factory_kind_dispatch "queue" "test-service" (by decide)
  obtain ⟨c, hc⟩ := h.1.mpr (by decide)
  exact ⟨⟨c, hc, (h.2.1 c hc).2⟩, h2.2.2 (by decide)⟩

/-- C26: when `CreateComponent(kind, id, P)` succeeds for a non-nil property map
`P`, whatever the kind and the id, `GetProperties()` of the created component is
`P`. -/
theorem factory_properties_round_trip (kind : ComponentType) (id : String)
    (P : List (String × PropValue)) (c : Component)
    (h : CreateComponent kind id (some P) = Outcome.done (Except.ok c)) :
    c.GetProperties = P := by
  unfold CreateComponent at h
  split at h
  · rw [Outcome.done.injEq] at h
    exact Except.noConfusion h
  · next component hcomp =>
    dsimp only at h
    split at h
    · next initialized hinit =>
      rw [Outcome.done.injEq] at h
      obtain ⟨heq, _⟩ := validateCreated_ok initialized c h
      obtain ⟨_, hbase⟩ := Component.Initialize_base component initialized (some P) none hinit
      subst heq
      show c.base.Properties = P
      rw [hbase]
      rfl
    · rw [Outcome.done.injEq] at h
      exact Except.noConfusion h
    · exact Outcome.noConfusion h
    · exact Outcome.noConfusion h

/-- Witness for C26: the call of `TestComponentFactory` with the properties
`processing_time 2.0`, `failure_rate 0.01`, `max_concurrency 50.0` succeeds and
the created service has these properties. -/
theorem factory_properties_round_trip_witness :
    ∃ c, CreateComponent TypeGenericService "test-service-2" (some factoryProperties)
        = Outcome.done (Except.ok c) ∧
      c.GetProperties = factoryProperties := by
  have hvalid : ((NewGenericService "test-service-2").Initialize
      (some factoryProperties)).1.Validate = none := by
    obtain ⟨_, hbase, hpt, hfr, hmc, _⟩ :=
      (NewGenericService "test-service-2").Initialize_fields_gs (some factoryProperties)
    rw [GenericService.Validate_eq_none_gs, hbase, hpt, hfr, hmc]
    refine ⟨by decide, by decide, ?_, ?_, ?_, ?_⟩
    · show (0 : Rat) < 2
      norm_num
    · show (0 : Rat) ≤ 1 / 100
      norm_num
    · show (1 / 100 : Rat) ≤ 1
      norm_num
    · show (0 : Int) < floatToInt 50
      rw [show (50 : Rat) = ((50 : Int) : Rat) by norm_num,
        floatToInt_intCast 50 (by decide) (by decide)]
      decide
  have hcreate : CreateComponent TypeGenericService "test-service-2" (some factoryProperties)
      = Outcome.done (Except.ok (Component.genericService
          ((NewGenericService "test-service-2").Initialize (some factoryProperties)).1)) := by
    show Outcome.done (validateCreated (Component.genericService
      ((NewGenericService "test-service-2").Initialize (some factoryProperties)).1)) = _
    unfold validateCreated
    show Outcome.done (match ((NewGenericService "test-service-2").Initialize
      (some factoryProperties)).1.Validate with
      | some err => Except.error ("component validation failed: " ++ err)
      | none => Except.ok _) = _
    rw [hvalid]
  exact ⟨_, hcreate, factory_properties_round_trip _ _ _ _ hcreate⟩

/-! ## Theorems: Initialize and bad configuration -/

theorem bind_assertFloat_none (properties : Option (List (String × PropValue))) (key : String)
    (hkey : key ≠ "algorithm")
    (h : ∀ v, propertyAt properties key = some v → acceptedType key v = false) :
    (propertyAt properties key).bind assertFloat = none := by
  cases hv : propertyAt properties key with
  | none => rfl
  | some v =>
    have := h v hv
    unfold acceptedType at this
    rw [if_neg hkey] at this
    cases ha : assertFloat v with
    | none => simp [ha]
    | some r => rw [ha] at this; exact absurd this (by simp)

theorem bind_assertString_none (properties : Option (List (String × PropValue)))
    (h : ∀ v, propertyAt properties "algorithm" = some v → acceptedType "algorithm" v = false) :
    (propertyAt properties "algorithm").bind assertString = none := by
  cases hv : propertyAt properties "algorithm" with
  | none => rfl
  | some v =>
    have := h v hv
    unfold acceptedType at this
    rw [if_pos rfl] at this
    cases ha : assertString v with
    | none => simp [ha]
    | some r => rw [ha] at this; exact absurd this (by simp)

theorem lookup_eq_of_forall₂ (key : String) : ∀ (l l' : List (String × Value)),
    List.Forall₂ (fun p q => p.1 = q.1 ∧ (p.1 = key → p.2 = q.2)) l l' →
    l.lookup key = l'.lookup key := by
  intro l l' h
  induction h with
  | nil => rfl
  | @cons p q l l' hpq _ ih =>
    obtain ⟨a, b⟩ := p
    obtain ⟨a', b'⟩ := q
    obtain ⟨h1, h2⟩ := hpq
    simp only at h1 h2
    subst h1
    by_cases hk : key = a
    · subst hk
      simp only [List.lookup_cons, beq_self_eq_true]
      rw [h2 rfl]
    · have hb : (key == a) = false := by
        rw [beq_eq_false_iff_ne]
        exact hk
      simp only [List.lookup_cons, hb]
      exact ih

theorem LoadBalancer.appendServers_none_iff : ∀ (servers : List PropValue) (lb : LoadBalancer),
    lb.appendServers servers = none ↔
      ∃ serverMap, PropValue.map serverMap ∈ servers ∧ parseBackendServer serverMap = none := by
  intro servers
  induction servers with
  | nil =>
    intro lb
    simp [LoadBalancer.appendServers]
  | cons server rest ih =>
    intro lb
    cases server with
    | map serverMap =>
      cases hparse : parseBackendServer serverMap with
      | none =>
        simp only [LoadBalancer.appendServers, hparse, true_iff]
        exact ⟨serverMap, List.mem_cons_self _ _, hparse⟩
      | some backendServer =>
        simp only [LoadBalancer.appendServers, hparse]
        rw [ih]
        constructor
        · rintro ⟨m, hm, hnone⟩
          exact ⟨m, List.mem_cons_of_mem _ hm, hnone⟩
        · rintro ⟨m, hm, hnone⟩
          rcases List.mem_cons.mp hm with heq | hm
          · rw [PropValue.map.injEq] at heq
            rw [heq, hparse] at hnone
            exact Option.noConfusion hnone
          · exact ⟨m, hm, hnone⟩
    | scalar v =>
      simp only [LoadBalancer.appendServers]
      rw [ih]
      constructor
      · rintro ⟨m, hm, hnone⟩
        exact ⟨m, List.mem_cons_of_mem _ hm, hnone⟩
      · rintro ⟨m, hm, hnone⟩
        rcases List.mem_cons.mp hm with heq | hm
        · exact PropValue.noConfusion heq
        · exact ⟨m, hm, hnone⟩
    | list vs =>
      simp only [LoadBalancer.appendServers]
      rw [ih]
      constructor
      · rintro ⟨m, hm, hnone⟩
        exact ⟨m, List.mem_cons_of_mem _ hm, hnone⟩
      · rintro ⟨m, hm, hnone⟩
        rcases List.mem_cons.mp hm with heq | hm
        · exact PropValue.noConfusion heq
        · exact ⟨m, hm, hnone⟩

theorem APIGateway.addRoutes_none_iff : ∀ (routes : List PropValue) (ag : APIGateway),
    ag.addRoutes routes = none ↔
      ∃ routeMap, PropValue.map routeMap ∈ routes ∧ parseRoute routeMap = none := by
  intro routes
  induction routes with
  | nil =>
    intro ag
    simp [APIGateway.addRoutes]
  | cons route rest ih =>
    intro ag
    cases route with
    | map routeMap =>
      cases hparse : parseRoute routeMap with
      | none =>
        simp only [APIGateway.addRoutes, hparse, true_iff]
        exact ⟨routeMap, List.mem_cons_self _ _, hparse⟩
      | some routeObj =>
        simp only [APIGateway.addRoutes, hparse]
        rw [ih]
        constructor
        · rintro ⟨m, hm, hnone⟩
          exact ⟨m, List.mem_cons_of_mem _ hm, hnone⟩
        · rintro ⟨m, hm, hnone⟩
          rcases List.mem_cons.mp hm with heq | hm
          · rw [PropValue.map.injEq] at heq
            rw [heq, hparse] at hnone
            exact Option.noConfusion hnone
          · exact ⟨m, hm, hnone⟩
    | scalar v =>
      simp only [APIGateway.addRoutes]
      rw [ih]
      constructor
      · rintro ⟨m, hm, hnone⟩
        exact ⟨m, List.mem_cons_of_mem _ hm, hnone⟩
      · rintro ⟨m, hm, hnone⟩
        rcases List.mem_cons.mp hm with heq | hm
        · exact PropValue.noConfusion heq
        · exact ⟨m, hm, hnone⟩
    | list vs =>
      simp only [APIGateway.addRoutes]
      rw [ih]
      constructor
      · rintro ⟨m, hm, hnone⟩
        exact ⟨m, List.mem_cons_of_mem _ hm, hnone⟩
      · rintro ⟨m, hm, hnone⟩
        rcases List.mem_cons.mp hm with heq | hm
        · exact PropValue.noConfusion heq
        · exact ⟨m, hm, hnone⟩

theorem LoadBalancer.Initialize_none_iff_lb (lb : LoadBalancer)
    (properties : Option (List (String × PropValue))) :
    lb.Initialize properties = none ↔
      ∃ serverList serverMap,
        propertyAt properties "backend_servers" = some (PropValue.list serverList) ∧
        PropValue.map serverMap ∈ serverList ∧ parseBackendServer serverMap = none := by
  unfold LoadBalancer.Initialize
  dsimp only
  split
  · next serverList hlist =>
    constructor
    · intro h
      have happ : (lb.initializeFields properties).appendServers serverList = none := by
        cases happ : (lb.initializeFields properties).appendServers serverList with
        | none => rfl
        | some l5 => rw [happ] at h; exact Option.noConfusion h
      obtain ⟨m, hm, hnone⟩ := (LoadBalancer.appendServers_none_iff _ _).mp happ
      exact ⟨serverList, m, hlist, hm, hnone⟩
    · rintro ⟨l, m, hl, hm, hnone⟩
      rw [hlist, Option.some.injEq, PropValue.list.injEq] at hl
      subst hl
      rw [(LoadBalancer.appendServers_none_iff _ _).mpr ⟨m, hm, hnone⟩]
  · next hnot =>
    constructor
    · intro h
      exact Option.noConfusion h
    · rintro ⟨l, m, hl, _, _⟩
      exact absurd hl (hnot l)

theorem APIGateway.Initialize_none_iff_ag (ag : APIGateway)
    (properties : Option (List (String × PropValue))) :
    ag.Initialize properties = none ↔
      ∃ routeList routeMap,
        propertyAt properties "routes" = some (PropValue.list routeList) ∧
        PropValue.map routeMap ∈ routeList ∧ parseRoute routeMap = none := by
  unfold APIGateway.Initialize
  dsimp only
  split
  · next routeList hlist =>
    constructor
    · intro h
      have hadd : (ag.initializeFields properties).addRoutes routeList = none := by
        cases hadd : (ag.initializeFields properties).addRoutes routeList with
        | none => rfl
        | some a4 => rw [hadd] at h; exact Option.noConfusion h
      obtain ⟨m, hm, hnone⟩ := (APIGateway.addRoutes_none_iff _ _).mp hadd
      exact ⟨routeList, m, hlist, hm, hnone⟩
    · rintro ⟨l, m, hl, hm, hnone⟩
      rw [hlist, Option.some.injEq, PropValue.list.injEq] at hl
      subst hl
      rw [(APIGateway.addRoutes_none_iff _ _).mpr ⟨m, hm, hnone⟩]
  · next hnot =>
    constructor
    · intro h
      exact Option.noConfusion h
    · rintro ⟨l, m, hl, _, _⟩
      exact absurd hl (hnot l)

theorem GenericService.Initialize_settings_gs (s : GenericService)
    (properties : Option (List (String × PropValue))) (key : String)
    (h : ∀ v, propertyAt properties key = some v → acceptedType key v = false) :
    (Component.genericService (s.Initialize properties).1).settings.lookup key
      = (Component.genericService s).settings.lookup key := by
  obtain ⟨_, _, hpt, hfr, hmc, _⟩ := s.Initialize_fields_gs properties
  apply lookup_eq_of_forall₂
  refine (.cons ⟨rfl, fun hk => ?_⟩ (.cons ⟨rfl, fun hk => ?_⟩ (.cons ⟨rfl, fun hk => ?_⟩ .nil)))
  · subst hk
    show Value.float _ = Value.float _
    rw [hpt, bind_assertFloat_none properties "processing_time" (by decide) h]
    rfl
  · subst hk
    show Value.float _ = Value.float _
    rw [hfr, bind_assertFloat_none properties "failure_rate" (by decide) h]
    rfl
  · subst hk
    show Value.int _ = Value.int _
    rw [hmc, bind_assertFloat_none properties "max_concurrency" (by decide) h]
    rfl

theorem Database.Initialize_settings_db (s : Database)
    (properties : Option (List (String × PropValue))) (key : String)
    (h : ∀ v, propertyAt properties key = some v → acceptedType key v = false) :
    (Component.database (s.Initialize properties).1).settings.lookup key
      = (Component.database s).settings.lookup key := by
  obtain ⟨_, _, hrl, hwl, hql, hfr, hmc⟩ := s.Initialize_fields_db properties
  apply lookup_eq_of_forall₂
  refine (.cons ⟨rfl, fun hk => ?_⟩ (.cons ⟨rfl, fun hk => ?_⟩ (.cons ⟨rfl, fun hk => ?_⟩
    (.cons ⟨rfl, fun hk => ?_⟩ (.cons ⟨rfl, fun hk => ?_⟩ .nil)))))
  · subst hk
    show Value.float _ = Value.float _
    rw [hrl, bind_assertFloat_none properties "read_latency" (by decide) h]
    rfl
  · subst hk
    show Value.float _ = Value.float _
    rw [hwl, bind_assertFloat_none properties "write_latency" (by decide) h]
    rfl
  · subst hk
    show Value.float _ = Value.float _
    rw [hql, bind_assertFloat_none properties "query_latency" (by decide) h]
    rfl
  · subst hk
    show Value.float _ = Value.float _
    rw [hfr, bind_assertFloat_none properties "failure_rate" (by decide) h]
    rfl
  · subst hk
    show Value.int _ = Value.int _
    rw [hmc, bind_assertFloat_none properties "max_connections" (by decide) h]
    rfl

theorem MessageQueue.Initialize_settings_mq (s : MessageQueue)
    (properties : Option (List (String × PropValue))) (key : String)
    (h : ∀ v, propertyAt properties key = some v → acceptedType key v = false) :
    (Component.messageQueue (s.Initialize properties).1).settings.lookup key
      = (Component.messageQueue s).settings.lookup key := by
  obtain ⟨_, _, hpt, hfr, hmq⟩ := s.Initialize_fields_mq properties
  apply lookup_eq_of_forall₂
  refine (.cons ⟨rfl, fun hk => ?_⟩ (.cons ⟨rfl, fun hk => ?_⟩ (.cons ⟨rfl, fun hk => ?_⟩ .nil)))
  · subst hk
    show Value.float _ = Value.float _
    rw [hpt, bind_assertFloat_none properties "processing_time" (by decide) h]
    rfl
  · subst hk
    show Value.float _ = Value.float _
    rw [hfr, bind_assertFloat_none properties "failure_rate" (by decide) h]
    rfl
  · subst hk
    show Value.int _ = Value.int _
    rw [hmq, bind_assertFloat_none properties "max_queue_size" (by decide) h]
    rfl

theorem Cache.Initialize_settings_cache (s : Cache)
    (properties : Option (List (String × PropValue))) (key : String)
    (h : ∀ v, propertyAt properties key = some v → acceptedType key v = false) :
    (Component.cache (s.Initialize properties).1).settings.lookup key
      = (Component.cache s).settings.lookup key := by
  obtain ⟨_, _, hhr, hat, hfr, hms⟩ := s.Initialize_fields_cache properties
  apply lookup_eq_of_forall₂
  refine (.cons ⟨rfl, fun hk => ?_⟩ (.cons ⟨rfl, fun hk => ?_⟩ (.cons ⟨rfl, fun hk => ?_⟩
    (.cons ⟨rfl, fun hk => ?_⟩ .nil))))
  · subst hk
    show Value.float _ = Value.float _
    rw [hhr, bind_assertFloat_none properties "hit_ratio" (by decide) h]
    rfl
  · subst hk
    show Value.float _ = Value.float _
    rw [hat, bind_assertFloat_none properties "access_time" (by decide) h]
    rfl
  · subst hk
    show Value.float _ = Value.float _
    rw [hfr, bind_assertFloat_none properties "failure_rate" (by decide) h]
    rfl
  · subst hk
    show Value.int _ = Value.int _
    rw [hms, bind_assertFloat_none properties "max_size" (by decide) h]
    rfl

theorem LoadBalancer.initializeFields_servers (lb : LoadBalancer)
    (properties : Option (List (String × PropValue))) :
    (lb.initializeFields properties).BackendServers = lb.BackendServers := by
  unfold LoadBalancer.initializeFields
  generalize (propertyAt properties "algorithm").bind assertString = o1
  generalize (propertyAt properties "health_check_interval").bind assertFloat = o2
  generalize (propertyAt properties "routing_latency").bind assertFloat = o3
  generalize (propertyAt properties "failure_rate").bind assertFloat = o4
  cases o1 <;> cases o2 <;> cases o3 <;> cases o4 <;> rfl

theorem APIGateway.initializeFields_routes (ag : APIGateway)
    (properties : Option (List (String × PropValue))) :
    (ag.initializeFields properties).Routes = ag.Routes := by
  unfold APIGateway.initializeFields
  generalize (propertyAt properties "routing_latency").bind assertFloat = o1
  generalize (propertyAt properties "failure_rate").bind assertFloat = o2
  generalize (propertyAt properties "max_concurrency").bind assertFloat = o3
  cases o1 <;> cases o2 <;> cases o3 <;> rfl

theorem LoadBalancer.Initialize_settings_lb (s : LoadBalancer)
    (properties : Option (List (String × PropValue))) (r : LoadBalancer × Option String)
    (hr : s.Initialize properties = some r) (key : String)
    (h : ∀ v, propertyAt properties key = some v → acceptedType key v = false) :
    (Component.loadBalancer r.1).settings.lookup key
      = (Component.loadBalancer s).settings.lookup key := by
  obtain ⟨_, hfields⟩ := s.Initialize_fields_lb properties r hr
  obtain ⟨_, halgo, hhci, hrl, hfr⟩ := s.initializeFields_fields_lb properties
  apply lookup_eq_of_forall₂
  refine (.cons ⟨rfl, fun hk => ?_⟩ (.cons ⟨rfl, fun hk => ?_⟩ (.cons ⟨rfl, fun hk => ?_⟩
    (.cons ⟨rfl, fun hk => ?_⟩ .nil))))
  · subst hk
    show Value.str r.1.Algorithm = Value.str _
    rw [hfields]
    show Value.str (s.initializeFields properties).Algorithm = _
    rw [halgo, bind_assertString_none properties h]
    rfl
  · subst hk
    show Value.float r.1.HealthCheckInterval = Value.float _
    rw [hfields]
    show Value.float (s.initializeFields properties).HealthCheckInterval = _
    rw [hhci, bind_assertFloat_none properties "health_check_interval" (by decide) h]
    rfl
  · subst hk
    show Value.float r.1.RoutingLatency = Value.float _
    rw [hfields]
    show Value.float (s.initializeFields properties).RoutingLatency = _
    rw [hrl, bind_assertFloat_none properties "routing_latency" (by decide) h]
    rfl
  · subst hk
    show Value.float r.1.FailureRate = Value.float _
    rw [hfields]
    show Value.float (s.initializeFields properties).FailureRate = _
    rw [hfr, bind_assertFloat_none properties "failure_rate" (by decide) h]
    rfl

theorem APIGateway.Initialize_settings_ag (s : APIGateway)
    (properties : Option (List (String × PropValue))) (r : APIGateway × Option String)
    (hr : s.Initialize properties = some r) (key : String)
    (h : ∀ v, propertyAt properties key = some v → acceptedType key v = false) :
    (Component.apiGateway r.1).settings.lookup key
      = (Component.apiGateway s).settings.lookup key := by
  obtain ⟨_, hfields⟩ := s.Initialize_fields_ag properties r hr
  obtain ⟨_, hrl, hfr, hmc⟩ := s.initializeFields_fields_ag properties
  apply lookup_eq_of_forall₂
  refine (.cons ⟨rfl, fun hk => ?_⟩ (.cons ⟨rfl, fun hk => ?_⟩ (.cons ⟨rfl, fun hk => ?_⟩
    .nil)))
  · subst hk
    show Value.float r.1.RoutingLatency = Value.float _
    rw [hfields]
    show Value.float (s.initializeFields properties).RoutingLatency = _
    rw [hrl, bind_assertFloat_none properties "routing_latency" (by decide) h]
    rfl
  · subst hk
    show Value.float r.1.FailureRate = Value.float _
    rw [hfields]
    show Value.float (s.initializeFields properties).FailureRate = _
    rw [hfr, bind_assertFloat_none properties "failure_rate" (by decide) h]
    rfl
  · subst hk
    show Value.int r.1.MaxConcurrency = Value.int _
    rw [hfields]
    show Value.int (s.initializeFields properties).MaxConcurrency = _
    rw [hmc, bind_assertFloat_none properties "max_concurrency" (by decide) h]
    rfl

theorem LoadBalancer.Initialize_no_list_lb (s : LoadBalancer)
    (properties : Option (List (String × PropValue)))
    (h : ∀ l, propertyAt properties "backend_servers" ≠ some (PropValue.list l)) :
    s.Initialize properties = some (s.initializeFields properties, none) := by
  unfold LoadBalancer.Initialize
  dsimp only
  split
  · next l hl => exact absurd hl (h l)
  · rfl

theorem APIGateway.Initialize_no_list_ag (s : APIGateway)
    (properties : Option (List (String × PropValue)))
    (h : ∀ l, propertyAt properties "routes" ≠ some (PropValue.list l)) :
    s.Initialize properties = some (s.initializeFields properties, none) := by
  unfold APIGateway.Initialize
  dsimp only
  split
  · next l hl => exact absurd hl (h l)
  · rfl


theorem Component.Initialize_settings (c c' : Component)
    (properties : Option (List (String × PropValue))) (err : Option String)
    (hdone : c.Initialize properties = Outcome.done (c', err)) (key : String)
    (h : ∀ v, propertyAt properties key = some v → acceptedType key v = false) :
    c'.settings.lookup key = c.settings.lookup key := by
  cases c with
  | genericService s =>
    simp only [Component.Initialize, Outcome.done.injEq, Prod.mk.injEq] at hdone
    rw [← hdone.1]
    exact s.Initialize_settings_gs properties key h
  | database s =>
    simp only [Component.Initialize, Outcome.done.injEq, Prod.mk.injEq] at hdone
    rw [← hdone.1]
    exact s.Initialize_settings_db properties key h
  | messageQueue s =>
    simp only [Component.Initialize, Outcome.done.injEq, Prod.mk.injEq] at hdone
    rw [← hdone.1]
    exact s.Initialize_settings_mq properties key h
  | loadBalancer s =>
    simp only [Component.Initialize] at hdone
    split at hdone
    · exact Outcome.noConfusion hdone
    · next r hr =>
      simp only [Outcome.done.injEq, Prod.mk.injEq] at hdone
      rw [← hdone.1]
      exact s.Initialize_settings_lb properties r hr key h
  | cache s =>
    simp only [Component.Initialize, Outcome.done.injEq, Prod.mk.injEq] at hdone
    rw [← hdone.1]
    exact s.Initialize_settings_cache properties key h
  | apiGateway s =>
    simp only [Component.Initialize] at hdone
    split at hdone
    · exact Outcome.noConfusion hdone
    · next r hr =>
      simp only [Outcome.done.injEq, Prod.mk.injEq] at hdone
      rw [← hdone.1]
      exact s.Initialize_settings_ag properties r hr key h

theorem Component.Initialize_collections (c c' : Component)
    (properties : Option (List (String × PropValue))) (err : Option String)
    (hdone : c.Initialize properties = Outcome.done (c', err))
    (h : ∀ key ∈ ["backend_servers", "routes"], ∀ l,
      propertyAt properties key ≠ some (PropValue.list l)) :
    c'.collections = c.collections := by
  cases c with
  | genericService s =>
    simp only [Component.Initialize, Outcome.done.injEq, Prod.mk.injEq] at hdone
    rw [← hdone.1]
    rfl
  | database s =>
    simp only [Component.Initialize, Outcome.done.injEq, Prod.mk.injEq] at hdone
    rw [← hdone.1]
    rfl
  | messageQueue s =>
    simp only [Component.Initialize, Outcome.done.injEq, Prod.mk.injEq] at hdone
    rw [← hdone.1]
    rfl
  | loadBalancer s =>
    have hno := s.Initialize_no_list_lb properties (h "backend_servers" (by decide))
    simp only [Component.Initialize, hno, Outcome.done.injEq, Prod.mk.injEq] at hdone
    rw [← hdone.1]
    show ((s.initializeFields properties).BackendServers, _) = _
    rw [s.initializeFields_servers properties]
    rfl
  | cache s =>
    simp only [Component.Initialize, Outcome.done.injEq, Prod.mk.injEq] at hdone
    rw [← hdone.1]
    rfl
  | apiGateway s =>
    have hno := s.Initialize_no_list_ag properties (h "routes" (by decide))
    simp only [Component.Initialize, hno, Outcome.done.injEq, Prod.mk.injEq] at hdone
    rw [← hdone.1]
    show (_, (s.initializeFields properties).Routes) = _
    rw [s.initializeFields_routes properties]
    rfl

theorem Component.Initialize_panicked_iff (c : Component)
    (properties : Option (List (String × PropValue))) :
    (c.Initialize properties = Outcome.panicked ↔ c.initializePanics properties) ∧
      (¬ c.initializePanics properties →
        ∃ c', c.Initialize properties = Outcome.done (c', none)) := by
  cases c with
  | genericService s =>
    simp only [Component.Initialize, Component.initializePanics, (s.Initialize_fields_gs _).1]
    exact ⟨⟨fun h => Outcome.noConfusion h, fun h => h.elim⟩, fun _ => ⟨_, rfl⟩⟩
  | database s =>
    simp only [Component.Initialize, Component.initializePanics, (s.Initialize_fields_db _).1]
    exact ⟨⟨fun h => Outcome.noConfusion h, fun h => h.elim⟩, fun _ => ⟨_, rfl⟩⟩
  | messageQueue s =>
    simp only [Component.Initialize, Component.initializePanics, (s.Initialize_fields_mq _).1]
    exact ⟨⟨fun h => Outcome.noConfusion h, fun h => h.elim⟩, fun _ => ⟨_, rfl⟩⟩
  | loadBalancer s =>
    simp only [Component.Initialize, Component.initializePanics]
    rw [← s.Initialize_none_iff_lb properties]
    cases hr : s.Initialize properties with
    | none => exact ⟨⟨fun _ => rfl, fun _ => rfl⟩, fun h => absurd rfl h⟩
    | some r =>
      refine ⟨⟨fun h => Outcome.noConfusion h, fun h => Option.noConfusion h⟩, fun _ => ?_⟩
      obtain ⟨herr, _⟩ := s.Initialize_fields_lb properties r hr
      exact ⟨Component.loadBalancer r.1, by rw [← herr]⟩
  | cache s =>
    simp only [Component.Initialize, Component.initializePanics, (s.Initialize_fields_cache _).1]
    exact ⟨⟨fun h => Outcome.noConfusion h, fun h => h.elim⟩, fun _ => ⟨_, rfl⟩⟩
  | apiGateway s =>
    simp only [Component.Initialize, Component.initializePanics]
    rw [← s.Initialize_none_iff_ag properties]
    cases hr : s.Initialize properties with
    | none => exact ⟨⟨fun _ => rfl, fun _ => rfl⟩, fun h => absurd rfl h⟩
    | some r =>
      refine ⟨⟨fun h => Outcome.noConfusion h, fun h => Option.noConfusion h⟩, fun _ => ?_⟩
      obtain ⟨herr, _⟩ := s.Initialize_fields_ag properties r hr
      exact ⟨Component.apiGateway r.1, by rw [← herr]⟩

/-- C28 (counterexample): each of the six components, as its constructor builds
it, accepts a property map with an unknown key (`colour`), a string under
`processing_time` and an `int` under `failure_rate`: `Initialize` returns a `nil`
error, the map is stored as the property map, and every setting keeps the value
it had. -/
theorem initialize_accepts_bad_configuration :
    (Component.genericService (NewGenericService "c")).acceptsUnchanged badProperties ∧
    (Component.database (NewDatabase "c")).acceptsUnchanged badProperties ∧
    (Component.messageQueue (NewMessageQueue "c")).acceptsUnchanged badProperties ∧
    (Component.loadBalancer (NewLoadBalancer "c")).acceptsUnchanged badProperties ∧
    (Component.cache (NewCache "c")).acceptsUnchanged badProperties ∧
    (Component.apiGateway (NewAPIGateway "c")).acceptsUnchanged badProperties :=
  ⟨⟨_, rfl, rfl, rfl⟩, ⟨_, rfl, rfl, rfl⟩, ⟨_, rfl, rfl, rfl⟩, ⟨_, rfl, rfl, rfl⟩,
    ⟨_, rfl, rfl, rfl⟩, ⟨_, rfl, rfl, rfl⟩⟩

/-- C28 (amended): for every concrete component, `Initialize(props)` returns no
configuration error when `props` holds an unknown key or a recognised key whose
value has an invalid type.  Whenever the call returns, its error is `nil`,
`props` (when not `nil`) is stored as the property map, every scalar setting
whose key is absent from `props` or has a value of another type than the one
read (a string for `algorithm`, a `float64` otherwise) keeps its value, and the
backends and routes are unchanged when neither `backend_servers` nor `routes`
holds a list.  The call returns unless it panics, which only the load balancer
and the gateway do, on a list element under `backend_servers` or `routes` that
is a map with a missing or mistyped field. -/
theorem initialize_returns_no_error (c : Component)
    (properties : Option (List (String × PropValue))) :
    (∀ c' err, c.Initialize properties = Outcome.done (c', err) →
      err = none ∧ c'.base = c.base.Initialize properties ∧
      (∀ key, (∀ v, propertyAt properties key = some v → acceptedType key v = false) →
        c'.settings.lookup key = c.settings.lookup key) ∧
      ((∀ key ∈ ["backend_servers", "routes"], ∀ l,
          propertyAt properties key ≠ some (PropValue.list l)) →
        c'.collections = c.collections)) ∧
    (c.Initialize properties = Outcome.panicked ↔ c.initializePanics properties) ∧
    (¬ c.initializePanics properties →
      ∃ c', c.Initialize properties = Outcome.done (c', none)) := by
  refine ⟨fun c' err hdone => ?_, (c.Initialize_panicked_iff properties).1,
    (c.Initialize_panicked_iff properties).2⟩
  obtain ⟨herr, hbase⟩ := Component.Initialize_base c c' properties err hdone
  exact ⟨herr, hbase, fun key h => Component.Initialize_settings c c' properties err hdone key h,
    Component.Initialize_collections c c' properties err hdone⟩

/-- Witness for C28: the default generic service and a property map with strings
under `processing_time` and `failure_rate`.  `Initialize` returns a `nil` error,
the map is stored, and `processing_time` is still `1`. -/
theorem initialize_returns_no_error_witness :
    ∃ c', (Component.genericService (NewGenericService "c")).Initialize
        (some [("processing_time", PropValue.scalar (Value.str "fast")),
          ("failure_rate", PropValue.scalar (Value.str "low"))])
        = Outcome.done (c', none) ∧
      c'.GetProperties = [("processing_time", PropValue.scalar (Value.str "fast")),
        ("failure_rate", PropValue.scalar (Value.str "low"))] ∧
      c'.settings.lookup "processing_time" = some (Value.float 1) := by
  have h := initialize_returns_no_error (Component.genericService (NewGenericService "c"))
    (some [("processing_time", PropValue.scalar (Value.str "fast")),
      ("failure_rate", PropValue.scalar (Value.str "low"))])
  obtain ⟨c', hc'⟩ := h.2.2 (fun hp => hp)
  obtain ⟨_, hbase, hset, _⟩ := h.1 c' none hc'
  refine ⟨c', hc', ?_, ?_⟩
  · show c'.base.Properties = _
    rw [hbase]
    rfl
  · rw [hset "processing_time" ?_]
    · rfl
    · intro v hv
      have hval : propertyAt (some [("processing_time", PropValue.scalar (Value.str "fast")),
          ("failure_rate", PropValue.scalar (Value.str "low"))]) "processing_time"
          = some (PropValue.scalar (Value.str "fast")) := rfl
      rw [hval, Option.some.injEq] at hv
      rw [← hv]
      rfl

/-! ## Theorems: cache read of an absent key -/

theorem Cache.handleCacheRead_absent (c : Cache) (rt : Runtime) (event : Event)
    (hd : ¬ rt.Float64 0 < c.FailureRate)
    (habsent : c.Entries.lookup ((event.GetDataValue "key").1.format rt) = none) :
    c.handleCacheRead rt event
      = (({ c.SetState StateProcessing with CacheMisses := c.CacheMisses + 1 }).SetState
          StateIdle,
         [rt.newEvent 0 "cache_miss" c.GetID (event.Timestamp + c.AccessTime) RequestFailed
            c.GetID
            [("operation", Value.str "read"), ("result", Value.str "miss"),
             ("key", Value.str ((event.GetDataValue "key").1.format rt)),
             ("access_time", Value.float c.AccessTime),
             ("request_id", (event.GetDataValue "request_id").1)]]) := by
  have hlook : (c.SetState StateProcessing).readLookup rt
      ((event.GetDataValue "key").1.format rt) event = (c.SetState StateProcessing, false) := by
    unfold Cache.readLookup
    have h2 : (c.SetState StateProcessing).Entries.lookup
        ((event.GetDataValue "key").1.format rt) = none := habsent
    rw [h2]
  unfold Cache.handleCacheRead
  dsimp only
  rw [if_neg hd, hlook]
  rfl

/-- C35: for every cache state and every `DatabaseRead` at time `t` whose key
(as `%v` prints it) is not a key of the entries, when the failure draw does not
fire (`failure_rate <= rand.Float64()`), `HandleEvent` returns exactly one event,
a `RequestFailed` of the cache with result `miss` at `t + access_time`;
`cache_misses` grows by one and the entries, `current_size`, `cache_hits` and
`cache_evictions` are unchanged.  The hit-ratio draw (the second draw of the
runtime) is not looked at: the statement holds for every runtime. -/
theorem cache_read_absent_key_is_miss (c : Cache) (rt : Runtime) (fuel : Nat) (event : Event)
    (hk : event.Kind = DatabaseRead) (hd : c.FailureRate ≤ rt.Float64 0)
    (habsent : c.Entries.lookup ((event.GetDataValue "key").1.format rt) = none) :
    ∃ c' ev, c.HandleEvent rt fuel event = some (c', [ev]) ∧
      ev.Kind = RequestFailed ∧ ev.ComponentID = c.GetID ∧
      ev.Data.lookup "result" = some (Value.str "miss") ∧
      ev.Timestamp = event.Timestamp + c.AccessTime ∧
      c'.CacheMisses = c.CacheMisses + 1 ∧ c'.Entries = c.Entries ∧
      c'.CurrentSize = c.CurrentSize ∧ c'.CacheHits = c.CacheHits ∧
      c'.CacheEvictions = c.CacheEvictions := by
  obtain ⟨b, hb, _⟩ := Cache.updateMetrics_eq_cache (c.handleCacheRead rt event).1 event
  have hH : c.HandleEvent rt fuel event
      = some ((c.handleCacheRead rt event).1.updateMetrics event,
          (c.handleCacheRead rt event).2) := by
    unfold Cache.HandleEvent
    rw [if_pos hk]
  rw [hH, hb, c.handleCacheRead_absent rt event (not_lt.mpr hd) habsent]
  exact ⟨_, _, rfl, rfl, rfl, rfl, rfl, rfl, rfl, rfl, rfl, rfl⟩

/-- Witness for C35: the read of `TestCacheOperations`, key `test-key` at time 1
on the started default cache (no entries, access time `0.01`): one
`RequestFailed` with result `miss` at `1.01`, and `cache_misses` is 1. -/
theorem cache_read_absent_key_is_miss_witness :
    ∃ c' ev, (NewCache "c").Start.HandleEvent quietRuntime 0 (readAt "test-key" 1)
        = some (c', [ev]) ∧
      ev.Kind = RequestFailed ∧ ev.Data.lookup "result" = some (Value.str "miss") ∧
      ev.Timestamp = 101 / 100 ∧ c'.CacheMisses = 1 ∧ c'.Entries = [] := by
  have hd : (NewCache "c").Start.FailureRate ≤ quietRuntime.Float64 0 := by
    show (1 / 1000 : Rat) ≤ 1 / 2
    norm_num
  obtain ⟨c', ev, h, hkind, _, hres, hts, hmiss, hent, _⟩ :=
    cache_read_absent_key_is_miss (NewCache "c").Start quietRuntime 0 (readAt "test-key" 1)
      rfl hd rfl
  refine ⟨c', ev, h, hkind, hres, ?_, ?_, ?_⟩
  · rw [hts]
    show (1 : Rat) + 1 / 100 = 101 / 100
    norm_num
  · rw [hmiss]
    rfl
  · rw [hent]
    rfl

/-! ## Theorems: draining the queue -/

theorem drain_spec : ∀ (n : Nat) (q : EventQueue), IsHeap q.items → q.items.length = n →
    ∀ fuel, n < fuel →
      ∃ out, drain fuel q = some (out, { items := [] }) ∧ out.Perm q.items ∧
        out.Pairwise keyLE := by
  intro n
  induction n with
  | zero =>
    intro q hq hlen fuel hfuel
    have hnil : q.items = [] := List.length_eq_zero.mp hlen
    obtain ⟨f, rfl⟩ : ∃ f, fuel = f + 1 := ⟨fuel - 1, by omega⟩
    refine ⟨[], ?_, by rw [hnil], List.Pairwise.nil⟩
    rw [drain, Dequeue_empty q hnil]
    cases q
    simp only at hnil
    rw [hnil]
  | succ n ih =>
    intro q hq hlen fuel hfuel
    have hne : q.items ≠ [] := by
      intro h
      rw [h] at hlen
      simp at hlen
    obtain ⟨f, rfl⟩ : ∃ f, fuel = f + 1 := ⟨fuel - 1, by omega⟩
    obtain ⟨hroot, hheap, hperm⟩ := Dequeue_spec q hq hne
    have hlen1 : q.Dequeue.2.items.length = n := by
      have := hperm.length_eq
      simp only [List.length_cons] at this
      omega
    obtain ⟨out, hout, hp, hs⟩ := ih q.Dequeue.2 hheap hlen1 f (by omega)
    have hsplit : q.Dequeue = (some (itemAt q.items 0), q.Dequeue.2) := by
      rw [← hroot]
    refine ⟨itemAt q.items 0 :: out, ?_, ?_, ?_⟩
    · rw [drain, hsplit]
      simp only []
      rw [hout]
    · exact (List.Perm.cons _ hp).trans hperm
    · rw [List.pairwise_cons]
      refine ⟨fun y hy => ?_, hs⟩
      exact IsHeap_root_min hq y (hperm.subset (List.mem_cons_of_mem _ (hp.subset hy)))

/-- C36: for every finite list of events enqueued into an empty queue, calling
`Dequeue` until it returns `nil` ends after `length + 1` calls (whatever larger
bound is allowed), and the events returned before the `nil` are every enqueued
event exactly once (a permutation of the list), in lexicographically
non-decreasing order of (timestamp, priority); the queue is then empty, and a
further `Dequeue` returns `nil` and leaves it empty. -/
theorem drain_sorts (es : List Event) (fuel : Nat) :
    es.length < fuel →
    ∃ out, drain fuel (enqueueAll NewEventQueue es) = some (out, { items := [] }) ∧
      out.Perm es ∧ out.Pairwise keyLE ∧
      ({ items := [] } : EventQueue).Dequeue = (none, { items := [] }) := by
  intro hfuel
  obtain ⟨hheap, hperm⟩ := enqueueAll_new_spec es
  obtain ⟨out, hout, hp, hs⟩ := drain_spec es.length _ hheap hperm.length_eq fuel hfuel
  exact ⟨out, hout, hp.trans hperm, hs, Dequeue_empty _ rfl⟩

/-- Witness for C36: three arrivals at times 2, 1 and 1 with priorities 0, 1
and 0 come out of the queue in four `Dequeue` calls as a permutation in
(timestamp, priority) order. -/
theorem drain_sorts_witness :
    ∃ out, drain 4 (enqueueAll NewEventQueue
        [arrivalAt "a" 2 0, arrivalAt "b" 1 1, arrivalAt "c" 1 0])
        = some (out, { items := [] }) ∧
      out.Perm [arrivalAt "a" 2 0, arrivalAt "b" 1 1, arrivalAt "c" 1 0] ∧
      out.Pairwise keyLE := by
  obtain ⟨out, h1, h2, h3, _⟩ :=
    drain_sorts [arrivalAt "a" 2 0, arrivalAt "b" 1 1, arrivalAt "c" 1 0] 4 (by decide)
  exact ⟨out, h1, h2, h3⟩

/-- C37 (failing input): on a full cache of capacity 2 whose oldest entry is
stored under the empty key, `evictEntries` for one unit of space is still in its
loop after any number of iterations, from any traversal count: a pass of the
loop finds `oldestKey = ""`, removes nothing and leaves the loop condition as it
was.  The `DatabaseWrite` of a new key `C` of size 1 therefore never returns. -/
theorem eviction_spins_on_empty_key :
    (∀ fuel k, Cache.evictEntries quietRuntime 1 fuel k emptyKeyCache = none) ∧
    (∀ fuel k, Cache.evictEntries quietRuntime 1 (fuel + 1) k emptyKeyCache
      = Cache.evictEntries quietRuntime 1 fuel (k + 1) emptyKeyCache) ∧
    (∀ fuel, emptyKeyCache.HandleEvent quietRuntime fuel (writeAt "C" 1 3) = none) := by
  have hcond : wrapInt64 (emptyKeyCache.CurrentSize + 1) > emptyKeyCache.MaxSize ∧
      emptyKeyCache.Entries.length > 0 := by decide
  have hkey : ∀ k, (findOldest (emptyKeyCache.rangeEntries quietRuntime k)).1 = "" := by
    intro k
    have hrange : emptyKeyCache.rangeEntries quietRuntime k
        = [("", entryAt "" 1 1), ("B", entryAt "B" 1 2)] := rfl
    rw [hrange]
    simp only [findOldest, entryAt, List.foldl_cons, List.foldl_nil]
    norm_num
  have hspin := Cache.evictEntries_spin quietRuntime 1 emptyKeyCache hcond hkey
  refine ⟨hspin, fun fuel k =>
    Cache.evictEntries_stall quietRuntime 1 fuel k emptyKeyCache hcond (hkey k), fun fuel => ?_⟩
  apply emptyKeyCache.write_hangs quietRuntime fuel (writeAt "C" 1 3) rfl
  · exact quiet_no_failure _ (by show (0 : Rat) ≤ 1 / 2; norm_num)
  · unfold Cache.makeRoom
    have hsize : writeSize (writeAt "C" 1 3) = 1 := rfl
    rw [hsize]
    have hfit : wrapInt64 ((emptyKeyCache.SetState StateProcessing).CurrentSize + 1)
        > (emptyKeyCache.SetState StateProcessing).MaxSize := by decide
    rw [if_pos hfit]
    have hcond2 : wrapInt64 ((emptyKeyCache.SetState StateProcessing).CurrentSize + 1)
        > (emptyKeyCache.SetState StateProcessing).MaxSize ∧
        (emptyKeyCache.SetState StateProcessing).Entries.length > 0 := by decide
    exact Cache.evictEntries_spin quietRuntime 1 _ hcond2 (fun k => hkey k) fuel 0

/-! ## Theorems: engine control -/

theorem Component.Stop_state (c : Component) : c.Stop.GetState = StateStopped := by
  cases c <;> rfl

theorem SimulationEngine.Pause_spec (se : SimulationEngine) :
    (se.state = StateRunning → se.Pause = ({ se with state := StatePaused }, none)) ∧
    (se.state ≠ StateRunning → se.Pause = (se, some "simulation is not running")) := by
  constructor
  · intro h
    unfold SimulationEngine.Pause
    rw [if_neg (not_not.mpr h)]
  · intro h
    unfold SimulationEngine.Pause
    rw [if_pos h]

theorem SimulationEngine.Resume_spec (se : SimulationEngine) :
    (se.state = StatePaused → se.Resume = ({ se with state := StateRunning }, none)) ∧
    (se.state ≠ StatePaused → se.Resume = (se, some "simulation is not paused")) := by
  constructor
  · intro h
    unfold SimulationEngine.Resume
    rw [if_neg (not_not.mpr h)]
  · intro h
    unfold SimulationEngine.Resume
    rw [if_pos h]

theorem SimulationEngine.Stop_spec (se : SimulationEngine) (now : Int) :
    (se.state = StateRunning ∨ se.state = StatePaused →
      se.Stop now =
        ({ se with cancelled := true, state := SimStateStopped,
                   metrics := { se.metrics with EndTime := now },
                   components := se.components.map (fun p => (p.1, p.2.Stop)) }, none)) ∧
    (¬ (se.state = StateRunning ∨ se.state = StatePaused) →
      se.Stop now = (se, some "simulation is not running")) := by
  constructor
  · intro h
    unfold SimulationEngine.Stop
    rw [if_neg (by rw [not_and_or, not_not, not_not]; exact h)]
  · intro h
    unfold SimulationEngine.Stop
    rw [if_pos (by rw [not_or] at h; exact h)]

theorem SimulationEngine.Start_spec (se : SimulationEngine) (now : Int) :
    (se.state ≠ StateRunning →
      se.Start now =
        ({ se with components := se.components.map (fun p => (p.1, p.2.Start)),
                   state := StateRunning,
                   metrics := { se.metrics with StartTime := now,
                                                ComponentsActive := se.components.length } },
         none)) ∧
    (se.state = StateRunning → se.Start now = (se, some "simulation is already running")) := by
  constructor
  · intro h
    unfold SimulationEngine.Start
    rw [if_neg h]
  · intro h
    unfold SimulationEngine.Start
    rw [if_pos h]

/-- What `Reset` does: it fails exactly on a running engine, which it leaves as it
is; otherwise it zeroes the clock, empties the queue, stops every component and
zeroes the listed metrics, while `ComponentsActive`, `StartTime` and `EndTime`
keep their values. -/
theorem SimulationEngine.Reset_spec (se : SimulationEngine) :
    (se.Reset.2 ≠ none ↔ se.state = StateRunning) ∧
    (se.state = StateRunning → se.Reset.1 = se) ∧
    (se.state ≠ StateRunning →
      se.Reset.2 = none ∧ se.Reset.1.currentTime = 0 ∧ se.Reset.1.state = StateInitialized ∧
      se.Reset.1.eventQueue.items = [] ∧
      (∀ p ∈ se.Reset.1.components, p.2.GetState = StateStopped) ∧
      se.Reset.1.components.map Prod.fst = se.components.map Prod.fst ∧
      se.Reset.1.metrics.EventsProcessed = 0 ∧ se.Reset.1.metrics.ErrorCount = 0 ∧
      se.Reset.1.GetMetrics.CurrentTime = 0 ∧ se.Reset.1.metrics.CurrentTime = 0 ∧
      se.Reset.1.metrics.EventTypeStats = [] ∧ se.Reset.1.metrics.ComponentStats = [] ∧
      se.Reset.1.metrics.ComponentsActive = se.metrics.ComponentsActive ∧
      se.Reset.1.metrics.StartTime = se.metrics.StartTime ∧
      se.Reset.1.metrics.EndTime = se.metrics.EndTime ∧
      se.Reset.1.cancelled = se.cancelled) := by
  by_cases h : se.state = StateRunning
  · have hr : se.Reset = (se, some "cannot reset while simulation is running") := by
      unfold SimulationEngine.Reset
      rw [if_pos h]
    rw [hr]
    exact ⟨⟨fun _ => h, fun _ => by simp⟩, fun _ => rfl, fun h2 => absurd h h2⟩
  · have hr : se.Reset =
        ({ se with currentTime := 0, state := StateInitialized,
                   eventQueue := se.eventQueue.Clear,
                   metrics := { se.metrics with EventsProcessed := 0, CurrentTime := 0,
                                                ErrorCount := 0, EventTypeStats := [],
                                                ComponentStats := [] },
                   components := se.components.map (fun p => (p.1, p.2.Stop)) }, none) := by
      unfold SimulationEngine.Reset
      rw [if_neg h]
    rw [hr]
    refine ⟨⟨fun h2 => absurd rfl h2, fun h2 => absurd h2 h⟩, fun h2 => absurd h2 h, fun _ => ?_⟩
    refine ⟨rfl, rfl, rfl, rfl, ?_, ?_, rfl, rfl, rfl, rfl, rfl, rfl, rfl, rfl, rfl, rfl⟩
    · intro p hp
      obtain ⟨q, _, rfl⟩ := List.mem_map.mp hp
      exact Component.Stop_state q.2
    · show (se.components.map (fun p => (p.1, p.2.Stop))).map Prod.fst = _
      rw [List.map_map]
      rfl

/-- C31: the control calls are guarded by the state.  `Pause` succeeds exactly
on a running engine and makes it paused, `Resume` succeeds exactly on a paused
engine and makes it running, `Stop` succeeds exactly on a running or paused
engine and makes it stopped; a successful `Pause` or `Resume` changes nothing
but the state, a failing call returns the engine as it was, and `Pause` then
`Resume` on a running engine both succeed and give back the engine as it
was. -/
theorem control_transitions_guarded (se : SimulationEngine) (now : Int) :
    (se.Pause.2 = none ↔ se.state = StateRunning) ∧
    (se.Pause.2 = none → se.Pause.1 = { se with state := StatePaused }) ∧
    (se.Resume.2 = none ↔ se.state = StatePaused) ∧
    (se.Resume.2 = none → se.Resume.1 = { se with state := StateRunning }) ∧
    ((se.Stop now).2 = none ↔ (se.state = StateRunning ∨ se.state = StatePaused)) ∧
    ((se.Stop now).2 = none →
      (se.Stop now).1.state = SimStateStopped ∧ (se.Stop now).1.currentTime = se.currentTime ∧
      (se.Stop now).1.eventQueue = se.eventQueue) ∧
    (se.Pause.2 ≠ none → se.Pause.1 = se) ∧
    (se.Resume.2 ≠ none → se.Resume.1 = se) ∧
    ((se.Stop now).2 ≠ none → (se.Stop now).1 = se) ∧
    (se.state = StateRunning →
      se.Pause.2 = none ∧ se.Pause.1.Resume.2 = none ∧ se.Pause.1.Resume.1 = se) := by
  have hp := se.Pause_spec
  have hr := se.Resume_spec
  have hs := se.Stop_spec now
  refine ⟨?_, ?_, ?_, ?_, ?_, ?_, ?_, ?_, ?_, ?_⟩
  · by_cases h : se.state = StateRunning
    · rw [hp.1 h]; exact ⟨fun _ => h, fun _ => rfl⟩
    · rw [hp.2 h]; exact ⟨fun h2 => by simp at h2, fun h2 => absurd h2 h⟩
  · by_cases h : se.state = StateRunning
    · rw [hp.1 h]; exact fun _ => rfl
    · rw [hp.2 h]; exact fun h2 => by simp at h2
  · by_cases h : se.state = StatePaused
    · rw [hr.1 h]; exact ⟨fun _ => h, fun _ => rfl⟩
    · rw [hr.2 h]; exact ⟨fun h2 => by simp at h2, fun h2 => absurd h2 h⟩
  · by_cases h : se.state = StatePaused
    · rw [hr.1 h]; exact fun _ => rfl
    · rw [hr.2 h]; exact fun h2 => by simp at h2
  · by_cases h : se.state = StateRunning ∨ se.state = StatePaused
    · rw [hs.1 h]; exact ⟨fun _ => h, fun _ => rfl⟩
    · rw [hs.2 h]; exact ⟨fun h2 => by simp at h2, fun h2 => absurd h2 h⟩
  · by_cases h : se.state = StateRunning ∨ se.state = StatePaused
    · rw [hs.1 h]; exact fun _ => ⟨rfl, rfl, rfl⟩
    · rw [hs.2 h]; exact fun h2 => by simp at h2
  · by_cases h : se.state = StateRunning
    · rw [hp.1 h]; exact fun h2 => absurd rfl h2
    · rw [hp.2 h]; exact fun _ => rfl
  · by_cases h : se.state = StatePaused
    · rw [hr.1 h]; exact fun h2 => absurd rfl h2
    · rw [hr.2 h]; exact fun _ => rfl
  · by_cases h : se.state = StateRunning ∨ se.state = StatePaused
    · rw [hs.1 h]; exact fun h2 => absurd rfl h2
    · rw [hs.2 h]; exact fun _ => rfl
  · intro h
    rw [hp.1 h]
    have h2 := ({ se with state := StatePaused } : SimulationEngine).Resume_spec.1 rfl
    rw [h2]
    refine ⟨rfl, rfl, ?_⟩
    cases se
    simp only at h
    subst h
    rfl

theorem control_transitions_guarded_witness :
    runningEngine.state = StateRunning ∧
    runningEngine.Pause.1.state = StatePaused ∧
    runningEngine.Pause.1.Resume.1 = runningEngine ∧
    (runningEngine.Stop 7).1.state = SimStateStopped ∧
    (NewSimulationEngine none).Pause.1 = NewSimulationEngine none :=
  ⟨rfl,
   by rw [(control_transitions_guarded runningEngine 7).2.1
            ((control_transitions_guarded runningEngine 7).1.mpr rfl)],
   ((control_transitions_guarded runningEngine 7).2.2.2.2.2.2.2.2.2 rfl).2.2,
   ((control_transitions_guarded runningEngine 7).2.2.2.2.2.1
      ((control_transitions_guarded runningEngine 7).2.2.2.2.1.mpr (Or.inl rfl))).1,
   (control_transitions_guarded (NewSimulationEngine none) 7).2.2.2.2.2.2.1
     (fun h => absurd ((control_transitions_guarded (NewSimulationEngine none) 7).1.mp h)
       (by decide))⟩

theorem serviceEngine_eq :
    serviceEngine =
      { NewSimulationEngine none with
        components := [("svc", Component.genericService (NewGenericService "svc"))] } := by
  have hv : (Component.genericService (NewGenericService "svc")).Validate = none :=
    NewGenericService_valid "svc" (by decide)
  unfold serviceEngine SimulationEngine.AddComponent
  rw [if_neg (by decide)]
  simp only [hv]
  rfl

theorem stoppedServiceEngine_eq :
    (serviceEngine.Start 5).2 = none ∧ ((serviceEngine.Start 5).1.Stop 9).2 = none ∧
    stoppedServiceEngine.state = SimStateStopped ∧
    stoppedServiceEngine.metrics.ComponentsActive = 1 ∧
    stoppedServiceEngine.metrics.EndTime = 9 := by
  unfold stoppedServiceEngine
  rw [serviceEngine_eq]
  exact ⟨rfl, rfl, rfl, rfl, rfl⟩

/-- C32 (failing input): an engine with one registered service is started,
stopped and reset; all three calls succeed, and after the reset the state is
`initialized`, the service is stopped and the other counters are zero, but
`components_active` still reads 1, the value `Start` wrote, in the engine's
metrics and in the copy `GetMetrics` returns.  A new engine reads 0. -/
theorem reset_keeps_components_active :
    (serviceEngine.Start 5).2 = none ∧ ((serviceEngine.Start 5).1.Stop 9).2 = none ∧
    stoppedServiceEngine.Reset.2 = none ∧
    stoppedServiceEngine.Reset.1.state = StateInitialized ∧
    stoppedServiceEngine.Reset.1.metrics.EventsProcessed = 0 ∧
    stoppedServiceEngine.Reset.1.metrics.ComponentsActive = 1 ∧
    stoppedServiceEngine.Reset.1.GetMetrics.ComponentsActive = 1 ∧
    stoppedServiceEngine.Reset.1.metrics.EndTime = 9 ∧
    (∀ p ∈ stoppedServiceEngine.Reset.1.components, p.2.GetState = StateStopped) ∧
    (NewSimulationEngine none).GetMetrics.ComponentsActive = 0 := by
  have he := stoppedServiceEngine_eq
  have hstate : stoppedServiceEngine.state ≠ StateRunning := by rw [he.2.2.1]; decide
  have h := (stoppedServiceEngine.Reset_spec).2.2 hstate
  refine ⟨he.1, he.2.1, h.1, h.2.2.1, h.2.2.2.2.2.2.1, ?_, ?_, ?_, h.2.2.2.2.1, rfl⟩
  · rw [h.2.2.2.2.2.2.2.2.2.2.2.2.1]; exact he.2.2.2.1
  · show stoppedServiceEngine.Reset.1.metrics.ComponentsActive = 1
    rw [h.2.2.2.2.2.2.2.2.2.2.2.2.1]; exact he.2.2.2.1
  · rw [h.2.2.2.2.2.2.2.2.2.2.2.2.2.2.1]; exact he.2.2.2.2

/-! ## Theorems: dispatching after Stop -/

theorem SimulationEngine.Stop_cancelled (se : SimulationEngine) (now : Int)
    (h : (se.Stop now).2 = none) :
    (se.Stop now).1.cancelled = true ∧ (se.Stop now).1.state = SimStateStopped ∧
    (se.Stop now).1.currentTime = se.currentTime ∧
    (se.Stop now).1.metrics.EventsProcessed = se.metrics.EventsProcessed := by
  by_cases hs : se.state = StateRunning ∨ se.state = StatePaused
  · rw [(se.Stop_spec now).1 hs]; exact ⟨rfl, rfl, rfl, rfl⟩
  · rw [(se.Stop_spec now).2 hs] at h; simp at h

theorem SimulationEngine.Reset_cancelled (se : SimulationEngine) :
    se.Reset.1.cancelled = se.cancelled ∧
    (se.Reset.1.metrics.EventsProcessed = se.metrics.EventsProcessed ∨
      se.Reset.1.metrics.EventsProcessed = 0) ∧
    (se.Reset.1.currentTime = se.currentTime ∨ se.Reset.1.currentTime = 0) := by
  by_cases h : se.state = StateRunning
  · rw [se.Reset_spec.2.1 h]; exact ⟨rfl, Or.inl rfl, Or.inl rfl⟩
  · have h2 := se.Reset_spec.2.2 h
    exact ⟨h2.2.2.2.2.2.2.2.2.2.2.2.2.2.2.2, Or.inr h2.2.2.2.2.2.2.1, Or.inr h2.2.1⟩

theorem SimulationEngine.Start_cancelled (se : SimulationEngine) (now : Int) :
    (se.Start now).1.cancelled = se.cancelled ∧
    (se.Start now).1.metrics.EventsProcessed = se.metrics.EventsProcessed ∧
    (se.Start now).1.currentTime = se.currentTime := by
  by_cases h : se.state = StateRunning
  · rw [(se.Start_spec now).2 h]; exact ⟨rfl, rfl, rfl⟩
  · rw [(se.Start_spec now).1 h]; exact ⟨rfl, rfl, rfl⟩

theorem SimulationEngine.ScheduleEvent_cancelled (se : SimulationEngine) (event : Event) :
    (se.ScheduleEvent event).1.cancelled = se.cancelled ∧
    (se.ScheduleEvent event).1.metrics.EventsProcessed = se.metrics.EventsProcessed ∧
    (se.ScheduleEvent event).1.currentTime = se.currentTime := by
  unfold SimulationEngine.ScheduleEvent
  split_ifs <;> exact ⟨rfl, rfl, rfl⟩

theorem SimulationEngine.Pause_cancelled (se : SimulationEngine) :
    se.Pause.1.cancelled = se.cancelled ∧
    se.Pause.1.metrics.EventsProcessed = se.metrics.EventsProcessed ∧
    se.Pause.1.currentTime = se.currentTime := by
  unfold SimulationEngine.Pause
  split_ifs <;> exact ⟨rfl, rfl, rfl⟩

theorem SimulationEngine.Resume_cancelled (se : SimulationEngine) :
    se.Resume.1.cancelled = se.cancelled ∧
    se.Resume.1.metrics.EventsProcessed = se.metrics.EventsProcessed ∧
    se.Resume.1.currentTime = se.currentTime := by
  unfold SimulationEngine.Resume
  split_ifs <;> exact ⟨rfl, rfl, rfl⟩

/-- A pass of the loop on an engine whose context is cancelled returns at the
`select`: nothing is dispatched, the engine is as it was and the loop ends. -/
theorem SimulationEngine.runSimulationIteration_cancelled (se : SimulationEngine)
    (rt : Runtime) (fuel : Nat) (now : Int) (h : se.cancelled = true) :
    se.runSimulationIteration rt fuel now =
      some { engine := se, continues := false, dispatched := none } := by
  unfold SimulationEngine.runSimulationIteration
  rw [if_pos h]

/-- On an engine whose context is cancelled every sequence of calls and loop
passes runs to its end, dispatches nothing, and ends where the client calls
alone lead. -/
theorem runCalls_cancelled (calls : List ControlCall) :
    ∀ se : SimulationEngine, se.cancelled = true →
      ∃ se1, runCalls se calls = some (se1, []) ∧
        runCalls se (calls.filter ControlCall.isClient) = some (se1, []) ∧
        se1.cancelled = true ∧
        (se1.metrics.EventsProcessed = se.metrics.EventsProcessed ∨
          se1.metrics.EventsProcessed = 0) ∧
        (se1.currentTime = se.currentTime ∨ se1.currentTime = 0) := by
  induction calls with
  | nil => intro se h; exact ⟨se, rfl, rfl, h, Or.inl rfl, Or.inl rfl⟩
  | cons c rest ih =>
    intro se h
    cases c with
    | reset =>
      obtain ⟨se1, h1, h2, h3, h4, h5⟩ := ih se.Reset.1 (se.Reset_cancelled.1.trans h)
      refine ⟨se1, h1, h2, h3, ?_, ?_⟩
      · rcases h4 with h4 | h4
        · rcases se.Reset_cancelled.2.1 with h6 | h6
          · exact Or.inl (h4.trans h6)
          · exact Or.inr (h4.trans h6)
        · exact Or.inr h4
      · rcases h5 with h5 | h5
        · rcases se.Reset_cancelled.2.2 with h6 | h6
          · exact Or.inl (h5.trans h6)
          · exact Or.inr (h5.trans h6)
        · exact Or.inr h5
    | start now =>
      obtain ⟨se1, h1, h2, h3, h4, h5⟩ :=
        ih (se.Start now).1 ((se.Start_cancelled now).1.trans h)
      refine ⟨se1, h1, h2, h3, ?_, ?_⟩
      · rw [(se.Start_cancelled now).2.1] at h4; exact h4
      · rw [(se.Start_cancelled now).2.2] at h5; exact h5
    | schedule event =>
      obtain ⟨se1, h1, h2, h3, h4, h5⟩ :=
        ih (se.ScheduleEvent event).1 ((se.ScheduleEvent_cancelled event).1.trans h)
      refine ⟨se1, h1, h2, h3, ?_, ?_⟩
      · rw [(se.ScheduleEvent_cancelled event).2.1] at h4; exact h4
      · rw [(se.ScheduleEvent_cancelled event).2.2] at h5; exact h5
    | pause =>
      obtain ⟨se1, h1, h2, h3, h4, h5⟩ := ih se.Pause.1 (se.Pause_cancelled.1.trans h)
      refine ⟨se1, h1, h2, h3, ?_, ?_⟩
      · rw [se.Pause_cancelled.2.1] at h4; exact h4
      · rw [se.Pause_cancelled.2.2] at h5; exact h5
    | resume =>
      obtain ⟨se1, h1, h2, h3, h4, h5⟩ := ih se.Resume.1 (se.Resume_cancelled.1.trans h)
      refine ⟨se1, h1, h2, h3, ?_, ?_⟩
      · rw [se.Resume_cancelled.2.1] at h4; exact h4
      · rw [se.Resume_cancelled.2.2] at h5; exact h5
    | loopPass rt fuel now =>
      obtain ⟨se1, h1, h2, h3, h4, h5⟩ := ih se h
      refine ⟨se1, ?_, h2, h3, h4, h5⟩
      show (match se.runSimulationIteration rt fuel now with
            | none => none
            | some r =>
              match runCalls r.engine rest with
              | none => none
              | some out => some (out.1, r.dispatched.toList ++ out.2)) = _
      rw [se.runSimulationIteration_cancelled rt fuel now h]
      simp only [h1]
      rfl

/-- C39: Stop is final for dispatching.  After a successful `Stop` the
cancellation signal is fired, and every later sequence of `Reset`, `Start`,
`ScheduleEvent`, `Pause` and `Resume` calls interleaved with passes of the
dispatch loop runs to its end and dispatches no event: the signal is still
fired, the engine is the one the client calls alone produce,
`events_processed` is the value at `Stop` or 0 (after a `Reset`), the virtual
time is the value at `Stop` or 0, and every further pass of the loop returns at
once leaving the engine as it is.  A `Start` right after the `Stop`, and one
after the sequence when the state is not running, succeeds and sets the state
to running with the signal still fired. -/
theorem stop_is_final_for_dispatch (se : SimulationEngine) (now : Int)
    (calls : List ControlCall) (h : (se.Stop now).2 = none) :
    ∃ se1, runCalls (se.Stop now).1 calls = some (se1, []) ∧
      runCalls (se.Stop now).1 (calls.filter ControlCall.isClient) = some (se1, []) ∧
      se1.cancelled = true ∧
      (se1.metrics.EventsProcessed = se.metrics.EventsProcessed ∨
        se1.metrics.EventsProcessed = 0) ∧
      (se1.currentTime = se.currentTime ∨ se1.currentTime = 0) ∧
      (∀ rt fuel t, se1.runSimulationIteration rt fuel t =
        some { engine := se1, continues := false, dispatched := none }) ∧
      (∀ t, ((se.Stop now).1.Start t).2 = none ∧
        ((se.Stop now).1.Start t).1.state = StateRunning ∧
        ((se.Stop now).1.Start t).1.cancelled = true) ∧
      (∀ t, se1.state ≠ StateRunning →
        (se1.Start t).2 = none ∧ (se1.Start t).1.state = StateRunning ∧
        (se1.Start t).1.cancelled = true) := by
  have hs := se.Stop_cancelled now h
  obtain ⟨se1, h1, h2, h3, h4, h5⟩ := runCalls_cancelled calls (se.Stop now).1 hs.1
  rw [hs.2.2.2] at h4
  rw [hs.2.2.1] at h5
  refine ⟨se1, h1, h2, h3, h4, h5,
    fun rt fuel t => se1.runSimulationIteration_cancelled rt fuel t h3, ?_, ?_⟩
  · intro t
    have hne : (se.Stop now).1.state ≠ StateRunning := by rw [hs.2.1]; decide
    rw [((se.Stop now).1.Start_spec t).1 hne]
    exact ⟨rfl, rfl, hs.1⟩
  · intro t hne
    rw [(se1.Start_spec t).1 hne]
    exact ⟨rfl, rfl, h3⟩

theorem stop_is_final_for_dispatch_witness :
    (runningEngine.Stop 2).2 = none ∧
    ∃ se1, runCalls (runningEngine.Stop 2).1 sampleCalls = some (se1, []) ∧
      se1.cancelled = true ∧ se1.state = StateRunning ∧ se1.eventQueue.Len = 1 ∧
      se1.metrics.EventsProcessed = 0 ∧ se1.currentTime = 0 := by
  refine ⟨rfl, ?_⟩
  obtain ⟨se1, h1, h2, h3, -, -, -, -, -⟩ :=
    stop_is_final_for_dispatch runningEngine 2 sampleCalls rfl
  have h4 : runCalls (runningEngine.Stop 2).1 (sampleCalls.filter ControlCall.isClient) =
      some (((((((runningEngine.Stop 2).1.Reset.1.Start 3).1.ScheduleEvent
        (arrivalAt "a" 1 0)).1).Pause.1).Resume.1), []) := rfl
  rw [h4] at h2
  have h5 := (Prod.mk.inj (Option.some.inj h2)).1
  subst h5
  refine ⟨_, h1, h3, rfl, ?_, rfl, rfl⟩
  show (EventQueue.Enqueue { items := [] } (arrivalAt "a" 1 0)).items.length = 1
  exact (Enqueue_spec { items := [] } (arrivalAt "a" 1 0)
    (fun k _ hk => absurd hk (Nat.not_lt_zero k))).2.length_eq

/-! ## Theorems: the queue's lock -/

theorem RWMutex.Lock_writer (m m1 : RWMutex) (h : m.Lock = some m1) : m1.writer = true := by
  unfold RWMutex.Lock at h
  split_ifs at h
  rw [Option.some.injEq] at h
  rw [← h]

theorem RWMutex.RLock_held (m : RWMutex) (h : m.writer = true) : m.RLock = none := by
  unfold RWMutex.RLock
  rw [if_pos h]

theorem RWMutex.Lock_held (m : RWMutex) (h : m.writer = true ∨ m.readers ≠ 0) :
    m.Lock = none := by
  unfold RWMutex.Lock
  rw [if_pos h]

theorem SyncQueue.withRLock_held {α : Type} (eq : SyncQueue) (body : EventQueue → α)
    (h : eq.mutex.writer = true) : eq.withRLock body = none := by
  unfold SyncQueue.withRLock
  rw [RWMutex.RLock_held _ h]

theorem SyncQueue.withRLock_free {α : Type} (eq : SyncQueue) (body : EventQueue → α)
    (h : eq.mutex = RWMutex.free) : eq.withRLock body = some (body eq.data, eq) := by
  cases eq with
  | mk items mutex =>
    simp only at h
    subst h
    rfl

theorem SyncQueue.withLock_free {α : Type} (eq : SyncQueue) (body : EventQueue → α × EventQueue)
    (h : eq.mutex = RWMutex.free) :
    eq.withLock body =
      some ((body eq.data).1, { items := (body eq.data).2.items, mutex := RWMutex.free }) := by
  cases eq with
  | mk items mutex =>
    simp only at h
    subst h
    rfl

/-- With the write lock held, `heap.Init` stops at its first statement: `Len`
waits for the read lock. -/
theorem syncHeap_Init_held (h : SyncQueue) (hw : h.mutex.writer = true) :
    syncHeap.Init h = none := by
  unfold syncHeap.Init SyncQueue.Len
  rw [h.withRLock_held _ hw]

/-- `RemoveEventsForComponent` returns for no queue and no id: either the lock
is not free at entry, or the call takes it and `heap.Init` waits for it. -/
theorem SyncQueue.RemoveEventsForComponent_none (eq : SyncQueue) (componentID : String) :
    eq.RemoveEventsForComponent componentID = none := by
  unfold SyncQueue.RemoveEventsForComponent
  cases hm : eq.mutex.Lock with
  | none => rfl
  | some m1 =>
    have hi := syncHeap_Init_held
      { items := eq.items.filter (fun e => e.ComponentID != componentID), mutex := m1 }
      (RWMutex.Lock_writer _ _ hm)
    simp only [hi]

theorem SyncQueue.Len_free (eq : SyncQueue) (h : eq.mutex = RWMutex.free) :
    eq.Len = some (eq.data.Len, eq) :=
  eq.withRLock_free _ h

theorem SyncQueue.Less_free (eq : SyncQueue) (i j : Nat) (h : eq.mutex = RWMutex.free) :
    eq.Less i j = some (eq.data.Less i j, eq) :=
  eq.withRLock_free _ h

theorem SyncQueue.Swap_free (eq : SyncQueue) (i j : Nat) (h : eq.mutex = RWMutex.free) :
    eq.Swap i j = some ((), { items := (eq.data.Swap i j).items, mutex := RWMutex.free }) :=
  eq.withLock_free _ h

theorem SyncQueue.Push_free (eq : SyncQueue) (x : Event) (h : eq.mutex = RWMutex.free) :
    eq.Push x = some ((), { items := (eq.data.Push x).items, mutex := RWMutex.free }) :=
  eq.withLock_free _ h

theorem SyncQueue.Pop_free (eq : SyncQueue) (h : eq.mutex = RWMutex.free) :
    eq.Pop = some (eq.data.Pop.1, { items := eq.data.Pop.2.items, mutex := RWMutex.free }) :=
  eq.withLock_free _ h

/-- On a free lock `heap.up` returns, with the slice of the data path and the
lock free again. -/
theorem syncHeap_up_free : ∀ (j : Nat) (q : SyncQueue), q.mutex = RWMutex.free →
    syncHeap.up q j = some { items := (heap.up q.data j).items, mutex := RWMutex.free } := by
  intro j
  induction j using Nat.strong_induction_on with
  | _ j ih =>
    intro q hq
    rw [syncHeap.up, heap.up]
    by_cases hij : (j - 1) / 2 = j
    · rw [if_pos hij, if_pos (Or.inl hij)]
      cases q with
      | mk items mutex =>
        simp only at hq
        subst hq
        rfl
    · rw [if_neg hij, q.Less_free _ _ hq]
      dsimp only
      by_cases hb : q.data.Less j ((j - 1) / 2) = false
      · rw [if_pos hb, if_pos (Or.inr hb)]
        cases q with
        | mk items mutex =>
          simp only at hq
          subst hq
          rfl
      · rw [if_neg hb, if_neg (by rw [not_or]; exact ⟨hij, hb⟩), q.Swap_free _ _ hq]
        dsimp only
        have hlt : (j - 1) / 2 < j := by omega
        rw [ih _ hlt _ rfl]
        rfl

/-- On a free lock the loop of `heap.down` returns, with the slice and the
position of the data path and the lock free again. -/
theorem syncHeap_downLoop_free (n : Nat) : ∀ (m : Nat) (q : SyncQueue) (i : Nat), n - i = m →
    q.mutex = RWMutex.free →
    syncHeap.downLoop q i n =
      some ({ items := (heap.downLoop q.data i n).1.items, mutex := RWMutex.free },
            (heap.downLoop q.data i n).2) := by
  intro m
  induction m using Nat.strong_induction_on with
  | _ m ih =>
    intro q i hm hq
    rw [syncHeap.downLoop, heap.downLoop]
    dsimp only
    by_cases hn : n ≤ 2 * i + 1
    · rw [if_pos hn, if_pos hn]
      cases q with
      | mk items mutex =>
        simp only at hq
        subst hq
        rfl
    · rw [if_neg hn, if_neg hn]
      have hright : (if 2 * i + 1 + 1 < n then q.Less (2 * i + 1 + 1) (2 * i + 1)
            else some (false, q)) =
          some (decide (2 * i + 1 + 1 < n ∧ q.data.Less (2 * i + 1 + 1) (2 * i + 1) = true),
                q) := by
        by_cases h2 : 2 * i + 1 + 1 < n
        · rw [if_pos h2, q.Less_free _ _ hq]
          simp [h2]
        · rw [if_neg h2]
          simp [h2]
      rw [hright]
      dsimp only
      have hj : (if decide (2 * i + 1 + 1 < n ∧
            q.data.Less (2 * i + 1 + 1) (2 * i + 1) = true) = true
          then 2 * i + 1 + 1 else 2 * i + 1) =
          (if 2 * i + 1 + 1 < n ∧ q.data.Less (2 * i + 1 + 1) (2 * i + 1) = true
          then 2 * i + 1 + 1 else 2 * i + 1) := by
        simp only [decide_eq_true_eq]
      rw [hj, q.Less_free _ _ hq]
      dsimp only
      generalize hjdef : (if 2 * i + 1 + 1 < n ∧
          q.data.Less (2 * i + 1 + 1) (2 * i + 1) = true
          then 2 * i + 1 + 1 else 2 * i + 1) = j
      have hjlt : i < j ∧ j < n := by
        rw [← hjdef]
        split_ifs with hc
        · exact ⟨by omega, hc.1⟩
        · exact ⟨by omega, by omega⟩
      by_cases hb : q.data.Less j i = false
      · rw [if_pos hb, if_pos hb]
        cases q with
        | mk items mutex =>
          simp only at hq
          subst hq
          rfl
      · rw [if_neg hb, if_neg hb, q.Swap_free _ _ hq]
        dsimp only
        rw [ih (n - j) (by omega) _ j rfl rfl]
        rfl

theorem syncHeap_down_free (h : SyncQueue) (i0 n : Nat) (hq : h.mutex = RWMutex.free) :
    syncHeap.down h i0 n =
      some ({ items := (heap.down h.data i0 n).1.items, mutex := RWMutex.free },
            (heap.down h.data i0 n).2) := by
  unfold syncHeap.down heap.down
  rw [syncHeap_downLoop_free n _ h i0 rfl hq]

theorem syncHeap_Push_free (h : SyncQueue) (x : Event) (hq : h.mutex = RWMutex.free) :
    syncHeap.Push h x =
      some { items := (heap.Push h.data x).items, mutex := RWMutex.free } := by
  unfold syncHeap.Push heap.Push
  rw [h.Push_free x hq]
  dsimp only
  rw [SyncQueue.Len_free _ rfl]
  dsimp only
  rw [syncHeap_up_free _ _ rfl]
  rfl

theorem syncHeap_Pop_free (h : SyncQueue) (hq : h.mutex = RWMutex.free) :
    syncHeap.Pop h =
      some ((heap.Pop h.data).1, { items := (heap.Pop h.data).2.items,
                                   mutex := RWMutex.free }) := by
  unfold syncHeap.Pop heap.Pop
  rw [h.Len_free hq]
  dsimp only
  rw [h.Swap_free _ _ hq]
  dsimp only
  rw [syncHeap_down_free _ _ _ rfl]
  dsimp only
  rw [SyncQueue.Pop_free _ rfl]
  rfl

/-- `Enqueue` takes no lock itself, so on a free lock it returns with the slice
of the data path. -/
theorem SyncQueue.Enqueue_free (eq : SyncQueue) (event : Event)
    (hq : eq.mutex = RWMutex.free) :
    eq.Enqueue event =
      some { items := (eq.data.Enqueue event).items, mutex := RWMutex.free } :=
  syncHeap_Push_free eq event hq

/-- `Dequeue` takes no lock itself, so on a free lock it returns with the event
and the slice of the data path. -/
theorem SyncQueue.Dequeue_free (eq : SyncQueue) (hq : eq.mutex = RWMutex.free) :
    eq.Dequeue =
      some (eq.data.Dequeue.1, { items := eq.data.Dequeue.2.items,
                                 mutex := RWMutex.free }) := by
  unfold SyncQueue.Dequeue EventQueue.Dequeue
  rw [eq.Len_free hq]
  dsimp only
  by_cases hn : eq.data.Len = 0
  · rw [if_pos hn, if_pos hn]
    cases eq with
    | mk items mutex =>
      simp only at hq
      subst hq
      rfl
  · rw [if_neg hn, if_neg hn]
    exact syncHeap_Pop_free eq hq

/-! ## Theorems: removing a component -/

theorem lookup_mapDelete_self {β : Type} (k : String) : ∀ (m : List (String × β)),
    (mapDelete m k).lookup k = none := by
  intro m
  induction m with
  | nil => rfl
  | cons p rest ih =>
    unfold mapDelete at ih ⊢
    by_cases h : p.1 = k
    · rw [List.filter_cons_of_neg (by simp [h])]
      exact ih
    · rw [List.filter_cons_of_pos (by simp [h])]
      obtain ⟨a, b⟩ := p
      rw [List.lookup_cons]
      have hne : (k == a) = false := by
        rw [beq_eq_false_iff_ne]
        exact fun h2 => h h2.symm
      rw [hne]
      exact ih

theorem SimulationEngine.RemoveComponentSync_none (se : SimulationEngine) (m : RWMutex)
    (componentID : String) (hs : se.state ≠ StateRunning)
    (hl : se.components.lookup componentID ≠ none) :
    se.RemoveComponentSync m componentID = none := by
  unfold SimulationEngine.RemoveComponentSync
  rw [if_neg hs]
  cases hc : se.components.lookup componentID with
  | none => exact absurd hc hl
  | some c =>
    dsimp only
    rw [SyncQueue.RemoveEventsForComponent_none]

theorem SimulationEngine.RemoveComponentSync_fails (se : SimulationEngine) (m : RWMutex)
    (componentID : String)
    (h : se.state = StateRunning ∨ se.components.lookup componentID = none) :
    ∃ err, se.RemoveComponentSync m componentID = some ((se, some err), m) := by
  unfold SimulationEngine.RemoveComponentSync
  by_cases hs : se.state = StateRunning
  · rw [if_pos hs]
    exact ⟨_, rfl⟩
  · rw [if_neg hs]
    rcases h with h | h
    · exact absurd h hs
    · rw [h]
      exact ⟨_, rfl⟩

theorem queuedServiceEngine_eq :
    queuedServiceEngine.state = StateInitialized ∧
    queuedServiceEngine.components =
      [("svc", Component.genericService (NewGenericService "svc"))] := by
  unfold queuedServiceEngine
  rw [serviceEngine_eq]
  exact ⟨rfl, rfl⟩

/-- C33 (failing input): an engine in state `initialized` with the service
`svc` registered, one queued event for `svc` and one for `db`, and the queue's
lock free.  `RemoveComponent("svc")` does not return: the queue call it makes
waits for the lock it holds itself.  The same holds for every engine that is
not running, every registered id and every state of the lock; on a running
engine or an id that is not registered the call returns an error and the
engine and the lock are as they were. -/
theorem remove_component_never_returns :
    queuedServiceEngine.state = StateInitialized ∧
    (queuedServiceEngine.components.lookup "svc").isSome = true ∧
    queuedServiceEngine.eventQueue.items.length = 2 ∧
    queuedServiceEngine.RemoveComponentSync RWMutex.free "svc" = none ∧
    (∀ (se : SimulationEngine) (m : RWMutex) (componentID : String),
      se.state ≠ StateRunning → se.components.lookup componentID ≠ none →
      se.RemoveComponentSync m componentID = none) ∧
    (∀ (se : SimulationEngine) (m : RWMutex) (componentID : String),
      se.state = StateRunning ∨ se.components.lookup componentID = none →
      ∃ err, se.RemoveComponentSync m componentID = some ((se, some err), m)) := by
  have he := queuedServiceEngine_eq
  have hl : (queuedServiceEngine.components.lookup "svc").isSome = true := by
    rw [he.2]; rfl
  refine ⟨he.1, hl, ?_, ?_, fun se m componentID hs hl => se.RemoveComponentSync_none m _ hs hl,
    fun se m componentID h => se.RemoveComponentSync_fails m _ h⟩
  · have h1 := Enqueue_spec NewEventQueue (arrivalAt "e1" 1 0)
      (heap_Init_spec { items := [] }).1
    have h2 := Enqueue_spec (NewEventQueue.Enqueue (arrivalAt "e1" 1 0))
      { arrivalAt "e2" 2 0 with ComponentID := "db" } h1.1
    show ((NewEventQueue.Enqueue (arrivalAt "e1" 1 0)).Enqueue
      { arrivalAt "e2" 2 0 with ComponentID := "db" }).items.length = 2
    rw [h2.2.length_eq, List.length_cons, h1.2.length_eq, List.length_cons,
      NewEventQueue_items]
    rfl
  · apply SimulationEngine.RemoveComponentSync_none
    · rw [he.1]; decide
    · intro h
      rw [h] at hl
      exact Bool.noConfusion hl

/-- C40 (failing input): the empty queue with its lock free, and any component
id.  `RemoveEventsForComponent` takes the write lock, and `heap.Init`, called
before the deferred `Unlock`, starts with `Len`, which waits for the read lock
of the same mutex: the call returns for no queue, no id and no state of the
lock.  `Enqueue` and `Dequeue`, which take no lock around the heap routines,
return on a free lock with the result of the data path. -/
theorem remove_events_waits_for_own_lock :
    ({ items := [], mutex := RWMutex.free } : SyncQueue).RemoveEventsForComponent "svc" = none ∧
    RWMutex.free.Lock = some { writer := true, readers := 0 } ∧
    (∀ items : List Event,
      ({ items := items, mutex := { writer := true, readers := 0 } } : SyncQueue).Len = none) ∧
    (∀ items : List Event,
      syncHeap.Init { items := items, mutex := { writer := true, readers := 0 } } = none) ∧
    (∀ (eq : SyncQueue) (componentID : String),
      eq.RemoveEventsForComponent componentID = none) ∧
    (∀ (eq : SyncQueue) (event : Event), eq.mutex = RWMutex.free →
      eq.Enqueue event =
        some { items := (eq.data.Enqueue event).items, mutex := RWMutex.free }) ∧
    (∀ eq : SyncQueue, eq.mutex = RWMutex.free →
      eq.Dequeue =
        some (eq.data.Dequeue.1, { items := eq.data.Dequeue.2.items,
                                   mutex := RWMutex.free })) :=
  ⟨SyncQueue.RemoveEventsForComponent_none _ _, rfl,
   fun _ => SyncQueue.withRLock_held _ _ rfl,
   fun _ => syncHeap_Init_held _ rfl,
   SyncQueue.RemoveEventsForComponent_none,
   SyncQueue.Enqueue_free, SyncQueue.Dequeue_free⟩

/-! ## Theorems: the two validators of the factory -/

theorem halfConcurrency_accepted :
    ValidateComponentProperties TypeGenericService (some halfConcurrency) = none := by
  simp [ValidateComponentProperties, validateGenericServiceProperties, rejectsNonPositive,
    rejectsNonRate, propertyAt, halfConcurrency, assertFloat, List.lookup]

theorem doubleFailureRate_accepted :
    ValidateComponentProperties TypeLoadBalancer (some doubleFailureRate) = none := by
  unfold ValidateComponentProperties
  rw [if_neg (by decide), if_neg (by decide), if_neg (by decide), if_pos rfl]
  simp [validateLoadBalancerProperties, rejectsNonPositive, propertyAt, doubleFailureRate,
    assertString, List.lookup]

theorem emptyBackend_accepted :
    ValidateComponentProperties TypeLoadBalancer (some emptyBackend) = none := by
  unfold ValidateComponentProperties
  rw [if_neg (by decide), if_neg (by decide), if_neg (by decide), if_pos rfl]
  simp [validateLoadBalancerProperties, rejectsNonPositive, propertyAt, emptyBackend, assertString,
    List.lookup]

theorem halfConcurrency_rejected :
    CreateComponent TypeGenericService "svc" (some halfConcurrency) =
      Outcome.done (Except.error
        "component validation failed: max concurrency must be positive") := by
  obtain ⟨_, hbase, hpt, hfr, hmc, _⟩ :=
    (NewGenericService "svc").Initialize_fields_gs (some halfConcurrency)
  have hv : ((NewGenericService "svc").Initialize (some halfConcurrency)).1.Validate =
      some "max concurrency must be positive" := by
    unfold GenericService.Validate
    have hb : ((NewGenericService "svc").Initialize (some halfConcurrency)).1.base.Validate
        = none := by
      rw [hbase]
      exact (BaseComponent.Validate_eq_none _).mpr ⟨by decide, by decide⟩
    rw [hb]
    dsimp only
    rw [hpt, hfr, hmc]
    have h1 : ¬ ((((propertyAt (some halfConcurrency) "processing_time").bind
        assertFloat).getD (NewGenericService "svc").ProcessingTime) ≤ 0) := by
      show ¬ ((1 : Rat) ≤ 0)
      norm_num
    have h2 : ¬ ((((propertyAt (some halfConcurrency) "failure_rate").bind
          assertFloat).getD (NewGenericService "svc").FailureRate) < 0 ∨
        (((propertyAt (some halfConcurrency) "failure_rate").bind
          assertFloat).getD (NewGenericService "svc").FailureRate) > 1) := by
      show ¬ ((1 / 100 : Rat) < 0 ∨ (1 / 100 : Rat) > 1)
      norm_num
    have h3 : ((((propertyAt (some halfConcurrency) "max_concurrency").bind
        assertFloat).map floatToInt).getD (NewGenericService "svc").MaxConcurrency) ≤ 0 := by
      show floatToInt (1 / 2) ≤ 0
      have hnum : truncateFloat (1 / 2) = Int.tdiv 1 2 := by
        unfold truncateFloat
        norm_num
      have hzero : truncateFloat (1 / 2) = 0 := by
        rw [hnum]
        decide
      rw [floatToInt_of_range (1 / 2) (by rw [hzero]; decide) (by rw [hzero]; decide), hzero]
    rw [if_neg h1, if_neg h2, if_pos h3]
  show Outcome.done (validateCreated (Component.genericService
    ((NewGenericService "svc").Initialize (some halfConcurrency)).1)) = _
  unfold validateCreated
  show Outcome.done (match ((NewGenericService "svc").Initialize
    (some halfConcurrency)).1.Validate with
    | some err => Except.error ("component validation failed: " ++ err)
    | none => Except.ok _) = _
  rw [hv]
  rfl

theorem doubleFailureRate_rejected :
    CreateComponent TypeLoadBalancer "lb" (some doubleFailureRate) =
      Outcome.done (Except.error
        "component validation failed: failure rate must be between 0 and 1") := by
  obtain ⟨hbase, _, _, hrl, hfr⟩ :=
    (NewLoadBalancer "lb").initializeFields_fields_lb (some doubleFailureRate)
  have hinit : (NewLoadBalancer "lb").Initialize (some doubleFailureRate) =
      some ((NewLoadBalancer "lb").initializeFields (some doubleFailureRate), none) := rfl
  have hv : ((NewLoadBalancer "lb").initializeFields (some doubleFailureRate)).Validate =
      some "failure rate must be between 0 and 1" := by
    unfold LoadBalancer.Validate
    have hb : ((NewLoadBalancer "lb").initializeFields (some doubleFailureRate)).base.Validate
        = none := by
      rw [hbase]
      exact (BaseComponent.Validate_eq_none _).mpr ⟨by decide, by decide⟩
    rw [hb]
    dsimp only
    rw [hrl, hfr]
    have h1 : ¬ ((((propertyAt (some doubleFailureRate) "routing_latency").bind
        assertFloat).getD (NewLoadBalancer "lb").RoutingLatency) ≤ 0) := by
      show ¬ ((1 / 100 : Rat) ≤ 0)
      norm_num
    have h2 : (((propertyAt (some doubleFailureRate) "failure_rate").bind
          assertFloat).getD (NewLoadBalancer "lb").FailureRate) < 0 ∨
        (((propertyAt (some doubleFailureRate) "failure_rate").bind
          assertFloat).getD (NewLoadBalancer "lb").FailureRate) > 1 := by
      right
      show (2 : Rat) > 1
      norm_num
    rw [if_neg h1, if_pos h2]
  show (match (Component.loadBalancer (NewLoadBalancer "lb")).Initialize
      (some doubleFailureRate) with
    | Outcome.done (initialized, none) => Outcome.done (validateCreated initialized)
    | Outcome.done (_, some err) =>
      Outcome.done (Except.error ("failed to initialize component: " ++ err))
    | Outcome.panicked => Outcome.panicked
    | Outcome.unfinished => Outcome.unfinished) = _
  have hci : (Component.loadBalancer (NewLoadBalancer "lb")).Initialize
      (some doubleFailureRate) =
      Outcome.done (Component.loadBalancer
        ((NewLoadBalancer "lb").initializeFields (some doubleFailureRate)), none) := by
    show (match (NewLoadBalancer "lb").Initialize (some doubleFailureRate) with
      | none => Outcome.panicked
      | some r => Outcome.done (Component.loadBalancer r.1, r.2)) = _
    rw [hinit]
  rw [hci]
  show Outcome.done (validateCreated (Component.loadBalancer
    ((NewLoadBalancer "lb").initializeFields (some doubleFailureRate)))) = _
  unfold validateCreated
  show Outcome.done (match ((NewLoadBalancer "lb").initializeFields
    (some doubleFailureRate)).Validate with
    | some err => Except.error ("component validation failed: " ++ err)
    | none => Except.ok _) = _
  rw [hv]
  rfl

theorem emptyBackend_panics :
    CreateComponent TypeLoadBalancer "lb" (some emptyBackend) = Outcome.panicked := rfl

/-- C38 (failing inputs): three property maps that `ValidateComponentProperties`
accepts and on which `CreateComponent` with a non-empty id does not succeed.  A
generic service with `max_concurrency` one half: the schema asks for a positive
number, `Initialize` truncates the value to 0 and `Validate` rejects it.  A load
balancer with `failure_rate` 2: its schema does not look at the key, `Validate`
rejects the rate.  A load balancer whose `backend_servers` list holds a map
without fields: the schema does not look at the list, `Initialize` panics. -/
theorem validators_disagree :
    ValidateComponentProperties TypeGenericService (some halfConcurrency) = none ∧
    CreateComponent TypeGenericService "svc" (some halfConcurrency) =
      Outcome.done (Except.error
        "component validation failed: max concurrency must be positive") ∧
    ValidateComponentProperties TypeLoadBalancer (some doubleFailureRate) = none ∧
    CreateComponent TypeLoadBalancer "lb" (some doubleFailureRate) =
      Outcome.done (Except.error
        "component validation failed: failure rate must be between 0 and 1") ∧
    ValidateComponentProperties TypeLoadBalancer (some emptyBackend) = none ∧
    CreateComponent TypeLoadBalancer "lb" (some emptyBackend) = Outcome.panicked :=
  ⟨halfConcurrency_accepted, halfConcurrency_rejected, doubleFailureRate_accepted,
   doubleFailureRate_rejected, emptyBackend_accepted, emptyBackend_panics⟩

/-- C17 (counterexample): healthy backends with weights 1, the largest `int`,
the largest `int` and 10, all at least 1, and the draw `1`, which lies in
`[0, total weight)`.  The first backend whose cumulative weight exceeds the draw
is the second one (cumulative weights 1 and 1 plus the largest `int`), but the
sums of `selectWeighted` wrap: the total is 9, the running sum is 1, the smallest
`int`, -1 and 9, and the fourth backend is returned. -/
theorem weighted_selection_wraps :
    heavyBalancer.getHealthyServers.length = 4 ∧
    (∀ s ∈ heavyBalancer.getHealthyServers, 1 ≤ s.2.Weight) ∧
    (1 : Int) < cumulativeWeight heavyBalancer.getHealthyServers 4 ∧
    cumulativeWeight heavyBalancer.getHealthyServers 1 ≤ 1 ∧
    (1 : Int) < cumulativeWeight heavyBalancer.getHealthyServers 2 ∧
    heavyBalancer.getHealthyServers.foldl
      (fun acc server => wrapInt64 (acc + server.2.Weight)) (0 : Int) = 9 ∧
    (heavyBalancer.selectWeighted (quietRuntime.withDraw 1)
      heavyBalancer.getHealthyServers).map Prod.snd = some (some 3) := by
  refine ⟨by decide, by decide, by decide, by decide, by decide, by decide, ?_⟩
  rfl

/-- C18 (counterexample): a balancer whose only backend has a connection count
at the largest `int` handles one `RequestArrival`.  The request is routed to
that backend and `selectedServer.Connections++` wraps: the count goes from the
largest `int` to the smallest, so it has decreased. -/
theorem connection_count_wraps :
    ∃ r, fullBackendBalancer.HandleEvent quietRuntime (arrivalAt "r1" 1 0) = some r ∧
      fullBackendBalancer.BackendServers.map (fun s => s.Connections)
        = [9223372036854775807] ∧
      r.1.BackendServers.map (fun s => s.Connections) = [-9223372036854775808] ∧
      processedTargets [r.2] = ["b1"] := by
  have hd : ¬ quietRuntime.Float64 0 < fullBackendBalancer.FailureRate := by
    simp only [quietRuntime, fullBackendBalancer]
    norm_num
  obtain ⟨r, id, hr, hid, htg, _⟩ :=
    fullBackendBalancer.roundRobin_step quietRuntime (arrivalAt "r1" 1 0) rfl (by decide)
      (by decide) rfl hd
  have hid1 : id = "b1" := by
    have h1 : fullBackendBalancer.healthyIDs[fullBackendBalancer.CurrentServerIndex.toNat
        % fullBackendBalancer.getHealthyServers.length]? = some "b1" := by decide
    rw [h1] at hid
    exact (Option.some.inj hid).symm
  rw [hid1] at htg
  refine ⟨r, hr, rfl, ?_, htg⟩
  rcases fullBackendBalancer.arrival_step quietRuntime (arrivalAt "r1" 1 0) r hr with
    ⟨_, hnone⟩ | ⟨i, s, hs, hset, _⟩
  · rw [htg] at hnone
    exact absurd hnone (by decide)
  · rw [hset]
    cases i with
    | zero =>
      have h0 : fullBackendBalancer.BackendServers[0]? = some fullBackend := rfl
      rw [h0] at hs
      rw [← Option.some.inj hs]
      decide
    | succ j =>
      have h1 : fullBackendBalancer.BackendServers[j + 1]? = none := rfl
      rw [h1] at hs
      exact Option.noConfusion hs

/-- A round-robin balancer panics on every arrival when the remainder of its
index by the number of healthy backends is negative. -/
theorem LoadBalancer.roundRobin_negative (lb : LoadBalancer) (rt : Runtime) (event : Event)
    (halg : lb.Algorithm = RoundRobin) (hm : 1 ≤ lb.getHealthyServers.length)
    (hneg : Int.tmod lb.CurrentServerIndex lb.getHealthyServers.length < 0)
    (hk : event.Kind = RequestArrival) (hd : ¬ rt.Float64 0 < lb.FailureRate) :
    lb.HandleEvent rt event = none := by
  have hlen : ¬ lb.getHealthyServers.length = 0 := by omega
  have hsel : lb.selectBackendServer rt lb.getHealthyServers = none := by
    unfold LoadBalancer.selectBackendServer
    rw [if_neg hlen, if_pos halg]
    unfold LoadBalancer.selectRoundRobin
    rw [if_neg hlen]
    dsimp only
    rw [if_pos hneg]
  have hroute : lb.handleRequestRouting rt event = none := by
    unfold LoadBalancer.handleRequestRouting
    dsimp only
    rw [if_neg hlen, if_neg hd, hsel]
  unfold LoadBalancer.HandleEvent
  rw [if_pos hk, hroute]

/-- The round-robin index wraps: with the index at the largest `int` and three
healthy backends the first arrival is routed (to `b2`, the remainder being 1)
and leaves the index at the smallest `int`, whose remainder by 3 is `-2`; the
second arrival panics, so a burst of six arrivals does not complete. -/
theorem round_robin_index_wraps :
    (0 : Int) ≤ lastIndexBalancer.CurrentServerIndex ∧
    (∃ r, lastIndexBalancer.HandleEvent quietRuntime (arrivalAt "r1" 1 0) = some r ∧
      processedTargets [r.2] = ["b2"] ∧
      r.1.CurrentServerIndex = -9223372036854775808 ∧
      r.1.HandleEvent quietRuntime (arrivalAt "r2" 1 0) = none) ∧
    lastIndexBalancer.handleAll sixArrivals = none := by
  have hd : ¬ quietRuntime.Float64 0 < lastIndexBalancer.FailureRate := by
    simp only [quietRuntime, lastIndexBalancer, sampleBalancer]
    norm_num
  obtain ⟨r, id, hr, hid, htg, hi1, ha1, hf1, hh1⟩ :=
    lastIndexBalancer.roundRobin_step quietRuntime (arrivalAt "r1" 1 0) rfl (by decide)
      (by decide) rfl hd
  have hid1 : id = "b2" := by
    have h1 : lastIndexBalancer.healthyIDs[lastIndexBalancer.CurrentServerIndex.toNat
        % lastIndexBalancer.getHealthyServers.length]? = some "b2" := by decide
    rw [h1] at hid
    exact (Option.some.inj hid).symm
  rw [hid1] at htg
  have hidx : r.1.CurrentServerIndex = -9223372036854775808 := by
    rw [hi1]
    decide
  have hlen : r.1.getHealthyServers.length = 3 := by
    have h1 : r.1.healthyIDs.length = r.1.getHealthyServers.length := by
      unfold LoadBalancer.healthyIDs
      rw [List.length_map]
    rw [← h1, hh1]
    decide
  have hsecond : r.1.HandleEvent quietRuntime (arrivalAt "r2" 1 0) = none := by
    apply r.1.roundRobin_negative quietRuntime (arrivalAt "r2" 1 0) (ha1.trans rfl)
      (by rw [hlen]; decide) (by rw [hlen, hidx]; decide) rfl
    rw [hf1]
    exact hd
  refine ⟨by decide, ⟨r, hr, htg, hidx, hsecond⟩, ?_⟩
  simp only [sixArrivals, LoadBalancer.handleAll, hr, hsecond]

/-- C15 (counterexample): with the round-robin index at `-1` and three healthy
backends the remainder `-1 % 3` is `-1` and the slice access panics: the first
arrival is not routed and a burst of six arrivals does not complete, so no
backend is targeted.  With the index at the largest `int` the first arrival is
routed to `b2` and the index wraps to the smallest `int`, whose remainder by 3
is `-2`: the second arrival panics and the burst of six does not complete
either. -/
theorem round_robin_negative_index_panics :
    (negativeIndexBalancer.Algorithm = RoundRobin ∧
      negativeIndexBalancer.getHealthyServers.length = 3 ∧
      negativeIndexBalancer.HandleEvent quietRuntime (arrivalAt "r1" 1 0) = none ∧
      negativeIndexBalancer.handleAll sixArrivals = none) ∧
    ((0 : Int) ≤ lastIndexBalancer.CurrentServerIndex ∧
      (∃ r, lastIndexBalancer.HandleEvent quietRuntime (arrivalAt "r1" 1 0) = some r ∧
        processedTargets [r.2] = ["b2"] ∧
        r.1.CurrentServerIndex = -9223372036854775808 ∧
        r.1.HandleEvent quietRuntime (arrivalAt "r2" 1 0) = none) ∧
      lastIndexBalancer.handleAll sixArrivals = none) :=
  ⟨round_robin_index_negative, round_robin_index_wraps⟩

/-! ## Theorems: the heap order of the reachable queues -/

theorem marshalInterface_keeps (codec : JSONCodec) (v : Value) (h : codec.keepsValue v) :
    ∃ j, marshalInterface codec v = some j ∧ unmarshalInterface codec j = some v := by
  cases v with
  | other s => exact absurd h id
  | int i => exact absurd h id
  | nil => exact ⟨_, rfl, rfl⟩
  | bool b => exact ⟨_, rfl, rfl⟩
  | str s =>
    refine ⟨JSONValue.string (codec.writeString s), rfl, ?_⟩
    have hs : codec.writeString s = s := h
    rw [hs]
    rfl
  | float r =>
    have hr : (codec.writeFloat r).bind codec.readFloat = some r := h
    cases hw : codec.writeFloat r with
    | none => rw [hw] at hr; exact Option.noConfusion hr
    | some d =>
      rw [hw] at hr
      have hd : codec.readFloat d = some r := hr
      refine ⟨JSONValue.number d, ?_, ?_⟩
      · show (codec.writeFloat r).map JSONValue.number = _
        rw [hw]
        rfl
      · show (codec.readFloat d).map Value.float = _
        rw [hd]
        rfl

theorem marshalMap_keeps (codec : JSONCodec) : ∀ (data : List (String × Value)),
    (∀ p ∈ data, codec.keepsString p.1 ∧ codec.keepsValue p.2) →
    ∃ js, marshalMap codec data = some js ∧ unmarshalMembers codec js = some data := by
  intro data
  induction data with
  | nil => intro _; exact ⟨[], rfl, rfl⟩
  | cons p rest ih =>
    intro h
    obtain ⟨js, hjs, hback⟩ := ih (fun q hq => h q (List.mem_cons_of_mem _ hq))
    obtain ⟨hk, hv⟩ := h p (List.mem_cons_self _ _)
    obtain ⟨j, hj, hdec⟩ := marshalInterface_keeps codec p.2 hv
    have hkey : codec.writeString p.1 = p.1 := hk
    refine ⟨(p.1, j) :: js, ?_, ?_⟩
    · show (match marshalInterface codec p.2, marshalMap codec rest with
        | some j, some js => some ((codec.writeString p.1, j) :: js)
        | _, _ => none) = _
      rw [hj, hjs, hkey]
    · show (match unmarshalInterface codec j, unmarshalMembers codec js with
        | some v, some vs => some ((p.1, v) :: vs)
        | _, _ => none) = _
      rw [hdec, hback]

/-- No value `json.Unmarshal` stores in an `interface{}` is an `int`. -/
theorem unmarshalInterface_not_int (codec : JSONCodec) (j : JSONValue) (v : Value)
    (h : unmarshalInterface codec j = some v) (i : Int) : v ≠ Value.int i := by
  cases j with
  | null => rw [← Option.some.inj h]; exact fun h2 => Value.noConfusion h2
  | bool b => rw [← Option.some.inj h]; exact fun h2 => Value.noConfusion h2
  | string s => rw [← Option.some.inj h]; exact fun h2 => Value.noConfusion h2
  | number r =>
    have h1 : (codec.readFloat r).map Value.float = some v := h
    cases hr : codec.readFloat r with
    | none => rw [hr] at h1; exact Option.noConfusion h1
    | some d =>
      rw [hr] at h1
      rw [← Option.some.inj h1]
      exact fun h2 => Value.noConfusion h2

theorem unmarshalMembers_not_int (codec : JSONCodec) : ∀ (js : List (String × JSONValue))
    (vs : List (String × Value)), unmarshalMembers codec js = some vs →
    ∀ p ∈ vs, ∀ i, p.2 ≠ Value.int i := by
  intro js
  induction js with
  | nil =>
    intro vs h p hp
    have h1 : some [] = some vs := h
    rw [← Option.some.inj h1] at hp
    exact absurd hp (List.not_mem_nil p)
  | cons m rest ih =>
    intro vs h p hp i
    have h1 : (match unmarshalInterface codec m.2, unmarshalMembers codec rest with
        | some v, some vs => some ((m.1, v) :: vs)
        | _, _ => none) = some vs := h
    cases hv : unmarshalInterface codec m.2 with
    | none => rw [hv] at h1; exact Option.noConfusion h1
    | some v =>
      cases hrest : unmarshalMembers codec rest with
      | none => rw [hv, hrest] at h1; exact Option.noConfusion h1
      | some vs1 =>
        rw [hv, hrest] at h1
        rw [← Option.some.inj h1] at hp
        rcases List.mem_cons.mp hp with heq | hmem
        · rw [heq]
          exact unmarshalInterface_not_int codec m.2 v hv i
        · exact ih vs1 hrest p hmem i

/-- Whatever the text and whatever the library does with numbers and strings,
no payload value of the event `FromJSON` returns is an `int`. -/
theorem FromJSON_not_int (codec : JSONCodec) (text : JSONText) (e1 : Event)
    (h : FromJSON codec text = some e1) : ∀ p ∈ e1.Data, ∀ i, p.2 ≠ Value.int i := by
  unfold FromJSON Unmarshal at h
  split at h
  · rename_i id timestamp kind componentID data priority createdAt _ _ _ _ hdata _ _
    rw [← Option.some.inj h]
    show ∀ p ∈ data, ∀ i, p.2 ≠ Value.int i
    cases hl : text.lookup "data" with
    | none =>
      rw [hl] at hdata
      have h1 : some [] = some data := hdata
      rw [← Option.some.inj h1]
      exact fun p hp => absurd hp (List.not_mem_nil p)
    | some j =>
      rw [hl] at hdata
      cases j with
      | instant t => exact Option.noConfusion hdata
      | object members => exact unmarshalMembers_not_int codec members data hdata
      | value v =>
        cases v with
        | null =>
          have h1 : some [] = some data := hdata
          rw [← Option.some.inj h1]
          exact fun p hp => absurd hp (List.not_mem_nil p)
        | bool b => exact Option.noConfusion hdata
        | number r => exact Option.noConfusion hdata
        | string s => exact Option.noConfusion hdata
  · exact Option.noConfusion h

/-- C34 (counterexample): the write event of the cache tests, whose payload
holds `size` as the `int` 5.  `ToJSON` and `FromJSON` both succeed, and the
event read back holds `size` as the `float64` 5: its data map is not the one
written.  The cache reads the size of a write with `s.(int)`, so it takes the
size of the event written as 5 and of the event read back as the default 1.
Whatever the library does with strings and numbers, no text is read back as
the event written, `FromJSON` storing every number of the payload as a
`float64`. -/
theorem json_round_trip_changes_int :
    (∃ text e1, (writeAt "k" 5 1).ToJSON plainCodec = some text ∧
      FromJSON plainCodec text = some e1 ∧
      e1.Data = [("key", Value.str "k"), ("value", Value.str "v"), ("size", Value.float 5)] ∧
      e1.Data ≠ (writeAt "k" 5 1).Data ∧
      (writeAt "k" 5 1).GetDataValue "size" = (Value.int 5, true) ∧
      e1.GetDataValue "size" = (Value.float 5, true) ∧
      writeSize (writeAt "k" 5 1) = 5 ∧ writeSize e1 = 1) ∧
    (∀ codec text e1, FromJSON codec text = some e1 → e1.Data ≠ (writeAt "k" 5 1).Data) := by
  have hall : ∀ codec text e1, FromJSON codec text = some e1 →
      e1.Data ≠ (writeAt "k" 5 1).Data := by
    intro codec text e1 h hd
    have hno := FromJSON_not_int codec text e1 h
    rw [hd] at hno
    exact hno ("size", Value.int 5) (by simp [writeAt]) 5 rfl
  refine ⟨⟨[("id", JSON.value (JSONValue.string "w")),
      ("timestamp", JSON.value (JSONValue.number 1)),
      ("type", JSON.value (JSONValue.string DatabaseWrite)),
      ("component_id", JSON.value (JSONValue.string "c")),
      ("data", JSON.object [("key", JSONValue.string "k"), ("value", JSONValue.string "v"),
        ("size", JSONValue.number ((5 : Int) : Rat))]),
      ("priority", JSON.value (JSONValue.number ((0 : Int) : Rat))),
      ("created_at", JSON.instant 0)],
    { ID := "w", Timestamp := 1, Kind := DatabaseWrite, ComponentID := "c",
      Data := [("key", Value.str "k"), ("value", Value.str "v"), ("size", Value.float 5)],
      Priority := 0, CreatedAt := 0 }, rfl, ?_, rfl, ?_, rfl, rfl, rfl, rfl⟩, hall⟩
  · have hint : unmarshalInt (some (JSON.value (JSONValue.number ((0 : Int) : Rat)))) =
        some 0 := by
      show (if (((0 : Int) : Rat)).den = 1 then some (((0 : Int) : Rat)).num else none) = _
      rw [if_pos (Rat.den_intCast _), Rat.num_intCast]
    show (match unmarshalString (some (JSON.value (JSONValue.string "w"))),
        unmarshalFloat plainCodec (some (JSON.value (JSONValue.number 1))),
        unmarshalString (some (JSON.value (JSONValue.string DatabaseWrite))),
        unmarshalString (some (JSON.value (JSONValue.string "c"))),
        unmarshalMap plainCodec (some (JSON.object [("key", JSONValue.string "k"),
          ("value", JSONValue.string "v"), ("size", JSONValue.number ((5 : Int) : Rat))])),
        unmarshalInt (some (JSON.value (JSONValue.number ((0 : Int) : Rat)))),
        unmarshalTime (some (JSON.instant 0)) with
      | some id, some timestamp, some kind, some componentID, some data, some priority,
          some createdAt =>
        some ({ ID := id, Timestamp := timestamp, Kind := kind,
                ComponentID := componentID, Data := data, Priority := priority,
                CreatedAt := createdAt } : Event)
      | _, _, _, _, _, _, _ => none) = _
    rw [hint]
    have h5 : (((5 : Int) : Rat)) = 5 := by norm_num
    rw [h5]
    rfl
  · intro h
    have h3 : Value.float 5 = Value.int 5 := by
      have h4 := congrArg (fun l => (l.map Prod.snd).getLast?) h
      exact Option.some.inj h4
    exact Value.noConfusion h3

/-- C34 (amended): for every event whose strings the library writes unchanged
(they are valid UTF-8), whose timestamp the library writes and reads back (it
is finite), whose creation time the library writes (its year is from 0 to
9999), and whose payload values are `nil`, booleans, such strings and `float64`
numbers written and read back, `FromJSON(ToJSON(e))` succeeds and yields an
event equal to `e` in id, timestamp, kind, target component id, data map and
priority. -/
theorem event_json_round_trip (codec : JSONCodec) (e : Event)
    (hid : codec.keepsString e.ID) (hkind : codec.keepsString e.Kind)
    (hcomponent : codec.keepsString e.ComponentID)
    (htimestamp : codec.keepsFloat e.Timestamp)
    (hcreated : codec.writeTime e.CreatedAt ≠ none)
    (hdata : ∀ p ∈ e.Data, codec.keepsString p.1 ∧ codec.keepsValue p.2) :
    ∃ text e1, e.ToJSON codec = some text ∧ FromJSON codec text = some e1 ∧
      e1.ID = e.ID ∧ e1.Timestamp = e.Timestamp ∧ e1.Kind = e.Kind ∧
      e1.ComponentID = e.ComponentID ∧ e1.Data = e.Data ∧ e1.Priority = e.Priority := by
  obtain ⟨js, hjs, hback⟩ := marshalMap_keeps codec e.Data hdata
  have hts : (codec.writeFloat e.Timestamp).bind codec.readFloat = some e.Timestamp :=
    htimestamp
  cases hw : codec.writeFloat e.Timestamp with
  | none => rw [hw] at hts; exact Option.noConfusion hts
  | some d =>
    rw [hw] at hts
    have hd : codec.readFloat d = some e.Timestamp := hts
    cases ht : codec.writeTime e.CreatedAt with
    | none => exact absurd ht hcreated
    | some t =>
      have h1 : codec.writeString e.ID = e.ID := hid
      have h2 : codec.writeString e.Kind = e.Kind := hkind
      have h3 : codec.writeString e.ComponentID = e.ComponentID := hcomponent
      refine ⟨[("id", JSON.value (JSONValue.string e.ID)),
               ("timestamp", JSON.value (JSONValue.number d)),
               ("type", JSON.value (JSONValue.string e.Kind)),
               ("component_id", JSON.value (JSONValue.string e.ComponentID)),
               ("data", JSON.object js),
               ("priority", JSON.value (JSONValue.number e.Priority)),
               ("created_at", JSON.instant t)],
              { ID := e.ID, Timestamp := e.Timestamp, Kind := e.Kind,
                ComponentID := e.ComponentID, Data := e.Data, Priority := e.Priority,
                CreatedAt := t }, ?_, ?_, rfl, rfl, rfl, rfl, rfl, rfl⟩
      · unfold Event.ToJSON Marshal
        rw [hjs, hw, ht, h1, h2, h3]
      · have hint : unmarshalInt (some (JSON.value (JSONValue.number e.Priority))) =
            some e.Priority := by
          show (if ((e.Priority : Int) : Rat).den = 1 then some ((e.Priority : Int) : Rat).num
            else none) = _
          rw [if_pos (Rat.den_intCast _), Rat.num_intCast]
        show (match unmarshalString (some (JSON.value (JSONValue.string e.ID))),
            unmarshalFloat codec (some (JSON.value (JSONValue.number d))),
            unmarshalString (some (JSON.value (JSONValue.string e.Kind))),
            unmarshalString (some (JSON.value (JSONValue.string e.ComponentID))),
            unmarshalMap codec (some (JSON.object js)),
            unmarshalInt (some (JSON.value (JSONValue.number e.Priority))),
            unmarshalTime (some (JSON.instant t)) with
          | some id, some timestamp, some kind, some componentID, some data, some priority,
              some createdAt =>
            some ({ ID := id, Timestamp := timestamp, Kind := kind,
                    ComponentID := componentID, Data := data, Priority := priority,
                    CreatedAt := createdAt } : Event)
          | _, _, _, _, _, _, _ => none) = _
        rw [hint]
        show (match some e.ID, codec.readFloat d, some e.Kind, some e.ComponentID,
            unmarshalMembers codec js, some e.Priority, some t with
          | some id, some timestamp, some kind, some componentID, some data, some priority,
              some createdAt =>
            some ({ ID := id, Timestamp := timestamp, Kind := kind,
                    ComponentID := componentID, Data := data, Priority := priority,
                    CreatedAt := createdAt } : Event)
          | _, _, _, _, _, _, _ => none) = _
        rw [hd, hback]

/-- Witness for C34: an event with a string, a boolean, a `float64` and `nil`
in its payload, with the library on valid strings and finite numbers. -/
theorem event_json_round_trip_witness :
    (∀ p ∈ hitEvent.Data, plainCodec.keepsString p.1 ∧ plainCodec.keepsValue p.2) ∧
    ∃ text e1, hitEvent.ToJSON plainCodec = some text ∧ FromJSON plainCodec text = some e1 ∧
      e1.ID = hitEvent.ID ∧ e1.Timestamp = hitEvent.Timestamp ∧ e1.Kind = hitEvent.Kind ∧
      e1.ComponentID = hitEvent.ComponentID ∧ e1.Data = hitEvent.Data ∧
      e1.Priority = hitEvent.Priority := by
  have hdata : ∀ p ∈ hitEvent.Data, plainCodec.keepsString p.1 ∧ plainCodec.keepsValue p.2 := by
    intro p hp
    simp only [hitEvent, List.mem_cons, List.mem_singleton, List.not_mem_nil, or_false] at hp
    rcases hp with rfl | rfl | rfl | rfl
    · exact ⟨rfl, rfl⟩
    · exact ⟨rfl, trivial⟩
    · exact ⟨rfl, rfl⟩
    · exact ⟨rfl, trivial⟩
  exact ⟨hdata, event_json_round_trip plainCodec hitEvent rfl rfl rfl rfl
    (fun h => Option.noConfusion h) hdata⟩

end Architech
